import Mathlib

/-!
# HandsFree Pacman: the game core of `gamewidget.cpp`

A shallow embedding of the simulation core of `GameWidget` (maze model, routing table,
player motion, pellet collection, fright mode) followed by theorems about it.

Conventions of the embedding:
* C++ `int` values are `Int`; the fixed arrays `mazeGrid[MAZE_HEIGHT][MAZE_WIDTH]`,
  `visited`, `cameFrom` are total functions of (row, column) that the code only reads and
  writes inside the bounds it checks; `QVector<QVector<QPoint>>` is a function of two ids
  whose unset entries hold the default point `(0,0)`.
* C++ integer division truncates toward zero: `Int.tdiv`.
* The constants `MAZE_WIDTH`, `MAZE_HEIGHT` and `TILE_SIZE` come from `gamewidget.h`; they
  are the fields of `Config`.
* The two `while` loops of `precomputePaths` are run with an iteration budget of
  `MAZE_WIDTH * MAZE_HEIGHT`; `bfs_result` shows that the search loop stops within it, with
  an empty queue, and `firstStep_eq` that the trace back reaches the start tile within it.
* The loop of `ghostAnimationStep` is run with an iteration budget of
  `ghosts.size() + MAX_GHOSTS + 1`; `ghostAnimationStep_fuel` shows that any larger budget
  gives the same state.
* A `QTimer::singleShot` respawn is an entry of `pendingRespawns`; its callback is
  `respawnCallback`, and `fireRespawn` is the moment the timer fires.
* `ghostAnimationStep` holds the reference `Ghost &ghost = ghosts[i]` across
  `ghosts.append(child)` in `spawnChildGhost` and calls `moveGhost(ghost)` afterwards. The
  append may reallocate the array of the list, and the behaviour of the program is then
  undefined. The state carries the mark `dangling`, which `ghostStepAt` sets in every
  iteration that appends a child and which nothing clears; theorems about the states the
  program reaches are about states without the mark.
-/

namespace Pacman

/-! ## Data model -/

/-- Constants declared in `gamewidget.h`: the grid dimensions and the tile size in pixels. -/
structure Config where
  MAZE_WIDTH : Nat
  MAZE_HEIGHT : Nat
  TILE_SIZE : Int

/-- `#define MOVESTEPS 6`. -/
def MOVESTEPS : Int := 6

/-- `#define REPRODUCTION_PROB 5`. -/
def REPRODUCTION_PROB : Nat := 5

/-- `#define MAX_GHOSTS 13`. -/
def MAX_GHOSTS : Nat := 13

/-- Qt's `QPoint`: `x` is the column (or pixel x), `y` the row (or pixel y). -/
structure QPoint where
  x : Int
  y : Int
deriving DecidableEq, Repr

/-- The game phase `m_gameState`. -/
inductive GameState where
  | Menu | Playing | Win | GameOver
deriving DecidableEq, Repr

/-- Facing direction of an agent. -/
inductive Direction where
  | Up | Down | Left | Right | Stop
deriving DecidableEq, Repr

/-- Pursuer mode: `Chase` or `Panic` (fright). -/
inductive GhostMode where
  | Chase | Panic
deriving DecidableEq, Repr

/-- Pursuer behaviour type. -/
inductive GhostType where
  | Original | AggressiveChaser | Ambusher | RandomPatrol | IntersectionRandom
deriving DecidableEq, Repr

/-- Sound effects triggered by the simulation (fire and forget). -/
inductive Sfx where
  | pellet | powerPellet | gameOver
deriving DecidableEq, Repr

/-- Keys seen by `keyPressEvent`. -/
inductive Key where
  | Key_Up | Key_Down | Key_Left | Key_Right
  | other (code : Int)
deriving DecidableEq, Repr

/-- The `Ghost` record, with the members `gamewidget.cpp` reads and writes.
The `float` member `speedMultiplier` is kept as a rational number. -/
structure Ghost where
  grid_center : QPoint
  macrogrid_center : QPoint
  type : GhostType
  active : Bool
  mode : GhostMode
  direction : Direction
  moving : Bool
  moveSteps : Int
  currentStep : Int
  stepDeltaX : Int
  stepDeltaY : Int
  path : List QPoint
  pathIndex : Int
  respawning : Bool
  failCounter : Int
  speedMultiplier : Rat
  moveDelay : Int
  delayCounter : Int
  parentId : Int
  color : Int × Int × Int
deriving DecidableEq

/-- The grid arrays `int grid[MAZE_HEIGHT][MAZE_WIDTH]`, indexed `grid row col`. -/
abbrev Grid := Int → Int → Int

/-- The simulation state held by `GameWidget` (drawing members left out).
`panicTimer` is `some ms` while the single-shot fright timer is running;
`pendingRespawns` lists the `QTimer::singleShot` respawn callbacks (delay, ghost id);
`sfxLog` lists the sound effects played, most recent first; `rng` is the sequence of raw
values `QRandomGenerator::global()` is going to produce and `rngPos` the number of draws
made so far. `dangling` is no member of the class: it is set when `ghostAnimationStep` uses
its reference `Ghost &ghost = ghosts[i]` after `spawnChildGhost` appended to `ghosts`
(see `ghostStepAt`); the behaviour of the program is undefined from that point on, and a
state with `dangling = true` says nothing about the program. -/
structure GameWidget where
  m_gameState : GameState
  m_score : Int
  m_round : Int
  m_pacmanMouthAngle : Int
  m_pacmanMouthDirection : Int
  m_pacmanAnimationCounter : Int
  m_pacmanDirection : Direction
  startMacroRow : Int
  startMacroCol : Int
  isMoving : Bool
  moveSteps : Int
  currentStep : Int
  targetX : Int
  targetY : Int
  stepDeltaX : Int
  stepDeltaY : Int
  pacman_grid_center : QPoint
  pacman_macrogrid_center : QPoint
  mazeGrid : Grid
  originalMazeGrid : Grid
  ghostSpawnPositions : List QPoint
  ghosts : List Ghost
  nextGhostId : Int
  m_pointToId : QPoint → Option Nat
  m_idToPoint : List QPoint
  m_nextMoveLookup : Nat → Nat → QPoint
  panicTimer : Option Nat
  pendingRespawns : List (Nat × Int)
  bgMusicPlaying : Bool
  sfxLog : List Sfx
  rng : Nat → Nat
  rngPos : Nat
  dangling : Bool

/-- Assignment `grid[row][col] = value`. -/
def Grid.set (g : Grid) (row col value : Int) : Grid :=
  fun r c => if r = row ∧ c = col then value else g r c

/-! ## Coordinates and player motion -/

/-- `GameWidget::macroGridToGridCenter`: pixel centre of a tile. -/
def macroGridToGridCenter (cfg : Config) (macroCol macroRow : Int) : QPoint :=
  let gridX := macroCol * cfg.TILE_SIZE + Int.tdiv cfg.TILE_SIZE 2
  let gridY := macroRow * cfg.TILE_SIZE + Int.tdiv cfg.TILE_SIZE 2
  ⟨gridX, gridY⟩

/-- Qt's `qBound(lo, v, hi)`, that is `max(lo, min(hi, v))`. -/
def qBound (lo v hi : Int) : Int := max lo (min hi v)

/-- `GameWidget::gridToMacroGrid`: the tile of a pixel coordinate, clamped to the grid. -/
def gridToMacroGrid (cfg : Config) (gridX gridY : Int) : QPoint :=
  let macroCol := Int.tdiv gridX cfg.TILE_SIZE
  let macroRow := Int.tdiv gridY cfg.TILE_SIZE
  let macroCol := qBound 0 macroCol ((cfg.MAZE_WIDTH : Int) - 1)
  let macroRow := qBound 0 macroRow ((cfg.MAZE_HEIGHT : Int) - 1)
  ⟨macroCol, macroRow⟩

/-- `GameWidget::startAnimatedMove`. -/
def startAnimatedMove (s : GameWidget) (tx ty : Int) : GameWidget :=
  if s.isMoving then s
  else
    { s with
      targetX := tx
      targetY := ty
      currentStep := 0
      isMoving := true
      stepDeltaX := if tx ≠ 0 then Int.tdiv tx s.moveSteps else 0
      stepDeltaY := if ty ≠ 0 then Int.tdiv ty s.moveSteps else 0 }

/-- `GameWidget::canMove`: is the tile at offset `(tx, ty)` from the player in bounds and
not a wall of the working grid. -/
def canMove (cfg : Config) (s : GameWidget) (tx ty : Int) : Bool :=
  let newMacroCol := s.pacman_macrogrid_center.x + tx
  let newMacroRow := s.pacman_macrogrid_center.y + ty
  if newMacroCol < 0 ∨ newMacroCol ≥ cfg.MAZE_WIDTH ∨ newMacroRow < 0 ∨
      newMacroRow ≥ cfg.MAZE_HEIGHT then
    false
  else
    s.mazeGrid newMacroRow newMacroCol != 1

/-- `GameWidget::processMovementCommand`: a token of the command channel. -/
def processMovementCommand (cfg : Config) (s : GameWidget) (command : String) : GameWidget :=
  if s.m_gameState ≠ GameState.Playing ∨ s.isMoving then s
  else if command = "Center" ∨ command.toList.contains ':' then s
  else if command = "Up" then
    if canMove cfg s 0 (-1) then
      startAnimatedMove { s with m_pacmanDirection := Direction.Up } 0 (-cfg.TILE_SIZE)
    else s
  else if command = "Down" then
    if canMove cfg s 0 1 then
      startAnimatedMove { s with m_pacmanDirection := Direction.Down } 0 cfg.TILE_SIZE
    else s
  else if command = "Left" then
    if canMove cfg s (-1) 0 then
      startAnimatedMove { s with m_pacmanDirection := Direction.Left } (-cfg.TILE_SIZE) 0
    else s
  else if command = "Right" then
    if canMove cfg s 1 0 then
      startAnimatedMove { s with m_pacmanDirection := Direction.Right } cfg.TILE_SIZE 0
    else s
  else s

/-- `GameWidget::keyPressEvent`; any other key goes to `QWidget::keyPressEvent`, which
does not touch the simulation. -/
def keyPressEvent (cfg : Config) (s : GameWidget) (key : Key) : GameWidget :=
  if s.m_gameState ≠ GameState.Playing ∨ s.isMoving then s
  else
    match key with
    | Key.Key_Up =>
      if canMove cfg s 0 (-1) then
        startAnimatedMove { s with m_pacmanDirection := Direction.Up } 0 (-cfg.TILE_SIZE)
      else s
    | Key.Key_Down =>
      if canMove cfg s 0 1 then
        startAnimatedMove { s with m_pacmanDirection := Direction.Down } 0 cfg.TILE_SIZE
      else s
    | Key.Key_Left =>
      if canMove cfg s (-1) 0 then
        startAnimatedMove { s with m_pacmanDirection := Direction.Left } (-cfg.TILE_SIZE) 0
      else s
    | Key.Key_Right =>
      if canMove cfg s 1 0 then
        startAnimatedMove { s with m_pacmanDirection := Direction.Right } cfg.TILE_SIZE 0
      else s
    | Key.other _ => s

/-- `QChar::isSpace`, the test `QString::trimmed` applies: the space, the control characters
U+0009 to U+000D, U+0085, U+00A0 and the characters of the Unicode separator categories
Zs, Zl and Zp. -/
def isSpace (c : Char) : Bool :=
  c.val = 0x20 || (0x09 ≤ c.val && c.val ≤ 0x0d) || c.val = 0x85 || c.val = 0xa0 ||
    c.val = 0x1680 || (0x2000 ≤ c.val && c.val ≤ 0x200a) || c.val = 0x2028 ||
    c.val = 0x2029 || c.val = 0x202f || c.val = 0x205f || c.val = 0x3000

/-- `QString::trimmed`: the string without the whitespace at its start and at its end. -/
def trimmed (s : String) : String :=
  String.mk ((s.toList.dropWhile isSpace).reverse.dropWhile isSpace).reverse

/-- `GameWidget::onReadyRead`. `clientSocket` tells whether the member `clientSocket` is
set, `data` is the text `QString::fromUtf8` makes of the bytes that `readAll` returns. -/
def onReadyRead (cfg : Config) (s : GameWidget) (clientSocket : Bool) (data : String) :
    GameWidget :=
  if !clientSocket then s
  else processMovementCommand cfg s (trimmed data)

/-! ## Pellets and fright mode -/

/-- `GameWidget::checkAllPelletsCollected`. -/
def checkAllPelletsCollected (cfg : Config) (s : GameWidget) : Bool :=
  (List.range cfg.MAZE_HEIGHT).all fun macroRow =>
    (List.range cfg.MAZE_WIDTH).all fun macroCol =>
      let cellValue := s.mazeGrid macroRow macroCol
      !(cellValue == 0 || cellValue == 4)

/-- `GameWidget::resetLevel`: the round is cleared. -/
def resetLevel (s : GameWidget) : GameWidget :=
  { s with m_gameState := GameState.Win, bgMusicPlaying := false }

/-- `GameWidget::activatePanicMode`. -/
def activatePanicMode (s : GameWidget) : GameWidget :=
  { s with
    ghosts := s.ghosts.map fun ghost =>
      if ghost.active then { ghost with mode := GhostMode.Panic, path := [], pathIndex := 0 }
      else ghost
    panicTimer := some 10000 }

/-- `GameWidget::panicModeTimeout`: the slot of the fright timer. The timer is single-shot,
so it is not running any more when the slot is called. -/
def panicModeTimeout (s : GameWidget) : GameWidget :=
  { s with
    ghosts := s.ghosts.map fun ghost =>
      if ghost.active then { ghost with mode := GhostMode.Chase, path := [], pathIndex := 0 }
      else ghost
    panicTimer := none }

/-- `GameWidget::collectPellet`. -/
def collectPellet (cfg : Config) (s : GameWidget) : GameWidget :=
  let macroCol := s.pacman_macrogrid_center.x
  let macroRow := s.pacman_macrogrid_center.y
  if macroCol < 0 ∨ macroCol ≥ cfg.MAZE_WIDTH ∨ macroRow < 0 ∨ macroRow ≥ cfg.MAZE_HEIGHT then s
  else
    let cellValue := s.mazeGrid macroRow macroCol
    let s1 :=
      if cellValue = 0 then
        { s with
          m_score := s.m_score + 1
          mazeGrid := s.mazeGrid.set macroRow macroCol 3
          sfxLog := Sfx.pellet :: s.sfxLog }
      else if cellValue = 4 then
        let s2 := activatePanicMode
          { s with
            m_score := s.m_score + 5
            mazeGrid := s.mazeGrid.set macroRow macroCol 3 }
        { s2 with sfxLog := Sfx.powerPellet :: s2.sfxLog }
      else s
    if checkAllPelletsCollected cfg s1 then resetLevel s1 else s1

/-- `GameWidget::animationStep`: one step of the player's move. -/
def animationStep (cfg : Config) (s : GameWidget) : GameWidget :=
  if !s.isMoving then s
  else
    let s1 := { s with
      currentStep := s.currentStep + 1
      pacman_grid_center :=
        ⟨s.pacman_grid_center.x + s.stepDeltaX, s.pacman_grid_center.y + s.stepDeltaY⟩ }
    if s1.currentStep ≥ s1.moveSteps then
      let tile := gridToMacroGrid cfg s1.pacman_grid_center.x s1.pacman_grid_center.y
      collectPellet cfg
        { s1 with
          isMoving := false
          pacman_macrogrid_center := tile
          pacman_grid_center := macroGridToGridCenter cfg tile.x tile.y }
    else s1

/-! ## Routing table -/

/-- The tiles `QPoint(c, r)` in the order of the nested loops
`for (r = 0; r < MAZE_HEIGHT; ++r) for (c = 0; c < MAZE_WIDTH; ++c)` of `precomputePaths`
and `startGame`. -/
def cells (cfg : Config) : List QPoint :=
  (List.range cfg.MAZE_HEIGHT).flatMap fun (r : Nat) =>
    (List.range cfg.MAZE_WIDTH).map fun (c : Nat) => (⟨(c : Int), (r : Int)⟩ : QPoint)

/-- The id maps under construction in step 1 of `precomputePaths`. -/
structure IdMaps where
  pointToId : QPoint → Option Nat
  idToPoint : List QPoint
  currentId : Nat

/-- The body of the loops of step 1 of `precomputePaths` for the tile `p`. -/
def assignId (grid : Grid) (m : IdMaps) (p : QPoint) : IdMaps :=
  if grid p.y p.x ≠ 1 then
    { pointToId := fun q => if q = p then some m.currentId else m.pointToId q
      idToPoint := m.idToPoint ++ [p]
      currentId := m.currentId + 1 }
  else m

/-- Step 1 of `precomputePaths`: give every non-wall tile an id, in row-major order. -/
def assignIds (cfg : Config) (grid : Grid) : IdMaps :=
  (cells cfg).foldl (assignId grid)
    { pointToId := fun _ => none, idToPoint := [], currentId := 0 }

/-- The array `neighbors[4]` of the BFS: up, down, left, right of `current`. -/
def neighbors (current : QPoint) : List QPoint :=
  [⟨current.x, current.y - 1⟩, ⟨current.x, current.y + 1⟩,
   ⟨current.x - 1, current.y⟩, ⟨current.x + 1, current.y⟩]

/-- The local state of one BFS of `precomputePaths`, with the routing table it fills. -/
structure BfsState where
  visited : Int → Int → Bool
  cameFrom : Int → Int → QPoint
  queue : List QPoint
  lookup : Nat → Nat → QPoint

/-- The loop `while (traceBack != startPoint)` of `precomputePaths`, returning `firstStep`;
`fuel` bounds the number of iterations. -/
def traceLoop (startPoint : QPoint) (cameFrom : Int → Int → QPoint) :
    Nat → QPoint → QPoint → QPoint
  | 0, firstStep, _ => firstStep
  | fuel + 1, firstStep, traceBack =>
    if traceBack ≠ startPoint then
      traceLoop startPoint cameFrom fuel traceBack (cameFrom traceBack.y traceBack.x)
    else firstStep

/-- The body of `for (const QPoint &neighbor : neighbors)` in `precomputePaths`. The lookup
`m_pointToId[neighbor]` finds the id of the tile: every in-bounds non-wall tile was given
one in step 1 (`assignIds_spec`). -/
def visitNeighbor (cfg : Config) (grid : Grid) (pointToId : QPoint → Option Nat)
    (startPoint : QPoint) (startId : Nat) (current : QPoint) (st : BfsState)
    (neighbor : QPoint) : BfsState :=
  let nRow := neighbor.y
  let nCol := neighbor.x
  if nRow < 0 ∨ nRow ≥ cfg.MAZE_HEIGHT ∨ nCol < 0 ∨ nCol ≥ cfg.MAZE_WIDTH ∨
      grid nRow nCol = 1 ∨ st.visited nRow nCol = true then
    st
  else
    let visited : Int → Int → Bool :=
      fun r c => if r = nRow ∧ c = nCol then true else st.visited r c
    let cameFrom : Int → Int → QPoint :=
      fun r c => if r = nRow ∧ c = nCol then current else st.cameFrom r c
    let firstStep :=
      traceLoop startPoint cameFrom (cfg.MAZE_WIDTH * cfg.MAZE_HEIGHT) neighbor current
    let targetId := (pointToId neighbor).getD 0
    { visited := visited
      cameFrom := cameFrom
      queue := st.queue ++ [neighbor]
      lookup := fun i j => if i = startId ∧ j = targetId then firstStep else st.lookup i j }

/-- The loop `while (!queue.isEmpty())` of `precomputePaths`; `fuel` bounds the number of
iterations. -/
def bfsLoop (cfg : Config) (grid : Grid) (pointToId : QPoint → Option Nat)
    (startPoint : QPoint) (startId : Nat) : Nat → BfsState → BfsState
  | 0, st => st
  | fuel + 1, st =>
    match st.queue with
    | [] => st
    | current :: rest =>
      bfsLoop cfg grid pointToId startPoint startId fuel
        ((neighbors current).foldl (visitNeighbor cfg grid pointToId startPoint startId current)
          { st with queue := rest })

/-- The state of the BFS from `startPoint` when its `while` loop is entered. -/
def bfsInit (lookup : Nat → Nat → QPoint) (startPoint : QPoint) (startId : Nat) : BfsState :=
  { visited := fun r c => decide (r = startPoint.y ∧ c = startPoint.x)
    cameFrom := fun r c => if r = startPoint.y ∧ c = startPoint.x then startPoint else ⟨0, 0⟩
    queue := [startPoint]
    lookup := fun i j => if i = startId ∧ j = startId then startPoint else lookup i j }

/-- One iteration of `for (int i = 0; i < numValidNodes; ++i)` in `precomputePaths`: the BFS
from the tile of id `startId`, returning the updated table. -/
def bfsFrom (cfg : Config) (grid : Grid) (pointToId : QPoint → Option Nat)
    (idToPoint : List QPoint) (lookup : Nat → Nat → QPoint) (startId : Nat) :
    Nat → Nat → QPoint :=
  let startPoint := idToPoint.getD startId ⟨0, 0⟩
  (bfsLoop cfg grid pointToId startPoint startId (cfg.MAZE_WIDTH * cfg.MAZE_HEIGHT)
    (bfsInit lookup startPoint startId)).lookup

/-- `GameWidget::precomputePaths`: rebuild the id maps and the routing table from the
working grid. -/
def precomputePaths (cfg : Config) (s : GameWidget) : GameWidget :=
  let ids := assignIds cfg s.mazeGrid
  let numValidNodes := ids.idToPoint.length
  if numValidNodes = 0 then
    { s with
      m_pointToId := ids.pointToId
      m_idToPoint := ids.idToPoint
      m_nextMoveLookup := fun _ _ => ⟨0, 0⟩ }
  else
    { s with
      m_pointToId := ids.pointToId
      m_idToPoint := ids.idToPoint
      m_nextMoveLookup :=
        (List.range numValidNodes).foldl
          (fun lookup i => bfsFrom cfg s.mazeGrid ids.pointToId ids.idToPoint lookup i)
          (fun _ _ => ⟨0, 0⟩) }

/-- The routing-table query of the pursuers:
`m_nextMoveLookup[m_pointToId[a]][m_pointToId[b]]`. -/
def nextMove (s : GameWidget) (a b : QPoint) : QPoint :=
  s.m_nextMoveLookup ((s.m_pointToId a).getD 0) ((s.m_pointToId b).getD 0)

/-! ## Loading a maze and starting a round -/

/-- The two assignments `mazeGrid[row][col] = value; originalMazeGrid[row][col] = value;`
of `loadMaze`. -/
def setBothGrids (s : GameWidget) (row col value : Int) : GameWidget :=
  { s with
    mazeGrid := s.mazeGrid.set row col value
    originalMazeGrid := s.originalMazeGrid.set row col value }

/-- The body of the column loop of `loadMaze` for the character `ch` at `(row, col)`. -/
def loadCell (row col : Int) (s : GameWidget) (ch : Char) : GameWidget :=
  if ch = '1' then setBothGrids s row col 1
  else if ch = '3' ∨ ch = 'g' then
    let s1 :=
      if ch = 'g' then { s with ghostSpawnPositions := s.ghostSpawnPositions ++ [⟨col, row⟩] }
      else s
    setBothGrids s1 row col 3
  else if ch = '4' then setBothGrids s row col 4
  else if ch = '2' then setBothGrids s row col 2
  else
    let s1 := if ch = 'p' then { s with startMacroCol := col, startMacroRow := row } else s
    setBothGrids s1 row col 0

/-- The column loop of `loadMaze` over one line of the file:
`for (col = 0; col < MAZE_WIDTH && col < line.length(); col++)`. -/
def loadLine (cfg : Config) (row : Int) (s : GameWidget) (line : String) : GameWidget :=
  ((line.toList.take cfg.MAZE_WIDTH).enum).foldl
    (fun s cc => loadCell row (cc.1 : Int) s cc.2) s

/-- `GameWidget::loadMaze`. The file is given by its lines, `none` when it cannot be
opened. -/
def loadMaze (cfg : Config) (s : GameWidget) (file : Option (List String)) : GameWidget :=
  match file with
  | none => s
  | some lines =>
    let s1 : GameWidget :=
      { s with startMacroRow := -1, startMacroCol := -1, ghostSpawnPositions := [] }
    let s2 := ((lines.take cfg.MAZE_HEIGHT).enum).foldl
      (fun s rl => loadLine cfg (rl.1 : Int) s rl.2) s1
    precomputePaths cfg s2

/-- The `Color` record returned by `getGhostColor`. -/
def getGhostColor (ghost : Ghost) : Int × Int × Int :=
  match ghost.type with
  | GhostType.Original => (255, 0, 0)
  | GhostType.AggressiveChaser => (255, 165, 0)
  | GhostType.Ambusher => (255, 105, 180)
  | GhostType.RandomPatrol => (0, 255, 255)
  | GhostType.IntersectionRandom => (255, 255, 0)

/-- A `Ghost` as declared by `Ghost ghost;`. Every member except `stepDeltaX` and
`stepDeltaY` is assigned by `initializeGhost` and `spawnChildGhost` before it is read. -/
def Ghost.blank : Ghost :=
  { grid_center := ⟨0, 0⟩, macrogrid_center := ⟨0, 0⟩, type := GhostType.Original,
    active := false, mode := GhostMode.Chase, direction := Direction.Stop, moving := false,
    moveSteps := 0, currentStep := 0, stepDeltaX := 0, stepDeltaY := 0, path := [],
    pathIndex := 0, respawning := false, failCounter := 0, speedMultiplier := 0,
    moveDelay := 0, delayCounter := 0, parentId := 0, color := (0, 0, 0) }

/-- `GameWidget::initializeGhost`, returning the ghost and the state with `nextGhostId`
advanced. -/
def initializeGhost (cfg : Config) (s : GameWidget) (ghost : Ghost) (spawnIndex : Nat)
    (type : GhostType) : Ghost × GameWidget :=
  let spawnMacro :=
    s.ghostSpawnPositions.getD (spawnIndex % s.ghostSpawnPositions.length) ⟨0, 0⟩
  let spawnGrid := macroGridToGridCenter cfg spawnMacro.x spawnMacro.y
  let g1 : Ghost :=
    { ghost with
      grid_center := spawnGrid
      macrogrid_center := spawnMacro
      type := type
      active := true
      mode := GhostMode.Chase
      direction := Direction.Stop
      moving := false
      moveSteps := MOVESTEPS
      currentStep := 0
      path := []
      pathIndex := 0
      respawning := false
      failCounter := 0
      speedMultiplier := 1
      moveDelay := 0
      delayCounter := 0
      parentId := s.nextGhostId }
  ({ g1 with color := getGhostColor g1 }, { s with nextGhostId := s.nextGhostId + 1 })

/-- The number of pursuers of a round, as in `initializeGhosts`. -/
def numGhostsOfRound (round : Int) : Nat :=
  if round = 1 then 0
  else if round = 2 then 1
  else if round = 3 then 2
  else if round = 4 then 3
  else if round = 5 then 4
  else if round = 6 then 4
  else if round = 7 then 1
  else 0

/-- The body of the loop of `initializeGhosts` for index `i`. -/
def initializeGhostsStep (cfg : Config) (s : GameWidget) (i : Nat) : GameWidget :=
  let type :=
    if s.m_round = 7 then GhostType.IntersectionRandom
    else if i = 0 then GhostType.Original
    else if i = 1 then GhostType.IntersectionRandom
    else if i = 2 then GhostType.Ambusher
    else GhostType.RandomPatrol
  let r := initializeGhost cfg s Ghost.blank i type
  let ghost : Ghost := r.1
  let ghost : Ghost :=
    if s.m_round = 6 then
      if i = 0 then { ghost with speedMultiplier := 1 / 2 }
      else if i = 1 then { ghost with speedMultiplier := 7 / 10 }
      else if i = 2 then { ghost with speedMultiplier := 9 / 10 }
      else if i = 3 then { ghost with speedMultiplier := 11 / 10 }
      else ghost
    else ghost
  let ghost : Ghost := if s.m_round = 7 then { ghost with speedMultiplier := 1 / 2 } else ghost
  { r.2 with ghosts := r.2.ghosts ++ [ghost] }

/-- `GameWidget::initializeGhosts`. -/
def initializeGhosts (cfg : Config) (s : GameWidget) : GameWidget :=
  let s1 := { s with ghosts := [], nextGhostId := 0 }
  if s1.ghostSpawnPositions.isEmpty then s1
  else
    (List.range (min (numGhostsOfRound s1.m_round) s1.ghostSpawnPositions.length)).foldl
      (initializeGhostsStep cfg) s1

/-- `GameWidget::startGame`. -/
def startGame (cfg : Config) (s : GameWidget) : GameWidget :=
  if s.startMacroCol = -1 ∨ s.startMacroRow = -1 then s
  else
    let s1 :=
      if s.m_gameState = GameState.Menu ∨ s.m_gameState = GameState.GameOver then
        { s with m_score := 0 }
      else s
    let s2 := { s1 with
      mazeGrid := (cells cfg).foldl
        (fun (g : Grid) (p : QPoint) => g.set p.y p.x (s1.originalMazeGrid p.y p.x))
        s1.mazeGrid }
    let s3 := { s2 with
      pacman_grid_center := macroGridToGridCenter cfg s2.startMacroCol s2.startMacroRow
      pacman_macrogrid_center := ⟨s2.startMacroCol, s2.startMacroRow⟩
      m_pacmanDirection := Direction.Right
      mazeGrid := s2.mazeGrid.set s2.startMacroRow s2.startMacroCol 3 }
    let s4 := initializeGhosts cfg s3
    { s4 with m_gameState := GameState.Playing, bgMusicPlaying := true }

/-! ## Pursuers -/

/-- `QRandomGenerator::global()->bounded(n)`: the next draw, reduced to `[0, n)`. -/
def bounded (s : GameWidget) (n : Nat) : Nat × GameWidget :=
  (s.rng s.rngPos % n, { s with rngPos := s.rngPos + 1 })

/-- The tile offset `(tx, ty)` of a direction in `canGhostMove`; `none` for `Stop`. -/
def dirDelta : Direction → Option (Int × Int)
  | Direction.Up => some (0, -1)
  | Direction.Down => some (0, 1)
  | Direction.Left => some (-1, 0)
  | Direction.Right => some (1, 0)
  | Direction.Stop => none

/-- `GameWidget::canGhostMove`. -/
def canGhostMove (cfg : Config) (s : GameWidget) (ghost : Ghost) (dir : Direction) : Bool :=
  match dirDelta dir with
  | none => false
  | some (tx, ty) =>
    let newMacroCol := ghost.macrogrid_center.x + tx
    let newMacroRow := ghost.macrogrid_center.y + ty
    if newMacroCol < 0 ∨ newMacroCol ≥ cfg.MAZE_WIDTH ∨ newMacroRow < 0 ∨
        newMacroRow ≥ cfg.MAZE_HEIGHT then
      false
    else
      s.mazeGrid newMacroRow newMacroCol != 1

/-- `GameWidget::isAtIntersection`. -/
def isAtIntersection (cfg : Config) (s : GameWidget) (ghost : Ghost) : Bool :=
  let m := ghost.macrogrid_center
  let pathCount : Nat := 0
  let pathCount := if m.y > 0 ∧ s.mazeGrid (m.y - 1) m.x ≠ 1 then pathCount + 1 else pathCount
  let pathCount :=
    if m.y < (cfg.MAZE_HEIGHT : Int) - 1 ∧ s.mazeGrid (m.y + 1) m.x ≠ 1 then pathCount + 1
    else pathCount
  let pathCount := if m.x > 0 ∧ s.mazeGrid m.y (m.x - 1) ≠ 1 then pathCount + 1 else pathCount
  let pathCount :=
    if m.x < (cfg.MAZE_WIDTH : Int) - 1 ∧ s.mazeGrid m.y (m.x + 1) ≠ 1 then pathCount + 1
    else pathCount
  decide (pathCount ≥ 3)

/-- The vector `validDirs` built in the policies: the walkable directions in the order
up, down, left, right. -/
def validDirs (cfg : Config) (s : GameWidget) (ghost : Ghost) : List Direction :=
  [Direction.Up, Direction.Down, Direction.Left, Direction.Right].filter
    (canGhostMove cfg s ghost)

/-- The return `validDirs[QRandomGenerator::global()->bounded(validDirs.size())]`, taken
when `validDirs` is not empty. -/
def pickValidDir (cfg : Config) (s : GameWidget) (ghost : Ghost) :
    Option (Direction × GameWidget) :=
  let v := validDirs cfg s ghost
  if v.isEmpty then none
  else
    let r := bounded s v.length
    some (v.getD r.1 Direction.Stop, r.2)

/-- The conversion of the looked-up tile `nextMove` into a direction seen from `here`. -/
def stepDirection (nextMove here : QPoint) : Direction :=
  let dx := nextMove.x - here.x
  let dy := nextMove.y - here.y
  if dx > 0 then Direction.Right
  else if dx < 0 then Direction.Left
  else if dy > 0 then Direction.Down
  else if dy < 0 then Direction.Up
  else Direction.Stop

/-- `GameWidget::getGhostChaseDirection`. -/
def getGhostChaseDirection (s : GameWidget) (ghost : Ghost) : Direction :=
  let ghostMacro := ghost.macrogrid_center
  let pacmanMacro := s.pacman_macrogrid_center
  if (s.m_pointToId ghostMacro).isNone ∨ (s.m_pointToId pacmanMacro).isNone then
    Direction.Stop
  else
    let startId := (s.m_pointToId ghostMacro).getD 0
    let targetId := (s.m_pointToId pacmanMacro).getD 0
    stepDirection (s.m_nextMoveLookup startId targetId) ghostMacro

/-- `GameWidget::getAggressiveChaserDirection`. -/
def getAggressiveChaserDirection (cfg : Config) (s : GameWidget) (ghost : Ghost) :
    Direction × Ghost × GameWidget :=
  let ghost : Ghost := { ghost with failCounter := ghost.failCounter + 1 }
  if ghost.failCounter ≥ 8 then
    let ghost : Ghost := { ghost with failCounter := 0 }
    match pickValidDir cfg s ghost with
    | some r => (r.1, ghost, r.2)
    | none => (getGhostChaseDirection s ghost, ghost, s)
  else (getGhostChaseDirection s ghost, ghost, s)

/-- `GameWidget::getAmbusherDirection`. `m_pointToId[targetMacro]` on a key that is absent
inserts it with value 0, as `QHash::operator[]` does. -/
def getAmbusherDirection (cfg : Config) (s : GameWidget) (ghost : Ghost) :
    Direction × GameWidget :=
  let ghostMacro := ghost.macrogrid_center
  let pacmanMacro := s.pacman_macrogrid_center
  let targetMacro : QPoint :=
    match s.m_pacmanDirection with
    | Direction.Up => ⟨pacmanMacro.x, pacmanMacro.y - 4⟩
    | Direction.Down => ⟨pacmanMacro.x, pacmanMacro.y + 4⟩
    | Direction.Left => ⟨pacmanMacro.x - 4, pacmanMacro.y⟩
    | Direction.Right => ⟨pacmanMacro.x + 4, pacmanMacro.y⟩
    | Direction.Stop => pacmanMacro
  let targetMacro : QPoint :=
    ⟨qBound 0 targetMacro.x ((cfg.MAZE_WIDTH : Int) - 1),
     qBound 0 targetMacro.y ((cfg.MAZE_HEIGHT : Int) - 1)⟩
  let targetMacro :=
    if s.mazeGrid targetMacro.y targetMacro.x = 1 ∨ (s.m_pointToId targetMacro).isNone then
      pacmanMacro
    else targetMacro
  if (s.m_pointToId ghostMacro).isNone then (Direction.Stop, s)
  else
    let startId := (s.m_pointToId ghostMacro).getD 0
    let s1 :=
      if (s.m_pointToId targetMacro).isNone then
        { s with m_pointToId := fun q => if q = targetMacro then some 0 else s.m_pointToId q }
      else s
    let targetId := (s1.m_pointToId targetMacro).getD 0
    (stepDirection (s1.m_nextMoveLookup startId targetId) ghostMacro, s1)

/-- `GameWidget::getRandomPatrolDirection`. -/
def getRandomPatrolDirection (cfg : Config) (s : GameWidget) (ghost : Ghost) :
    Direction × GameWidget :=
  let fallback (s : GameWidget) : Direction × GameWidget :=
    match pickValidDir cfg s ghost with
    | some r => r
    | none => (Direction.Stop, s)
  if ghost.direction ≠ Direction.Stop then
    let r := bounded s 100
    if r.1 < 70 then
      if canGhostMove cfg r.2 ghost ghost.direction then (ghost.direction, r.2)
      else fallback r.2
    else fallback r.2
  else fallback s

/-- `GameWidget::getIntersectionRandomDirection`. -/
def getIntersectionRandomDirection (cfg : Config) (s : GameWidget) (ghost : Ghost) :
    Direction × GameWidget :=
  if isAtIntersection cfg s ghost then
    match pickValidDir cfg s ghost with
    | some r => r
    | none => (Direction.Stop, s)
  else
    if ghost.direction ≠ Direction.Stop ∧ canGhostMove cfg s ghost ghost.direction = true then
      (ghost.direction, s)
    else
      match pickValidDir cfg s ghost with
      | some r => r
      | none => (Direction.Stop, s)

/-- The part of `getGhostPanicDirection` after the intersection branch: run away from the
player along the axis of the larger tile delta, else fall back to a random patrol. -/
def fleeDirection (cfg : Config) (s : GameWidget) (ghost : Ghost) : Direction × GameWidget :=
  let ghostMacro := ghost.macrogrid_center
  let pacmanMacro := s.pacman_macrogrid_center
  let dx := ghostMacro.x - pacmanMacro.x
  let dy := ghostMacro.y - pacmanMacro.y
  if |dx| > |dy| then
    if dx > 0 ∧ canGhostMove cfg s ghost Direction.Right = true then (Direction.Right, s)
    else if dx < 0 ∧ canGhostMove cfg s ghost Direction.Left = true then (Direction.Left, s)
    else getRandomPatrolDirection cfg s ghost
  else
    if dy > 0 ∧ canGhostMove cfg s ghost Direction.Down = true then (Direction.Down, s)
    else if dy < 0 ∧ canGhostMove cfg s ghost Direction.Up = true then (Direction.Up, s)
    else getRandomPatrolDirection cfg s ghost

/-- `GameWidget::getGhostPanicDirection`. -/
def getGhostPanicDirection (cfg : Config) (s : GameWidget) (ghost : Ghost) :
    Direction × GameWidget :=
  if isAtIntersection cfg s ghost then
    let r := bounded s 100
    if r.1 < 50 then
      match pickValidDir cfg r.2 ghost with
      | some d => d
      | none => fleeDirection cfg r.2 ghost
    else fleeDirection cfg r.2 ghost
  else fleeDirection cfg s ghost

/-- `GameWidget::getGhostDirection`. -/
def getGhostDirection (cfg : Config) (s : GameWidget) (ghost : Ghost) :
    Direction × Ghost × GameWidget :=
  if ghost.mode = GhostMode.Panic then
    let r := getGhostPanicDirection cfg s ghost
    (r.1, ghost, r.2)
  else
    match ghost.type with
    | GhostType.Original => (getGhostChaseDirection s ghost, ghost, s)
    | GhostType.AggressiveChaser => getAggressiveChaserDirection cfg s ghost
    | GhostType.Ambusher =>
      let r := getAmbusherDirection cfg s ghost
      (r.1, ghost, r.2)
    | GhostType.RandomPatrol =>
      let r := getRandomPatrolDirection cfg s ghost
      (r.1, ghost, r.2)
    | GhostType.IntersectionRandom =>
      let r := getIntersectionRandomDirection cfg s ghost
      (r.1, ghost, r.2)

/-- `GameWidget::moveGhost`, on a ghost held by reference: the new value of the ghost and
the new state. -/
def moveGhost (cfg : Config) (s : GameWidget) (ghost : Ghost) : Ghost × GameWidget :=
  if !ghost.active ∨ ghost.moving then (ghost, s)
  else
    let r := getGhostDirection cfg s ghost
    let ghost : Ghost := { r.2.1 with direction := r.1 }
    let s := r.2.2
    if ghost.direction = Direction.Stop then
      ({ ghost with path := [], pathIndex := 0 }, s)
    else
      let ghost : Ghost :=
        { ghost with moving := true, currentStep := 0, moveSteps := MOVESTEPS }
      let stepSize := Int.tdiv cfg.TILE_SIZE ghost.moveSteps
      match ghost.direction with
      | Direction.Up => ({ ghost with stepDeltaX := 0, stepDeltaY := -stepSize }, s)
      | Direction.Down => ({ ghost with stepDeltaX := 0, stepDeltaY := stepSize }, s)
      | Direction.Left => ({ ghost with stepDeltaX := -stepSize, stepDeltaY := 0 }, s)
      | Direction.Right => ({ ghost with stepDeltaX := stepSize, stepDeltaY := 0 }, s)
      | Direction.Stop => ({ ghost with moving := false }, s)

/-- `GameWidget::spawnChildGhost`. -/
def spawnChildGhost (s : GameWidget) (parent : Ghost) : GameWidget :=
  if s.ghostSpawnPositions.isEmpty ∨ s.ghosts.length ≥ MAX_GHOSTS then s
  else
    let child : Ghost :=
      { Ghost.blank with
        grid_center := parent.grid_center
        macrogrid_center := parent.macrogrid_center
        type := GhostType.IntersectionRandom
        active := true
        mode := GhostMode.Chase
        direction := Direction.Stop
        moving := false
        moveSteps := MOVESTEPS
        currentStep := 0
        path := []
        pathIndex := 0
        respawning := false
        failCounter := 0
        speedMultiplier := 1 / 2
        moveDelay := 0
        delayCounter := 0
        parentId := s.nextGhostId }
    let child : Ghost := { child with color := getGhostColor child }
    { s with nextGhostId := s.nextGhostId + 1, ghosts := s.ghosts ++ [child] }

/-- The conversion `static_cast<int>(q)` of a fractional value: truncation toward zero. -/
def truncToInt (q : Rat) : Int := Int.tdiv q.num q.den

/-- The body of the loop of `ghostAnimationStep` for index `i`. The source works on the
reference `Ghost &ghost = ghosts[i]`, taken at the start of the iteration; the model reads
`ghosts[i]` at the start and writes it back at the end, which is the same as long as the
reference stays valid. It does not stay valid across `ghosts.append(child)` in
`spawnChildGhost`: the append may reallocate the array of the list, and the call
`moveGhost(ghost)` that follows then reads and writes a dangling reference. Whether the
array is reallocated depends on the capacity of the list, which the source does not show, so
the model marks every iteration that appends a child: it sets `dangling`. The state it
returns then is the one the program reaches if the array is not reallocated; if it is, the
behaviour of the program is undefined. -/
def ghostStepAt (cfg : Config) (s : GameWidget) (i : Nat) : GameWidget :=
  match s.ghosts.get? i with
  | none => s
  | some ghost =>
    if !ghost.active ∨ ghost.respawning then s
    else
      let throttled : Bool × Ghost :=
        if ghost.speedMultiplier < 1 then
          let g1 : Ghost := { ghost with delayCounter := ghost.delayCounter + 1 }
          let requiredDelay := truncToInt (1 / g1.speedMultiplier - 1)
          if g1.delayCounter < requiredDelay then (true, g1)
          else (false, { g1 with delayCounter := 0 })
        else (false, ghost)
      let ghost := throttled.2
      if throttled.1 then { s with ghosts := s.ghosts.set i ghost }
      else if !ghost.moving then
        let s1 :=
          if ghost.type = GhostType.IntersectionRandom ∧ isAtIntersection cfg s ghost = true then
            let r := bounded s 100
            if r.1 < REPRODUCTION_PROB then spawnChildGhost r.2 ghost else r.2
          else s
        let r := moveGhost cfg s1 ghost
        { r.2 with
          ghosts := r.2.ghosts.set i r.1
          dangling := r.2.dangling || decide (s.ghosts.length < s1.ghosts.length) }
      else
        let ghost : Ghost := { ghost with
          currentStep := ghost.currentStep + 1
          grid_center :=
            ⟨ghost.grid_center.x + ghost.stepDeltaX, ghost.grid_center.y + ghost.stepDeltaY⟩ }
        let ghost : Ghost :=
          if ghost.currentStep ≥ ghost.moveSteps then
            let tile := gridToMacroGrid cfg ghost.grid_center.x ghost.grid_center.y
            { ghost with
              moving := false
              macrogrid_center := tile
              grid_center := macroGridToGridCenter cfg tile.x tile.y }
          else ghost
        { s with ghosts := s.ghosts.set i ghost }

/-- The loop `for (int i = 0; i < ghosts.size(); i++)` of `ghostAnimationStep`, from index
`i`; `fuel` bounds the number of iterations. -/
def ghostLoop (cfg : Config) : Nat → Nat → GameWidget → GameWidget
  | 0, _, s => s
  | fuel + 1, i, s =>
    if i < s.ghosts.length then ghostLoop cfg fuel (i + 1) (ghostStepAt cfg s i) else s

/-- `GameWidget::ghostAnimationStep`. The list grows by `spawnChildGhost` only while it
is shorter than `MAX_GHOSTS`, which bounds the iterations. -/
def ghostAnimationStep (cfg : Config) (s : GameWidget) : GameWidget :=
  if s.m_gameState ≠ GameState.Playing then s
  else ghostLoop cfg (s.ghosts.length + MAX_GHOSTS + 1) 0 s

/-- The loop of `checkGhostCollisions` over the ghosts still to be examined (`todo`), with
those already examined in `done`. The test `dist < TILE_SIZE / 1.5` is `3 * dist <
2 * TILE_SIZE`. -/
def collideLoop (cfg : Config) : GameWidget → List Ghost → List Ghost → GameWidget
  | s, done, [] => { s with ghosts := done }
  | s, done, ghost :: todo =>
    if !ghost.active ∨ ghost.respawning then collideLoop cfg s (done ++ [ghost]) todo
    else
      let dist := |s.pacman_grid_center.x - ghost.grid_center.x| +
        |s.pacman_grid_center.y - ghost.grid_center.y|
      if 3 * dist < 2 * cfg.TILE_SIZE then
        if ghost.mode = GhostMode.Chase then
          { s with
            ghosts := done ++ ghost :: todo
            m_gameState := GameState.GameOver
            bgMusicPlaying := false
            sfxLog := Sfx.gameOver :: s.sfxLog }
        else
          collideLoop cfg
            { s with
              m_score := s.m_score + 50
              pendingRespawns := s.pendingRespawns ++ [(2000, ghost.parentId)] }
            (done ++ [{ ghost with active := false, respawning := true }]) todo
      else collideLoop cfg s (done ++ [ghost]) todo

/-- `GameWidget::checkGhostCollisions`. -/
def checkGhostCollisions (cfg : Config) (s : GameWidget) : GameWidget :=
  collideLoop cfg s [] s.ghosts

/-- `GameWidget::respawnGhost`, on a ghost held by reference: the new value of the ghost. -/
def respawnGhost (cfg : Config) (s : GameWidget) (ghost : Ghost) : Ghost :=
  if s.ghostSpawnPositions.isEmpty then { ghost with respawning := false }
  else
    let spawnMacro := s.ghostSpawnPositions.getD 0 ⟨0, 0⟩
    let spawnGrid := macroGridToGridCenter cfg spawnMacro.x spawnMacro.y
    { ghost with
      grid_center := spawnGrid
      macrogrid_center := spawnMacro
      active := true
      respawning := false
      mode := GhostMode.Chase
      direction := Direction.Stop
      path := []
      pathIndex := 0
      moving := false
      currentStep := 0 }

/-- The loop of the respawn callback scheduled by `checkGhostCollisions`:
`for (Ghost &g : ghosts) if (g.parentId == ghostId) { respawnGhost(g); break; }`. -/
def respawnLoop (cfg : Config) (s : GameWidget) (ghostId : Int) : List Ghost → List Ghost
  | [] => []
  | g :: rest =>
    if g.parentId = ghostId then respawnGhost cfg s g :: rest
    else g :: respawnLoop cfg s ghostId rest

/-- The callback `[this, ghostId = ghost.parentId]() { ... }` handed to
`QTimer::singleShot` by `checkGhostCollisions`, run on the state `s`. -/
def respawnCallback (cfg : Config) (s : GameWidget) (ghostId : Int) : GameWidget :=
  { s with ghosts := respawnLoop cfg s ghostId s.ghosts }

/-- The single-shot timer of the `k`-th pending respawn fires: its callback runs and the
timer is gone. -/
def fireRespawn (cfg : Config) (s : GameWidget) (k : Nat) : GameWidget :=
  match s.pendingRespawns.get? k with
  | none => s
  | some r => { respawnCallback cfg s r.2 with pendingRespawns := s.pendingRespawns.eraseIdx k }

/-! ## The tick -/

/-- The block "Animate Pac-Man's mouth" of `updateGame`. -/
def animateMouth (s : GameWidget) : GameWidget :=
  let a : GameWidget :=
    { s with m_pacmanAnimationCounter := s.m_pacmanAnimationCounter + 1 }
  if a.m_pacmanAnimationCounter > 2 then
    let a : GameWidget := { a with
      m_pacmanAnimationCounter := 0
      m_pacmanMouthAngle := a.m_pacmanMouthAngle + a.m_pacmanMouthDirection * 15 }
    if a.m_pacmanMouthAngle ≥ 45 ∨ a.m_pacmanMouthAngle ≤ 0 then
      { a with m_pacmanMouthDirection := a.m_pacmanMouthDirection * (-1) }
    else a
  else a

/-- `GameWidget::updateGame`: one simulation step. -/
def updateGame (cfg : Config) (s : GameWidget) : GameWidget :=
  let s1 := if s.isMoving then animateMouth (animationStep cfg s) else s
  checkGhostCollisions cfg (ghostAnimationStep cfg s1)

/-- `GameWidget::timerEvent` for the game timer: a tick runs the game logic only while
playing. -/
def timerEvent (cfg : Config) (s : GameWidget) : GameWidget :=
  match s.m_gameState with
  | GameState.Playing => updateGame cfg s
  | _ => s

/-- The simulation state set up by the constructor of `GameWidget`: the member
initialisers, empty containers, then `loadMaze` on the map file. `u` supplies the values of
the members the constructor does not initialise (the two grids, `targetX`, `targetY`,
`stepDeltaX`, `stepDeltaY`) and the state of the global random generator. -/
def construct (cfg : Config) (u : GameWidget) (mapFile : Option (List String)) : GameWidget :=
  loadMaze cfg
    { u with
      m_gameState := GameState.Menu
      m_score := 0
      m_round := 1
      m_pacmanMouthAngle := 10
      m_pacmanMouthDirection := 1
      m_pacmanAnimationCounter := 0
      m_pacmanDirection := Direction.Right
      startMacroRow := -1
      startMacroCol := -1
      isMoving := false
      moveSteps := MOVESTEPS
      currentStep := 0
      nextGhostId := 0
      pacman_grid_center := ⟨0, 0⟩
      pacman_macrogrid_center := ⟨0, 0⟩
      ghostSpawnPositions := []
      ghosts := []
      m_pointToId := fun _ => none
      m_idToPoint := []
      m_nextMoveLookup := fun _ _ => ⟨0, 0⟩
      panicTimer := none
      pendingRespawns := []
      bgMusicPlaying := false
      sfxLog := []
      dangling := false }
    mapFile

/-- The timer ticks `n` times. -/
def ticks (cfg : Config) : Nat → GameWidget → GameWidget
  | 0, s => s
  | n + 1, s => ticks cfg n (timerEvent cfg s)

/-! ## Shortest paths in the maze (specification side) -/

/-- A tile that is in bounds and not a wall. -/
def isOpen (cfg : Config) (grid : Grid) (p : QPoint) : Bool :=
  decide (0 ≤ p.y ∧ p.y < cfg.MAZE_HEIGHT ∧ 0 ≤ p.x ∧ p.x < cfg.MAZE_WIDTH ∧ grid p.y p.x ≠ 1)

/-- There is a walk of exactly `k` steps from `a` to `b`, each step to a 4-adjacent tile,
all tiles in bounds and not walls. -/
def reachIn (cfg : Config) (grid : Grid) : Nat → QPoint → QPoint → Bool
  | 0, a, b => decide (a = b) && isOpen cfg grid a
  | k + 1, a, b => isOpen cfg grid a && (neighbors a).any fun n => reachIn cfg grid k n b

/-- The shortest-path length from `a` to `b` is `k`: a walk of `k` steps exists and no
shorter one does. -/
def IsDist (cfg : Config) (grid : Grid) (a b : QPoint) (k : Nat) : Prop :=
  reachIn cfg grid k a b = true ∧ ∀ j, j < k → reachIn cfg grid j a b = false

instance (cfg : Config) (grid : Grid) (a b : QPoint) (k : Nat) :
    Decidable (IsDist cfg grid a b k) := by
  unfold IsDist; infer_instance

/-- The tile reached from `a` after `n` routing-table steps toward `b`: the current tile
is replaced `n` times by the table entry for it and `b`. -/
def follow (s : GameWidget) (b : QPoint) : Nat → QPoint → QPoint
  | 0, a => a
  | n + 1, a => nextMove s (follow s b n a) b

/-! ## Definitions used to state the theorems -/

/-- The direction named by a token of the command channel. -/
def tokenDirection (command : String) : Option Direction :=
  if command = "Up" then some Direction.Up
  else if command = "Down" then some Direction.Down
  else if command = "Left" then some Direction.Left
  else if command = "Right" then some Direction.Right
  else none

/-- The command `command` is accepted in state `s` as a move in direction `d`, whose tile
offset is `(tx, ty)`: the phase is Playing, the player is idle, the token names `d`, and
the adjacent tile in that direction is in bounds and not a wall of the working grid. -/
def Accepted (cfg : Config) (s : GameWidget) (command : String) (d : Direction)
    (tx ty : Int) : Prop :=
  s.m_gameState = GameState.Playing ∧ s.isMoving = false ∧ tokenDirection command = some d ∧
    dirDelta d = some (tx, ty) ∧
    isOpen cfg s.mazeGrid
      ⟨s.pacman_macrogrid_center.x + tx, s.pacman_macrogrid_center.y + ty⟩ = true

/-- The state after an accepted move in direction `d` with tile offset `(tx, ty)`. -/
def movedState (cfg : Config) (s : GameWidget) (d : Direction) (tx ty : Int) : GameWidget :=
  { s with
    m_pacmanDirection := d
    isMoving := true
    currentStep := 0
    stepDeltaX := tx * Int.tdiv cfg.TILE_SIZE s.moveSteps
    stepDeltaY := ty * Int.tdiv cfg.TILE_SIZE s.moveSteps
    targetX := tx * cfg.TILE_SIZE
    targetY := ty * cfg.TILE_SIZE }

/-- The motion state of the player is the same in `t` as in `s`: facing direction,
`isMoving`, `currentStep`, step deltas, tile position and render position. -/
def SameMotion (s t : GameWidget) : Prop :=
  t.m_pacmanDirection = s.m_pacmanDirection ∧ t.isMoving = s.isMoving ∧
    t.currentStep = s.currentStep ∧ t.stepDeltaX = s.stepDeltaX ∧ t.stepDeltaY = s.stepDeltaY ∧
    t.pacman_macrogrid_center = s.pacman_macrogrid_center ∧
    t.pacman_grid_center = s.pacman_grid_center

/-- The player's tile is inside the grid. -/
def PlayerInBounds (cfg : Config) (s : GameWidget) : Prop :=
  0 ≤ s.pacman_macrogrid_center.x ∧ s.pacman_macrogrid_center.x < cfg.MAZE_WIDTH ∧
    0 ≤ s.pacman_macrogrid_center.y ∧ s.pacman_macrogrid_center.y < cfg.MAZE_HEIGHT

/-- The value of the working grid at the player's tile. -/
def playerCell (s : GameWidget) : Int :=
  s.mazeGrid s.pacman_macrogrid_center.y s.pacman_macrogrid_center.x

/-- Fright mode was switched on for exactly the active pursuers: `after` lists the same
pursuers as `before`, the active ones in Panic mode, the others with their mode kept. -/
def Frightened (before after : List Ghost) : Prop :=
  after.length = before.length ∧
    ∀ (i : Nat) (g : Ghost), before[i]? = some g → ∃ g' : Ghost, after[i]? = some g' ∧
      (g.active = true → g'.mode = GhostMode.Panic) ∧ (g.active = false → g'.mode = g.mode)

/-- Fright mode ended: `after` lists the same pursuers as `before`, the active ones in
Chase mode, and tile position, render position, type, active flag and identifier kept. -/
def Calmed (before after : List Ghost) : Prop :=
  after.length = before.length ∧
    ∀ (i : Nat) (g : Ghost), before[i]? = some g → ∃ g' : Ghost, after[i]? = some g' ∧
      (g.active = true → g'.mode = GhostMode.Chase) ∧
      g'.macrogrid_center = g.macrogrid_center ∧ g'.grid_center = g.grid_center ∧
      g'.type = g.type ∧ g'.active = g.active ∧ g'.parentId = g.parentId

/-- The state `s` with the three cosmetic mouth members replaced. -/
def withMouth (s : GameWidget) (angle dir counter : Int) : GameWidget :=
  { s with
    m_pacmanMouthAngle := angle
    m_pacmanMouthDirection := dir
    m_pacmanAnimationCounter := counter }

/-- The state of `collectPellet` before its final test `checkAllPelletsCollected`. -/
def afterEating (s : GameWidget) : GameWidget :=
  let macroCol := s.pacman_macrogrid_center.x
  let macroRow := s.pacman_macrogrid_center.y
  let cellValue := s.mazeGrid macroRow macroCol
  if cellValue = 0 then
    { s with
      m_score := s.m_score + 1
      mazeGrid := s.mazeGrid.set macroRow macroCol 3
      sfxLog := Sfx.pellet :: s.sfxLog }
  else if cellValue = 4 then
    let s2 := activatePanicMode
      { s with
        m_score := s.m_score + 5
        mazeGrid := s.mazeGrid.set macroRow macroCol 3 }
    { s2 with sfxLog := Sfx.powerPellet :: s2.sfxLog }
  else s

/-- The player one animation step further, in the middle of a move. -/
def stepped (s : GameWidget) : GameWidget :=
  { s with
    currentStep := s.currentStep + 1
    pacman_grid_center :=
      ⟨s.pacman_grid_center.x + s.stepDeltaX, s.pacman_grid_center.y + s.stepDeltaY⟩ }

/-- The player snapped to the tile reached by the last animation step of a move. -/
def arrived (cfg : Config) (s : GameWidget) : GameWidget :=
  let tile :=
    gridToMacroGrid cfg (stepped s).pacman_grid_center.x (stepped s).pacman_grid_center.y
  { stepped s with
    isMoving := false
    pacman_macrogrid_center := tile
    pacman_grid_center := macroGridToGridCenter cfg tile.x tile.y }

/-- The player calls `animationStep` `n` times. -/
def animationSteps (cfg : Config) : Nat → GameWidget → GameWidget
  | 0, s => s
  | n + 1, s => animationSteps cfg n (animationStep cfg s)

/-- The player `i` animation steps into a move. -/
def midMove (s : GameWidget) (i : Nat) : GameWidget :=
  { s with
    currentStep := s.currentStep + i
    pacman_grid_center :=
      ⟨s.pacman_grid_center.x + i * s.stepDeltaX, s.pacman_grid_center.y + i * s.stepDeltaY⟩ }

/-- The player stands idle on tile `(c, r)` during play, at the centre of the tile, with
the step count of the constructor and no pursuers in the round. -/
def Standing (cfg : Config) (s : GameWidget) (c r : Int) : Prop :=
  s.m_gameState = GameState.Playing ∧ s.isMoving = false ∧ s.moveSteps = MOVESTEPS ∧
    s.ghosts = [] ∧ s.pacman_macrogrid_center = ⟨c, r⟩ ∧
    s.pacman_grid_center = macroGridToGridCenter cfg c r

/-! ### The two-move scenario -/

/-- The scenario maze: a wall row above the row player start, pellet, power pellet. -/
def scenarioMaze : List String := ["111", "p04"]

/-- The scenario grid is 3 tiles wide and 2 tiles high, with 32-pixel tiles. -/
def scenarioCfg : Config := ⟨3, 2, 32⟩

/-- The scenario state after the constructor loaded the maze and a round was started. -/
def scenarioStart (u : GameWidget) : GameWidget :=
  startGame scenarioCfg (construct scenarioCfg u (some scenarioMaze))

/-- The scenario state after the command "Right" and six ticks. -/
def scenarioMid (u : GameWidget) : GameWidget :=
  ticks scenarioCfg 6 (processMovementCommand scenarioCfg (scenarioStart u) "Right")

/-- The scenario state after a second command "Right" and six more ticks. -/
def scenarioEnd (u : GameWidget) : GameWidget :=
  ticks scenarioCfg 6 (processMovementCommand scenarioCfg (scenarioMid u) "Right")

/-! ### Concrete states -/

/-- The working grid of the scenario once the round has started: a wall row above the row
eaten start tile, pellet, power pellet. -/
def demoGrid : Grid := fun r c =>
  if r = 1 ∧ c = 0 then 3 else if r = 1 ∧ c = 1 then 0 else if r = 1 ∧ c = 2 then 4 else 1

/-- A pursuer on tile `(2, 1)`. -/
def demoGhost (active : Bool) (mode : GhostMode) (parentId : Int) : Ghost :=
  { Ghost.blank with
    grid_center := ⟨80, 48⟩, macrogrid_center := ⟨2, 1⟩, active := active, mode := mode,
    moveSteps := MOVESTEPS, speedMultiplier := 1, parentId := parentId }

/-- A Playing state on `demoGrid`: the player idle on tile `(0, 1)`, one active and one
inactive pursuer. -/
def demoState : GameWidget :=
  { m_gameState := GameState.Playing, m_score := 0, m_round := 3,
    m_pacmanMouthAngle := 10, m_pacmanMouthDirection := 1, m_pacmanAnimationCounter := 0,
    m_pacmanDirection := Direction.Left, startMacroRow := 1, startMacroCol := 0,
    isMoving := false, moveSteps := MOVESTEPS, currentStep := 0,
    targetX := 0, targetY := 0, stepDeltaX := 0, stepDeltaY := 0,
    pacman_grid_center := ⟨16, 48⟩, pacman_macrogrid_center := ⟨0, 1⟩,
    mazeGrid := demoGrid, originalMazeGrid := demoGrid,
    ghostSpawnPositions := [⟨2, 1⟩],
    ghosts := [demoGhost true GhostMode.Chase 0, demoGhost false GhostMode.Chase 1],
    nextGhostId := 2,
    m_pointToId := fun _ => none, m_idToPoint := [], m_nextMoveLookup := fun _ _ => ⟨0, 0⟩,
    panicTimer := none, pendingRespawns := [], bgMusicPlaying := true, sfxLog := [],
    rng := fun n => n, rngPos := 0, dangling := false }

/-- The state `demoState` with the player in the middle of a move to the right. -/
def demoMoving : GameWidget :=
  { demoState with
    isMoving := true, currentStep := 2, stepDeltaX := 5, targetX := 32,
    m_pacmanDirection := Direction.Right, pacman_grid_center := ⟨26, 48⟩ }

/-- The state `demoState` with the player on the pellet tile `(1, 1)`. -/
def demoOnPellet : GameWidget :=
  { demoState with pacman_grid_center := ⟨48, 48⟩, pacman_macrogrid_center := ⟨1, 1⟩ }

/-- The state `demoState` with the player on the power-pellet tile `(2, 1)`. -/
def demoOnPowerPellet : GameWidget :=
  { demoState with pacman_grid_center := ⟨80, 48⟩, pacman_macrogrid_center := ⟨2, 1⟩ }

/-! ### Invariants of the breadth-first search -/

/-- The position of `x` in `neighbors s` (up 0, down 1, left 2, right 3); 4 if `x` is not a
neighbour of `s`. -/
def rk (s x : QPoint) : Nat :=
  if x = ⟨s.x, s.y - 1⟩ then 0
  else if x = ⟨s.x, s.y + 1⟩ then 1
  else if x = ⟨s.x - 1, s.y⟩ then 2
  else if x = ⟨s.x + 1, s.y⟩ then 3
  else 4

/-- The data that stay fixed during one BFS of `precomputePaths`, together with `lev`, the
shortest-path length from the start tile to each tile. -/
structure BfsEnv where
  cfg : Config
  grid : Grid
  pointToId : QPoint → Option Nat
  startPoint : QPoint
  startId : Nat
  lev : QPoint → Nat

/-- The tile `v` can be reached from the start tile. -/
def BfsEnv.Reachable (E : BfsEnv) (v : QPoint) : Prop :=
  ∃ k, reachIn E.cfg E.grid k E.startPoint v = true

/-- The environment is well formed: the start tile is open and has the id `startId`, open
tiles have distinct ids, and `lev` gives shortest-path lengths from the start. -/
def BfsEnv.Ok (E : BfsEnv) : Prop :=
  isOpen E.cfg E.grid E.startPoint = true ∧
  (E.pointToId E.startPoint).getD 0 = E.startId ∧
  (∀ p q, isOpen E.cfg E.grid p = true → isOpen E.cfg E.grid q = true →
    (E.pointToId p).getD 0 = (E.pointToId q).getD 0 → p = q) ∧
  (∀ v k, reachIn E.cfg E.grid k E.startPoint v = true →
    reachIn E.cfg E.grid (E.lev v) E.startPoint v = true ∧ E.lev v ≤ k)

/-- The tile `p` is marked in `visited`. -/
def BfsState.vis (st : BfsState) (p : QPoint) : Prop := st.visited p.y p.x = true

/-- The entry `cameFrom[p.y][p.x]`. -/
def BfsState.cf (st : BfsState) (p : QPoint) : QPoint := st.cameFrom p.y p.x

/-- The table entry of the current BFS for the target `p`. -/
def BfsEnv.tb (E : BfsEnv) (st : BfsState) (p : QPoint) : QPoint :=
  st.lookup E.startId ((E.pointToId p).getD 0)

/-- The order in which the BFS discovers tiles: by distance, then by rank of first step. -/
def BfsEnv.key (E : BfsEnv) (st : BfsState) (p : QPoint) : Nat :=
  5 * E.lev p + rk E.startPoint (E.tb st p)

/-- The key of a tile discovered as the neighbour `n` of `cur`. -/
def BfsEnv.childKey (E : BfsEnv) (st : BfsState) (cur n : QPoint) : Nat :=
  5 * (E.lev cur + 1) +
    (if cur = E.startPoint then rk E.startPoint n else rk E.startPoint (E.tb st cur))

/-- The tile `x` is the first neighbour of the start tile, in the order up, down, left,
right, that is open and one step closer to `v` than the start tile is. -/
def BfsEnv.Label (E : BfsEnv) (v x : QPoint) : Prop :=
  x ∈ neighbors E.startPoint ∧ isOpen E.cfg E.grid x = true ∧
    reachIn E.cfg E.grid (E.lev v - 1) x v = true ∧
    ∀ y ∈ neighbors E.startPoint, reachIn E.cfg E.grid (E.lev v - 1) y v = true →
      rk E.startPoint x ≤ rk E.startPoint y

/-- The number of grid tiles marked in `visited`. -/
def nvis (cfg : Config) (st : BfsState) : Nat :=
  ((cells cfg).filter fun p => st.visited p.y p.x).length

/-- The number of open grid tiles not yet marked in `visited`. -/
def nunvis (cfg : Config) (grid : Grid) (st : BfsState) : Nat :=
  ((cells cfg).filter fun p => isOpen cfg grid p && !st.visited p.y p.x).length

/-- The part of the BFS invariant that holds at every point of the search, for the queue
`q` of tiles whose neighbours are still to be examined. -/
structure BfsEnv.Core (E : BfsEnv) (st : BfsState) (q : List QPoint) : Prop where
  start_vis : st.vis E.startPoint
  start_tb : E.tb st E.startPoint = E.startPoint
  vis_open : ∀ v, st.vis v → isOpen E.cfg E.grid v = true ∧ E.Reachable v
  queue_vis : ∀ v ∈ q, st.vis v
  sorted : q.Pairwise fun u v => E.key st u ≤ E.key st v
  closed : ∀ p, st.vis p → p ∉ q → ∀ n ∈ neighbors p, isOpen E.cfg E.grid n = true → st.vis n
  label : ∀ v, st.vis v → v ≠ E.startPoint → E.Label v (E.tb st v)
  chain : ∀ v, st.vis v → v ≠ E.startPoint →
    st.vis (st.cf v) ∧ E.lev (st.cf v) + 1 = E.lev v ∧
      E.tb st v = if st.cf v = E.startPoint then v else E.tb st (st.cf v)
  budget : ∀ v, st.vis v → E.lev v < nvis E.cfg st

/-- The BFS invariant at the head of the `while` loop. -/
structure BfsEnv.Outer (E : BfsEnv) (st : BfsState) : Prop where
  core : E.Core st st.queue
  bound : ∀ h ∈ st.queue.head?, ∀ v ∈ st.queue, E.key st v ≤ E.key st h + 5
  levels : ∀ h ∈ st.queue.head?, ∀ v, E.Reachable v → E.lev v ≤ E.lev h → st.vis v
  alone : E.startPoint ∈ st.queue → st.queue = [E.startPoint]

/-- The BFS invariant inside the `for` loop over the neighbours of the dequeued tile `cur`,
when the neighbours `done` have been examined and `rem` are still to be examined. -/
structure BfsEnv.Inner (E : BfsEnv) (st : BfsState) (cur : QPoint)
    (done rem : List QPoint) : Prop where
  core : E.Core st (cur :: st.queue)
  bound : ∀ v ∈ cur :: st.queue, E.key st v ≤ E.key st cur + 5
  levels : ∀ v, E.Reachable v → E.lev v ≤ E.lev cur → st.vis v
  out : E.startPoint ∉ st.queue
  child : ∀ v ∈ cur :: st.queue, ∀ n ∈ rem, E.key st v ≤ E.childKey st cur n
  done_vis : ∀ n ∈ done, isOpen E.cfg E.grid n = true → st.vis n
  split : done ++ rem = neighbors cur

/-- The step of the neighbour loop taken by the BFS of environment `E`. -/
def BfsEnv.visit (E : BfsEnv) (cur : QPoint) (st : BfsState) (n : QPoint) : BfsState :=
  visitNeighbor E.cfg E.grid E.pointToId E.startPoint E.startId cur st n

/-- The first step computed when `n` is discovered from `cur`. -/
def BfsEnv.firstStep (E : BfsEnv) (cur : QPoint) (st : BfsState) (n : QPoint) : QPoint :=
  traceLoop E.startPoint
    (fun r c => if r = n.y ∧ c = n.x then cur else st.cameFrom r c)
    (E.cfg.MAZE_WIDTH * E.cfg.MAZE_HEIGHT) n cur


/-- The loop of environment `E`. -/
def BfsEnv.loop (E : BfsEnv) (fuel : Nat) (st : BfsState) : BfsState :=
  bfsLoop E.cfg E.grid E.pointToId E.startPoint E.startId fuel st


/-- The id maps are consistent: the counter is the length of `idToPoint`, and a tile with
id `i` is the `i`-th entry of `idToPoint`. -/
def IdMaps.Consistent (m : IdMaps) : Prop :=
  m.currentId = m.idToPoint.length ∧
    ∀ p i, m.pointToId p = some i → m.idToPoint[i]? = some p


/-- The environment of the BFS that `precomputePaths` runs from the open tile `a`. -/
def envOf (cfg : Config) (grid : Grid) (a : QPoint) (lev : QPoint → Nat) : BfsEnv :=
  { cfg := cfg, grid := grid, pointToId := (assignIds cfg grid).pointToId, startPoint := a,
    startId := ((assignIds cfg grid).pointToId a).getD 0, lev := lev }


/-! ### Collisions, respawns and rounds -/

/-- The Manhattan distance in pixels between the render positions of the player and of a
pursuer. -/
def pixelDist (s : GameWidget) (g : Ghost) : Int :=
  |s.pacman_grid_center.x - g.grid_center.x| + |s.pacman_grid_center.y - g.grid_center.y|

/-- The pursuer `g` is active, not respawning, and its render position is within collision
range of the player's: the distance `d` satisfies `d < TILE_SIZE / 1.5`, that is
`3 * d < 2 * TILE_SIZE`. -/
def Colliding (cfg : Config) (s : GameWidget) (g : Ghost) : Prop :=
  g.active = true ∧ g.respawning = false ∧ 3 * pixelDist s g < 2 * cfg.TILE_SIZE

instance (cfg : Config) (s : GameWidget) (g : Ghost) : Decidable (Colliding cfg s g) := by
  unfold Colliding; infer_instance

/-- A pursuer after it was caught in fright mode: deactivated and waiting for its respawn. -/
def caught (g : Ghost) : Ghost := { g with active := false, respawning := true }

/-- The player start marker was found by `loadMaze`. -/
def ValidStart (s : GameWidget) : Prop := s.startMacroCol ≠ -1 ∧ s.startMacroRow ≠ -1

/-- The events that drive the simulation: a timer tick, a token of the command channel, a
key press, the firing of the `k`-th pending respawn, the firing of the fright timer, and a
round started from the round buttons or the restart buttons. -/
inductive Event where
  | tick
  | command (token : String)
  | key (k : Key)
  | respawn (k : Nat)
  | panicTimeout
  | newRound (round : Int)

/-- The state after one event. -/
def applyEvent (cfg : Config) (s : GameWidget) : Event → GameWidget
  | Event.tick => timerEvent cfg s
  | Event.command token => processMovementCommand cfg s token
  | Event.key k => keyPressEvent cfg s k
  | Event.respawn k => fireRespawn cfg s k
  | Event.panicTimeout => panicModeTimeout s
  | Event.newRound round => startGame cfg { s with m_round := round }

/-- The state after a sequence of events. -/
def run (cfg : Config) (s : GameWidget) (events : List Event) : GameWidget :=
  events.foldl (applyEvent cfg) s

/-- An active pursuer of `demoState` on tile `tile` with render position `pix`. -/
def demoGhostAt (tile pix : QPoint) (mode : GhostMode) (parentId : Int) : Ghost :=
  { demoGhost true mode parentId with grid_center := pix, macrogrid_center := tile }

/-- The state `demoState` with one Chase pursuer four steps into a move from tile `(1, 1)`
toward the player's tile `(0, 1)`. -/
def demoNear : GameWidget :=
  { demoState with ghosts := [demoGhostAt ⟨1, 1⟩ ⟨28, 48⟩ GhostMode.Chase 0], nextGhostId := 1 }

/-- The state `demoState` with the player five steps into a move to the right and one Chase
pursuer standing on the tile `(0, 1)` the player is leaving. -/
def demoSameTile : GameWidget :=
  { demoState with
    isMoving := true, currentStep := 5, stepDeltaX := 5, targetX := 32,
    m_pacmanDirection := Direction.Right, pacman_grid_center := ⟨41, 48⟩,
    ghosts := [demoGhostAt ⟨0, 1⟩ ⟨16, 48⟩ GhostMode.Chase 0], nextGhostId := 1 }

/-- The state `demoState` in fright mode: a Panic pursuer within range of the player, a
Panic pursuer far away on tile `(2, 1)`, and a pursuer that is waiting for its respawn. -/
def demoFright : GameWidget :=
  { demoState with
    ghosts := [demoGhostAt ⟨1, 1⟩ ⟨28, 48⟩ GhostMode.Panic 0, demoGhost true GhostMode.Panic 1,
      caught (demoGhostAt ⟨0, 1⟩ ⟨16, 48⟩ GhostMode.Panic 2)],
    nextGhostId := 3, panicTimer := some 10000 }

/-- The state `demoState` in the menu of round 3, with two spawn tiles `(2, 1)` and
`(1, 1)` and no pursuers yet. The list is set by hand: `loadMaze` lists the spawn tiles of
a row from left to right. -/
def demoTwoSpawn : GameWidget :=
  { demoState with
    m_gameState := GameState.Menu, ghostSpawnPositions := [⟨2, 1⟩, ⟨1, 1⟩], ghosts := [],
    nextGhostId := 0 }

/-- Round 3 started from `demoTwoSpawn`, the pursuers frightened, and the player placed on
tile `(1, 1)`, where the second pursuer stands. -/
def demoTwoSpawnFright : GameWidget :=
  { activatePanicMode (startGame scenarioCfg demoTwoSpawn) with
    pacman_grid_center := ⟨48, 48⟩, pacman_macrogrid_center := ⟨1, 1⟩ }

/-- The state `demoState` without a player start marker. -/
def demoNoStart : GameWidget := { demoState with startMacroCol := -1, startMacroRow := -1 }

/-- The state `demoState` after a cleared round, with 7 points. -/
def demoWon : GameWidget := { demoState with m_gameState := GameState.Win, m_score := 7 }

/-- A maze file without a player start marker. -/
def noStartMaze : List String := ["111", "004"]

/-- The state `t` has the pursuer list and the identifier counter of `s`. -/
def SamePursuers (s t : GameWidget) : Prop :=
  t.ghosts = s.ghosts ∧ t.nextGhostId = s.nextGhostId

/-! ### The parts of the pursuer step -/

/-- The speed throttle of `ghostAnimationStep`: whether the pursuer skips this tick, and the
pursuer with its delay counter updated. -/
def throttle (ghost : Ghost) : Bool × Ghost :=
  if ghost.speedMultiplier < 1 then
    let g1 : Ghost := { ghost with delayCounter := ghost.delayCounter + 1 }
    let requiredDelay := truncToInt (1 / g1.speedMultiplier - 1)
    if g1.delayCounter < requiredDelay then (true, g1)
    else (false, { g1 with delayCounter := 0 })
  else (false, ghost)

/-- The reproduction test of `ghostAnimationStep` for an idle pursuer. -/
def reproduce (cfg : Config) (s : GameWidget) (ghost : Ghost) : GameWidget :=
  if ghost.type = GhostType.IntersectionRandom ∧ isAtIntersection cfg s ghost = true then
    let r := bounded s 100
    if r.1 < REPRODUCTION_PROB then spawnChildGhost r.2 ghost else r.2
  else s

/-- The motion step of `ghostAnimationStep` for a moving pursuer. -/
def advanceGhost (cfg : Config) (ghost : Ghost) : Ghost :=
  let ghost : Ghost := { ghost with
    currentStep := ghost.currentStep + 1
    grid_center :=
      ⟨ghost.grid_center.x + ghost.stepDeltaX, ghost.grid_center.y + ghost.stepDeltaY⟩ }
  if ghost.currentStep ≥ ghost.moveSteps then
    let tile := gridToMacroGrid cfg ghost.grid_center.x ghost.grid_center.y
    { ghost with
      moving := false
      macrogrid_center := tile
      grid_center := macroGridToGridCenter cfg tile.x tile.y }
  else ghost

/-- The routing table and the id maps of `s` are those `precomputePaths` builds from the
working grid of `s0`. -/
def TablesOf (cfg : Config) (s0 s : GameWidget) : Prop :=
  s.m_pointToId = (precomputePaths cfg s0).m_pointToId ∧
    s.m_idToPoint = (precomputePaths cfg s0).m_idToPoint ∧
    s.m_nextMoveLookup = (precomputePaths cfg s0).m_nextMoveLookup

/-- The state `demoState` with an empty spawn list, in the menu. -/
def demoNoSpawn : GameWidget :=
  { demoState with m_gameState := GameState.Menu, ghostSpawnPositions := [], ghosts := [] }

/-- The state `demoState` with the routing table built from its grid, and the player on
tile `(2, 1)`, where the pursuers of `demoState` stand. -/
def demoRouted : GameWidget :=
  { precomputePaths scenarioCfg demoState with
    pacman_grid_center := ⟨80, 48⟩, pacman_macrogrid_center := ⟨2, 1⟩ }

/-- A pursuer of `demoState` with the speed multiplier 0.5 of the first pursuer of round
6, of the pursuer of round 7 and of every child pursuer. -/
def demoSlowGhost : Ghost :=
  { demoGhost true GhostMode.Chase 0 with speedMultiplier := 1 / 2 }

/-- A grid whose only pellet is on tile `(1, 1)`: a wall row above the row eaten start
tile, pellet, eaten tile. -/
def lastPelletGrid : Grid := fun r c =>
  if r = 1 ∧ c = 0 then 3 else if r = 1 ∧ c = 1 then 0 else if r = 1 ∧ c = 2 then 3 else 1

/-- A Playing state on `lastPelletGrid`: the player is five steps into its move from tile
`(0, 1)` to the pellet tile `(1, 1)`, and a Chase pursuer is three steps into a move to the
left from tile `(2, 1)`, 24 pixels away from the player. -/
def demoLastPellet : GameWidget :=
  { demoState with
    mazeGrid := lastPelletGrid, originalMazeGrid := lastPelletGrid,
    isMoving := true, currentStep := 5, stepDeltaX := 5, targetX := 32,
    m_pacmanDirection := Direction.Right, pacman_grid_center := ⟨41, 48⟩,
    ghosts := [{ demoGhostAt ⟨2, 1⟩ ⟨65, 48⟩ GhostMode.Chase 0 with
      moving := true, currentStep := 3, stepDeltaX := -5, direction := Direction.Left }],
    nextGhostId := 1 }

/-! ### The maze text -/

/-- The cell value the maze text assigns to a character: `1` is a wall, `3` and `g` an
eaten tile, `4` a power pellet, `2` the spawn area, anything else a pellet. -/
def cellValue (ch : Char) : Int :=
  if ch = '1' then 1
  else if ch = '3' ∨ ch = 'g' then 3
  else if ch = '4' then 4
  else if ch = '2' then 2
  else 0

/-- The character of the maze text at row `r` and column `c`, when both are inside the
fixed dimensions and the text has a character there. -/
def charAt (cfg : Config) (lines : List String) (r c : Int) : Option Char :=
  if 0 ≤ r ∧ r < cfg.MAZE_HEIGHT ∧ 0 ≤ c ∧ c < cfg.MAZE_WIDTH then
    (lines.get? r.toNat).bind fun line => line.toList.get? c.toNat
  else none

/-- The tiles `(c, r)` of the characters `ch` among `cs`, the characters of row `r` from
column `k` on, in the order of the columns. -/
def rowPositions (ch : Char) (r : Nat) (k : Nat) (cs : List Char) : List QPoint :=
  (cs.enumFrom k).filterMap fun cc =>
    if cc.2 = ch then some (⟨(cc.1 : Int), (r : Int)⟩ : QPoint) else none

/-- The tiles `(c, r)` inside the fixed dimensions at which the maze text has the
character `ch`, in row-major order. -/
def positionsOf (cfg : Config) (lines : List String) (ch : Char) : List QPoint :=
  ((lines.take cfg.MAZE_HEIGHT).enum).flatMap fun rl =>
    rowPositions ch rl.1 0 (rl.2.toList.take cfg.MAZE_WIDTH)

/-- The player start marker of a state, as a point `(startMacroCol, startMacroRow)`. -/
def startOf (s : GameWidget) : QPoint := ⟨s.startMacroCol, s.startMacroRow⟩

/-- The state `t` differs from `s` at most in the two grids, the spawn list and the start
marker. -/
def LoadFrame (s t : GameWidget) : Prop :=
  ∃ (g o : Grid) (sp : List QPoint) (sc sr : Int),
    t = { s with
      mazeGrid := g, originalMazeGrid := o, ghostSpawnPositions := sp,
      startMacroCol := sc, startMacroRow := sr }
/-- The column loop of `loadMaze` on the characters `cs` of row `row`, the first of them in
column `k`. -/
def loadChars (row : Int) (k : Nat) (s : GameWidget) (cs : List Char) : GameWidget :=
  (cs.enumFrom k).foldl (fun s cc => loadCell row (cc.1 : Int) s cc.2) s

/-- The row loop of `loadMaze` on the lines `ls`, the first of them in row `k`. -/
def loadRows (cfg : Config) (k : Nat) (s : GameWidget) (ls : List String) : GameWidget :=
  (ls.enumFrom k).foldl (fun s rl => loadLine cfg (rl.1 : Int) s rl.2) s

/-- The state `t` differs from `s` at most in the position of the random generator and in
the id map (which `getAmbusherDirection` may extend). -/
def PolicyFrame (s t : GameWidget) : Prop :=
  ∃ (p : Nat) (f : QPoint → Option Nat), t = { s with rngPos := p, m_pointToId := f }

/-- The state `t` differs from `s` at most in the pursuer list, the identifier counter, the
position of the random generator, the id map and the mark `dangling`. -/
def GhostFrame (s t : GameWidget) : Prop :=
  ∃ (gs : List Ghost) (n : Int) (p : Nat) (f : QPoint → Option Nat) (d : Bool),
    t = { s with
      ghosts := gs, nextGhostId := n, rngPos := p, m_pointToId := f, dangling := d }

/-- The tile `p` lies inside the grid. -/
def TileInBounds (cfg : Config) (p : QPoint) : Prop :=
  0 ≤ p.x ∧ p.x < cfg.MAZE_WIDTH ∧ 0 ≤ p.y ∧ p.y < cfg.MAZE_HEIGHT

/-- Every cell of `g'` has the value it has in `g`, or it is a Pellet (0) or PowerPellet
(4) in `g` and an EmptyPath (3) in `g'`. -/
def Eaten (g g' : Grid) : Prop :=
  ∀ r c : Int, g' r c = g r c ∨ ((g r c = 0 ∨ g r c = 4) ∧ g' r c = 3)

/-- The grids `g` and `g'` have the same wall cells inside the fixed dimensions. -/
def SameWalls (cfg : Config) (g g' : Grid) : Prop :=
  ∀ r c : Int, 0 ≤ r → r < cfg.MAZE_HEIGHT → 0 ≤ c → c < cfg.MAZE_WIDTH →
    (g r c = 1 ↔ g' r c = 1)

/-- The event does not start a round. -/
def Event.inRound : Event → Bool
  | Event.newRound _ => false
  | _ => true

/-- The members that only `loadMaze` writes are the same in `t` as in `s`: the original
grid, the spawn list, the start marker, and the routing table with its list of tiles. -/
def Static (s t : GameWidget) : Prop :=
  t.originalMazeGrid = s.originalMazeGrid ∧ t.ghostSpawnPositions = s.ghostSpawnPositions ∧
    t.startMacroRow = s.startMacroRow ∧ t.startMacroCol = s.startMacroCol ∧
    t.m_idToPoint = s.m_idToPoint ∧ t.m_nextMoveLookup = s.m_nextMoveLookup

/-- The indices `(row, col)` at which `canMove(tx, ty)` subscripts `mazeGrid`: none when
the bounds test returns early, else `mazeGrid[newMacroRow][newMacroCol]`. -/
def canMoveReads (cfg : Config) (s : GameWidget) (tx ty : Int) : List (Int × Int) :=
  let newMacroCol := s.pacman_macrogrid_center.x + tx
  let newMacroRow := s.pacman_macrogrid_center.y + ty
  if newMacroCol < 0 ∨ newMacroCol ≥ cfg.MAZE_WIDTH ∨ newMacroRow < 0 ∨
      newMacroRow ≥ cfg.MAZE_HEIGHT then
    []
  else [(newMacroRow, newMacroCol)]

/-- The indices `(row, col)` at which `canGhostMove(ghost, dir)` subscripts `mazeGrid`:
none for the direction `Stop` and when the bounds test returns early, else
`mazeGrid[newMacroRow][newMacroCol]`. -/
def canGhostMoveReads (cfg : Config) (ghost : Ghost) (dir : Direction) : List (Int × Int) :=
  match dirDelta dir with
  | none => []
  | some (tx, ty) =>
    let newMacroCol := ghost.macrogrid_center.x + tx
    let newMacroRow := ghost.macrogrid_center.y + ty
    if newMacroCol < 0 ∨ newMacroCol ≥ cfg.MAZE_WIDTH ∨ newMacroRow < 0 ∨
        newMacroRow ≥ cfg.MAZE_HEIGHT then
      []
    else [(newMacroRow, newMacroCol)]

/-- The indices `(row, col)` at which `isAtIntersection(ghost)` subscripts `mazeGrid`: each
of the four tests reads the neighbour only when the comparison to its left of `&&` holds. -/
def isAtIntersectionReads (cfg : Config) (ghost : Ghost) : List (Int × Int) :=
  let m := ghost.macrogrid_center
  (if m.y > 0 then [(m.y - 1, m.x)] else []) ++
    (if m.y < (cfg.MAZE_HEIGHT : Int) - 1 then [(m.y + 1, m.x)] else []) ++
    (if m.x > 0 then [(m.y, m.x - 1)] else []) ++
    (if m.x < (cfg.MAZE_WIDTH : Int) - 1 then [(m.y, m.x + 1)] else [])

/-- The index `(row, col)` at which `getAmbusherDirection` subscripts `mazeGrid`:
`mazeGrid[targetMacro.y()][targetMacro.x()]` for the target four tiles ahead of the
player, after the two `qBound` calls. -/
def getAmbusherDirectionReads (cfg : Config) (s : GameWidget) : List (Int × Int) :=
  let pacmanMacro := s.pacman_macrogrid_center
  let targetMacro : QPoint :=
    match s.m_pacmanDirection with
    | Direction.Up => ⟨pacmanMacro.x, pacmanMacro.y - 4⟩
    | Direction.Down => ⟨pacmanMacro.x, pacmanMacro.y + 4⟩
    | Direction.Left => ⟨pacmanMacro.x - 4, pacmanMacro.y⟩
    | Direction.Right => ⟨pacmanMacro.x + 4, pacmanMacro.y⟩
    | Direction.Stop => pacmanMacro
  let targetMacro : QPoint :=
    ⟨qBound 0 targetMacro.x ((cfg.MAZE_WIDTH : Int) - 1),
     qBound 0 targetMacro.y ((cfg.MAZE_HEIGHT : Int) - 1)⟩
  [(targetMacro.y, targetMacro.x)]

/-- The members written by `precomputePaths` are the same in `s` and `t`: the two id maps
and the routing table. -/
def SameTables (s t : GameWidget) : Prop :=
  t.m_pointToId = s.m_pointToId ∧ t.m_idToPoint = s.m_idToPoint ∧
    t.m_nextMoveLookup = s.m_nextMoveLookup

/-- A state on `demoGrid` with the pellet and the power pellet eaten. -/
def demoEaten : GameWidget := { demoState with mazeGrid := lastPelletGrid }

/-- A maze of two halves: a wall column between the tile `(0, 1)` and the tile `(2, 1)`. -/
def splitGrid : Grid := fun r c => if r = 1 ∧ (c = 0 ∨ c = 2) then 0 else 1

/-- The state `demoState` on `splitGrid`. -/
def demoSplit : GameWidget := { demoState with mazeGrid := splitGrid }

/-- The entries of the row of the current search that differ from the table `T` belong to
visited tiles. -/
def BfsEnv.Kept (E : BfsEnv) (T : Nat → Nat → QPoint) (st : BfsState) : Prop :=
  ∀ j, (∀ v, st.vis v → (E.pointToId v).getD 0 ≠ j) → st.lookup E.startId j = T E.startId j

/-- A corridor maze: a wall row above the row player start, pellet, two eaten tiles, spawn
tile. -/
def corridorMaze : List String := ["11111", "p033g"]

/-- The corridor grid is 5 tiles wide and 2 tiles high, with 32-pixel tiles. -/
def corridorCfg : Config := ⟨5, 2, 32⟩

/-- Round 2 on the corridor maze, thirteen ticks during which the player waits and the
pursuer approaches, the command "Right", and five ticks of the player's move: the player
is one animation step away from the last pellet. -/
def corridorBefore : GameWidget :=
  run corridorCfg (construct corridorCfg demoState (some corridorMaze))
    ([Event.newRound 2] ++ List.replicate 13 Event.tick ++ [Event.command "Right"] ++
      List.replicate 5 Event.tick)

/-- The effect of calling `processMovementCommand` on each token of a list in order. -/
def processTokens (cfg : Config) (s : GameWidget) (tokens : List String) : GameWidget :=
  tokens.foldl (processMovementCommand cfg) s

/-- The tile next to `p` in the direction `d`; `p` itself for `Stop`. -/
def ahead (p : QPoint) : Direction → QPoint
  | Direction.Up => ⟨p.x, p.y - 1⟩
  | Direction.Down => ⟨p.x, p.y + 1⟩
  | Direction.Left => ⟨p.x - 1, p.y⟩
  | Direction.Right => ⟨p.x + 1, p.y⟩
  | Direction.Stop => p

/-- The element of the list `v` of walkable directions selected by the random draw `r`:
`v[r mod |v|]`, and `Stop` for the empty list. -/
def randomPick (v : List Direction) (r : Nat) : Direction :=
  v.getD (r % v.length) Direction.Stop

/-- The Manhattan distance between two tiles. -/
def manhattan (a b : QPoint) : Int := |a.x - b.x| + |a.y - b.y|

/-- The direction that leads a pursuer on tile `g` away from the player on tile `p` on the
axis with the larger absolute tile delta: horizontal if and only if `|dx| > |dy|`; none
when the delta on the chosen axis is zero. -/
def away (g p : QPoint) : Option Direction :=
  if |g.x - p.x| > |g.y - p.y| then
    if g.x - p.x > 0 then some Direction.Right
    else if g.x - p.x < 0 then some Direction.Left
    else none
  else
    if g.y - p.y > 0 then some Direction.Down
    else if g.y - p.y < 0 then some Direction.Up
    else none

/-- A run of consecutive evaluations of the AggressiveChaser policy: the `i`-th evaluation
is made in the `i`-th state on the `i`-th value of the pursuer, whose `failCounter` is the
one the previous evaluation left (`fc` for the first). Returns the directions and the
final counter. -/
def aggressiveRun (cfg : Config) : Int → List (GameWidget × Ghost) → List Direction × Int
  | fc, [] => ([], fc)
  | fc, p :: rest =>
    let r := getAggressiveChaserDirection cfg p.1 { p.2 with failCounter := fc }
    let q := aggressiveRun cfg r.2.1.failCounter rest
    (r.1 :: q.1, q.2)

/-- The tile four tiles from `p` in the direction `f`; `p` itself for `Stop`. -/
def shift4 (p : QPoint) : Direction → QPoint
  | Direction.Up => ⟨p.x, p.y - 4⟩
  | Direction.Down => ⟨p.x, p.y + 4⟩
  | Direction.Left => ⟨p.x - 4, p.y⟩
  | Direction.Right => ⟨p.x + 4, p.y⟩
  | Direction.Stop => p

/-- The player's tile shifted four tiles along the player's facing direction and clamped
componentwise to the grid. -/
def ambushAhead (cfg : Config) (s : GameWidget) : QPoint :=
  ⟨qBound 0 (shift4 s.pacman_macrogrid_center s.m_pacmanDirection).x
      ((cfg.MAZE_WIDTH : Int) - 1),
    qBound 0 (shift4 s.pacman_macrogrid_center s.m_pacmanDirection).y
      ((cfg.MAZE_HEIGHT : Int) - 1)⟩

/-- The target of the Ambusher: `ambushAhead`, replaced by the player's tile when it is a
wall of the working grid. -/
def ambushTarget (cfg : Config) (s : GameWidget) : QPoint :=
  if s.mazeGrid (ambushAhead cfg s).y (ambushAhead cfg s).x = 1 then s.pacman_macrogrid_center
  else ambushAhead cfg s

/-- What an entry of the row of the open tile `a` of the routing table can be: the default
point `(0, 0)` of an entry that was never written, the tile `a` itself, or an open
neighbour of `a`. -/
def RowEntry (cfg : Config) (grid : Grid) (a e : QPoint) : Prop :=
  e = ⟨0, 0⟩ ∨ e = a ∨ (e ∈ neighbors a ∧ isOpen cfg grid e = true)

/-- The column offset of a direction: -1 for Left, 1 for Right, 0 otherwise. -/
def dirX : Direction → Int
  | Direction.Left => -1
  | Direction.Right => 1
  | _ => 0

/-- The row offset of a direction: -1 for Up, 1 for Down, 0 otherwise. -/
def dirY : Direction → Int
  | Direction.Up => -1
  | Direction.Down => 1
  | _ => 0

/-- The direction `d` is Stop or walkable for the pursuer in state `s`. -/
def StopOrWalkable (cfg : Config) (s : GameWidget) (ghost : Ghost) (d : Direction) : Prop :=
  d = Direction.Stop ∨ canGhostMove cfg s ghost d = true

/-- The pursuer `g` is `k` motion advances into a move from tile `t` in direction `d`: it
is Moving, keeps direction `d` and tile position `t`, and its render position is the
centre of `t` plus `k` times the per-step delta `TILE_SIZE / MOVESTEPS` along `d`. -/
def InFlight (cfg : Config) (t : QPoint) (d : Direction) (k : Int) (g : Ghost) : Prop :=
  g.moving = true ∧ g.direction = d ∧ g.macrogrid_center = t ∧ g.moveSteps = MOVESTEPS ∧
    g.currentStep = k ∧
    g.stepDeltaX = dirX d * Int.tdiv cfg.TILE_SIZE MOVESTEPS ∧
    g.stepDeltaY = dirY d * Int.tdiv cfg.TILE_SIZE MOVESTEPS ∧
    g.grid_center =
      ⟨(macroGridToGridCenter cfg t.x t.y).x + k * (dirX d * Int.tdiv cfg.TILE_SIZE MOVESTEPS),
        (macroGridToGridCenter cfg t.x t.y).y +
          k * (dirY d * Int.tdiv cfg.TILE_SIZE MOVESTEPS)⟩

/-- The open tiles of the grid form one 4-connected component: from every open tile a walk
over open tiles leads to every other open tile. -/
def Connected (cfg : Config) (grid : Grid) : Prop :=
  ∀ a b : QPoint, isOpen cfg grid a = true → isOpen cfg grid b = true →
    ∃ k, reachIn cfg grid k a b = true

/-- The state `t` differs from `s` at most in the position of the random generator. -/
def RngFrame (s t : GameWidget) : Prop := ∃ p : Nat, t = { s with rngPos := p }

/-- The motion members of a pursuer: render position, tile position, direction, the
Moving flag, step count, current step and the two step deltas. -/
def Ghost.motion (g : Ghost) : QPoint × QPoint × Direction × Bool × Int × Int × Int × Int :=
  (g.grid_center, g.macrogrid_center, g.direction, g.moving, g.moveSteps, g.currentStep,
    g.stepDeltaX, g.stepDeltaY)

/-- The position of the pursuer `g` is sound on `grid`: its tile is open; when Idle it is
rendered at the centre of its tile; when Moving it is `k < MOVESTEPS` motion advances into
a move in a direction `d` other than Stop, and the tile ahead in direction `d` is open. -/
def GhostOk (cfg : Config) (grid : Grid) (g : Ghost) : Prop :=
  isOpen cfg grid g.macrogrid_center = true ∧
  (g.moving = false →
    g.grid_center = macroGridToGridCenter cfg g.macrogrid_center.x g.macrogrid_center.y) ∧
  (g.moving = true → ∃ (d : Direction) (k : Int), d ≠ Direction.Stop ∧ 0 ≤ k ∧
    k < MOVESTEPS ∧ InFlight cfg g.macrogrid_center d k g ∧
    isOpen cfg grid (ahead g.macrogrid_center d) = true)

/-- Every pursuer of the list has a sound position on `grid`. -/
def GhostsOk (cfg : Config) (grid : Grid) (gs : List Ghost) : Prop :=
  ∀ g ∈ gs, GhostOk cfg grid g

/-- The position of the player is sound: the step count is `MOVESTEPS`; the player's tile is
open; when Idle the player is rendered at the centre of the tile; when Moving the player is
`k < MOVESTEPS` animation steps into a move in a direction `d` other than Stop, with the
step deltas of that direction, and the tile ahead in direction `d` is open. -/
def PlayerOk (cfg : Config) (s : GameWidget) : Prop :=
  s.moveSteps = MOVESTEPS ∧
  isOpen cfg s.mazeGrid s.pacman_macrogrid_center = true ∧
  (s.isMoving = false → s.pacman_grid_center =
    macroGridToGridCenter cfg s.pacman_macrogrid_center.x s.pacman_macrogrid_center.y) ∧
  (s.isMoving = true → ∃ (d : Direction) (k : Int), d ≠ Direction.Stop ∧ 0 ≤ k ∧
    k < MOVESTEPS ∧ s.currentStep = k ∧
    s.stepDeltaX = dirX d * Int.tdiv cfg.TILE_SIZE MOVESTEPS ∧
    s.stepDeltaY = dirY d * Int.tdiv cfg.TILE_SIZE MOVESTEPS ∧
    s.pacman_grid_center =
      ⟨(macroGridToGridCenter cfg s.pacman_macrogrid_center.x s.pacman_macrogrid_center.y).x +
          k * (dirX d * Int.tdiv cfg.TILE_SIZE MOVESTEPS),
        (macroGridToGridCenter cfg s.pacman_macrogrid_center.x s.pacman_macrogrid_center.y).y +
          k * (dirY d * Int.tdiv cfg.TILE_SIZE MOVESTEPS)⟩ ∧
    isOpen cfg s.mazeGrid (ahead s.pacman_macrogrid_center d) = true)

/-- The state `s` of a round is sound with respect to the loaded state `s0`: its id maps
and routing table are those built from the working grid of `s0`, its working grid has the
walls of that grid, every spawn tile is open, and the positions of the player and of every
pursuer are sound. -/
structure Sound (cfg : Config) (s0 s : GameWidget) : Prop where
  tables : TablesOf cfg s0 s
  walls : SameWalls cfg s0.mazeGrid s.mazeGrid
  spawns : ∀ p ∈ s.ghostSpawnPositions, isOpen cfg s.mazeGrid p = true
  player : PlayerOk cfg s
  ghosts : GhostsOk cfg s.mazeGrid s.ghosts

/-- The state `t` differs from `s` at most in the pursuer list, the identifier counter, the
position of the random generator and the mark `dangling`. -/
def SpawnFrame (s t : GameWidget) : Prop :=
  ∃ (gs : List Ghost) (n : Int) (p : Nat) (d : Bool),
    t = { s with ghosts := gs, nextGhostId := n, rngPos := p, dangling := d }

/-- The motion members of the player: step count, the Moving flag, current step, the two
step deltas, tile position and render position. -/
def playerMotion (s : GameWidget) : Int × Bool × Int × Int × Int × QPoint × QPoint :=
  (s.moveSteps, s.isMoving, s.currentStep, s.stepDeltaX, s.stepDeltaY,
    s.pacman_macrogrid_center, s.pacman_grid_center)

/-- Every round start of the run of `events` from state `s` happens while the player is
Idle. -/
def calmRun (cfg : Config) : GameWidget → List Event → Bool
  | _, [] => true
  | s, e :: es => (e.inRound || !s.isMoving) && calmRun cfg (applyEvent cfg s e) es

/-- A maze of two rows: the start tile with a wall on its right, above two open tiles. -/
def pocketMaze : List String := ["p1", "00"]

/-- The pocket grid is 2 tiles wide and 2 tiles high, with 32-pixel tiles. -/
def pocketCfg : Config := ⟨2, 2, 32⟩

/-- Round 1 on the pocket maze: the player goes down one tile, starts a move to the right,
and after one tick of that move the button of round 1 is pressed. -/
def pocketRestart : GameWidget :=
  run pocketCfg (construct pocketCfg demoState (some pocketMaze))
    ([Event.newRound 1, Event.command "Down"] ++ List.replicate 6 Event.tick ++
      [Event.command "Right", Event.tick, Event.newRound 1])

/-- `canMove` tests that the tile at the given offset from the player is open. -/
theorem canMove_eq_isOpen (cfg : Config) (s : GameWidget) (tx ty : Int) :
    canMove cfg s tx ty =
      isOpen cfg s.mazeGrid
        ⟨s.pacman_macrogrid_center.x + tx, s.pacman_macrogrid_center.y + ty⟩ := by
  unfold canMove isOpen
  simp only []
  by_cases h : s.pacman_macrogrid_center.x + tx < 0 ∨
      s.pacman_macrogrid_center.x + tx ≥ cfg.MAZE_WIDTH ∨ s.pacman_macrogrid_center.y + ty < 0 ∨
      s.pacman_macrogrid_center.y + ty ≥ cfg.MAZE_HEIGHT
  · rw [if_pos h]
    symm
    rw [decide_eq_false_iff_not]
    omega
  · rw [if_neg h]
    have h1 : 0 ≤ s.pacman_macrogrid_center.y + ty ∧
        s.pacman_macrogrid_center.y + ty < cfg.MAZE_HEIGHT ∧
        0 ≤ s.pacman_macrogrid_center.x + tx ∧
        s.pacman_macrogrid_center.x + tx < cfg.MAZE_WIDTH := by omega
    by_cases h2 :
        s.mazeGrid (s.pacman_macrogrid_center.y + ty) (s.pacman_macrogrid_center.x + tx) = 1
    · simp [h2]
    · simp [h2, h1]

theorem stepDelta_neg (t m : Int) :
    (if -t ≠ 0 then Int.tdiv (-t) m else 0) = -1 * Int.tdiv t m := by
  by_cases h : t = 0
  · subst h; simp
  · have : -t ≠ 0 := by omega
    rw [if_pos this, Int.neg_tdiv]; ring

theorem stepDelta_pos (t m : Int) : (if t ≠ 0 then Int.tdiv t m else 0) = 1 * Int.tdiv t m := by
  by_cases h : t = 0
  · subst h; simp
  · rw [if_pos h]; ring

theorem startAnimatedMove_of_idle (s : GameWidget) (tx ty : Int) (h : s.isMoving = false) :
    startAnimatedMove s tx ty =
      { s with
        targetX := tx
        targetY := ty
        currentStep := 0
        isMoving := true
        stepDeltaX := if tx ≠ 0 then Int.tdiv tx s.moveSteps else 0
        stepDeltaY := if ty ≠ 0 then Int.tdiv ty s.moveSteps else 0 } := by
  unfold startAnimatedMove
  simp [h]

theorem processMovementCommand_accepted (cfg : Config) (s : GameWidget) (command : String)
    (d : Direction) (tx ty : Int) (h : Accepted cfg s command d tx ty) :
    processMovementCommand cfg s command = movedState cfg s d tx ty := by
  obtain ⟨hp, hm, ht, hd, ho⟩ := h
  rw [← canMove_eq_isOpen] at ho
  have hguard : ¬ (s.m_gameState ≠ GameState.Playing ∨ s.isMoving = true) := by
    simp [hp, hm]
  unfold tokenDirection at ht
  unfold processMovementCommand
  rw [if_neg hguard]
  split_ifs at ht with h1 h2 h3 h4
  · subst h1
    injection ht with ht; subst ht
    simp only [dirDelta, Option.some.injEq, Prod.mk.injEq] at hd
    obtain ⟨rfl, rfl⟩ := hd
    rw [if_neg (by decide), if_pos rfl, if_pos ho, startAnimatedMove_of_idle _ _ _ (by exact hm)]
    simp only [movedState, stepDelta_neg]
    simp
  · subst h2
    injection ht with ht; subst ht
    simp only [dirDelta, Option.some.injEq, Prod.mk.injEq] at hd
    obtain ⟨rfl, rfl⟩ := hd
    rw [if_neg (by decide), if_neg (by decide), if_pos rfl, if_pos ho,
      startAnimatedMove_of_idle _ _ _ (by exact hm)]
    simp only [movedState, stepDelta_pos]
    simp
  · subst h3
    injection ht with ht; subst ht
    simp only [dirDelta, Option.some.injEq, Prod.mk.injEq] at hd
    obtain ⟨rfl, rfl⟩ := hd
    rw [if_neg (by decide), if_neg (by decide), if_neg (by decide), if_pos rfl, if_pos ho,
      startAnimatedMove_of_idle _ _ _ (by exact hm)]
    simp only [movedState, stepDelta_neg]
    simp
  · subst h4
    injection ht with ht; subst ht
    simp only [dirDelta, Option.some.injEq, Prod.mk.injEq] at hd
    obtain ⟨rfl, rfl⟩ := hd
    rw [if_neg (by decide), if_neg (by decide), if_neg (by decide), if_neg (by decide),
      if_pos rfl, if_pos ho, startAnimatedMove_of_idle _ _ _ (by exact hm)]
    simp only [movedState, stepDelta_pos]
    simp

theorem processMovementCommand_rejected (cfg : Config) (s : GameWidget) (command : String)
    (h : ¬ ∃ d tx ty, Accepted cfg s command d tx ty) :
    processMovementCommand cfg s command = s := by
  unfold processMovementCommand
  by_cases hguard : s.m_gameState ≠ GameState.Playing ∨ s.isMoving = true
  · rw [if_pos hguard]
  · rw [if_neg hguard]
    have hp : s.m_gameState = GameState.Playing := by
      by_contra hc; exact hguard (Or.inl hc)
    have hm : s.isMoving = false := by
      cases hmv : s.isMoving
      · rfl
      · exact absurd (Or.inr hmv) hguard
    have hno : ∀ d tx ty, tokenDirection command = some d → dirDelta d = some (tx, ty) →
        canMove cfg s tx ty = false := by
      intro d tx ty h1 h2
      cases hc : canMove cfg s tx ty
      · rfl
      · exfalso
        rw [canMove_eq_isOpen] at hc
        exact h ⟨d, tx, ty, hp, hm, h1, h2, hc⟩
    split_ifs with h0 h1 hc1 h2 hc2 h3 hc3 h4 hc4 <;> try rfl
    · rw [hno Direction.Up 0 (-1) (by simp [tokenDirection, h1]) rfl] at hc1
      exact absurd hc1 (by decide)
    · rw [hno Direction.Down 0 1 (by simp [tokenDirection, h1, h2]) rfl] at hc2
      exact absurd hc2 (by decide)
    · rw [hno Direction.Left (-1) 0 (by simp [tokenDirection, h1, h2, h3]) rfl] at hc3
      exact absurd hc3 (by decide)
    · rw [hno Direction.Right 1 0 (by simp [tokenDirection, h1, h2, h3, h4]) rfl] at hc4
      exact absurd hc4 (by decide)

theorem movedState_ne (cfg : Config) (s : GameWidget) (d : Direction) (tx ty : Int)
    (h : s.isMoving = false) : movedState cfg s d tx ty ≠ s := by
  intro he
  have := congrArg GameWidget.isMoving he
  simp [movedState, h] at this


/-! ## Pellets and fright mode -/


theorem processMovementCommand_moving (cfg : Config) (s : GameWidget) (command : String)
    (h : s.isMoving = true) : processMovementCommand cfg s command = s := by
  unfold processMovementCommand
  rw [if_pos (Or.inr h)]

theorem keyPressEvent_moving (cfg : Config) (s : GameWidget) (key : Key)
    (h : s.isMoving = true) : keyPressEvent cfg s key = s := by
  unfold keyPressEvent
  rw [if_pos (Or.inr h)]


theorem resetLevel_score (s : GameWidget) : (resetLevel s).m_score = s.m_score := rfl
theorem resetLevel_mazeGrid (s : GameWidget) : (resetLevel s).mazeGrid = s.mazeGrid := rfl
theorem resetLevel_ghosts (s : GameWidget) : (resetLevel s).ghosts = s.ghosts := rfl
theorem resetLevel_player (s : GameWidget) :
    (resetLevel s).pacman_macrogrid_center = s.pacman_macrogrid_center := rfl

theorem collectPellet_inBounds (cfg : Config) (s : GameWidget) (hb : PlayerInBounds cfg s) :
    collectPellet cfg s =
      if checkAllPelletsCollected cfg (afterEating s) then resetLevel (afterEating s)
      else afterEating s := by
  obtain ⟨h1, h2, h3, h4⟩ := hb
  unfold collectPellet
  have hg : ¬ (s.pacman_macrogrid_center.x < 0 ∨ s.pacman_macrogrid_center.x ≥ cfg.MAZE_WIDTH ∨
      s.pacman_macrogrid_center.y < 0 ∨ s.pacman_macrogrid_center.y ≥ cfg.MAZE_HEIGHT) := by
    omega
  simp only [if_neg hg]
  rfl

theorem collectPellet_fields (cfg : Config) (s : GameWidget) (hb : PlayerInBounds cfg s) :
    (collectPellet cfg s).m_score = (afterEating s).m_score ∧
    (collectPellet cfg s).mazeGrid = (afterEating s).mazeGrid ∧
    (collectPellet cfg s).ghosts = (afterEating s).ghosts ∧
    (collectPellet cfg s).pacman_macrogrid_center = (afterEating s).pacman_macrogrid_center := by
  rw [collectPellet_inBounds cfg s hb]
  split_ifs <;> exact ⟨rfl, rfl, rfl, rfl⟩

theorem Grid.set_same (g : Grid) (row col value : Int) : g.set row col value row col = value := by
  simp [Grid.set]

theorem Grid.set_other (g : Grid) (row col value r c : Int) (h : ¬ (r = row ∧ c = col)) :
    g.set row col value r c = g r c := by
  simp only [Grid.set, if_neg h]

theorem activatePanicMode_frightened (s : GameWidget) :
    Frightened s.ghosts (activatePanicMode s).ghosts := by
  unfold Frightened activatePanicMode
  refine ⟨by simp, ?_⟩
  intro i g hg
  simp only [List.getElem?_map, hg, Option.map_some']
  refine ⟨_, rfl, ?_, ?_⟩
  · intro ha; simp [ha]
  · intro ha; simp [ha]

/-! ## Ticks without pursuers -/


theorem collectPellet_eq (cfg : Config) (s : GameWidget) :
    collectPellet cfg s =
      if s.pacman_macrogrid_center.x < 0 ∨ s.pacman_macrogrid_center.x ≥ cfg.MAZE_WIDTH ∨
          s.pacman_macrogrid_center.y < 0 ∨ s.pacman_macrogrid_center.y ≥ cfg.MAZE_HEIGHT then s
      else if checkAllPelletsCollected cfg (afterEating s) then resetLevel (afterEating s)
      else afterEating s := rfl

theorem afterEating_withMouth (s : GameWidget) (a d k : Int) :
    afterEating (withMouth s a d k) = withMouth (afterEating s) a d k := by
  unfold afterEating
  simp only [withMouth]
  split_ifs <;> rfl

theorem checkAllPelletsCollected_withMouth (cfg : Config) (s : GameWidget) (a d k : Int) :
    checkAllPelletsCollected cfg (withMouth s a d k) = checkAllPelletsCollected cfg s := rfl

theorem collectPellet_withMouth (cfg : Config) (s : GameWidget) (a d k : Int) :
    collectPellet cfg (withMouth s a d k) = withMouth (collectPellet cfg s) a d k := by
  rw [collectPellet_eq, collectPellet_eq, afterEating_withMouth,
    checkAllPelletsCollected_withMouth]
  have e1 : (withMouth s a d k).pacman_macrogrid_center = s.pacman_macrogrid_center := rfl
  rw [e1]
  split_ifs <;> rfl

theorem animationStep_eq (cfg : Config) (s : GameWidget) :
    animationStep cfg s =
      if s.isMoving = true then
        if s.currentStep + 1 ≥ s.moveSteps then collectPellet cfg (arrived cfg s) else stepped s
      else s := by
  unfold animationStep
  by_cases h : s.isMoving = true
  · rw [if_pos h, if_neg (by rw [h]; decide)]
    rfl
  · rw [if_neg h, if_pos (by simpa using h)]

theorem animationStep_withMouth (cfg : Config) (s : GameWidget) (a d k : Int) :
    animationStep cfg (withMouth s a d k) = withMouth (animationStep cfg s) a d k := by
  rw [animationStep_eq, animationStep_eq]
  have e1 : (withMouth s a d k).isMoving = s.isMoving := rfl
  have e2 : (withMouth s a d k).currentStep = s.currentStep := rfl
  have e3 : (withMouth s a d k).moveSteps = s.moveSteps := rfl
  have e4 : arrived cfg (withMouth s a d k) = withMouth (arrived cfg s) a d k := rfl
  have e5 : stepped (withMouth s a d k) = withMouth (stepped s) a d k := rfl
  rw [e1, e2, e3, e4, e5, collectPellet_withMouth]
  split_ifs <;> rfl

theorem withMouth_self (s : GameWidget) :
    withMouth s s.m_pacmanMouthAngle s.m_pacmanMouthDirection s.m_pacmanAnimationCounter = s :=
  rfl

theorem withMouth_withMouth (s : GameWidget) (a d k a' d' k' : Int) :
    withMouth (withMouth s a d k) a' d' k' = withMouth s a' d' k' := rfl

theorem ghostAnimationStep_nil (cfg : Config) (s : GameWidget) (h : s.ghosts = []) :
    ghostAnimationStep cfg s = s := by
  unfold ghostAnimationStep
  split_ifs
  · rfl
  · simp [h, ghostLoop]

theorem checkGhostCollisions_nil (cfg : Config) (s : GameWidget) (h : s.ghosts = []) :
    checkGhostCollisions cfg s = s := by
  unfold checkGhostCollisions
  rw [h, collideLoop]
  cases s
  simp_all

theorem afterEating_ghosts_nil (s : GameWidget) (h : s.ghosts = []) :
    (afterEating s).ghosts = [] := by
  unfold afterEating
  simp only
  split_ifs
  · exact h
  · simp [activatePanicMode, h]
  · exact h

theorem collectPellet_ghosts_nil (cfg : Config) (s : GameWidget) (h : s.ghosts = []) :
    (collectPellet cfg s).ghosts = [] := by
  rw [collectPellet_eq]
  split_ifs
  · exact h
  · exact afterEating_ghosts_nil s h
  · exact afterEating_ghosts_nil s h

theorem animationStep_ghosts_nil (cfg : Config) (s : GameWidget) (h : s.ghosts = []) :
    (animationStep cfg s).ghosts = [] := by
  unfold animationStep
  simp only
  split_ifs
  · exact h
  · exact collectPellet_ghosts_nil cfg _ h
  · exact h

theorem animateMouth_eq (s : GameWidget) :
    animateMouth s = withMouth s (animateMouth s).m_pacmanMouthAngle
      (animateMouth s).m_pacmanMouthDirection (animateMouth s).m_pacmanAnimationCounter := by
  unfold animateMouth
  simp only
  split_ifs <;> rfl

theorem animateMouth_ghosts (s : GameWidget) : (animateMouth s).ghosts = s.ghosts := by
  rw [animateMouth_eq]; rfl

/-- A tick with no pursuers, while the player moves, is an animation step up to the mouth. -/
theorem timerEvent_moving (cfg : Config) (s : GameWidget)
    (hp : s.m_gameState = GameState.Playing) (hg : s.ghosts = []) (hm : s.isMoving = true) :
    ∃ a d k, timerEvent cfg s = withMouth (animationStep cfg s) a d k := by
  have hg' : (animateMouth (animationStep cfg s)).ghosts = [] := by
    rw [animateMouth_ghosts]; exact animationStep_ghosts_nil cfg s hg
  have e : timerEvent cfg s = animateMouth (animationStep cfg s) := by
    unfold timerEvent
    rw [hp]
    simp only
    unfold updateGame
    simp only [hm, if_true]
    rw [ghostAnimationStep_nil _ _ hg', checkGhostCollisions_nil _ _ hg']
  rw [e]
  exact ⟨_, _, _, animateMouth_eq _⟩

theorem animationSteps_withMouth (cfg : Config) (n : Nat) (s : GameWidget) (a d k : Int) :
    animationSteps cfg n (withMouth s a d k) = withMouth (animationSteps cfg n s) a d k := by
  induction n generalizing s with
  | zero => rfl
  | succ n ih => simp only [animationSteps]; rw [animationStep_withMouth, ih]

/-- While the player keeps moving and no pursuer exists, `n` ticks are `n` animation steps
up to the mouth. -/
theorem ticks_moving (cfg : Config) (n : Nat) (s : GameWidget) (hg : s.ghosts = [])
    (h : ∀ i, i < n → (animationSteps cfg i s).m_gameState = GameState.Playing ∧
      (animationSteps cfg i s).isMoving = true) :
    ∃ a d k, ticks cfg n s = withMouth (animationSteps cfg n s) a d k := by
  induction n generalizing s with
  | zero => exact ⟨_, _, _, (withMouth_self s).symm⟩
  | succ n ih =>
    obtain ⟨hp, hm⟩ := h 0 (Nat.succ_pos n)
    obtain ⟨a, d, k, e⟩ := timerEvent_moving cfg s hp hg hm
    simp only [ticks, animationSteps]
    rw [e]
    have hg1 : (animationStep cfg s).ghosts = [] := animationStep_ghosts_nil cfg s hg
    obtain ⟨a', d', k', e'⟩ := ih (withMouth (animationStep cfg s) a d k) hg1 (by
      intro i hi
      rw [animationSteps_withMouth]
      exact h (i + 1) (Nat.succ_lt_succ hi))
    rw [e', animationSteps_withMouth]
    exact ⟨a', d', k', rfl⟩


/-! ## Moves of the player and the two-move scenario -/


theorem stepped_midMove (s : GameWidget) (i : Nat) :
    midMove (stepped s) i = midMove s (i + 1) := by
  unfold midMove stepped
  simp only [Nat.cast_add, Nat.cast_one]
  congr 1
  · ring
  · congr 1 <;> ring

theorem midMove_zero (s : GameWidget) : midMove s 0 = s := by
  unfold midMove
  simp

/-- In the middle of a move, `i` animation steps only advance the step counter and the
render position. -/
theorem animationSteps_mid (cfg : Config) (i : Nat) (s : GameWidget)
    (hm : s.isMoving = true) (hi : s.currentStep + i < s.moveSteps) :
    animationSteps cfg i s = midMove s i := by
  induction i generalizing s with
  | zero => rw [midMove_zero]; rfl
  | succ i ih =>
    have h1 : ¬ s.currentStep + 1 ≥ s.moveSteps := by push_cast at hi; omega
    simp only [animationSteps]
    rw [animationStep_eq, if_pos hm, if_neg h1, ih (stepped s) hm (by
      show s.currentStep + 1 + (i : Int) < s.moveSteps
      push_cast at hi; omega), stepped_midMove]

/-- The last animation step of a move snaps the player to a tile and collects there. -/
theorem animationSteps_last (cfg : Config) (i : Nat) (s : GameWidget)
    (hm : s.isMoving = true) (hi : s.currentStep + i < s.moveSteps)
    (hl : s.currentStep + i + 1 ≥ s.moveSteps) :
    animationSteps cfg (i + 1) s = collectPellet cfg (arrived cfg (midMove s i)) := by
  have e : ∀ (n : Nat) (t : GameWidget),
      animationSteps cfg (n + 1) t = animationStep cfg (animationSteps cfg n t) := by
    intro n
    induction n with
    | zero => intro t; rfl
    | succ n ih => intro t; exact ih (animationStep cfg t)
  rw [e, animationSteps_mid cfg i s hm hi, animationStep_eq]
  have hm' : (midMove s i).isMoving = true := hm
  have hl' : (midMove s i).currentStep + 1 ≥ (midMove s i).moveSteps := hl
  rw [if_pos hm', if_pos hl']

theorem gridToMacroGrid_right (cfg : Config) (h32 : cfg.TILE_SIZE = 32) (c r : Int)
    (hc0 : 0 ≤ c) (hc : c + 1 < cfg.MAZE_WIDTH) (hr0 : 0 ≤ r) (hr : r < cfg.MAZE_HEIGHT) :
    gridToMacroGrid cfg (c * 32 + 16 + 30) (r * 32 + 16) = ⟨c + 1, r⟩ := by
  unfold gridToMacroGrid qBound
  simp only [h32]
  rw [Int.tdiv_eq_ediv (by omega) (by omega), Int.tdiv_eq_ediv (by omega) (by omega)]
  have e1 : (c * 32 + 16 + 30) / 32 = c + 1 := by omega
  have e2 : (r * 32 + 16) / 32 = r := by omega
  rw [e1, e2]
  congr 1
  · omega
  · omega

/-- With 32-pixel tiles, an accepted command "Right" followed by six ticks carries an idle
player from tile `(c, r)` to tile `(c + 1, r)`, where `collectPellet` runs. -/
theorem ticks_move_right (cfg : Config) (h32 : cfg.TILE_SIZE = 32) (s : GameWidget) (c r : Int)
    (hs : Standing cfg s c r)
    (hc0 : 0 ≤ c) (hc : c + 1 < cfg.MAZE_WIDTH) (hr0 : 0 ≤ r) (hr : r < cfg.MAZE_HEIGHT)
    (hw : s.mazeGrid r (c + 1) ≠ 1) :
    ∃ (A : GameWidget) (a d k : Int),
      ticks cfg 6 (processMovementCommand cfg s "Right") = withMouth (collectPellet cfg A) a d k ∧
      Standing cfg A (c + 1) r ∧ A.m_score = s.m_score ∧ A.mazeGrid = s.mazeGrid := by
  obtain ⟨hp, hm, hms, hg, hpos, hpix⟩ := hs
  have hacc : Accepted cfg s "Right" Direction.Right 1 0 := by
    refine ⟨hp, hm, rfl, rfl, ?_⟩
    rw [hpos]
    unfold isOpen
    simp only [decide_eq_true_eq]
    refine ⟨?_, ?_, ?_, ?_, ?_⟩ <;> first | omega | (simpa using hw)
  rw [processMovementCommand_accepted cfg s "Right" Direction.Right 1 0 hacc]
  have hP5 : ∀ i, i < 6 →
      (animationSteps cfg i (movedState cfg s Direction.Right 1 0)).m_gameState
        = GameState.Playing ∧
      (animationSteps cfg i (movedState cfg s Direction.Right 1 0)).isMoving = true := by
    intro i hi
    rw [animationSteps_mid cfg i _ rfl (by
      show (0 : Int) + (i : Int) < s.moveSteps
      rw [hms]; unfold MOVESTEPS; omega)]
    exact ⟨hp, rfl⟩
  obtain ⟨a, d, k, e⟩ := ticks_moving cfg 6 (movedState cfg s Direction.Right 1 0) hg hP5
  rw [e, animationSteps_last cfg 5 _ rfl (by
      show (0 : Int) + ((5 : Nat) : Int) < s.moveSteps
      rw [hms]; unfold MOVESTEPS; omega) (by
      show (0 : Int) + ((5 : Nat) : Int) + 1 ≥ s.moveSteps
      rw [hms]; unfold MOVESTEPS; omega)]
  refine ⟨_, a, d, k, rfl, ?_, rfl, rfl⟩
  have hd : Int.tdiv (32 : Int) 6 = 5 := by decide
  have hh : Int.tdiv (32 : Int) 2 = 16 := by decide
  have htile : gridToMacroGrid cfg
      (stepped (midMove (movedState cfg s Direction.Right 1 0) 5)).pacman_grid_center.x
      (stepped (midMove (movedState cfg s Direction.Right 1 0) 5)).pacman_grid_center.y
        = ⟨c + 1, r⟩ := by
    have := gridToMacroGrid_right cfg h32 c r hc0 hc hr0 hr
    rw [← this]
    simp only [stepped, midMove, movedState, hpix, macroGridToGridCenter, h32, hms, MOVESTEPS, hd,
      hh]
    congr 1 <;> omega
  refine ⟨hp, rfl, hms, hg, ?_, ?_⟩
  · exact htile
  · show macroGridToGridCenter cfg _ _ = _
    rw [htile]


theorem afterEating_pellet (s : GameWidget) (h : playerCell s = 0) :
    afterEating s =
      { s with
        m_score := s.m_score + 1
        mazeGrid := s.mazeGrid.set s.pacman_macrogrid_center.y s.pacman_macrogrid_center.x 3
        sfxLog := Sfx.pellet :: s.sfxLog } := by
  unfold playerCell at h
  unfold afterEating
  simp only [h, if_true]

theorem afterEating_powerPellet (s : GameWidget) (h : playerCell s = 4) :
    afterEating s =
      { activatePanicMode
          { s with
            m_score := s.m_score + 5
            mazeGrid := s.mazeGrid.set s.pacman_macrogrid_center.y s.pacman_macrogrid_center.x 3 }
        with sfxLog := Sfx.powerPellet :: s.sfxLog } := by
  unfold playerCell at h
  unfold afterEating
  simp only [h]
  simp
  rfl


theorem scenarioStart_phase (u : GameWidget) :
    (scenarioStart u).m_gameState = GameState.Playing := rfl
theorem scenarioStart_isMoving (u : GameWidget) : (scenarioStart u).isMoving = false := rfl
theorem scenarioStart_moveSteps (u : GameWidget) : (scenarioStart u).moveSteps = MOVESTEPS := rfl
theorem scenarioStart_ghosts (u : GameWidget) : (scenarioStart u).ghosts = [] := rfl
theorem scenarioStart_tile (u : GameWidget) :
    (scenarioStart u).pacman_macrogrid_center = ⟨0, 1⟩ := rfl
theorem scenarioStart_pixel (u : GameWidget) :
    (scenarioStart u).pacman_grid_center = macroGridToGridCenter scenarioCfg 0 1 := rfl
theorem scenarioStart_score (u : GameWidget) : (scenarioStart u).m_score = 0 := rfl
set_option maxHeartbeats 2000000 in
theorem scenarioStart_grid (u : GameWidget) :
    (scenarioStart u).mazeGrid 0 0 = 1 ∧ (scenarioStart u).mazeGrid 0 1 = 1 ∧
    (scenarioStart u).mazeGrid 0 2 = 1 ∧ (scenarioStart u).mazeGrid 1 0 = 3 ∧
    (scenarioStart u).mazeGrid 1 1 = 0 ∧ (scenarioStart u).mazeGrid 1 2 = 4 :=
  ⟨rfl, rfl, rfl, rfl, rfl, rfl⟩


theorem scenarioStart_standing (u : GameWidget) : Standing scenarioCfg (scenarioStart u) 0 1 :=
  ⟨scenarioStart_phase u, scenarioStart_isMoving u, scenarioStart_moveSteps u,
    scenarioStart_ghosts u, scenarioStart_tile u, scenarioStart_pixel u⟩

theorem checkAllPelletsCollected_scenario (s : GameWidget) :
    checkAllPelletsCollected scenarioCfg s =
      (!(s.mazeGrid 0 0 == 0 || s.mazeGrid 0 0 == 4) && !(s.mazeGrid 0 1 == 0 || s.mazeGrid 0 1 == 4)
        && !(s.mazeGrid 0 2 == 0 || s.mazeGrid 0 2 == 4) &&
       (!(s.mazeGrid 1 0 == 0 || s.mazeGrid 1 0 == 4) && !(s.mazeGrid 1 1 == 0 || s.mazeGrid 1 1 == 4)
        && !(s.mazeGrid 1 2 == 0 || s.mazeGrid 1 2 == 4))) := by
  unfold checkAllPelletsCollected scenarioCfg
  simp [List.range_succ, Bool.and_assoc]

/-- The first move of the scenario: the player reaches tile `(1, 1)` and eats the pellet. -/
theorem scenario_first_move (u : GameWidget) :
    ∃ s1 : GameWidget, scenarioMid u = s1 ∧
      Standing scenarioCfg s1 1 1 ∧ s1.m_score = 1 ∧
      s1.mazeGrid 0 0 = 1 ∧ s1.mazeGrid 0 1 = 1 ∧ s1.mazeGrid 0 2 = 1 ∧
      s1.mazeGrid 1 0 = 3 ∧ s1.mazeGrid 1 1 = 3 ∧ s1.mazeGrid 1 2 = 4 := by
  obtain ⟨g00, g01, g02, g10, g11, g12⟩ := scenarioStart_grid u
  have sc := scenarioStart_score u
  obtain ⟨A, a, d, k, e, hA, hsc, hg⟩ :=
    ticks_move_right scenarioCfg rfl (scenarioStart u) 0 1 (scenarioStart_standing u)
      (by decide) (by decide) (by decide) (by decide)
      (by show (scenarioStart u).mazeGrid 1 1 ≠ 1; rw [g11]; decide)
  obtain ⟨hp, hm, hms, hgh, hpos, hpix⟩ := hA
  have hpos' : A.pacman_macrogrid_center = ⟨1, 1⟩ := hpos
  have hb : PlayerInBounds scenarioCfg A := by
    unfold PlayerInBounds; rw [hpos']; decide
  have hcell : playerCell A = 0 := by
    unfold playerCell; rw [hpos', hg]; exact g11
  have hE := afterEating_pellet A hcell
  rw [hpos'] at hE
  have hcheck : checkAllPelletsCollected scenarioCfg (afterEating A) = false := by
    rw [checkAllPelletsCollected_scenario, hE]
    simp [Grid.set, hg, g12]
  have hC : collectPellet scenarioCfg A = afterEating A := by
    rw [collectPellet_inBounds scenarioCfg A hb, hcheck]; rfl
  refine ⟨_, rfl, ?_⟩
  unfold scenarioMid
  rw [e, hC, hE]
  refine ⟨⟨hp, hm, hms, hgh, rfl, hpix⟩, ?_, ?_⟩
  · show A.m_score + 1 = 1
    rw [hsc, sc]; rfl
  · simp [withMouth, Grid.set, hg, g00, g01, g02, g10, g12]

/-- The second move of the scenario: the player reaches tile `(2, 1)`, eats the power
pellet, and the round is won. -/
theorem scenario_second_move (s1 : GameWidget) (hS : Standing scenarioCfg s1 1 1)
    (hsc : s1.m_score = 1)
    (hgrid : s1.mazeGrid 0 0 = 1 ∧ s1.mazeGrid 0 1 = 1 ∧ s1.mazeGrid 0 2 = 1 ∧
      s1.mazeGrid 1 0 = 3 ∧ s1.mazeGrid 1 1 = 3 ∧ s1.mazeGrid 1 2 = 4) :
    ∃ s2 : GameWidget,
      ticks scenarioCfg 6 (processMovementCommand scenarioCfg s1 "Right") = s2 ∧
      s2.m_score = 6 ∧ s2.m_gameState = GameState.Win ∧ s2.isMoving = false ∧
      s2.pacman_macrogrid_center = ⟨2, 1⟩ ∧
      s2.mazeGrid 0 0 = 1 ∧ s2.mazeGrid 0 1 = 1 ∧ s2.mazeGrid 0 2 = 1 ∧
      s2.mazeGrid 1 0 = 3 ∧ s2.mazeGrid 1 1 = 3 ∧ s2.mazeGrid 1 2 = 3 := by
  obtain ⟨g00, g01, g02, g10, g11, g12⟩ := hgrid
  obtain ⟨A, a, d, k, e, hA, hscA, hg⟩ :=
    ticks_move_right scenarioCfg rfl s1 1 1 hS
      (by decide) (by decide) (by decide) (by decide)
      (by show s1.mazeGrid 1 (1 + 1) ≠ 1; norm_num; rw [g12]; decide)
  obtain ⟨hp, hm, hms, hgh, hpos, hpix⟩ := hA
  have hpos' : A.pacman_macrogrid_center = ⟨2, 1⟩ := hpos
  have hb : PlayerInBounds scenarioCfg A := by
    unfold PlayerInBounds; rw [hpos']; decide
  have hcell : playerCell A = 4 := by
    unfold playerCell; rw [hpos', hg]; exact g12
  have hE := afterEating_powerPellet A hcell
  rw [hpos'] at hE
  have hcheck : checkAllPelletsCollected scenarioCfg (afterEating A) = true := by
    rw [checkAllPelletsCollected_scenario, hE]
    simp [activatePanicMode, Grid.set, hg, g00, g01, g02, g10, g11]
  have hC : collectPellet scenarioCfg A = resetLevel (afterEating A) := by
    rw [collectPellet_inBounds scenarioCfg A hb, hcheck]; rfl
  refine ⟨_, rfl, ?_⟩
  rw [e, hC, hE]
  refine ⟨?_, rfl, hm, rfl, ?_⟩
  · show A.m_score + 5 = 6
    rw [hscA, hsc]; rfl
  · simp [withMouth, resetLevel, activatePanicMode, Grid.set, hg, g00, g01, g02, g10, g11]



/-! ## Walks in the maze and the order of the neighbours -/


theorem reachIn_zero (cfg : Config) (grid : Grid) (a b : QPoint) :
    reachIn cfg grid 0 a b = true ↔ a = b ∧ isOpen cfg grid a = true := by
  simp [reachIn]

theorem reachIn_succ (cfg : Config) (grid : Grid) (k : Nat) (a b : QPoint) :
    reachIn cfg grid (k + 1) a b = true ↔
      isOpen cfg grid a = true ∧ ∃ n ∈ neighbors a, reachIn cfg grid k n b = true := by
  simp [reachIn]

theorem reachIn_open_left (cfg : Config) (grid : Grid) (k : Nat) (a b : QPoint)
    (h : reachIn cfg grid k a b = true) : isOpen cfg grid a = true := by
  cases k with
  | zero => exact ((reachIn_zero cfg grid a b).1 h).2
  | succ k => exact ((reachIn_succ cfg grid k a b).1 h).1

theorem reachIn_open_right (cfg : Config) (grid : Grid) (k : Nat) (a b : QPoint)
    (h : reachIn cfg grid k a b = true) : isOpen cfg grid b = true := by
  induction k generalizing a with
  | zero =>
    obtain ⟨rfl, ho⟩ := (reachIn_zero cfg grid a b).1 h
    exact ho
  | succ k ih =>
    obtain ⟨_, n, _, hn⟩ := (reachIn_succ cfg grid k a b).1 h
    exact ih n hn

/-- A walk can be extended by one step at its end. -/
theorem reachIn_snoc (cfg : Config) (grid : Grid) (k : Nat) (a p b : QPoint)
    (h : reachIn cfg grid k a p = true) (hb : b ∈ neighbors p)
    (hob : isOpen cfg grid b = true) : reachIn cfg grid (k + 1) a b = true := by
  induction k generalizing a with
  | zero =>
    obtain ⟨rfl, ho⟩ := (reachIn_zero cfg grid a p).1 h
    exact (reachIn_succ cfg grid 0 a b).2 ⟨ho, b, hb, (reachIn_zero cfg grid b b).2 ⟨rfl, hob⟩⟩
  | succ k ih =>
    obtain ⟨ho, n, hn, hw⟩ := (reachIn_succ cfg grid k a p).1 h
    exact (reachIn_succ cfg grid (k + 1) a b).2 ⟨ho, n, hn, ih n hw⟩

/-- A walk of `k + 1` steps ends with a step from some tile `p` reached in `k` steps. -/
theorem reachIn_last (cfg : Config) (grid : Grid) (k : Nat) (a b : QPoint)
    (h : reachIn cfg grid (k + 1) a b = true) :
    ∃ p, reachIn cfg grid k a p = true ∧ b ∈ neighbors p := by
  induction k generalizing a with
  | zero =>
    obtain ⟨ho, n, hn, hw⟩ := (reachIn_succ cfg grid 0 a b).1 h
    obtain ⟨rfl, _⟩ := (reachIn_zero cfg grid n b).1 hw
    exact ⟨a, (reachIn_zero cfg grid a a).2 ⟨rfl, ho⟩, hn⟩
  | succ k ih =>
    obtain ⟨ho, n, hn, hw⟩ := (reachIn_succ cfg grid (k + 1) a b).1 h
    obtain ⟨p, hp, hb⟩ := ih n hw
    exact ⟨p, (reachIn_succ cfg grid k a p).2 ⟨ho, n, hn, hp⟩, hb⟩

/-- A walk can be extended by one step at its start. -/
theorem reachIn_cons (cfg : Config) (grid : Grid) (k : Nat) (a n b : QPoint)
    (ha : isOpen cfg grid a = true) (hn : n ∈ neighbors a)
    (h : reachIn cfg grid k n b = true) : reachIn cfg grid (k + 1) a b = true :=
  (reachIn_succ cfg grid k a b).2 ⟨ha, n, hn, h⟩

/-- Shortest-path lengths exist for every reachable pair: some function gives, for every
tile reachable from `s`, the least number of steps. -/
theorem exists_lev (cfg : Config) (grid : Grid) (s : QPoint) :
    ∃ lev : QPoint → Nat, ∀ v k, reachIn cfg grid k s v = true →
      reachIn cfg grid (lev v) s v = true ∧ lev v ≤ k := by
  classical
  refine ⟨fun v => if h : ∃ k, reachIn cfg grid k s v = true then Nat.find h else 0, ?_⟩
  intro v k hk
  have h : ∃ k, reachIn cfg grid k s v = true := ⟨k, hk⟩
  simp only [dif_pos h]
  exact ⟨Nat.find_spec h, Nat.find_min' h hk⟩

theorem rk_le (s x : QPoint) : rk s x ≤ 4 := by
  unfold rk; split_ifs <;> omega

theorem rk_lt_iff (s x : QPoint) : rk s x < 4 ↔ x ∈ neighbors s := by
  unfold rk neighbors
  simp only [List.mem_cons, List.mem_singleton, List.not_mem_nil, or_false]
  split_ifs with h1 h2 h3 h4 <;> simp_all

theorem rk_self (s : QPoint) : rk s s = 4 := by
  unfold rk
  have h1 : s ≠ ⟨s.x, s.y - 1⟩ := by
    intro h; have := congrArg QPoint.y h; dsimp only at this; omega
  have h2 : s ≠ ⟨s.x, s.y + 1⟩ := by
    intro h; have := congrArg QPoint.y h; dsimp only at this; omega
  have h3 : s ≠ ⟨s.x - 1, s.y⟩ := by
    intro h; have := congrArg QPoint.x h; dsimp only at this; omega
  have h4 : s ≠ ⟨s.x + 1, s.y⟩ := by
    intro h; have := congrArg QPoint.x h; dsimp only at this; omega
  rw [if_neg h1, if_neg h2, if_neg h3, if_neg h4]

/-- The first neighbour of `s` (in the order up, down, left, right) that satisfies `p` is
the one of least rank. -/
theorem find_neighbors_iff (s x : QPoint) (p : QPoint → Bool) :
    (neighbors s).find? p = some x ↔
      p x = true ∧ x ∈ neighbors s ∧ ∀ y ∈ neighbors s, p y = true → rk s x ≤ rk s y := by
  have r0 : rk s ⟨s.x, s.y - 1⟩ = 0 := by simp [rk]
  have r1 : rk s ⟨s.x, s.y + 1⟩ = 1 := by
    unfold rk
    rw [if_neg (by intro h; have := congrArg QPoint.y h; simp at this; omega), if_pos rfl]
  have r2 : rk s ⟨s.x - 1, s.y⟩ = 2 := by
    unfold rk
    rw [if_neg (by intro h; have := congrArg QPoint.x h; simp at this),
      if_neg (by intro h; have := congrArg QPoint.x h; simp at this), if_pos rfl]
  have r3 : rk s ⟨s.x + 1, s.y⟩ = 3 := by
    unfold rk
    rw [if_neg (by intro h; have := congrArg QPoint.x h; simp at this),
      if_neg (by intro h; have := congrArg QPoint.x h; simp at this),
      if_neg (by intro h; have := congrArg QPoint.x h; simp at this; omega), if_pos rfl]
  unfold neighbors
  simp only [List.find?_cons, List.find?_nil, List.mem_cons, List.mem_singleton,
    List.not_mem_nil, or_false, forall_eq_or_imp, forall_eq, r0, r1, r2, r3]
  cases h0 : p ⟨s.x, s.y - 1⟩ <;> cases h1 : p ⟨s.x, s.y + 1⟩ <;>
    cases h2 : p ⟨s.x - 1, s.y⟩ <;> cases h3 : p ⟨s.x + 1, s.y⟩ <;>
    simp only [Option.some.injEq, false_implies, true_implies, implies_true, true_and,
      and_true, Bool.false_eq_true, reduceCtorEq, false_iff, not_and] <;>
    first
    | (intro hx hm; rcases hm with rfl | rfl | rfl | rfl <;> simp_all)
    | (constructor
       · rintro rfl; simp_all
       · rintro ⟨hx, hm, hmin⟩
         rcases hm with rfl | rfl | rfl | rfl <;> simp_all)


/-! ## One step of the neighbour loop -/


theorem isOpen_iff (cfg : Config) (grid : Grid) (p : QPoint) :
    isOpen cfg grid p = true ↔
      0 ≤ p.y ∧ p.y < cfg.MAZE_HEIGHT ∧ 0 ≤ p.x ∧ p.x < cfg.MAZE_WIDTH ∧ grid p.y p.x ≠ 1 := by
  simp [isOpen]

theorem QPoint.eq_iff (p q : QPoint) : p = q ↔ p.y = q.y ∧ p.x = q.x := by
  constructor
  · rintro rfl; exact ⟨rfl, rfl⟩
  · rintro ⟨h1, h2⟩
    cases p; cases q
    simp only at h1 h2
    subst h1 h2
    rfl

theorem visit_skip (E : BfsEnv) (cur : QPoint) (st : BfsState) (n : QPoint)
    (h : isOpen E.cfg E.grid n = false ∨ st.vis n) : E.visit cur st n = st := by
  unfold BfsEnv.visit visitNeighbor
  simp only
  rw [if_pos]
  rcases h with h | h
  · have h' : ¬ (isOpen E.cfg E.grid n = true) := by simp [h]
    rw [isOpen_iff] at h'
    by_contra hc
    push_neg at hc
    apply h'
    refine ⟨by omega, by omega, by omega, by omega, hc.2.2.2.2.1⟩
  · exact Or.inr (Or.inr (Or.inr (Or.inr (Or.inr h))))

theorem visit_new (E : BfsEnv) (cur : QPoint) (st : BfsState) (n : QPoint)
    (ho : isOpen E.cfg E.grid n = true) (hv : ¬ st.vis n) :
    E.visit cur st n =
      { visited := fun r c => if r = n.y ∧ c = n.x then true else st.visited r c
        cameFrom := fun r c => if r = n.y ∧ c = n.x then cur else st.cameFrom r c
        queue := st.queue ++ [n]
        lookup := fun i j =>
          if i = E.startId ∧ j = (E.pointToId n).getD 0 then E.firstStep cur st n
          else st.lookup i j } := by
  unfold BfsEnv.visit visitNeighbor
  simp only
  rw [isOpen_iff] at ho
  rw [if_neg]
  · rfl
  · unfold BfsState.vis at hv
    push_neg
    refine ⟨by omega, by omega, by omega, by omega, ho.2.2.2.2, hv⟩

theorem visit_vis (E : BfsEnv) (cur : QPoint) (st : BfsState) (n : QPoint)
    (ho : isOpen E.cfg E.grid n = true) (hv : ¬ st.vis n) (v : QPoint) :
    (E.visit cur st n).vis v ↔ v = n ∨ st.vis v := by
  rw [visit_new E cur st n ho hv]
  unfold BfsState.vis
  simp only
  rw [QPoint.eq_iff]
  by_cases h : v.y = n.y ∧ v.x = n.x
  · simp [h]
  · simp [h]

theorem visit_cf (E : BfsEnv) (cur : QPoint) (st : BfsState) (n : QPoint)
    (ho : isOpen E.cfg E.grid n = true) (hv : ¬ st.vis n) (v : QPoint) :
    (E.visit cur st n).cf v = if v = n then cur else st.cf v := by
  rw [visit_new E cur st n ho hv]
  unfold BfsState.cf
  simp only
  by_cases h : v.y = n.y ∧ v.x = n.x
  · rw [if_pos h, if_pos ((QPoint.eq_iff v n).2 h)]
  · rw [if_neg h, if_neg (fun hc => h ((QPoint.eq_iff v n).1 hc))]

theorem visit_queue (E : BfsEnv) (cur : QPoint) (st : BfsState) (n : QPoint)
    (ho : isOpen E.cfg E.grid n = true) (hv : ¬ st.vis n) :
    (E.visit cur st n).queue = st.queue ++ [n] := by
  rw [visit_new E cur st n ho hv]

theorem visit_tb_new (E : BfsEnv) (cur : QPoint) (st : BfsState) (n : QPoint)
    (ho : isOpen E.cfg E.grid n = true) (hv : ¬ st.vis n) :
    E.tb (E.visit cur st n) n = E.firstStep cur st n := by
  rw [visit_new E cur st n ho hv]
  unfold BfsEnv.tb
  simp

theorem visit_tb_old (E : BfsEnv) (hE : E.Ok) (cur : QPoint) (st : BfsState) (n : QPoint)
    (ho : isOpen E.cfg E.grid n = true) (hv : ¬ st.vis n) (v : QPoint)
    (hov : isOpen E.cfg E.grid v = true) (hne : v ≠ n) :
    E.tb (E.visit cur st n) v = E.tb st v := by
  rw [visit_new E cur st n ho hv]
  unfold BfsEnv.tb
  simp only
  rw [if_neg]
  rintro ⟨_, h⟩
  exact hne (hE.2.2.1 v n hov ho h)

theorem visit_lookup_other (E : BfsEnv) (cur : QPoint) (st : BfsState) (n : QPoint)
    (i j : Nat) (hi : i ≠ E.startId) : (E.visit cur st n).lookup i j = st.lookup i j := by
  unfold BfsEnv.visit visitNeighbor
  simp only
  split_ifs with h1
  · rfl
  · simp only
    rw [if_neg (fun h => hi h.1)]


/-! ## Distances from the start tile and the trace back to it -/


theorem mem_cells (cfg : Config) (p : QPoint) :
    p ∈ cells cfg ↔
      0 ≤ p.y ∧ p.y < cfg.MAZE_HEIGHT ∧ 0 ≤ p.x ∧ p.x < cfg.MAZE_WIDTH := by
  unfold cells
  simp only [List.mem_flatMap, List.mem_map, List.mem_range]
  constructor
  · rintro ⟨r, hr, c, hc, rfl⟩
    simp only
    omega
  · rintro ⟨h1, h2, h3, h4⟩
    refine ⟨p.y.toNat, by omega, p.x.toNat, by omega, ?_⟩
    rw [QPoint.eq_iff]
    simp only
    omega

theorem cells_length (cfg : Config) :
    (cells cfg).length = cfg.MAZE_WIDTH * cfg.MAZE_HEIGHT := by
  unfold cells
  rw [List.length_flatMap]
  simp [Function.comp_def, Nat.mul_comm]

theorem mem_cells_of_open (cfg : Config) (grid : Grid) (p : QPoint)
    (h : isOpen cfg grid p = true) : p ∈ cells cfg := by
  rw [isOpen_iff] at h
  rw [mem_cells]
  exact ⟨h.1, h.2.1, h.2.2.1, h.2.2.2.1⟩

theorem nvis_le (cfg : Config) (st : BfsState) :
    nvis cfg st ≤ cfg.MAZE_WIDTH * cfg.MAZE_HEIGHT := by
  unfold nvis
  rw [← cells_length]
  exact List.length_filter_le _ _

theorem lev_start (E : BfsEnv) (hE : E.Ok) : E.lev E.startPoint = 0 := by
  have := (hE.2.2.2 E.startPoint 0 ((reachIn_zero _ _ _ _).2 ⟨rfl, hE.1⟩)).2
  omega

theorem lev_spec (E : BfsEnv) (hE : E.Ok) (v : QPoint) (h : E.Reachable v) :
    reachIn E.cfg E.grid (E.lev v) E.startPoint v = true := by
  obtain ⟨k, hk⟩ := h
  exact (hE.2.2.2 v k hk).1

theorem lev_le (E : BfsEnv) (hE : E.Ok) (v : QPoint) (k : Nat)
    (h : reachIn E.cfg E.grid k E.startPoint v = true) : E.lev v ≤ k :=
  (hE.2.2.2 v k h).2

theorem lev_eq_zero (E : BfsEnv) (hE : E.Ok) (v : QPoint) (h : E.Reachable v)
    (h0 : E.lev v = 0) : v = E.startPoint := by
  have := lev_spec E hE v h
  rw [h0, reachIn_zero] at this
  exact this.1.symm

theorem reachable_step (E : BfsEnv) (hE : E.Ok) (p n : QPoint) (hp : E.Reachable p)
    (hn : n ∈ neighbors p) (ho : isOpen E.cfg E.grid n = true) :
    E.Reachable n ∧ E.lev n ≤ E.lev p + 1 := by
  have h1 := reachIn_snoc E.cfg E.grid (E.lev p) E.startPoint p n (lev_spec E hE p hp) hn ho
  exact ⟨⟨_, h1⟩, lev_le E hE n _ h1⟩

/-- Following `cameFrom` from a visited tile leads to the start tile, and the first step
found on the way is the table entry of that tile. -/
theorem traceLoop_eq (E : BfsEnv) (st : BfsState) (q : List QPoint)
    (hc : E.Core st q) (cameFrom : Int → Int → QPoint)
    (hcf : ∀ v, st.vis v → cameFrom v.y v.x = st.cf v) (fuel : Nat) (x c : QPoint)
    (hv : st.vis c) (hf : E.lev c ≤ fuel) :
    traceLoop E.startPoint cameFrom fuel x c =
      if c = E.startPoint then x else E.tb st c := by
  induction fuel generalizing x c with
  | zero =>
    by_cases h : c = E.startPoint
    · rw [if_pos h]; rfl
    · have := (hc.chain c hv h).2.1
      omega
  | succ fuel ih =>
    unfold traceLoop
    by_cases h : c = E.startPoint
    · rw [if_neg (by simpa using h), if_pos h]
    · rw [if_pos h, if_neg h]
      obtain ⟨h1, h2, h3⟩ := hc.chain c hv h
      rw [hcf c hv, ih c (st.cf c) h1 (by omega), h3]

theorem firstStep_eq (E : BfsEnv) (st : BfsState) (q : List QPoint)
    (hc : E.Core st q) (cur n : QPoint) (hcur : st.vis cur) (hn : ¬ st.vis n) :
    E.firstStep cur st n = if cur = E.startPoint then n else E.tb st cur := by
  unfold BfsEnv.firstStep
  apply traceLoop_eq E st q hc _ _ _ n cur hcur
  · have := hc.budget cur hcur
    have := nvis_le E.cfg st
    omega
  · intro v hv
    unfold BfsState.cf
    rw [if_neg]
    intro h
    exact hn (by rw [← (QPoint.eq_iff v n).2 h]; exact hv)

theorem filter_length_mono {α : Type} (l : List α) (p q : α → Bool)
    (h : ∀ a, p a = true → q a = true) : (l.filter p).length ≤ (l.filter q).length := by
  induction l with
  | nil => simp
  | cons b l ih =>
    simp only [List.filter_cons]
    cases hb : p b
    · simp only [Bool.false_eq_true, if_false]
      split_ifs
      · simp only [List.length_cons]; omega
      · exact ih
    · rw [h b hb]
      simp only [if_true, List.length_cons]
      omega

theorem filter_length_lt {α : Type} (l : List α) (p q : α → Bool)
    (h : ∀ a, p a = true → q a = true) (n : α) (hn : n ∈ l) (hp : p n = false)
    (hq : q n = true) : (l.filter p).length < (l.filter q).length := by
  induction l with
  | nil => exact absurd hn (List.not_mem_nil n)
  | cons b l ih =>
    simp only [List.filter_cons]
    rcases List.mem_cons.1 hn with rfl | hl
    · rw [hp, hq]
      simp only [Bool.false_eq_true, if_false, if_true, List.length_cons]
      have := filter_length_mono l p q h
      omega
    · have := ih hl
      cases hb : p b
      · simp only [Bool.false_eq_true, if_false]
        split_ifs
        · simp only [List.length_cons]; omega
        · exact this
      · rw [h b hb]
        simp only [if_true, List.length_cons]
        omega

theorem nvis_visit (E : BfsEnv) (cur : QPoint) (st : BfsState) (n : QPoint)
    (ho : isOpen E.cfg E.grid n = true) (hv : ¬ st.vis n) :
    nvis E.cfg st < nvis E.cfg (E.visit cur st n) := by
  unfold nvis
  apply filter_length_lt _ _ _ _ n (mem_cells_of_open E.cfg E.grid n ho)
  · unfold BfsState.vis at hv; simpa using hv
  · exact (visit_vis E cur st n ho hv n).2 (Or.inl rfl)
  · intro p hp
    exact (visit_vis E cur st n ho hv p).2 (Or.inr hp)


/-! ## The invariant of the neighbour loop -/


theorem rk_neighbors_sorted (s : QPoint) :
    (neighbors s).Pairwise fun a b => rk s a < rk s b := by
  have r0 : rk s ⟨s.x, s.y - 1⟩ = 0 := by simp [rk]
  have r1 : rk s ⟨s.x, s.y + 1⟩ = 1 := by
    unfold rk
    rw [if_neg (by intro h; have := congrArg QPoint.y h; simp at this; omega), if_pos rfl]
  have r2 : rk s ⟨s.x - 1, s.y⟩ = 2 := by
    unfold rk
    rw [if_neg (by intro h; have := congrArg QPoint.x h; simp at this),
      if_neg (by intro h; have := congrArg QPoint.x h; simp at this), if_pos rfl]
  have r3 : rk s ⟨s.x + 1, s.y⟩ = 3 := by
    unfold rk
    rw [if_neg (by intro h; have := congrArg QPoint.x h; simp at this),
      if_neg (by intro h; have := congrArg QPoint.x h; simp at this),
      if_neg (by intro h; have := congrArg QPoint.x h; simp at this; omega), if_pos rfl]
  unfold neighbors
  simp [r0, r1, r2, r3]

theorem lev_pos (E : BfsEnv) (st : BfsState) (q : List QPoint) (hc : E.Core st q)
    (v : QPoint) (hv : st.vis v) (hne : v ≠ E.startPoint) : 1 ≤ E.lev v := by
  have := (hc.chain v hv hne).2.1
  omega

/-- The neighbour loop leaves the invariant intact when it passes over a neighbour that
is out of bounds, a wall, or already visited. -/
theorem inner_skip (E : BfsEnv) (st : BfsState) (cur n : QPoint) (done rem : List QPoint)
    (hJ : E.Inner st cur done (n :: rem))
    (h : isOpen E.cfg E.grid n = false ∨ st.vis n) :
    E.Inner (E.visit cur st n) cur (done ++ [n]) rem := by
  rw [visit_skip E cur st n h]
  refine ⟨hJ.core, hJ.bound, hJ.levels, hJ.out, ?_, ?_, ?_⟩
  · intro v hv m hm
    exact hJ.child v hv m (List.mem_cons_of_mem n hm)
  · intro m hm ho
    rcases List.mem_append.1 hm with hm | hm
    · exact hJ.done_vis m hm ho
    · rw [List.mem_singleton] at hm
      subst hm
      rcases h with h | h
      · rw [h] at ho; exact absurd ho (by decide)
      · exact h
  · rw [List.append_assoc]; exact hJ.split


/-- What is known when the neighbour loop discovers a new tile `n` from `cur`. -/
theorem visit_facts (E : BfsEnv) (hE : E.Ok) (st : BfsState) (cur n : QPoint)
    (done rem : List QPoint) (hJ : E.Inner st cur done (n :: rem))
    (ho : isOpen E.cfg E.grid n = true) (hv : ¬ st.vis n) :
    st.vis cur ∧ n ∈ neighbors cur ∧ E.Reachable n ∧ E.lev n = E.lev cur + 1 ∧
    n ≠ E.startPoint ∧
    E.tb (E.visit cur st n) n = (if cur = E.startPoint then n else E.tb st cur) ∧
    (∀ v, st.vis v → E.tb (E.visit cur st n) v = E.tb st v) ∧
    (∀ v, st.vis v → E.key (E.visit cur st n) v = E.key st v) ∧
    E.key (E.visit cur st n) n = E.childKey st cur n := by
  have hcur : st.vis cur := hJ.core.queue_vis cur (List.mem_cons_self _ _)
  have hnc : n ∈ neighbors cur := by
    rw [← hJ.split]; exact List.mem_append_right _ (List.mem_cons_self _ _)
  have hrc := (hJ.core.vis_open cur hcur).2
  obtain ⟨hreach, hle⟩ := reachable_step E hE cur n hrc hnc ho
  have hlev : E.lev n = E.lev cur + 1 := by
    by_contra hne
    exact hv (hJ.levels n hreach (by omega))
  have hns : n ≠ E.startPoint := by
    intro h; rw [h] at hv; exact hv hJ.core.start_vis
  have hfs : E.tb (E.visit cur st n) n = (if cur = E.startPoint then n else E.tb st cur) := by
    rw [visit_tb_new E cur st n ho hv]
    exact firstStep_eq E st _ hJ.core cur n hcur hv
  have htb : ∀ v, st.vis v → E.tb (E.visit cur st n) v = E.tb st v := by
    intro v hvv
    apply visit_tb_old E hE cur st n ho hv v (hJ.core.vis_open v hvv).1
    intro h; rw [h] at hvv; exact hv hvv
  refine ⟨hcur, hnc, hreach, hlev, hns, hfs, htb, ?_, ?_⟩
  · intro v hvv
    unfold BfsEnv.key
    rw [htb v hvv]
  · unfold BfsEnv.key BfsEnv.childKey
    rw [hfs, hlev]
    split_ifs <;> rfl

/-- The first step stored for a newly discovered tile is the first neighbour of the start
tile, in order, on a shortest path to it. -/
theorem visit_label (E : BfsEnv) (hE : E.Ok) (st : BfsState) (cur n : QPoint)
    (done rem : List QPoint) (hJ : E.Inner st cur done (n :: rem))
    (ho : isOpen E.cfg E.grid n = true) (hv : ¬ st.vis n) :
    E.Label n (if cur = E.startPoint then n else E.tb st cur) := by
  obtain ⟨hcur, hnc, hreach, hlev, hns, _, _, _, _⟩ := visit_facts E hE st cur n done rem hJ ho hv
  by_cases hcs : cur = E.startPoint
  · rw [if_pos hcs]
    rw [hcs] at hnc hlev
    rw [lev_start E hE] at hlev
    refine ⟨hnc, ho, ?_, ?_⟩
    · rw [hlev]; exact (reachIn_zero _ _ _ _).2 ⟨rfl, ho⟩
    · intro y _ hy
      rw [hlev] at hy
      rw [((reachIn_zero _ _ _ _).1 hy).1]
  · rw [if_neg hcs]
    obtain ⟨hx1, hx2, hx3, hx4⟩ := hJ.core.label cur hcur hcs
    have hpos := lev_pos E st _ hJ.core cur hcur hcs
    refine ⟨hx1, hx2, ?_, ?_⟩
    · have := reachIn_snoc E.cfg E.grid (E.lev cur - 1) _ cur n hx3 hnc ho
      rw [hlev]
      have e : E.lev cur - 1 + 1 = E.lev cur + 1 - 1 := by omega
      rw [← e]; exact this
    · intro y hy hyn
      obtain ⟨j, hj⟩ : ∃ j, E.lev cur = j + 1 := ⟨E.lev cur - 1, by omega⟩
      have e : E.lev n - 1 = j + 1 := by omega
      rw [e] at hyn
      obtain ⟨P, hP, hnP⟩ := reachIn_last E.cfg E.grid j y n hyn
      have hPo := reachIn_open_right _ _ _ _ _ hP
      have hsP := reachIn_cons E.cfg E.grid j E.startPoint y P hE.1 hy hP
      have hPr : E.Reachable P := ⟨_, hsP⟩
      have hPle : E.lev P ≤ j + 1 := lev_le E hE P _ hsP
      have hPv : st.vis P := hJ.levels P hPr (by omega)
      have hPq : P ∈ cur :: st.queue := by
        by_contra hc
        exact hv (hJ.core.closed P hPv hc n hnP ho)
      have hPge := (reachable_step E hE P n hPr hnP ho).2
      have hPlev : E.lev P = j + 1 := by omega
      have hPs : P ≠ E.startPoint := by
        intro h; rw [h, lev_start E hE] at hPlev; omega
      obtain ⟨_, _, _, hmin⟩ := hJ.core.label P hPv hPs
      have h1 : rk E.startPoint (E.tb st P) ≤ rk E.startPoint y := by
        apply hmin y hy
        rw [hPlev]; exact hP
      have h2 : E.key st cur ≤ E.key st P := by
        rcases List.mem_cons.1 hPq with h | h
        · rw [h]
        · exact List.rel_of_pairwise_cons hJ.core.sorted h
      unfold BfsEnv.key at h2
      omega


/-- The neighbour loop keeps the core invariant when it discovers a new tile. -/
theorem visit_core (E : BfsEnv) (hE : E.Ok) (st : BfsState) (cur n : QPoint)
    (done rem : List QPoint) (hJ : E.Inner st cur done (n :: rem))
    (ho : isOpen E.cfg E.grid n = true) (hv : ¬ st.vis n) :
    E.Core (E.visit cur st n) (cur :: (E.visit cur st n).queue) := by
  obtain ⟨hcur, hnc, hreach, hlev, hns, hfs, htb, hkey, hkeyn⟩ :=
    visit_facts E hE st cur n done rem hJ ho hv
  have hvis := visit_vis E cur st n ho hv
  have hq : cur :: (E.visit cur st n).queue = (cur :: st.queue) ++ [n] := by
    rw [visit_queue E cur st n ho hv]; rfl
  have hcn : cur ≠ n := by intro h; rw [h] at hcur; exact hv hcur
  rw [hq]
  refine ⟨?_, ?_, ?_, ?_, ?_, ?_, ?_, ?_, ?_⟩
  · exact (hvis _).2 (Or.inr hJ.core.start_vis)
  · rw [htb _ hJ.core.start_vis]; exact hJ.core.start_tb
  · intro v hvv
    rcases (hvis v).1 hvv with rfl | h
    · exact ⟨ho, hreach⟩
    · exact hJ.core.vis_open v h
  · intro v hvq
    rcases List.mem_append.1 hvq with h | h
    · exact (hvis v).2 (Or.inr (hJ.core.queue_vis v h))
    · rw [List.mem_singleton] at h
      exact (hvis v).2 (Or.inl h)
  · rw [List.pairwise_append]
    refine ⟨?_, List.pairwise_singleton _ _, ?_⟩
    · refine List.Pairwise.imp_of_mem ?_ hJ.core.sorted
      intro a b ha hb hab
      rw [hkey a (hJ.core.queue_vis a ha), hkey b (hJ.core.queue_vis b hb)]
      exact hab
    · intro a ha b hb
      rw [List.mem_singleton] at hb
      rw [hb, hkey a (hJ.core.queue_vis a ha), hkeyn]
      exact hJ.child a ha n (List.mem_cons_self _ _)
  · intro p hp hpq m hm hmo
    have hpn : p ≠ n := by
      intro h; exact hpq (List.mem_append_right _ (by rw [h]; exact List.mem_singleton_self n))
    have hp' : st.vis p := by
      rcases (hvis p).1 hp with h | h
      · exact absurd h hpn
      · exact h
    exact (hvis m).2 (Or.inr (hJ.core.closed p hp'
      (fun h => hpq (List.mem_append_left _ h)) m hm hmo))
  · intro v hvv hvs
    rcases (hvis v).1 hvv with rfl | h
    · rw [hfs]
      exact visit_label E hE st cur v done rem hJ ho hv
    · rw [htb v h]
      exact hJ.core.label v h hvs
  · intro v hvv hvs
    rcases (hvis v).1 hvv with rfl | h
    · rw [visit_cf E cur st v ho hv v, if_pos rfl]
      refine ⟨(hvis cur).2 (Or.inr hcur), hlev.symm, ?_⟩
      rw [hfs, htb cur hcur]
    · have hvn : v ≠ n := by intro e; rw [e] at h; exact hv h
      rw [visit_cf E cur st n ho hv v, if_neg hvn, htb v h]
      obtain ⟨c1, c2, c3⟩ := hJ.core.chain v h hvs
      refine ⟨(hvis _).2 (Or.inr c1), c2, ?_⟩
      rw [htb _ c1]
      exact c3
  · intro v hvv
    have hlt := nvis_visit E cur st n ho hv
    rcases (hvis v).1 hvv with rfl | h
    · have := hJ.core.budget cur hcur
      omega
    · have := hJ.core.budget v h
      omega


theorem childKey_visit (E : BfsEnv) (hE : E.Ok) (st : BfsState) (cur n m : QPoint)
    (done rem : List QPoint) (hJ : E.Inner st cur done (n :: rem))
    (ho : isOpen E.cfg E.grid n = true) (hv : ¬ st.vis n) :
    E.childKey (E.visit cur st n) cur m = E.childKey st cur m := by
  obtain ⟨hcur, _, _, _, _, _, htb, _, _⟩ := visit_facts E hE st cur n done rem hJ ho hv
  unfold BfsEnv.childKey
  rw [htb cur hcur]

/-- The neighbour loop keeps its invariant when it discovers a new tile. -/
theorem inner_visit (E : BfsEnv) (hE : E.Ok) (st : BfsState) (cur n : QPoint)
    (done rem : List QPoint) (hJ : E.Inner st cur done (n :: rem))
    (ho : isOpen E.cfg E.grid n = true) (hv : ¬ st.vis n) :
    E.Inner (E.visit cur st n) cur (done ++ [n]) rem := by
  obtain ⟨hcur, hnc, hreach, hlev, hns, hfs, htb, hkey, hkeyn⟩ :=
    visit_facts E hE st cur n done rem hJ ho hv
  have hvis := visit_vis E cur st n ho hv
  have hqueue := visit_queue E cur st n ho hv
  have hmemq : ∀ v, v ∈ cur :: (E.visit cur st n).queue → v ∈ cur :: st.queue ∨ v = n := by
    intro v hvq
    rw [hqueue] at hvq
    rcases List.mem_cons.1 hvq with h | h
    · exact Or.inl (h ▸ List.mem_cons_self _ _)
    · rcases List.mem_append.1 h with h | h
      · exact Or.inl (List.mem_cons_of_mem _ h)
      · exact Or.inr (List.mem_singleton.1 h)
  have hchildn : E.childKey st cur n ≤ E.key st cur + 5 := by
    unfold BfsEnv.childKey BfsEnv.key
    by_cases hcs : cur = E.startPoint
    · rw [if_pos hcs, hcs, hJ.core.start_tb, rk_self]
      have := rk_le E.startPoint n
      omega
    · rw [if_neg hcs]; omega
  refine ⟨visit_core E hE st cur n done rem hJ ho hv, ?_, ?_, ?_, ?_, ?_, ?_⟩
  · intro v hvq
    rw [hkey cur hcur]
    rcases hmemq v hvq with h | h
    · rw [hkey v (hJ.core.queue_vis v h)]
      exact hJ.bound v h
    · rw [h, hkeyn]; exact hchildn
  · intro v hr hl
    exact (hvis v).2 (Or.inr (hJ.levels v hr hl))
  · rw [hqueue]
    intro h
    rcases List.mem_append.1 h with h | h
    · exact hJ.out h
    · exact hns (List.mem_singleton.1 h).symm
  · intro v hvq m hm
    rw [childKey_visit E hE st cur n m done rem hJ ho hv]
    rcases hmemq v hvq with h | h
    · rw [hkey v (hJ.core.queue_vis v h)]
      exact hJ.child v h m (List.mem_cons_of_mem _ hm)
    · rw [h, hkeyn]
      unfold BfsEnv.childKey
      by_cases hcs : cur = E.startPoint
      · rw [if_pos hcs, if_pos hcs]
        have hsort := rk_neighbors_sorted cur
        rw [← hJ.split] at hsort
        have h2 := (List.pairwise_append.1 hsort).2.1
        have h3 := List.rel_of_pairwise_cons h2 hm
        rw [hcs] at h3
        omega
      · rw [if_neg hcs, if_neg hcs]
  · intro m hm hmo
    rcases List.mem_append.1 hm with h | h
    · exact (hvis m).2 (Or.inr (hJ.done_vis m h hmo))
    · exact (hvis m).2 (Or.inl (List.mem_singleton.1 h))
  · rw [List.append_assoc]; exact hJ.split

/-- One step of the neighbour loop keeps its invariant. -/
theorem inner_step (E : BfsEnv) (hE : E.Ok) (st : BfsState) (cur n : QPoint)
    (done rem : List QPoint) (hJ : E.Inner st cur done (n :: rem)) :
    E.Inner (E.visit cur st n) cur (done ++ [n]) rem := by
  by_cases ho : isOpen E.cfg E.grid n = true
  · by_cases hv : st.vis n
    · exact inner_skip E st cur n done rem hJ (Or.inr hv)
    · exact inner_visit E hE st cur n done rem hJ ho hv
  · exact inner_skip E st cur n done rem hJ (Or.inl (by simpa using ho))

/-- The whole neighbour loop keeps its invariant. -/
theorem inner_fold (E : BfsEnv) (hE : E.Ok) (cur : QPoint) (rem : List QPoint)
    (st : BfsState) (done : List QPoint) (hJ : E.Inner st cur done rem) :
    E.Inner (rem.foldl (E.visit cur) st) cur (done ++ rem) [] := by
  induction rem generalizing st done with
  | nil => simpa using hJ
  | cons n rem ih =>
    have := ih (E.visit cur st n) (done ++ [n]) (inner_step E hE st cur n done rem hJ)
    simpa [List.append_assoc] using this


/-! ## The invariant of the `while` loop -/


/-- Dequeuing the head of the queue starts the neighbour loop with its invariant. -/
theorem outer_to_inner (E : BfsEnv) (hE : E.Ok) (st : BfsState) (cur : QPoint)
    (rest : List QPoint) (hq : st.queue = cur :: rest) (hO : E.Outer st) :
    E.Inner { st with queue := rest } cur [] (neighbors cur) := by
  have hc := hO.core
  rw [hq] at hc
  have hbound := hO.bound cur (by rw [hq]; rfl)
  have hlevels := hO.levels cur (by rw [hq]; rfl)
  rw [hq] at hbound
  refine ⟨⟨hc.start_vis, hc.start_tb, hc.vis_open, hc.queue_vis, hc.sorted, hc.closed,
    hc.label, hc.chain, hc.budget⟩, hbound, hlevels, ?_, ?_, ?_, rfl⟩
  · intro h
    have := hO.alone (by rw [hq]; exact List.mem_cons_of_mem _ h)
    rw [hq] at this
    injection this with _ h2
    rw [h2] at h
    exact absurd h (List.not_mem_nil _)
  · intro v hv m _
    show E.key st v ≤ E.childKey st cur m
    by_cases hcs : cur = E.startPoint
    · have h1 := hO.alone (by rw [hq, hcs]; exact List.mem_cons_self _ _)
      rw [hq] at h1
      injection h1 with _ h2
      rw [h2] at hv
      rw [List.mem_singleton] at hv
      rw [hv, hcs]
      unfold BfsEnv.key BfsEnv.childKey
      rw [if_pos rfl, hc.start_tb, rk_self, lev_start E hE]
      omega
    · have := hbound v hv
      unfold BfsEnv.childKey
      rw [if_neg hcs]
      unfold BfsEnv.key at this ⊢
      omega
  · intro m hm
    exact absurd hm (List.not_mem_nil _)

/-- When the neighbour loop is over, the invariant of the `while` loop holds again. -/
theorem inner_to_outer (E : BfsEnv) (hE : E.Ok) (st : BfsState) (cur : QPoint)
    (hJ : E.Inner st cur (neighbors cur) []) : E.Outer st := by
  have hc := hJ.core
  have hclosed : ∀ p, st.vis p → p ∉ st.queue → ∀ n ∈ neighbors p,
      isOpen E.cfg E.grid n = true → st.vis n := by
    intro p hp hpq n hn hno
    by_cases hpc : p = cur
    · rw [hpc] at hn
      exact hJ.done_vis n hn hno
    · apply hc.closed p hp _ n hn hno
      intro h
      rcases List.mem_cons.1 h with h | h
      · exact hpc h
      · exact hpq h
  refine ⟨⟨hc.start_vis, hc.start_tb, hc.vis_open, ?_, ?_, hclosed, hc.label, hc.chain,
    hc.budget⟩, ?_, ?_, ?_⟩
  · intro v hv
    exact hc.queue_vis v (List.mem_cons_of_mem _ hv)
  · exact (List.pairwise_cons.1 hc.sorted).2
  · intro h hh v hv
    have hhq : h ∈ st.queue := List.mem_of_mem_head? hh
    have h1 := hJ.bound v (List.mem_cons_of_mem _ hv)
    have h2 := List.rel_of_pairwise_cons hc.sorted hhq
    omega
  · intro h hh v hr hl
    have hhq : h ∈ st.queue := List.mem_of_mem_head? hh
    by_cases hle : E.lev v ≤ E.lev cur
    · exact hJ.levels v hr hle
    · have h1 := hJ.bound h (List.mem_cons_of_mem _ hhq)
      have hrk := rk_le E.startPoint (E.tb st h)
      have hrkc := rk_le E.startPoint (E.tb st cur)
      unfold BfsEnv.key at h1
      have hlv : E.lev v = E.lev cur + 1 := by omega
      have hw := lev_spec E hE v hr
      rw [hlv] at hw
      obtain ⟨P, hP, hvP⟩ := reachIn_last E.cfg E.grid _ _ _ hw
      have hPl := lev_le E hE P _ hP
      have hPv : st.vis P := hJ.levels P ⟨_, hP⟩ hPl
      apply hclosed P hPv _ v hvP (reachIn_open_right _ _ _ _ _ hw)
      intro hPq
      have h3 : E.key st h ≤ E.key st P := by
        cases hql : st.queue with
        | nil => rw [hql] at hPq; exact absurd hPq (List.not_mem_nil _)
        | cons a l =>
          rw [hql] at hh hPq
          simp only [List.head?_cons, Option.mem_def, Option.some.injEq] at hh
          subst hh
          have hs := (List.pairwise_cons.1 hc.sorted).2
          rw [hql] at hs
          rcases List.mem_cons.1 hPq with h | h
          · rw [h]
          · exact List.rel_of_pairwise_cons hs h
      have hrk2 := rk_le E.startPoint (E.tb st P)
      unfold BfsEnv.key at h3
      omega
  · intro h
    exact absurd h hJ.out

/-- One iteration of the `while` loop keeps its invariant. -/
theorem outer_step (E : BfsEnv) (hE : E.Ok) (st : BfsState) (cur : QPoint)
    (rest : List QPoint) (hq : st.queue = cur :: rest) (hO : E.Outer st) :
    E.Outer ((neighbors cur).foldl (E.visit cur) { st with queue := rest }) := by
  have h1 := outer_to_inner E hE st cur rest hq hO
  have h2 := inner_fold E hE cur (neighbors cur) _ [] h1
  rw [List.nil_append] at h2
  exact inner_to_outer E hE _ cur h2

theorem loop_zero (E : BfsEnv) (st : BfsState) : E.loop 0 st = st := rfl

theorem loop_nil (E : BfsEnv) (fuel : Nat) (st : BfsState) (hq : st.queue = []) :
    E.loop fuel st = st := by
  cases fuel with
  | zero => rfl
  | succ fuel =>
    unfold BfsEnv.loop bfsLoop
    rw [hq]

theorem loop_cons (E : BfsEnv) (fuel : Nat) (st : BfsState) (cur : QPoint)
    (rest : List QPoint) (hq : st.queue = cur :: rest) :
    E.loop (fuel + 1) st =
      E.loop fuel ((neighbors cur).foldl (E.visit cur) { st with queue := rest }) := by
  unfold BfsEnv.loop
  rw [bfsLoop]
  rw [hq]
  rfl

/-- The `while` loop keeps its invariant, however long it runs. -/
theorem outer_loop (E : BfsEnv) (hE : E.Ok) (fuel : Nat) (st : BfsState) (hO : E.Outer st) :
    E.Outer (E.loop fuel st) := by
  induction fuel generalizing st with
  | zero => exact hO
  | succ fuel ih =>
    cases hq : st.queue with
    | nil => rw [loop_nil E _ st hq]; exact hO
    | cons cur rest =>
      rw [loop_cons E fuel st cur rest hq]
      exact ih _ (outer_step E hE st cur rest hq hO)


/-! ## Start, end and result of one search -/


theorem init_vis (lookup : Nat → Nat → QPoint) (s : QPoint) (startId : Nat) (v : QPoint) :
    (bfsInit lookup s startId).vis v ↔ v = s := by
  unfold BfsState.vis bfsInit
  simp only [decide_eq_true_eq]
  exact (QPoint.eq_iff v s).symm

/-- The invariant of the `while` loop holds when the loop is entered. -/
theorem outer_init (E : BfsEnv) (hE : E.Ok) (lookup : Nat → Nat → QPoint) :
    E.Outer (bfsInit lookup E.startPoint E.startId) := by
  have hvis := init_vis lookup E.startPoint E.startId
  have htb : E.tb (bfsInit lookup E.startPoint E.startId) E.startPoint = E.startPoint := by
    unfold BfsEnv.tb bfsInit
    simp only [hE.2.1, and_self, if_true]
  have hq : (bfsInit lookup E.startPoint E.startId).queue = [E.startPoint] := rfl
  refine ⟨⟨(hvis _).2 rfl, htb, ?_, ?_, ?_, ?_, ?_, ?_, ?_⟩, ?_, ?_, ?_⟩
  · intro v hv
    rw [(hvis v).1 hv]
    exact ⟨hE.1, 0, (reachIn_zero _ _ _ _).2 ⟨rfl, hE.1⟩⟩
  · intro v hv
    rw [hq, List.mem_singleton] at hv
    exact (hvis v).2 hv
  · rw [hq]; exact List.pairwise_singleton _ _
  · intro p hp hpq
    rw [hq, (hvis p).1 hp] at hpq
    exact absurd (List.mem_singleton_self _) hpq
  · intro v hv hne
    exact absurd ((hvis v).1 hv) hne
  · intro v hv hne
    exact absurd ((hvis v).1 hv) hne
  · intro v hv
    rw [(hvis v).1 hv, lev_start E hE]
    unfold nvis
    apply List.length_pos_of_mem (a := E.startPoint)
    rw [List.mem_filter]
    exact ⟨mem_cells_of_open _ _ _ hE.1, (hvis _).2 rfl⟩
  · intro h hh v hv
    rw [hq] at hh hv
    simp only [List.head?_cons, Option.mem_def, Option.some.injEq] at hh
    rw [List.mem_singleton] at hv
    rw [hv, ← hh]
    omega
  · intro h hh v hr hl
    rw [hq] at hh
    simp only [List.head?_cons, Option.mem_def, Option.some.injEq] at hh
    rw [← hh, lev_start E hE] at hl
    exact (hvis v).2 (lev_eq_zero E hE v hr (by omega))
  · intro _
    exact hq

/-! ### Termination of the `while` loop -/

theorem visit_potential (E : BfsEnv) (cur : QPoint) (st : BfsState) (n : QPoint) :
    (E.visit cur st n).queue.length + nunvis E.cfg E.grid (E.visit cur st n) ≤
      st.queue.length + nunvis E.cfg E.grid st := by
  by_cases ho : isOpen E.cfg E.grid n = true
  · by_cases hv : st.vis n
    · rw [visit_skip E cur st n (Or.inr hv)]
    · rw [visit_queue E cur st n ho hv]
      have : nunvis E.cfg E.grid (E.visit cur st n) < nunvis E.cfg E.grid st := by
        unfold nunvis
        apply filter_length_lt _ _ _ _ n (mem_cells_of_open E.cfg E.grid n ho)
        · have := (visit_vis E cur st n ho hv n).2 (Or.inl rfl)
          unfold BfsState.vis at this
          simp [this]
        · unfold BfsState.vis at hv
          simp only [Bool.not_eq_true] at hv
          simp [ho, hv]
        · intro p hp
          simp only [Bool.and_eq_true, Bool.not_eq_true'] at hp ⊢
          refine ⟨hp.1, ?_⟩
          by_contra hc
          simp only [Bool.not_eq_false] at hc
          have := (visit_vis E cur st n ho hv p).2 (Or.inr hc)
          unfold BfsState.vis at this
          rw [this] at hp
          exact absurd hp.2 (by decide)
      simp only [List.length_append, List.length_singleton]
      omega
  · rw [visit_skip E cur st n (Or.inl (by simpa using ho))]

theorem fold_potential (E : BfsEnv) (cur : QPoint) (l : List QPoint) (st : BfsState) :
    (l.foldl (E.visit cur) st).queue.length + nunvis E.cfg E.grid (l.foldl (E.visit cur) st) ≤
      st.queue.length + nunvis E.cfg E.grid st := by
  induction l generalizing st with
  | nil => exact Nat.le_refl _
  | cons n l ih =>
    simp only [List.foldl_cons]
    exact Nat.le_trans (ih _) (visit_potential E cur st n)

/-- With a budget of at least the queue length plus the number of open unvisited tiles,
the `while` loop stops because its queue is empty. -/
theorem loop_queue_nil (E : BfsEnv) (fuel : Nat) (st : BfsState)
    (h : st.queue.length + nunvis E.cfg E.grid st ≤ fuel) : (E.loop fuel st).queue = [] := by
  induction fuel generalizing st with
  | zero =>
    rw [loop_zero]
    exact List.length_eq_zero.1 (by omega)
  | succ fuel ih =>
    cases hq : st.queue with
    | nil => rw [loop_nil E _ st hq]; exact hq
    | cons cur rest =>
      rw [loop_cons E fuel st cur rest hq]
      apply ih
      have h1 := fold_potential E cur (neighbors cur) { st with queue := rest }
      have h2 : nunvis E.cfg E.grid { st with queue := rest } = nunvis E.cfg E.grid st := rfl
      rw [hq] at h
      simp only [List.length_cons] at h
      simp only [h2] at h1
      omega

theorem init_potential (E : BfsEnv) (hE : E.Ok) (lookup : Nat → Nat → QPoint) :
    (bfsInit lookup E.startPoint E.startId).queue.length +
      nunvis E.cfg E.grid (bfsInit lookup E.startPoint E.startId) ≤
        E.cfg.MAZE_WIDTH * E.cfg.MAZE_HEIGHT := by
  have hq : (bfsInit lookup E.startPoint E.startId).queue = [E.startPoint] := rfl
  rw [hq, ← cells_length]
  unfold nunvis
  have : (List.filter (fun p => isOpen E.cfg E.grid p &&
      !(bfsInit lookup E.startPoint E.startId).visited p.y p.x) (cells E.cfg)).length <
      (cells E.cfg).length := by
    rw [List.length_filter_lt_length_iff_exists]
    refine ⟨E.startPoint, mem_cells_of_open _ _ _ hE.1, ?_⟩
    have := (init_vis lookup E.startPoint E.startId E.startPoint).2 rfl
    unfold BfsState.vis at this
    simp [this]
  simp only [List.length_singleton]
  omega

/-- The result of one BFS: the loop ends with an empty queue, and every tile reachable
from the start tile has its table entry set to its first step. -/
theorem bfs_result (E : BfsEnv) (hE : E.Ok) (lookup : Nat → Nat → QPoint) :
    (E.loop (E.cfg.MAZE_WIDTH * E.cfg.MAZE_HEIGHT)
      (bfsInit lookup E.startPoint E.startId)).queue = [] ∧
    E.tb (E.loop (E.cfg.MAZE_WIDTH * E.cfg.MAZE_HEIGHT)
      (bfsInit lookup E.startPoint E.startId)) E.startPoint = E.startPoint ∧
    ∀ v, E.Reachable v → v ≠ E.startPoint →
      E.Label v (E.tb (E.loop (E.cfg.MAZE_WIDTH * E.cfg.MAZE_HEIGHT)
        (bfsInit lookup E.startPoint E.startId)) v) := by
  have hO := outer_loop E hE (E.cfg.MAZE_WIDTH * E.cfg.MAZE_HEIGHT) _ (outer_init E hE lookup)
  have hnil := loop_queue_nil E _ _ (init_potential E hE lookup)
  refine ⟨hnil, hO.core.start_tb, ?_⟩
  have hall : ∀ k v, reachIn E.cfg E.grid k E.startPoint v = true →
      (E.loop (E.cfg.MAZE_WIDTH * E.cfg.MAZE_HEIGHT)
        (bfsInit lookup E.startPoint E.startId)).vis v := by
    intro k
    induction k with
    | zero =>
      intro v hv
      rw [← ((reachIn_zero _ _ _ _).1 hv).1]
      exact hO.core.start_vis
    | succ k ih =>
      intro v hv
      obtain ⟨P, hP, hvP⟩ := reachIn_last _ _ _ _ _ hv
      apply hO.core.closed P (ih P hP) _ v hvP (reachIn_open_right _ _ _ _ _ hv)
      rw [hnil]
      exact List.not_mem_nil _
  intro v hr hne
  obtain ⟨k, hk⟩ := hr
  exact hO.core.label v (hall k v hk) hne


/-! ## Tile ids -/


theorem assignId_consistent (grid : Grid) (m : IdMaps) (p : QPoint) (h : m.Consistent) :
    (assignId grid m p).Consistent := by
  unfold assignId
  split_ifs with hw
  · refine ⟨?_, ?_⟩
    · simp [h.1]
    · intro q i hq
      simp only at hq ⊢
      by_cases hqp : q = p
      · rw [if_pos hqp] at hq
        injection hq with hq
        rw [← hq, h.1, hqp]
        simp
      · rw [if_neg hqp] at hq
        have := h.2 q i hq
        have hlt : i < m.idToPoint.length := by
          by_contra hc
          rw [List.getElem?_eq_none (by omega)] at this
          exact Option.noConfusion this
        rw [List.getElem?_append_left hlt]
        exact this
  · exact h

theorem assignId_some (grid : Grid) (m : IdMaps) (p q : QPoint)
    (h : (m.pointToId q).isSome = true) : ((assignId grid m p).pointToId q).isSome = true := by
  unfold assignId
  split_ifs with hw
  · simp only
    split_ifs
    · rfl
    · exact h
  · exact h

theorem assignId_self (grid : Grid) (m : IdMaps) (p : QPoint) (hw : grid p.y p.x ≠ 1) :
    ((assignId grid m p).pointToId p).isSome = true := by
  unfold assignId
  rw [if_pos hw]
  simp

theorem assignIds_fold (grid : Grid) (l : List QPoint) (m : IdMaps) (h : m.Consistent) :
    (l.foldl (assignId grid) m).Consistent ∧
    (∀ q, (m.pointToId q).isSome = true →
      ((l.foldl (assignId grid) m).pointToId q).isSome = true) ∧
    (∀ q ∈ l, grid q.y q.x ≠ 1 → ((l.foldl (assignId grid) m).pointToId q).isSome = true) := by
  induction l generalizing m with
  | nil => exact ⟨h, fun q hq => hq, fun q hq => absurd hq (List.not_mem_nil q)⟩
  | cons p l ih =>
    simp only [List.foldl_cons]
    obtain ⟨h1, h2, h3⟩ := ih (assignId grid m p) (assignId_consistent grid m p h)
    refine ⟨h1, fun q hq => h2 q (assignId_some grid m p q hq), ?_⟩
    intro q hq hw
    rcases List.mem_cons.1 hq with rfl | hq
    · exact h2 q (assignId_self grid m q hw)
    · exact h3 q hq hw

/-- Step 1 of `precomputePaths` gives every open tile an id, and a tile with id `i` is the
`i`-th entry of `m_idToPoint`. -/
theorem assignIds_spec (cfg : Config) (grid : Grid) :
    (∀ p i, (assignIds cfg grid).pointToId p = some i →
      (assignIds cfg grid).idToPoint[i]? = some p) ∧
    (∀ p, isOpen cfg grid p = true → ∃ i, (assignIds cfg grid).pointToId p = some i) := by
  obtain ⟨h1, _, h3⟩ := assignIds_fold grid (cells cfg)
    { pointToId := fun _ => none, idToPoint := [], currentId := 0 }
    ⟨rfl, fun p i hp => Option.noConfusion hp⟩
  refine ⟨h1.2, ?_⟩
  intro p hp
  have := h3 p (mem_cells_of_open cfg grid p hp) ((isOpen_iff cfg grid p).1 hp).2.2.2.2
  exact Option.isSome_iff_exists.1 this

theorem assignIds_injective (cfg : Config) (grid : Grid) (p q : QPoint)
    (hp : isOpen cfg grid p = true) (hq : isOpen cfg grid q = true)
    (h : ((assignIds cfg grid).pointToId p).getD 0 = ((assignIds cfg grid).pointToId q).getD 0) :
    p = q := by
  obtain ⟨h1, h2⟩ := assignIds_spec cfg grid
  obtain ⟨i, hi⟩ := h2 p hp
  obtain ⟨j, hj⟩ := h2 q hq
  rw [hi, hj] at h
  simp only [Option.getD_some] at h
  subst h
  have e1 := h1 p i hi
  have e2 := h1 q i hj
  rw [e1] at e2
  injection e2

/-! ### The rows of the table -/

theorem fold_lookup_other (E : BfsEnv) (cur : QPoint) (l : List QPoint) (st : BfsState)
    (i j : Nat) (hi : i ≠ E.startId) :
    (l.foldl (E.visit cur) st).lookup i j = st.lookup i j := by
  induction l generalizing st with
  | nil => rfl
  | cons n l ih =>
    simp only [List.foldl_cons]
    rw [ih, visit_lookup_other E cur st n i j hi]

theorem loop_lookup_other (E : BfsEnv) (fuel : Nat) (st : BfsState) (i j : Nat)
    (hi : i ≠ E.startId) : (E.loop fuel st).lookup i j = st.lookup i j := by
  induction fuel generalizing st with
  | zero => rfl
  | succ fuel ih =>
    cases hq : st.queue with
    | nil => rw [loop_nil E _ st hq]
    | cons cur rest =>
      rw [loop_cons E fuel st cur rest hq, ih, fold_lookup_other E cur _ _ i j hi]

/-- The BFS from the tile of id `startId` writes only the row `startId` of the table. -/
theorem bfsFrom_other (cfg : Config) (grid : Grid) (pointToId : QPoint → Option Nat)
    (idToPoint : List QPoint) (lookup : Nat → Nat → QPoint) (startId i j : Nat)
    (hi : i ≠ startId) :
    bfsFrom cfg grid pointToId idToPoint lookup startId i j = lookup i j := by
  unfold bfsFrom
  have := loop_lookup_other
    ⟨cfg, grid, pointToId, idToPoint.getD startId ⟨0, 0⟩, startId, fun _ => 0⟩
    (cfg.MAZE_WIDTH * cfg.MAZE_HEIGHT)
    (bfsInit lookup (idToPoint.getD startId ⟨0, 0⟩) startId) i j hi
  unfold BfsEnv.loop at this
  simp only at this
  rw [this]
  unfold bfsInit
  simp only
  rw [if_neg (fun h => hi h.1)]

/-- A property of row `i` that every BFS from the tile of id `i` establishes holds in the
finished table, whenever `i` is among the ids processed. -/
theorem fold_rows (cfg : Config) (grid : Grid) (pointToId : QPoint → Option Nat)
    (idToPoint : List QPoint) (i : Nat) (Q : (Nat → QPoint) → Prop)
    (hQ : ∀ lookup, Q (bfsFrom cfg grid pointToId idToPoint lookup i i))
    (l : List Nat) (hl : i ∈ l) (lookup : Nat → Nat → QPoint) :
    Q ((l.foldl (fun lk j => bfsFrom cfg grid pointToId idToPoint lk j) lookup) i) := by
  induction l using List.reverseRecOn with
  | nil => exact absurd hl (List.not_mem_nil i)
  | append_singleton l j ih =>
    rw [List.foldl_append]
    simp only [List.foldl_cons, List.foldl_nil]
    by_cases hij : i = j
    · rw [← hij]
      exact hQ _
    · have hl' : i ∈ l := by
        rcases List.mem_append.1 hl with h | h
        · exact h
        · exact absurd (List.mem_singleton.1 h) hij
      have e : bfsFrom cfg grid pointToId idToPoint
          (l.foldl (fun lk j => bfsFrom cfg grid pointToId idToPoint lk j) lookup) j i =
          (l.foldl (fun lk j => bfsFrom cfg grid pointToId idToPoint lk j) lookup) i := by
        funext t
        exact bfsFrom_other cfg grid pointToId idToPoint _ j i t hij
      rw [e]
      exact ih hl'


/-! ## From one search to the whole table -/


theorem envOf_ok (cfg : Config) (grid : Grid) (a : QPoint) (lev : QPoint → Nat)
    (ha : isOpen cfg grid a = true)
    (hlev : ∀ v k, reachIn cfg grid k a v = true →
      reachIn cfg grid (lev v) a v = true ∧ lev v ≤ k) :
    (envOf cfg grid a lev).Ok :=
  ⟨ha, rfl, assignIds_injective cfg grid, hlev⟩

/-- After `precomputePaths`, a property of the row of an open tile `a` that the BFS from
`a` establishes holds of the routing-table query from `a`. -/
theorem nextMove_row (cfg : Config) (s : GameWidget) (a : QPoint)
    (ha : isOpen cfg s.mazeGrid a = true) (Q : (QPoint → QPoint) → Prop)
    (hQ : ∀ lookup : Nat → Nat → QPoint,
      Q (fun b => (BfsEnv.loop (envOf cfg s.mazeGrid a (fun _ => 0))
        (cfg.MAZE_WIDTH * cfg.MAZE_HEIGHT)
        (bfsInit lookup a (((assignIds cfg s.mazeGrid).pointToId a).getD 0))).lookup
          (((assignIds cfg s.mazeGrid).pointToId a).getD 0)
          (((assignIds cfg s.mazeGrid).pointToId b).getD 0))) :
    Q (fun b => nextMove (precomputePaths cfg s) a b) := by
  obtain ⟨h1, h2⟩ := assignIds_spec cfg s.mazeGrid
  obtain ⟨i, hi⟩ := h2 a ha
  have hget := h1 a i hi
  have hlt : i < (assignIds cfg s.mazeGrid).idToPoint.length := by
    by_contra hc
    rw [List.getElem?_eq_none (by omega)] at hget
    exact Option.noConfusion hget
  have hne : (assignIds cfg s.mazeGrid).idToPoint.length ≠ 0 := by omega
  have hpt : (precomputePaths cfg s).m_pointToId = (assignIds cfg s.mazeGrid).pointToId := by
    unfold precomputePaths
    simp only [if_neg hne]
  have htab : (precomputePaths cfg s).m_nextMoveLookup =
      (List.range (assignIds cfg s.mazeGrid).idToPoint.length).foldl
        (fun lookup j => bfsFrom cfg s.mazeGrid (assignIds cfg s.mazeGrid).pointToId
          (assignIds cfg s.mazeGrid).idToPoint lookup j) (fun _ _ => ⟨0, 0⟩) := by
    unfold precomputePaths
    simp only [if_neg hne]
  have hid : ((assignIds cfg s.mazeGrid).pointToId a).getD 0 = i := by rw [hi]; rfl
  have hstart : (assignIds cfg s.mazeGrid).idToPoint.getD i ⟨0, 0⟩ = a := by
    rw [List.getD_eq_getElem?_getD, hget]; rfl
  unfold nextMove
  rw [hpt, htab, hid]
  have key := fold_rows cfg s.mazeGrid (assignIds cfg s.mazeGrid).pointToId
    (assignIds cfg s.mazeGrid).idToPoint i
    (fun row => Q (fun b => row (((assignIds cfg s.mazeGrid).pointToId b).getD 0)))
    (by
      intro lookup
      have := hQ lookup
      unfold BfsEnv.loop envOf at this
      simp only at this
      rw [hid] at this
      unfold bfsFrom
      rw [hstart]
      exact this)
    (List.range (assignIds cfg s.mazeGrid).idToPoint.length) (List.mem_range.2 hlt)
    (fun _ _ => ⟨0, 0⟩)
  exact key



/-- After `precomputePaths`, the query from an open tile `a` to itself gives `a`, and the
query to any other tile `v` reachable from `a` gives the first neighbour of `a`, in order,
on a shortest path to `v`. -/
theorem nextMove_label (cfg : Config) (s : GameWidget) (a : QPoint)
    (ha : isOpen cfg s.mazeGrid a = true) (lev : QPoint → Nat)
    (hlev : ∀ v k, reachIn cfg s.mazeGrid k a v = true →
      reachIn cfg s.mazeGrid (lev v) a v = true ∧ lev v ≤ k) :
    nextMove (precomputePaths cfg s) a a = a ∧
    ∀ v, (envOf cfg s.mazeGrid a lev).Reachable v → v ≠ a →
      (envOf cfg s.mazeGrid a lev).Label v (nextMove (precomputePaths cfg s) a v) := by
  apply nextMove_row cfg s a ha
    (fun f => f a = a ∧ ∀ v, (envOf cfg s.mazeGrid a lev).Reachable v → v ≠ a →
      (envOf cfg s.mazeGrid a lev).Label v (f v))
  intro lookup
  have := bfs_result (envOf cfg s.mazeGrid a lev) (envOf_ok cfg s.mazeGrid a lev ha hlev) lookup
  exact ⟨this.2.1, this.2.2⟩

theorem isDist_lev (cfg : Config) (grid : Grid) (a b : QPoint) (k : Nat) (lev : QPoint → Nat)
    (hlev : ∀ v k, reachIn cfg grid k a v = true →
      reachIn cfg grid (lev v) a v = true ∧ lev v ≤ k)
    (hd : IsDist cfg grid a b k) : lev b = k := by
  obtain ⟨h1, h2⟩ := hlev b k hd.1
  by_contra hne
  have hlt : lev b < k := by omega
  have := hd.2 (lev b) hlt
  rw [h1] at this
  exact absurd this (by decide)

/-- A neighbour of `a` from which `b` is reached in `k` steps is at distance exactly `k`
from `b` when `a` is at distance `k + 1`. -/
theorem isDist_neighbor (cfg : Config) (grid : Grid) (a b x : QPoint) (k : Nat)
    (ha : isOpen cfg grid a = true) (hx : x ∈ neighbors a)
    (hd : IsDist cfg grid a b (k + 1)) (hr : reachIn cfg grid k x b = true) :
    IsDist cfg grid x b k := by
  refine ⟨hr, ?_⟩
  intro j hj
  by_contra hc
  have hc' : reachIn cfg grid j x b = true := by simpa using hc
  have h1 := reachIn_cons cfg grid j a x b ha hx hc'
  have h2 := hd.2 (j + 1) (by omega)
  rw [h1] at h2
  exact absurd h2 (by decide)

/-- The routing-table step from `a` toward a different reachable tile `b`: a neighbour of
`a` that is open, one step closer to `b`, and first among such neighbours. -/
theorem nextMove_step (cfg : Config) (s : GameWidget) (a b : QPoint) (k : Nat)
    (ha : isOpen cfg s.mazeGrid a = true) (hd : IsDist cfg s.mazeGrid a b (k + 1)) :
    nextMove (precomputePaths cfg s) a b ∈ neighbors a ∧
    isOpen cfg s.mazeGrid (nextMove (precomputePaths cfg s) a b) = true ∧
    IsDist cfg s.mazeGrid (nextMove (precomputePaths cfg s) a b) b k ∧
    ∀ y ∈ neighbors a, reachIn cfg s.mazeGrid k y b = true →
      rk a (nextMove (precomputePaths cfg s) a b) ≤ rk a y := by
  obtain ⟨lev, hlev⟩ := exists_lev cfg s.mazeGrid a
  have hk := isDist_lev cfg s.mazeGrid a b (k + 1) lev hlev hd
  have hne : b ≠ a := by
    intro h
    have := hd.2 0 (by omega)
    rw [h, (reachIn_zero cfg s.mazeGrid a a).2 ⟨rfl, ha⟩] at this
    exact absurd this (by decide)
  obtain ⟨h1, h2, h3, h4⟩ := (nextMove_label cfg s a ha lev hlev).2 b ⟨k + 1, hd.1⟩ hne
  have e : (envOf cfg s.mazeGrid a lev).lev b - 1 = k := by
    show lev b - 1 = k
    omega
  rw [e] at h3 h4
  exact ⟨h1, h2, isDist_neighbor cfg s.mazeGrid a b _ k ha h1 hd h3, h4⟩


/-! ## Starting a round -/

theorem initializeGhostsStep_frame (cfg : Config) (s : GameWidget) (i : Nat) :
    ∃ (gs : List Ghost) (n : Int),
      initializeGhostsStep cfg s i = { s with ghosts := gs, nextGhostId := n } :=
  ⟨_, _, rfl⟩

theorem initializeGhosts_fold_frame (cfg : Config) (l : List Nat) (s : GameWidget) :
    ∃ (gs : List Ghost) (n : Int),
      l.foldl (initializeGhostsStep cfg) s = { s with ghosts := gs, nextGhostId := n } := by
  induction l generalizing s with
  | nil => exact ⟨s.ghosts, s.nextGhostId, rfl⟩
  | cons i l ih =>
    obtain ⟨gs, n, e⟩ := ih (initializeGhostsStep cfg s i)
    exact ⟨gs, n, by rw [List.foldl_cons, e]; rfl⟩

theorem initializeGhosts_frame (cfg : Config) (s : GameWidget) :
    ∃ (gs : List Ghost) (n : Int),
      initializeGhosts cfg s = { s with ghosts := gs, nextGhostId := n } := by
  unfold initializeGhosts
  simp only []
  split_ifs
  · exact ⟨[], 0, rfl⟩
  · obtain ⟨gs, n, e⟩ := initializeGhosts_fold_frame cfg
      (List.range (min (numGhostsOfRound s.m_round) s.ghostSpawnPositions.length))
      { s with ghosts := [], nextGhostId := 0 }
    exact ⟨gs, n, by rw [e]⟩

/-- The copy loop of `startGame`, over any list of tiles. -/
theorem copy_fold (f : Grid) (l : List QPoint) (g : Grid) (r c : Int) :
    (l.foldl (fun (g : Grid) (p : QPoint) => g.set p.y p.x (f p.y p.x)) g) r c =
      if (⟨c, r⟩ : QPoint) ∈ l then f r c else g r c := by
  induction l generalizing g with
  | nil => simp
  | cons p l ih =>
    rw [List.foldl_cons, ih]
    by_cases hm : (⟨c, r⟩ : QPoint) ∈ l
    · simp [hm]
    · simp only [hm, if_false, List.mem_cons, or_false]
      by_cases hp : (⟨c, r⟩ : QPoint) = p
      · subst hp
        simp [Grid.set]
      · rw [if_neg hp]
        unfold Grid.set
        rw [if_neg]
        rintro ⟨rfl, rfl⟩
        exact hp rfl

/-- The state after `startGame` when the start marker is present. -/
theorem startGame_valid (cfg : Config) (s : GameWidget) (h : ValidStart s) :
    ∃ (gs : List Ghost) (n : Int),
      startGame cfg s =
        { s with
          m_score :=
            if s.m_gameState = GameState.Menu ∨ s.m_gameState = GameState.GameOver then 0
            else s.m_score
          mazeGrid := ((cells cfg).foldl
            (fun (g : Grid) (p : QPoint) => g.set p.y p.x (s.originalMazeGrid p.y p.x))
            s.mazeGrid).set s.startMacroRow s.startMacroCol 3
          pacman_grid_center := macroGridToGridCenter cfg s.startMacroCol s.startMacroRow
          pacman_macrogrid_center := ⟨s.startMacroCol, s.startMacroRow⟩
          m_pacmanDirection := Direction.Right
          ghosts := gs
          nextGhostId := n
          m_gameState := GameState.Playing
          bgMusicPlaying := true } := by
  have hg : ¬ (s.startMacroCol = -1 ∨ s.startMacroRow = -1) := by
    rintro (h1 | h1)
    · exact h.1 h1
    · exact h.2 h1
  unfold startGame
  rw [if_neg hg]
  simp only []
  by_cases hp : s.m_gameState = GameState.Menu ∨ s.m_gameState = GameState.GameOver
  · rw [if_pos hp, if_pos hp]
    obtain ⟨gs, n, e⟩ := initializeGhosts_frame cfg
      { s with
        m_score := 0
        mazeGrid := ((cells cfg).foldl
          (fun (g : Grid) (p : QPoint) => g.set p.y p.x (s.originalMazeGrid p.y p.x))
          s.mazeGrid).set s.startMacroRow s.startMacroCol 3
        pacman_grid_center := macroGridToGridCenter cfg s.startMacroCol s.startMacroRow
        pacman_macrogrid_center := ⟨s.startMacroCol, s.startMacroRow⟩
        m_pacmanDirection := Direction.Right }
    exact ⟨gs, n, by rw [e]⟩
  · rw [if_neg hp, if_neg hp]
    obtain ⟨gs, n, e⟩ := initializeGhosts_frame cfg
      { s with
        mazeGrid := ((cells cfg).foldl
          (fun (g : Grid) (p : QPoint) => g.set p.y p.x (s.originalMazeGrid p.y p.x))
          s.mazeGrid).set s.startMacroRow s.startMacroCol 3
        pacman_grid_center := macroGridToGridCenter cfg s.startMacroCol s.startMacroRow
        pacman_macrogrid_center := ⟨s.startMacroCol, s.startMacroRow⟩
        m_pacmanDirection := Direction.Right }
    exact ⟨gs, n, by rw [e]⟩

/-! ## Collisions -/

theorem colliding_update (cfg : Config) (s : GameWidget) (g : Ghost) (sc : Int)
    (pr : List (Nat × Int)) :
    Colliding cfg { s with m_score := sc, pendingRespawns := pr } g ↔ Colliding cfg s g :=
  Iff.rfl

/-- One iteration of the loop of `checkGhostCollisions`, in terms of `Colliding`. -/
theorem collideLoop_cons (cfg : Config) (s : GameWidget) (done : List Ghost) (g : Ghost)
    (todo : List Ghost) :
    collideLoop cfg s done (g :: todo) =
      if Colliding cfg s g then
        if g.mode = GhostMode.Chase then
          { s with
            ghosts := done ++ g :: todo
            m_gameState := GameState.GameOver
            bgMusicPlaying := false
            sfxLog := Sfx.gameOver :: s.sfxLog }
        else
          collideLoop cfg
            { s with
              m_score := s.m_score + 50
              pendingRespawns := s.pendingRespawns ++ [(2000, g.parentId)] }
            (done ++ [caught g]) todo
      else collideLoop cfg s (done ++ [g]) todo := by
  rw [collideLoop]
  by_cases h1 : (!g.active) = true ∨ g.respawning = true
  · have hc : ¬ Colliding cfg s g := by
      rintro ⟨ha, hr, _⟩
      rcases h1 with h1 | h1
      · simp [ha] at h1
      · simp [hr] at h1
    rw [if_pos h1, if_neg hc]
  · rw [if_neg h1]
    have ha : g.active = true := by
      cases h : g.active
      · exact absurd (Or.inl (by simp [h])) h1
      · rfl
    have hr : g.respawning = false := by
      cases h : g.respawning
      · rfl
      · exact absurd (Or.inr h) h1
    simp only []
    by_cases h2 : 3 * (|s.pacman_grid_center.x - g.grid_center.x| +
        |s.pacman_grid_center.y - g.grid_center.y|) < 2 * cfg.TILE_SIZE
    · have hc : Colliding cfg s g := ⟨ha, hr, h2⟩
      rw [if_pos h2, if_pos hc]
      rfl
    · have hc : ¬ Colliding cfg s g := fun h => h2 h.2.2
      rw [if_neg h2, if_neg hc]

theorem collideLoop_nil (cfg : Config) (s : GameWidget) (done : List Ghost) :
    collideLoop cfg s done [] = { s with ghosts := done } := by
  rw [collideLoop]

/-- The phase after the collision loop. -/
theorem collideLoop_phase (cfg : Config) (todo : List Ghost) :
    ∀ (s : GameWidget) (done : List Ghost),
      (collideLoop cfg s done todo).m_gameState =
        if ∃ g ∈ todo, Colliding cfg s g ∧ g.mode = GhostMode.Chase then GameState.GameOver
        else s.m_gameState := by
  induction todo with
  | nil =>
    intro s done
    rw [collideLoop_nil]
    simp
  | cons g todo ih =>
    intro s done
    rw [collideLoop_cons]
    by_cases hc : Colliding cfg s g
    · rw [if_pos hc]
      by_cases hm : g.mode = GhostMode.Chase
      · rw [if_pos hm, if_pos ⟨g, List.mem_cons_self _ _, hc, hm⟩]
      · rw [if_neg hm, ih]
        have e : (∃ g' ∈ g :: todo, Colliding cfg s g' ∧ g'.mode = GhostMode.Chase) ↔
            ∃ g' ∈ todo, Colliding cfg s g' ∧ g'.mode = GhostMode.Chase := by
          simp only [List.mem_cons, exists_eq_or_imp, hm, and_false, false_or]
        simp only [colliding_update, e]
    · rw [if_neg hc, ih]
      have e : (∃ g' ∈ g :: todo, Colliding cfg s g' ∧ g'.mode = GhostMode.Chase) ↔
          ∃ g' ∈ todo, Colliding cfg s g' ∧ g'.mode = GhostMode.Chase := by
        simp only [List.mem_cons, exists_eq_or_imp, hc, false_and, false_or]
      simp only [e]

/-- The collision loop when no Chase pursuer collides: every colliding pursuer is caught. -/
theorem collideLoop_panic (cfg : Config) (todo : List Ghost) :
    ∀ (s : GameWidget) (done : List Ghost),
      (∀ g ∈ todo, Colliding cfg s g → g.mode ≠ GhostMode.Chase) →
      collideLoop cfg s done todo =
        { s with
          ghosts := done ++ todo.map (fun g => if Colliding cfg s g then caught g else g)
          m_score := s.m_score +
            50 * ((todo.filter (fun g => decide (Colliding cfg s g))).length : Int)
          pendingRespawns := s.pendingRespawns ++
            (todo.filter (fun g => decide (Colliding cfg s g))).map
              (fun g => ((2000 : Nat), g.parentId)) } := by
  induction todo with
  | nil =>
    intro s done _
    rw [collideLoop_nil]
    simp
  | cons g todo ih =>
    intro s done h
    have h' : ∀ g' ∈ todo, Colliding cfg s g' → g'.mode ≠ GhostMode.Chase :=
      fun g' hg' => h g' (List.mem_cons_of_mem _ hg')
    rw [collideLoop_cons]
    by_cases hc : Colliding cfg s g
    · rw [if_pos hc, if_neg (h g (List.mem_cons_self _ _) hc),
        ih { s with
            m_score := s.m_score + 50
            pendingRespawns := s.pendingRespawns ++ [(2000, g.parentId)] }
          (done ++ [caught g]) h']
      simp only [colliding_update, List.map_cons, List.filter_cons, hc, if_true, decide_True,
        List.length_cons, List.append_assoc, List.singleton_append]
      congr 1
      push_cast
      ring
    · rw [if_neg hc, ih _ _ h']
      simp only [List.map_cons, List.filter_cons, hc, if_false, decide_False,
        List.append_assoc, List.singleton_append]
      rfl

theorem scenarioStart_original (u : GameWidget) :
    (scenarioStart u).originalMazeGrid 1 0 = 0 := rfl

/-- The collision loop never shortens the two logs, and a colliding pursuer lengthens one
of them. -/
theorem collideLoop_logs (cfg : Config) (todo : List Ghost) :
    ∀ (s : GameWidget) (done : List Ghost),
      s.pendingRespawns.length + s.sfxLog.length ≤
          (collideLoop cfg s done todo).pendingRespawns.length +
            (collideLoop cfg s done todo).sfxLog.length ∧
        ((∃ g ∈ todo, Colliding cfg s g) →
          s.pendingRespawns.length + s.sfxLog.length <
            (collideLoop cfg s done todo).pendingRespawns.length +
              (collideLoop cfg s done todo).sfxLog.length) := by
  induction todo with
  | nil =>
    intro s done
    rw [collideLoop_nil]
    simp
  | cons g todo ih =>
    intro s done
    rw [collideLoop_cons]
    by_cases hc : Colliding cfg s g
    · rw [if_pos hc]
      by_cases hm : g.mode = GhostMode.Chase
      · rw [if_pos hm]
        simp
      · rw [if_neg hm]
        have h1 := (ih { s with
            m_score := s.m_score + 50
            pendingRespawns := s.pendingRespawns ++ [(2000, g.parentId)] }
          (done ++ [caught g])).1
        simp only [List.length_append, List.length_singleton] at h1
        constructor
        · omega
        · intro _
          omega
    · rw [if_neg hc]
      have h1 := ih s (done ++ [g])
      refine ⟨h1.1, ?_⟩
      rintro ⟨g', hg', hc'⟩
      rcases List.mem_cons.1 hg' with rfl | hg'
      · exact absurd hc' hc
      · exact h1.2 ⟨g', hg', hc'⟩

/-! ## The animation of an accepted move -/

theorem gridToMacroGrid_cell (cfg : Config) (h32 : cfg.TILE_SIZE = 32) (c r x y : Int)
    (hc0 : 0 ≤ c) (hc : c < cfg.MAZE_WIDTH) (hr0 : 0 ≤ r) (hr : r < cfg.MAZE_HEIGHT)
    (hx0 : c * 32 ≤ x) (hx : x < c * 32 + 32) (hy0 : r * 32 ≤ y) (hy : y < r * 32 + 32) :
    gridToMacroGrid cfg x y = ⟨c, r⟩ := by
  unfold gridToMacroGrid qBound
  simp only [h32]
  rw [Int.tdiv_eq_ediv (by omega) (by omega), Int.tdiv_eq_ediv (by omega) (by omega)]
  have e1 : x / 32 = c := by omega
  have e2 : y / 32 = r := by omega
  rw [e1, e2]
  congr 1
  · omega
  · omega

theorem collectPellet_player (cfg : Config) (s : GameWidget) :
    (collectPellet cfg s).isMoving = s.isMoving ∧
      (collectPellet cfg s).pacman_macrogrid_center = s.pacman_macrogrid_center ∧
      (collectPellet cfg s).pacman_grid_center = s.pacman_grid_center := by
  rw [collectPellet_eq]
  unfold afterEating
  simp only []
  split_ifs <;> exact ⟨rfl, rfl, rfl⟩

/-! ## The policies leave the pursuer list alone -/

theorem SamePursuers.refl (s : GameWidget) : SamePursuers s s := ⟨rfl, rfl⟩

theorem SamePursuers.trans {s t u : GameWidget} (h1 : SamePursuers s t)
    (h2 : SamePursuers t u) : SamePursuers s u :=
  ⟨h2.1.trans h1.1, h2.2.trans h1.2⟩

theorem bounded_same (s : GameWidget) (n : Nat) : SamePursuers s (bounded s n).2 := ⟨rfl, rfl⟩

theorem pickValidDir_same (cfg : Config) (s : GameWidget) (ghost : Ghost)
    (r : Direction × GameWidget) (h : pickValidDir cfg s ghost = some r) :
    SamePursuers s r.2 := by
  unfold pickValidDir at h
  simp only [] at h
  split_ifs at h
  injection h with h
  subst h
  exact ⟨rfl, rfl⟩

theorem getAggressiveChaserDirection_same (cfg : Config) (s : GameWidget) (ghost : Ghost) :
    SamePursuers s (getAggressiveChaserDirection cfg s ghost).2.2 ∧
      (getAggressiveChaserDirection cfg s ghost).2.1.parentId = ghost.parentId := by
  unfold getAggressiveChaserDirection
  simp only []
  split_ifs
  · split
    · next r hr => exact ⟨pickValidDir_same cfg s _ r hr, rfl⟩
    · exact ⟨⟨rfl, rfl⟩, rfl⟩
  · exact ⟨⟨rfl, rfl⟩, rfl⟩

theorem getAmbusherDirection_same (cfg : Config) (s : GameWidget) (ghost : Ghost) :
    SamePursuers s (getAmbusherDirection cfg s ghost).2 := by
  unfold getAmbusherDirection
  simp only []
  split_ifs <;> exact ⟨rfl, rfl⟩

theorem patrolFallback_same (cfg : Config) (s : GameWidget) (ghost : Ghost) :
    SamePursuers s
      (match pickValidDir cfg s ghost with
        | some r => r
        | none => (Direction.Stop, s)).2 := by
  split
  · next r hr => exact pickValidDir_same cfg s _ r hr
  · exact ⟨rfl, rfl⟩

theorem getRandomPatrolDirection_same (cfg : Config) (s : GameWidget) (ghost : Ghost) :
    SamePursuers s (getRandomPatrolDirection cfg s ghost).2 := by
  unfold getRandomPatrolDirection
  simp only []
  split_ifs
  · exact ⟨rfl, rfl⟩
  · exact (bounded_same s 100).trans (patrolFallback_same cfg _ ghost)
  · exact (bounded_same s 100).trans (patrolFallback_same cfg _ ghost)
  · exact patrolFallback_same cfg s ghost

theorem getIntersectionRandomDirection_same (cfg : Config) (s : GameWidget) (ghost : Ghost) :
    SamePursuers s (getIntersectionRandomDirection cfg s ghost).2 := by
  unfold getIntersectionRandomDirection
  split_ifs
  · exact patrolFallback_same cfg s ghost
  · exact ⟨rfl, rfl⟩
  · exact patrolFallback_same cfg s ghost

theorem fleeDirection_same (cfg : Config) (s : GameWidget) (ghost : Ghost) :
    SamePursuers s (fleeDirection cfg s ghost).2 := by
  unfold fleeDirection
  simp only []
  split_ifs <;> first | exact ⟨rfl, rfl⟩ | exact getRandomPatrolDirection_same cfg s ghost

theorem getGhostPanicDirection_same (cfg : Config) (s : GameWidget) (ghost : Ghost) :
    SamePursuers s (getGhostPanicDirection cfg s ghost).2 := by
  unfold getGhostPanicDirection
  simp only []
  split_ifs
  · split
    · next d hd => exact (bounded_same s 100).trans (pickValidDir_same cfg _ _ d hd)
    · exact (bounded_same s 100).trans (fleeDirection_same cfg _ ghost)
  · exact (bounded_same s 100).trans (fleeDirection_same cfg _ ghost)
  · exact fleeDirection_same cfg s ghost

theorem getGhostDirection_same (cfg : Config) (s : GameWidget) (ghost : Ghost) :
    SamePursuers s (getGhostDirection cfg s ghost).2.2 ∧
      (getGhostDirection cfg s ghost).2.1.parentId = ghost.parentId := by
  unfold getGhostDirection
  split_ifs
  · exact ⟨getGhostPanicDirection_same cfg s ghost, rfl⟩
  · split
    · exact ⟨⟨rfl, rfl⟩, rfl⟩
    · exact getAggressiveChaserDirection_same cfg s ghost
    · exact ⟨getAmbusherDirection_same cfg s ghost, rfl⟩
    · exact ⟨getRandomPatrolDirection_same cfg s ghost, rfl⟩
    · exact ⟨getIntersectionRandomDirection_same cfg s ghost, rfl⟩

theorem moveGhost_same (cfg : Config) (s : GameWidget) (ghost : Ghost) :
    SamePursuers s (moveGhost cfg s ghost).2 ∧
      (moveGhost cfg s ghost).1.parentId = ghost.parentId := by
  obtain ⟨h1, h2⟩ := getGhostDirection_same cfg s ghost
  unfold moveGhost
  simp only []
  split_ifs
  · exact ⟨⟨rfl, rfl⟩, rfl⟩
  · exact ⟨h1, h2⟩
  · split <;> exact ⟨h1, h2⟩

/-! ## The identifiers of the pursuers -/

/-- The body of the loop of `ghostAnimationStep`, in terms of its parts. -/
theorem ghostStepAt_eq (cfg : Config) (s : GameWidget) (i : Nat) :
    ghostStepAt cfg s i =
      match s.ghosts.get? i with
      | none => s
      | some ghost =>
        if !ghost.active ∨ ghost.respawning then s
        else if (throttle ghost).1 then { s with ghosts := s.ghosts.set i (throttle ghost).2 }
        else if !(throttle ghost).2.moving then
          { (moveGhost cfg (reproduce cfg s (throttle ghost).2) (throttle ghost).2).2 with
            ghosts :=
              (moveGhost cfg (reproduce cfg s (throttle ghost).2) (throttle ghost).2).2.ghosts.set
                i (moveGhost cfg (reproduce cfg s (throttle ghost).2) (throttle ghost).2).1
            dangling :=
              (moveGhost cfg (reproduce cfg s (throttle ghost).2) (throttle ghost).2).2.dangling ||
                decide (s.ghosts.length < (reproduce cfg s (throttle ghost).2).ghosts.length) }
        else { s with ghosts := s.ghosts.set i (advanceGhost cfg (throttle ghost).2) } :=
  rfl

theorem spawnChildGhost_length (s : GameWidget) (parent : Ghost) :
    s.ghosts.length ≤ (spawnChildGhost s parent).ghosts.length ∧
      (spawnChildGhost s parent).ghosts.length ≤ max s.ghosts.length MAX_GHOSTS := by
  unfold spawnChildGhost
  split_ifs with h
  · exact ⟨le_refl _, le_max_left _ _⟩
  · have hl : s.ghosts.length < MAX_GHOSTS := by
      by_contra hc
      exact h (Or.inr (by omega))
    simp only [List.length_append, List.length_singleton]
    constructor
    · omega
    · exact le_trans hl (le_max_right _ _)

theorem reproduce_length (cfg : Config) (s : GameWidget) (ghost : Ghost) :
    s.ghosts.length ≤ (reproduce cfg s ghost).ghosts.length ∧
      (reproduce cfg s ghost).ghosts.length ≤ max s.ghosts.length MAX_GHOSTS := by
  unfold reproduce
  simp only []
  split_ifs
  · exact spawnChildGhost_length (bounded s 100).2 ghost
  · exact ⟨le_refl _, le_max_left _ _⟩
  · exact ⟨le_refl _, le_max_left _ _⟩

theorem ghostStepAt_length (cfg : Config) (s : GameWidget) (i : Nat) :
    s.ghosts.length ≤ (ghostStepAt cfg s i).ghosts.length ∧
      (ghostStepAt cfg s i).ghosts.length ≤ max s.ghosts.length MAX_GHOSTS := by
  rw [ghostStepAt_eq]
  split
  · exact ⟨le_refl _, le_max_left _ _⟩
  · next ghost hg =>
    split_ifs
    · exact ⟨le_refl _, le_max_left _ _⟩
    · simp only [List.length_set]
      exact ⟨le_refl _, le_max_left _ _⟩
    · simp only [List.length_set]
      rw [(moveGhost_same cfg (reproduce cfg s (throttle ghost).2) (throttle ghost).2).1.1]
      exact reproduce_length cfg s (throttle ghost).2
    · simp only [List.length_set]
      exact ⟨le_refl _, le_max_left _ _⟩

/-- With a budget of at least `max(ghosts.size(), MAX_GHOSTS) - i` iterations the loop of
`ghostAnimationStep` stops because its index reached the end of the list: a larger budget
gives the same state. -/
theorem ghostLoop_fuel (cfg : Config) (fuel : Nat) :
    ∀ (fuel' i : Nat) (s : GameWidget), max s.ghosts.length MAX_GHOSTS - i ≤ fuel →
      max s.ghosts.length MAX_GHOSTS - i ≤ fuel' →
      ghostLoop cfg fuel i s = ghostLoop cfg fuel' i s := by
  induction fuel with
  | zero =>
    intro fuel' i s h _
    have hi : ¬ i < s.ghosts.length := by
      have := le_max_left s.ghosts.length MAX_GHOSTS
      omega
    cases fuel' with
    | zero => rfl
    | succ fuel' => rw [ghostLoop, ghostLoop, if_neg hi]
  | succ fuel ih =>
    intro fuel' i s h h'
    by_cases hi : i < s.ghosts.length
    · obtain ⟨h1, h2⟩ := ghostStepAt_length cfg s i
      have hm : max (ghostStepAt cfg s i).ghosts.length MAX_GHOSTS =
          max s.ghosts.length MAX_GHOSTS := by
        apply le_antisymm
        · exact max_le h2 (le_max_right _ _)
        · exact max_le_max h1 (le_refl _)
      have hpos : i < max s.ghosts.length MAX_GHOSTS := lt_of_lt_of_le hi (le_max_left _ _)
      cases fuel' with
      | zero => omega
      | succ fuel' =>
        rw [ghostLoop, ghostLoop, if_pos hi, if_pos hi]
        exact ih fuel' (i + 1) _ (by rw [hm]; omega) (by rw [hm]; omega)
    · cases fuel' with
      | zero => rw [ghostLoop, ghostLoop, if_neg hi]
      | succ fuel' => rw [ghostLoop, if_neg hi, ghostLoop, if_neg hi]

/-- The budget `ghostAnimationStep` runs its loop with is enough. -/
theorem ghostAnimationStep_fuel (cfg : Config) (s : GameWidget) (fuel : Nat)
    (hp : s.m_gameState = GameState.Playing) (hf : s.ghosts.length + MAX_GHOSTS + 1 ≤ fuel) :
    ghostAnimationStep cfg s = ghostLoop cfg fuel 0 s := by
  unfold ghostAnimationStep
  rw [if_neg (by simp [hp])]
  have hb : max s.ghosts.length MAX_GHOSTS ≤ s.ghosts.length + MAX_GHOSTS :=
    max_le (Nat.le_add_right _ _) (Nat.le_add_left _ _)
  exact ghostLoop_fuel cfg _ fuel 0 s (by omega) (by omega)

/-! ## The respawn callback -/

theorem respawnLoop_first (cfg : Config) (s : GameWidget) (id : Int) :
    ∀ (l : List Ghost) (i : Nat) (g : Ghost), l.get? i = some g → g.parentId = id →
      (∀ (j : Nat) (g' : Ghost), j < i → l.get? j = some g' → g'.parentId ≠ id) →
      respawnLoop cfg s id l = l.set i (respawnGhost cfg s g) := by
  intro l
  induction l with
  | nil =>
    intro i g hg
    exact Option.noConfusion hg
  | cons a l ih =>
    intro i g hg hid hfirst
    cases i with
    | zero =>
      simp only [List.get?_cons_zero, Option.some.injEq] at hg
      subst hg
      rw [respawnLoop, if_pos hid]
      rfl
    | succ i =>
      simp only [List.get?_cons_succ] at hg
      have ha : a.parentId ≠ id := hfirst 0 a (Nat.succ_pos i) rfl
      rw [respawnLoop, if_neg ha, List.set_cons_succ,
        ih i g hg hid (fun j g' hj hg' => hfirst (j + 1) g' (by omega) (by simpa using hg'))]

theorem respawnLoop_none (cfg : Config) (s : GameWidget) (id : Int) (l : List Ghost)
    (h : ∀ g ∈ l, g.parentId ≠ id) : respawnLoop cfg s id l = l := by
  induction l with
  | nil => rfl
  | cons a l ih =>
    rw [respawnLoop, if_neg (h a (List.mem_cons_self _ _)),
      ih (fun g hg => h g (List.mem_cons_of_mem _ hg))]

/-! ## Keys, empty spawn lists and the chase policy -/

theorem assignIds_fold_open (grid : Grid) (P : QPoint → Prop) (l : List QPoint) (m : IdMaps)
    (hm : ∀ q i, m.pointToId q = some i → P q)
    (hl : ∀ q ∈ l, grid q.y q.x ≠ 1 → P q) :
    ∀ q i, (l.foldl (assignId grid) m).pointToId q = some i → P q := by
  induction l generalizing m with
  | nil => exact hm
  | cons p l ih =>
    rw [List.foldl_cons]
    apply ih
    · intro q i hq
      unfold assignId at hq
      split_ifs at hq with hw
      · simp only at hq
        split_ifs at hq with hqp
        · rw [hqp]
          exact hl p (List.mem_cons_self _ _) hw
        · exact hm q i hq
      · exact hm q i hq
    · exact fun q hq => hl q (List.mem_cons_of_mem _ hq)

/-- Only open tiles get an id. -/
theorem assignIds_some_open (cfg : Config) (grid : Grid) (p : QPoint) (i : Nat)
    (h : (assignIds cfg grid).pointToId p = some i) : isOpen cfg grid p = true := by
  refine assignIds_fold_open grid (fun q => isOpen cfg grid q = true) (cells cfg) _ ?_ ?_ p i h
  · intro q i hq
    exact Option.noConfusion hq
  · intro q hq hw
    rw [isOpen_iff]
    obtain ⟨h1, h2, h3, h4⟩ := (mem_cells cfg q).1 hq
    exact ⟨h1, h2, h3, h4, hw⟩

theorem precomputePaths_pointToId (cfg : Config) (s : GameWidget) :
    (precomputePaths cfg s).m_pointToId = (assignIds cfg s.mazeGrid).pointToId := by
  unfold precomputePaths
  simp only []
  split_ifs <;> rfl

/-- The chase policy on a pursuer that stands on the player's tile. -/
theorem getGhostChaseDirection_same_tile (cfg : Config) (s0 s : GameWidget) (ghost : Ghost)
    (ht : TablesOf cfg s0 s) (hg : ghost.macrogrid_center = s.pacman_macrogrid_center) :
    getGhostChaseDirection s ghost = Direction.Stop := by
  unfold getGhostChaseDirection
  simp only []
  rw [← hg]
  split_ifs with h
  · rfl
  · have hsome : (s.m_pointToId ghost.macrogrid_center).isSome = true := by
      cases hc : s.m_pointToId ghost.macrogrid_center with
      | none => exact absurd (Or.inl (by rw [hc]; rfl)) h
      | some i => rfl
    obtain ⟨i, hi⟩ := Option.isSome_iff_exists.1 hsome
    have hi' : (assignIds cfg s0.mazeGrid).pointToId ghost.macrogrid_center = some i := by
      rw [← precomputePaths_pointToId, ← ht.1]
      exact hi
    have hopen := assignIds_some_open cfg s0.mazeGrid _ i hi'
    obtain ⟨lev, hlev⟩ := exists_lev cfg s0.mazeGrid ghost.macrogrid_center
    have hself := (nextMove_label cfg s0 ghost.macrogrid_center hopen lev hlev).1
    unfold nextMove at hself
    rw [← ht.1, ← ht.2.2] at hself
    rw [hself]
    simp [stepDirection]

theorem truncToInt_le_one (q : Rat) (h0 : 0 ≤ q) (h2 : q < 2) : truncToInt q ≤ 1 := by
  unfold truncToInt
  have hn : 0 ≤ q.num := Rat.num_nonneg.2 h0
  rw [Int.tdiv_eq_ediv hn (Int.ofNat_nonneg _)]
  have h1 : ⌊q⌋ = q.num / (q.den : Int) := Rat.floor_def' q
  have h3 : ⌊q⌋ < 2 := by
    rw [Int.floor_lt]
    exact_mod_cast h2
  omega

/-! ## The tick that clears the level -/

theorem animateMouth_frame (s : GameWidget) :
    (animateMouth s).m_gameState = s.m_gameState ∧ (animateMouth s).ghosts = s.ghosts ∧
      (animateMouth s).pacman_grid_center = s.pacman_grid_center ∧
      (animateMouth s).mazeGrid = s.mazeGrid := by
  rw [animateMouth_eq]
  exact ⟨rfl, rfl, rfl, rfl⟩

theorem afterEating_pixel (s : GameWidget) :
    (afterEating s).pacman_grid_center = s.pacman_grid_center := by
  unfold afterEating
  simp only []
  split_ifs <;> rfl

/-- The phase at the end of a tick in which the player arrives and no pellet is left. -/
theorem updateGame_cleared (cfg : Config) (s : GameWidget) (hm : s.isMoving = true)
    (hl : s.currentStep + 1 ≥ s.moveSteps) (hb : PlayerInBounds cfg (arrived cfg s))
    (hall : checkAllPelletsCollected cfg (afterEating (arrived cfg s)) = true) :
    (updateGame cfg s).m_gameState =
      if ∃ g ∈ (afterEating (arrived cfg s)).ghosts,
          Colliding cfg (arrived cfg s) g ∧ g.mode = GhostMode.Chase then GameState.GameOver
      else GameState.Win := by
  have hstep : animationStep cfg s = resetLevel (afterEating (arrived cfg s)) := by
    rw [animationStep_eq, if_pos hm, if_pos hl, collectPellet_inBounds cfg _ hb, if_pos hall]
  obtain ⟨m1, m2, m3, _⟩ := animateMouth_frame (resetLevel (afterEating (arrived cfg s)))
  have hghost : ghostAnimationStep cfg (animateMouth (resetLevel (afterEating (arrived cfg s))))
      = animateMouth (resetLevel (afterEating (arrived cfg s))) := by
    unfold ghostAnimationStep
    rw [if_pos]
    rw [m1]
    show GameState.Win ≠ GameState.Playing
    decide
  unfold updateGame
  simp only []
  rw [if_pos hm, hstep, hghost]
  unfold checkGhostCollisions
  rw [collideLoop_phase, m1, m2]
  have hcol : ∀ g, Colliding cfg (animateMouth (resetLevel (afterEating (arrived cfg s)))) g ↔
      Colliding cfg (arrived cfg s) g := by
    intro g
    unfold Colliding pixelDist
    rw [m3]
    show _ ∧ _ ∧ 3 * (|(afterEating (arrived cfg s)).pacman_grid_center.x - _| +
      |(afterEating (arrived cfg s)).pacman_grid_center.y - _|) < _ ↔ _
    rw [afterEating_pixel]
  simp only [hcol]
  rfl

theorem activatePanicMode_no_chase (s : GameWidget) (g : Ghost)
    (hg : g ∈ (activatePanicMode s).ghosts) (ha : g.active = true) :
    g.mode = GhostMode.Panic := by
  unfold activatePanicMode at hg
  simp only [List.mem_map] at hg
  obtain ⟨g0, _, e⟩ := hg
  split_ifs at e with h0
  · rw [← e]
  · rw [← e] at ha
    exact absurd ha h0

/-! ## Loading the maze text -/

theorem LoadFrame.loadRefl (s : GameWidget) : LoadFrame s s := ⟨_, _, _, _, _, rfl⟩

theorem LoadFrame.loadTrans {s t u : GameWidget} (h1 : LoadFrame s t) (h2 : LoadFrame t u) :
    LoadFrame s u := by
  obtain ⟨g, o, sp, sc, sr, rfl⟩ := h1
  obtain ⟨g', o', sp', sc', sr', rfl⟩ := h2
  exact ⟨g', o', sp', sc', sr', rfl⟩

/-- The effect of the loop body of `loadMaze` for one character. -/
theorem loadCell_spec (row col : Int) (s : GameWidget) (ch : Char) :
    (loadCell row col s ch).mazeGrid = s.mazeGrid.set row col (cellValue ch) ∧
      (loadCell row col s ch).originalMazeGrid = s.originalMazeGrid.set row col (cellValue ch) ∧
      (loadCell row col s ch).ghostSpawnPositions =
        s.ghostSpawnPositions ++ (if ch = 'g' then [⟨col, row⟩] else []) ∧
      startOf (loadCell row col s ch) = (if ch = 'p' then ⟨col, row⟩ else startOf s) ∧
      LoadFrame s (loadCell row col s ch) := by
  unfold loadCell cellValue startOf setBothGrids
  by_cases h1 : ch = '1'
  · subst h1
    rw [if_pos rfl, if_pos rfl]
    refine ⟨?_, ?_, ?_, ?_, ?_⟩ <;> first | rfl | exact ⟨_, _, _, _, _, rfl⟩ | simp
  · by_cases h3 : ch = '3' ∨ ch = 'g'
    · have hp : ch ≠ 'p' := by
        rcases h3 with h | h <;> (rw [h]; decide)
      rw [if_neg h1, if_pos h3, if_neg h1, if_pos h3, if_neg hp]
      by_cases hg : ch = 'g'
      · rw [if_pos hg, if_pos hg]
        refine ⟨?_, ?_, ?_, ?_, ?_⟩ <;> first | rfl | exact ⟨_, _, _, _, _, rfl⟩
      · rw [if_neg hg, if_neg hg]
        refine ⟨?_, ?_, ?_, ?_, ?_⟩ <;> first | rfl | exact ⟨_, _, _, _, _, rfl⟩ | simp
    · have hg : ch ≠ 'g' := fun h => h3 (Or.inr h)
      rw [if_neg h1, if_neg h3, if_neg h1, if_neg h3, if_neg hg]
      by_cases h4 : ch = '4'
      · subst h4
        rw [if_pos rfl, if_pos rfl]
        refine ⟨?_, ?_, ?_, ?_, ?_⟩ <;> first | rfl | exact ⟨_, _, _, _, _, rfl⟩ | simp
      · rw [if_neg h4, if_neg h4]
        by_cases h2 : ch = '2'
        · subst h2
          rw [if_pos rfl, if_pos rfl]
          refine ⟨?_, ?_, ?_, ?_, ?_⟩ <;> first | rfl | exact ⟨_, _, _, _, _, rfl⟩ | simp
        · rw [if_neg h2, if_neg h2]
          by_cases hp : ch = 'p'
          · rw [if_pos hp, if_pos hp]
            refine ⟨?_, ?_, ?_, ?_, ?_⟩ <;> first | rfl | exact ⟨_, _, _, _, _, rfl⟩ | simp
          · rw [if_neg hp, if_neg hp]
            refine ⟨?_, ?_, ?_, ?_, ?_⟩ <;> first | rfl | exact ⟨_, _, _, _, _, rfl⟩ | simp

theorem loadLine_eq (cfg : Config) (row : Nat) (s : GameWidget) (line : String) :
    loadLine cfg row s line = loadChars row 0 s (line.toList.take cfg.MAZE_WIDTH) := rfl

theorem precomputePaths_frame (cfg : Config) (s : GameWidget) :
    ∃ (p : QPoint → Option Nat) (i : List QPoint) (l : Nat → Nat → QPoint),
      precomputePaths cfg s = { s with m_pointToId := p, m_idToPoint := i, m_nextMoveLookup := l } := by
  unfold precomputePaths
  simp only []
  split_ifs <;> exact ⟨_, _, _, rfl⟩

theorem loadMaze_eq (cfg : Config) (s : GameWidget) (lines : List String) :
    loadMaze cfg s (some lines) =
      precomputePaths cfg (loadRows cfg 0
        { s with startMacroRow := -1, startMacroCol := -1, ghostSpawnPositions := [] }
        (lines.take cfg.MAZE_HEIGHT)) := rfl

theorem loadChars_cons (row : Int) (k : Nat) (s : GameWidget) (ch : Char) (cs : List Char) :
    loadChars row k s (ch :: cs) = loadChars row (k + 1) (loadCell row k s ch) cs := rfl

theorem loadRows_cons (cfg : Config) (k : Nat) (s : GameWidget) (l : String)
    (ls : List String) :
    loadRows cfg k s (l :: ls) = loadRows cfg (k + 1) (loadLine cfg k s l) ls := rfl

/-- The cells written by the column loop, for either grid. -/
theorem loadChars_grid (sel : GameWidget → Grid)
    (hsel : ∀ row col s ch, sel (loadCell row col s ch) = (sel s).set row col (cellValue ch))
    (row : Int) :
    ∀ (cs : List Char) (k : Nat) (s : GameWidget) (r c : Int),
      sel (loadChars row k s cs) r c =
        if r = row ∧ (k : Int) ≤ c ∧ c < k + cs.length then
          cellValue (cs.getD (c - k).toNat ' ')
        else sel s r c := by
  intro cs
  induction cs with
  | nil =>
    intro k s r c
    rw [if_neg]
    · rfl
    · simp only [List.length_nil]
      omega
  | cons ch cs ih =>
    intro k s r c
    rw [loadChars_cons, ih, hsel]
    simp only [List.length_cons]
    by_cases h1 : r = row ∧ ((k + 1 : Nat) : Int) ≤ c ∧ c < ((k + 1 : Nat) : Int) + cs.length
    · rw [if_pos h1, if_pos (by push_cast at h1 ⊢; omega)]
      have e : (c - (k : Int)).toNat = (c - ((k + 1 : Nat) : Int)).toNat + 1 := by
        push_cast at h1 ⊢
        omega
      rw [e, List.getD_cons_succ]
    · rw [if_neg h1]
      by_cases h2 : r = row ∧ c = k
      · rw [Grid.set, if_pos h2, if_pos (by push_cast; omega)]
        have e : (c - (k : Int)).toNat = 0 := by omega
        rw [e, List.getD_cons_zero]
      · rw [Grid.set, if_neg h2, if_neg (by push_cast at h1 ⊢; omega)]

/-- The cells written by the row loop, for either grid. -/
theorem loadRows_grid (cfg : Config) (sel : GameWidget → Grid)
    (hsel : ∀ row col s ch, sel (loadCell row col s ch) = (sel s).set row col (cellValue ch)) :
    ∀ (ls : List String) (k : Nat) (s : GameWidget) (r c : Int),
      sel (loadRows cfg k s ls) r c =
        if (k : Int) ≤ r ∧ r < k + ls.length ∧ 0 ≤ c ∧
            c < ((ls.getD (r - k).toNat "").toList.take cfg.MAZE_WIDTH).length then
          cellValue (((ls.getD (r - k).toNat "").toList.take cfg.MAZE_WIDTH).getD c.toNat ' ')
        else sel s r c := by
  intro ls
  induction ls with
  | nil =>
    intro k s r c
    rw [if_neg]
    · rfl
    · simp only [List.length_nil]
      omega
  | cons l ls ih =>
    intro k s r c
    rw [loadRows_cons, ih, loadLine_eq, loadChars_grid sel hsel]
    simp only [List.length_cons]
    by_cases h1 : ((k + 1 : Nat) : Int) ≤ r ∧ r < ((k + 1 : Nat) : Int) + ls.length ∧ 0 ≤ c ∧
        c < ((ls.getD (r - ((k + 1 : Nat) : Int)).toNat "").toList.take cfg.MAZE_WIDTH).length
    · have e : (r - (k : Int)).toNat = (r - ((k + 1 : Nat) : Int)).toNat + 1 := by
        push_cast at h1 ⊢
        omega
      rw [if_pos h1, e, List.getD_cons_succ, if_pos (by push_cast at h1 ⊢; omega)]
    · rw [if_neg h1]
      by_cases h2 : r = k
      · have e : (r - (k : Int)).toNat = 0 := by omega
        rw [e, List.getD_cons_zero]
        simp only [h2, true_and, Nat.cast_zero, zero_add, sub_zero, le_refl]
        by_cases h3 : 0 ≤ c ∧ c < ((l.toList.take cfg.MAZE_WIDTH).length : Int)
        · rw [if_pos h3, if_pos ⟨by omega, h3.1, h3.2⟩]
        · rw [if_neg h3, if_neg (fun h => h3 ⟨h.2.1, h.2.2⟩)]
      · rw [if_neg (fun h => h2 h.1), if_neg]
        intro h
        apply h1
        have hk : (k : Int) + 1 ≤ r := by omega
        have e : (r - (k : Int)).toNat = (r - ((k + 1 : Nat) : Int)).toNat + 1 := by
          push_cast
          omega
        rw [e, List.getD_cons_succ] at h
        push_cast
        exact ⟨hk, by omega, h.2.2.1, h.2.2.2⟩

theorem rowPositions_cons (ch : Char) (r k : Nat) (c : Char) (cs : List Char) :
    rowPositions ch r k (c :: cs) =
      (if c = ch then [(⟨(k : Int), (r : Int)⟩ : QPoint)] else []) ++
        rowPositions ch r (k + 1) cs := by
  unfold rowPositions
  rw [List.enumFrom_cons, List.filterMap_cons]
  by_cases h : c = ch
  · simp [h]
  · simp [h]

/-- The spawn list, the start marker and the other members after the column loop. -/
theorem loadChars_marks (row : Nat) :
    ∀ (cs : List Char) (k : Nat) (s : GameWidget),
      (loadChars row k s cs).ghostSpawnPositions =
          s.ghostSpawnPositions ++ rowPositions 'g' row k cs ∧
        startOf (loadChars row k s cs) =
          ((rowPositions 'p' row k cs).getLast?).getD (startOf s) ∧
        LoadFrame s (loadChars row k s cs) := by
  intro cs
  induction cs with
  | nil =>
    intro k s
    exact ⟨by simp [loadChars, rowPositions], rfl, LoadFrame.loadRefl s⟩
  | cons ch cs ih =>
    intro k s
    obtain ⟨_, _, h3, h4, h5⟩ := loadCell_spec row k s ch
    obtain ⟨i1, i2, i3⟩ := ih (k + 1) (loadCell row k s ch)
    rw [loadChars_cons, rowPositions_cons, rowPositions_cons]
    refine ⟨?_, ?_, h5.loadTrans i3⟩
    · rw [i1, h3, List.append_assoc]
    · rw [i2, h4, List.getLast?_append]
      cases hl : (rowPositions 'p' row (k + 1) cs).getLast? with
      | some p => rfl
      | none =>
        by_cases hp : ch = 'p'
        · simp [hp]
        · simp [hp]

/-- The tiles of the character `ch` in the lines `ls`, the first of them in row `k`. -/
theorem loadRows_marks (cfg : Config) :
    ∀ (ls : List String) (k : Nat) (s : GameWidget),
      (loadRows cfg k s ls).ghostSpawnPositions =
          s.ghostSpawnPositions ++ (ls.enumFrom k).flatMap
            (fun rl => rowPositions 'g' rl.1 0 (rl.2.toList.take cfg.MAZE_WIDTH)) ∧
        startOf (loadRows cfg k s ls) =
          (((ls.enumFrom k).flatMap
            (fun rl => rowPositions 'p' rl.1 0 (rl.2.toList.take cfg.MAZE_WIDTH))).getLast?).getD
              (startOf s) ∧
        LoadFrame s (loadRows cfg k s ls) := by
  intro ls
  induction ls with
  | nil =>
    intro k s
    exact ⟨by simp [loadRows], rfl, LoadFrame.loadRefl s⟩
  | cons l ls ih =>
    intro k s
    obtain ⟨h1, h2, h3⟩ := loadChars_marks k (l.toList.take cfg.MAZE_WIDTH) 0 s
    obtain ⟨i1, i2, i3⟩ := ih (k + 1) (loadLine cfg k s l)
    rw [loadRows_cons, List.enumFrom_cons, List.flatMap_cons, List.flatMap_cons]
    rw [loadLine_eq] at i1 i2 i3 ⊢
    refine ⟨?_, ?_, h3.loadTrans i3⟩
    · rw [i1, h1, List.append_assoc]
    · rw [i2, h2, List.getLast?_append]
      cases hl : ((ls.enumFrom (k + 1)).flatMap
          (fun rl => rowPositions 'p' rl.1 0 (rl.2.toList.take cfg.MAZE_WIDTH))).getLast? with
      | some p => rfl
      | none => rfl

theorem getD_take (α : Type) (l : List α) (n i : Nat) (d : α) (h : i < n) :
    (l.take n).getD i d = l.getD i d := by
  rw [List.getD_eq_getElem?_getD, List.getD_eq_getElem?_getD, List.getElem?_take_of_lt h]

theorem get?_eq_some_getD (α : Type) (l : List α) (i : Nat) (d : α) (h : i < l.length) :
    l.get? i = some (l.getD i d) := by
  rw [List.get?_eq_getElem?, List.getD_eq_getElem?_getD, List.getElem?_eq_getElem h]
  rfl

/-- The character found by the two loops of `loadMaze` is the character of the text. -/
theorem charAt_eq (cfg : Config) (lines : List String) (r c : Int) :
    charAt cfg lines r c =
      if ((0 : Nat) : Int) ≤ r ∧ r < ((0 : Nat) : Int) + (lines.take cfg.MAZE_HEIGHT).length ∧
          0 ≤ c ∧
          c < (((lines.take cfg.MAZE_HEIGHT).getD (r - ((0 : Nat) : Int)).toNat "").toList.take
            cfg.MAZE_WIDTH).length then
        some ((((lines.take cfg.MAZE_HEIGHT).getD (r - ((0 : Nat) : Int)).toNat "").toList.take
          cfg.MAZE_WIDTH).getD c.toNat ' ')
      else none := by
  unfold charAt
  simp only [Nat.cast_zero, zero_add, sub_zero, List.length_take]
  by_cases hb : 0 ≤ r ∧ r < cfg.MAZE_HEIGHT ∧ 0 ≤ c ∧ c < cfg.MAZE_WIDTH
  · rw [if_pos hb]
    obtain ⟨hr0, hr, hc0, hc⟩ := hb
    have hrn : r.toNat < cfg.MAZE_HEIGHT := by omega
    have hcn : c.toNat < cfg.MAZE_WIDTH := by omega
    rw [getD_take _ _ _ _ _ hrn]
    by_cases hrl : r.toNat < lines.length
    · rw [get?_eq_some_getD _ lines r.toNat "" hrl, Option.some_bind]
      by_cases hcl : c.toNat < (lines.getD r.toNat "").toList.length
      · rw [if_pos (by refine ⟨hr0, by omega, hc0, by omega⟩), getD_take _ _ _ _ _ hcn,
          get?_eq_some_getD _ _ c.toNat ' ' hcl]
      · rw [if_neg (by intro h; omega), List.get?_eq_getElem?,
          List.getElem?_eq_none (by omega)]
    · have e1 : lines.get? r.toNat = none := by
        rw [List.get?_eq_getElem?, List.getElem?_eq_none (by omega)]
      rw [e1, if_neg (by intro h; omega)]
      rfl
  · rw [if_neg hb, if_neg]
    intro h
    apply hb
    refine ⟨h.1, by omega, h.2.2.1, by omega⟩

theorem loadRows_cell (cfg : Config) (sel : GameWidget → Grid)
    (hsel : ∀ row col s ch, sel (loadCell row col s ch) = (sel s).set row col (cellValue ch))
    (s : GameWidget) (lines : List String) (r c : Int) :
    sel (loadRows cfg 0 s (lines.take cfg.MAZE_HEIGHT)) r c =
      match charAt cfg lines r c with
      | some ch => cellValue ch
      | none => sel s r c := by
  rw [loadRows_grid cfg sel hsel, charAt_eq]
  split_ifs <;> rfl

theorem positionsOf_eq (cfg : Config) (lines : List String) (ch : Char) :
    positionsOf cfg lines ch =
      ((lines.take cfg.MAZE_HEIGHT).enumFrom 0).flatMap
        (fun rl => rowPositions ch rl.1 0 (rl.2.toList.take cfg.MAZE_WIDTH)) := rfl

/-! ## What the pursuer step leaves alone -/

theorem PolicyFrame.policyRefl (s : GameWidget) : PolicyFrame s s := ⟨_, _, rfl⟩

theorem PolicyFrame.policyTrans {s t u : GameWidget} (h1 : PolicyFrame s t) (h2 : PolicyFrame t u) :
    PolicyFrame s u := by
  obtain ⟨p, f, rfl⟩ := h1
  obtain ⟨p', f', rfl⟩ := h2
  exact ⟨p', f', rfl⟩

theorem GhostFrame.ghostRefl (s : GameWidget) : GhostFrame s s := ⟨_, _, _, _, _, rfl⟩

theorem GhostFrame.ghostTrans {s t u : GameWidget} (h1 : GhostFrame s t) (h2 : GhostFrame t u) :
    GhostFrame s u := by
  obtain ⟨gs, n, p, f, d, rfl⟩ := h1
  obtain ⟨gs', n', p', f', d', rfl⟩ := h2
  exact ⟨gs', n', p', f', d', rfl⟩

theorem PolicyFrame.ghost {s t : GameWidget} (h : PolicyFrame s t) : GhostFrame s t := by
  obtain ⟨p, f, rfl⟩ := h
  exact ⟨_, _, p, f, _, rfl⟩

theorem bounded_frame (s : GameWidget) (n : Nat) : PolicyFrame s (bounded s n).2 :=
  ⟨_, _, rfl⟩

theorem pickValidDir_frame (cfg : Config) (s : GameWidget) (ghost : Ghost)
    (r : Direction × GameWidget) (h : pickValidDir cfg s ghost = some r) :
    PolicyFrame s r.2 := by
  unfold pickValidDir at h
  simp only [] at h
  split_ifs at h
  injection h with h
  subst h
  exact ⟨_, _, rfl⟩

theorem getAggressiveChaserDirection_frame (cfg : Config) (s : GameWidget) (ghost : Ghost) :
    PolicyFrame s (getAggressiveChaserDirection cfg s ghost).2.2 ∧
      (getAggressiveChaserDirection cfg s ghost).2.1.macrogrid_center =
        ghost.macrogrid_center := by
  unfold getAggressiveChaserDirection
  simp only []
  split_ifs
  · split
    · next r hr => exact ⟨pickValidDir_frame cfg s _ r hr, rfl⟩
    · exact ⟨⟨_, _, rfl⟩, rfl⟩
  · exact ⟨⟨_, _, rfl⟩, rfl⟩

theorem getAmbusherDirection_frame (cfg : Config) (s : GameWidget) (ghost : Ghost) :
    PolicyFrame s (getAmbusherDirection cfg s ghost).2 := by
  unfold getAmbusherDirection
  simp only []
  split_ifs <;> exact ⟨_, _, rfl⟩

theorem patrolFallback_frame (cfg : Config) (s : GameWidget) (ghost : Ghost) :
    PolicyFrame s
      (match pickValidDir cfg s ghost with
        | some r => r
        | none => (Direction.Stop, s)).2 := by
  split
  · next r hr => exact pickValidDir_frame cfg s _ r hr
  · exact ⟨_, _, rfl⟩

theorem getRandomPatrolDirection_frame (cfg : Config) (s : GameWidget) (ghost : Ghost) :
    PolicyFrame s (getRandomPatrolDirection cfg s ghost).2 := by
  unfold getRandomPatrolDirection
  simp only []
  split_ifs
  · exact ⟨_, _, rfl⟩
  · exact (bounded_frame s 100).policyTrans (patrolFallback_frame cfg _ ghost)
  · exact (bounded_frame s 100).policyTrans (patrolFallback_frame cfg _ ghost)
  · exact patrolFallback_frame cfg s ghost

theorem getIntersectionRandomDirection_frame (cfg : Config) (s : GameWidget)
    (ghost : Ghost) : PolicyFrame s (getIntersectionRandomDirection cfg s ghost).2 := by
  unfold getIntersectionRandomDirection
  split_ifs
  · exact patrolFallback_frame cfg s ghost
  · exact ⟨_, _, rfl⟩
  · exact patrolFallback_frame cfg s ghost

theorem fleeDirection_frame (cfg : Config) (s : GameWidget) (ghost : Ghost) :
    PolicyFrame s (fleeDirection cfg s ghost).2 := by
  unfold fleeDirection
  simp only []
  split_ifs <;> first | exact ⟨_, _, rfl⟩ | exact getRandomPatrolDirection_frame cfg s ghost

theorem getGhostPanicDirection_frame (cfg : Config) (s : GameWidget) (ghost : Ghost) :
    PolicyFrame s (getGhostPanicDirection cfg s ghost).2 := by
  unfold getGhostPanicDirection
  simp only []
  split_ifs
  · split
    · next d hd => exact (bounded_frame s 100).policyTrans (pickValidDir_frame cfg _ _ d hd)
    · exact (bounded_frame s 100).policyTrans (fleeDirection_frame cfg _ ghost)
  · exact (bounded_frame s 100).policyTrans (fleeDirection_frame cfg _ ghost)
  · exact fleeDirection_frame cfg s ghost

theorem getGhostDirection_frame (cfg : Config) (s : GameWidget) (ghost : Ghost) :
    PolicyFrame s (getGhostDirection cfg s ghost).2.2 ∧
      (getGhostDirection cfg s ghost).2.1.macrogrid_center = ghost.macrogrid_center := by
  unfold getGhostDirection
  split_ifs
  · exact ⟨getGhostPanicDirection_frame cfg s ghost, rfl⟩
  · split
    · exact ⟨⟨_, _, rfl⟩, rfl⟩
    · exact getAggressiveChaserDirection_frame cfg s ghost
    · exact ⟨getAmbusherDirection_frame cfg s ghost, rfl⟩
    · exact ⟨getRandomPatrolDirection_frame cfg s ghost, rfl⟩
    · exact ⟨getIntersectionRandomDirection_frame cfg s ghost, rfl⟩

theorem moveGhost_frame (cfg : Config) (s : GameWidget) (ghost : Ghost) :
    PolicyFrame s (moveGhost cfg s ghost).2 ∧
      (moveGhost cfg s ghost).1.macrogrid_center = ghost.macrogrid_center := by
  obtain ⟨h1, h2⟩ := getGhostDirection_frame cfg s ghost
  unfold moveGhost
  simp only []
  split_ifs
  · exact ⟨⟨_, _, rfl⟩, rfl⟩
  · exact ⟨h1, h2⟩
  · split <;> exact ⟨h1, h2⟩

theorem spawnChildGhost_frame (s : GameWidget) (parent : Ghost) :
    GhostFrame s (spawnChildGhost s parent) := by
  unfold spawnChildGhost
  split_ifs <;> exact ⟨_, _, _, _, _, rfl⟩

theorem reproduce_frame (cfg : Config) (s : GameWidget) (ghost : Ghost) :
    GhostFrame s (reproduce cfg s ghost) := by
  unfold reproduce
  simp only []
  split_ifs
  · exact (bounded_frame s 100).ghost.ghostTrans (spawnChildGhost_frame _ ghost)
  · exact (bounded_frame s 100).ghost
  · exact GhostFrame.ghostRefl s

theorem ghostStepAt_frame (cfg : Config) (s : GameWidget) (i : Nat) :
    GhostFrame s (ghostStepAt cfg s i) := by
  rw [ghostStepAt_eq]
  split
  · exact GhostFrame.ghostRefl s
  · next ghost hg =>
    split_ifs
    · exact GhostFrame.ghostRefl s
    · exact ⟨_, _, _, _, _, rfl⟩
    · exact ((reproduce_frame cfg s (throttle ghost).2).ghostTrans
        (moveGhost_frame cfg _ (throttle ghost).2).1.ghost).ghostTrans ⟨_, _, _, _, _, rfl⟩
    · exact ⟨_, _, _, _, _, rfl⟩

theorem ghostLoop_frame (cfg : Config) (fuel : Nat) :
    ∀ (i : Nat) (s : GameWidget), GhostFrame s (ghostLoop cfg fuel i s) := by
  induction fuel with
  | zero => intro i s; exact GhostFrame.ghostRefl s
  | succ fuel ih =>
    intro i s
    rw [ghostLoop]
    split_ifs
    · exact (ghostStepAt_frame cfg s i).ghostTrans (ih _ _)
    · exact GhostFrame.ghostRefl s

theorem ghostAnimationStep_frame (cfg : Config) (s : GameWidget) :
    GhostFrame s (ghostAnimationStep cfg s) := by
  unfold ghostAnimationStep
  split_ifs
  · exact GhostFrame.ghostRefl s
  · exact ghostLoop_frame cfg _ _ _

/-- The collision loop changes at most the pursuer list, the phase, the music, the sound
log, the score and the pending respawns. -/
theorem collideLoop_frame (cfg : Config) (todo : List Ghost) :
    ∀ (s : GameWidget) (done : List Ghost),
      ∃ (gs : List Ghost) (ph : GameState) (bg : Bool) (sfx : List Sfx) (sc : Int)
        (pr : List (Nat × Int)),
        collideLoop cfg s done todo =
          { s with
            ghosts := gs, m_gameState := ph, bgMusicPlaying := bg, sfxLog := sfx,
            m_score := sc, pendingRespawns := pr } := by
  induction todo with
  | nil =>
    intro s done
    exact ⟨_, _, _, _, _, _, collideLoop_nil cfg s done⟩
  | cons g todo ih =>
    intro s done
    rw [collideLoop_cons]
    split_ifs
    · exact ⟨_, _, _, _, _, _, rfl⟩
    · obtain ⟨gs, ph, bg, sfx, sc, pr, e⟩ := ih { s with
          m_score := s.m_score + 50
          pendingRespawns := s.pendingRespawns ++ [(2000, g.parentId)] }
        (done ++ [caught g])
      exact ⟨gs, ph, bg, sfx, sc, pr, by rw [e]⟩
    · exact ih s (done ++ [g])

/-- The collision loop keeps every member of a pursuer that being caught keeps. -/
theorem collideLoop_map {α : Type} (f : Ghost → α) (hf : ∀ g, f (caught g) = f g)
    (cfg : Config) (todo : List Ghost) :
    ∀ (s : GameWidget) (done : List Ghost),
      (collideLoop cfg s done todo).ghosts.map f = (done ++ todo).map f := by
  induction todo with
  | nil =>
    intro s done
    rw [collideLoop_nil]
    simp
  | cons g todo ih =>
    intro s done
    rw [collideLoop_cons]
    split_ifs
    · rfl
    · rw [ih]
      simp [hf]
    · rw [ih]
      simp

/-! ## The working grid during a round -/

theorem Static.staticRefl (s : GameWidget) : Static s s := ⟨rfl, rfl, rfl, rfl, rfl, rfl⟩

theorem Static.staticTrans {s t u : GameWidget} (h1 : Static s t) (h2 : Static t u) :
    Static s u :=
  ⟨h2.1.trans h1.1, h2.2.1.trans h1.2.1, h2.2.2.1.trans h1.2.2.1,
    h2.2.2.2.1.trans h1.2.2.2.1, h2.2.2.2.2.1.trans h1.2.2.2.2.1,
    h2.2.2.2.2.2.trans h1.2.2.2.2.2⟩

theorem GhostFrame.static {s t : GameWidget} (h : GhostFrame s t) :
    Static s t ∧ t.mazeGrid = s.mazeGrid := by
  obtain ⟨gs, n, p, f, d, rfl⟩ := h
  exact ⟨⟨rfl, rfl, rfl, rfl, rfl, rfl⟩, rfl⟩

theorem Eaten.eatenRefl (g : Grid) : Eaten g g := fun _ _ => Or.inl rfl

theorem Eaten.eatenTrans {g1 g2 g3 : Grid} (h1 : Eaten g1 g2) (h2 : Eaten g2 g3) :
    Eaten g1 g3 := by
  intro r c
  rcases h2 r c with e2 | ⟨p2, e2⟩
  · rcases h1 r c with e1 | ⟨p1, e1⟩
    · exact Or.inl (e2.trans e1)
    · exact Or.inr ⟨p1, e2.trans e1⟩
  · rcases h1 r c with e1 | ⟨p1, e1⟩
    · rw [e1] at p2
      exact Or.inr ⟨p2, e2⟩
    · rw [e1] at p2
      omega

theorem Eaten.of_eq {g g' : Grid} (h : g' = g) : Eaten g g' := by
  rw [h]
  exact Eaten.eatenRefl g

theorem Eaten.sameWalls {g g' : Grid} (h : Eaten g g') (cfg : Config) :
    SameWalls cfg g g' := by
  intro r c _ _ _ _
  rcases h r c with e | ⟨p, e⟩
  · rw [e]
  · constructor
    · intro h1
      omega
    · intro h1
      omega

theorem afterEating_grid (s : GameWidget) :
    Eaten s.mazeGrid (afterEating s).mazeGrid ∧ Static s (afterEating s) := by
  unfold afterEating
  simp only []
  split_ifs with h0 h4
  · refine ⟨?_, Static.staticRefl s⟩
    intro r c
    by_cases h : r = s.pacman_macrogrid_center.y ∧ c = s.pacman_macrogrid_center.x
    · obtain ⟨rfl, rfl⟩ := h
      exact Or.inr ⟨Or.inl h0, Grid.set_same _ _ _ _⟩
    · exact Or.inl (Grid.set_other _ _ _ _ _ _ h)
  · refine ⟨?_, ⟨rfl, rfl, rfl, rfl, rfl, rfl⟩⟩
    intro r c
    by_cases h : r = s.pacman_macrogrid_center.y ∧ c = s.pacman_macrogrid_center.x
    · obtain ⟨rfl, rfl⟩ := h
      exact Or.inr ⟨Or.inr h4, Grid.set_same _ _ _ _⟩
    · exact Or.inl (Grid.set_other _ _ _ _ _ _ h)
  · exact ⟨Eaten.eatenRefl _, Static.staticRefl s⟩

theorem collectPellet_grid (cfg : Config) (s : GameWidget) :
    Eaten s.mazeGrid (collectPellet cfg s).mazeGrid ∧ Static s (collectPellet cfg s) := by
  rw [collectPellet_eq]
  split_ifs
  · exact ⟨Eaten.eatenRefl _, Static.staticRefl s⟩
  · exact afterEating_grid s
  · exact afterEating_grid s

theorem animationStep_grid (cfg : Config) (s : GameWidget) :
    Eaten s.mazeGrid (animationStep cfg s).mazeGrid ∧ Static s (animationStep cfg s) := by
  rw [animationStep_eq]
  split_ifs
  · exact collectPellet_grid cfg (arrived cfg s)
  · exact ⟨Eaten.eatenRefl _, Static.staticRefl s⟩
  · exact ⟨Eaten.eatenRefl _, Static.staticRefl s⟩

theorem animateMouth_static (s : GameWidget) : Static s (animateMouth s) := by
  rw [animateMouth_eq]
  exact ⟨rfl, rfl, rfl, rfl, rfl, rfl⟩

theorem checkGhostCollisions_static (cfg : Config) (s : GameWidget) :
    Static s (checkGhostCollisions cfg s) ∧ (checkGhostCollisions cfg s).mazeGrid = s.mazeGrid ∧
      (checkGhostCollisions cfg s).pacman_macrogrid_center = s.pacman_macrogrid_center := by
  obtain ⟨gs, ph, bg, sfx, sc, pr, e⟩ := collideLoop_frame cfg s.ghosts s []
  unfold checkGhostCollisions
  rw [e]
  exact ⟨⟨rfl, rfl, rfl, rfl, rfl, rfl⟩, rfl, rfl⟩

theorem updateGame_grid (cfg : Config) (s : GameWidget) :
    Eaten s.mazeGrid (updateGame cfg s).mazeGrid ∧ Static s (updateGame cfg s) := by
  unfold updateGame
  simp only []
  obtain ⟨c1, c2, _⟩ := checkGhostCollisions_static cfg (ghostAnimationStep cfg
    (if s.isMoving = true then animateMouth (animationStep cfg s) else s))
  obtain ⟨g1, g2⟩ := (ghostAnimationStep_frame cfg
    (if s.isMoving = true then animateMouth (animationStep cfg s) else s)).static
  rw [c2, g2]
  refine ⟨?_, ?_⟩
  · split_ifs
    · rw [(animateMouth_frame _).2.2.2]
      exact (animationStep_grid cfg s).1
    · exact Eaten.eatenRefl _
  · refine Static.staticTrans ?_ (g1.staticTrans c1)
    split_ifs
    · exact (animationStep_grid cfg s).2.staticTrans (animateMouth_static _)
    · exact Static.staticRefl s

theorem timerEvent_grid (cfg : Config) (s : GameWidget) :
    Eaten s.mazeGrid (timerEvent cfg s).mazeGrid ∧ Static s (timerEvent cfg s) := by
  unfold timerEvent
  split
  · exact updateGame_grid cfg s
  · exact ⟨Eaten.eatenRefl _, Static.staticRefl s⟩

theorem startAnimatedMove_static (s : GameWidget) (tx ty : Int) :
    Static s (startAnimatedMove s tx ty) ∧ (startAnimatedMove s tx ty).mazeGrid = s.mazeGrid ∧
      (startAnimatedMove s tx ty).pacman_macrogrid_center = s.pacman_macrogrid_center ∧
      (startAnimatedMove s tx ty).ghosts = s.ghosts := by
  unfold startAnimatedMove
  split_ifs <;> exact ⟨⟨rfl, rfl, rfl, rfl, rfl, rfl⟩, rfl, rfl, rfl⟩

theorem processMovementCommand_static (cfg : Config) (s : GameWidget) (command : String) :
    Static s (processMovementCommand cfg s command) ∧
      (processMovementCommand cfg s command).mazeGrid = s.mazeGrid ∧
      (processMovementCommand cfg s command).pacman_macrogrid_center =
        s.pacman_macrogrid_center ∧
      (processMovementCommand cfg s command).ghosts = s.ghosts := by
  unfold processMovementCommand
  split_ifs <;> first
    | exact ⟨⟨rfl, rfl, rfl, rfl, rfl, rfl⟩, rfl, rfl, rfl⟩
    | exact startAnimatedMove_static _ _ _

theorem keyPressEvent_static (cfg : Config) (s : GameWidget) (key : Key) :
    Static s (keyPressEvent cfg s key) ∧ (keyPressEvent cfg s key).mazeGrid = s.mazeGrid ∧
      (keyPressEvent cfg s key).pacman_macrogrid_center = s.pacman_macrogrid_center ∧
      (keyPressEvent cfg s key).ghosts = s.ghosts := by
  unfold keyPressEvent
  split_ifs
  all_goals
    cases key <;> first
      | exact ⟨⟨rfl, rfl, rfl, rfl, rfl, rfl⟩, rfl, rfl, rfl⟩
      | exact startAnimatedMove_static _ _ _

theorem fireRespawn_static (cfg : Config) (s : GameWidget) (k : Nat) :
    Static s (fireRespawn cfg s k) ∧ (fireRespawn cfg s k).mazeGrid = s.mazeGrid ∧
      (fireRespawn cfg s k).pacman_macrogrid_center = s.pacman_macrogrid_center := by
  unfold fireRespawn
  split <;> exact ⟨⟨rfl, rfl, rfl, rfl, rfl, rfl⟩, rfl, rfl⟩

theorem startGame_static (cfg : Config) (s : GameWidget) : Static s (startGame cfg s) := by
  by_cases h : ValidStart s
  · obtain ⟨gs, n, e⟩ := startGame_valid cfg s h
    rw [e]
    exact ⟨rfl, rfl, rfl, rfl, rfl, rfl⟩
  · have hs : startGame cfg s = s := by
      unfold startGame
      rw [if_pos]
      by_contra hc
      exact h ⟨fun h1 => hc (Or.inl h1), fun h1 => hc (Or.inr h1)⟩
    rw [hs]
    exact Static.staticRefl s

theorem applyEvent_static (cfg : Config) (s : GameWidget) (e : Event) :
    Static s (applyEvent cfg s e) := by
  cases e with
  | tick => exact (timerEvent_grid cfg s).2
  | command token => exact (processMovementCommand_static cfg s token).1
  | key k => exact (keyPressEvent_static cfg s k).1
  | respawn k => exact (fireRespawn_static cfg s k).1
  | panicTimeout => exact ⟨rfl, rfl, rfl, rfl, rfl, rfl⟩
  | newRound round => exact startGame_static cfg { s with m_round := round }

theorem applyEvent_grid (cfg : Config) (s : GameWidget) (e : Event) (he : e.inRound = true) :
    Eaten s.mazeGrid (applyEvent cfg s e).mazeGrid := by
  cases e with
  | tick => exact (timerEvent_grid cfg s).1
  | command token => exact Eaten.of_eq (processMovementCommand_static cfg s token).2.1
  | key k => exact Eaten.of_eq (keyPressEvent_static cfg s k).2.1
  | respawn k => exact Eaten.of_eq (fireRespawn_static cfg s k).2.1
  | panicTimeout => exact Eaten.eatenRefl _
  | newRound round => exact Bool.noConfusion he

theorem run_static (cfg : Config) (events : List Event) (s : GameWidget) :
    Static s (run cfg s events) := by
  induction events generalizing s with
  | nil => exact Static.staticRefl s
  | cons e events ih => exact (applyEvent_static cfg s e).staticTrans (ih _)

theorem run_grid (cfg : Config) (events : List Event) (s : GameWidget)
    (he : ∀ e ∈ events, e.inRound = true) :
    Eaten s.mazeGrid (run cfg s events).mazeGrid := by
  induction events generalizing s with
  | nil => exact Eaten.eatenRefl _
  | cons e events ih =>
    exact (applyEvent_grid cfg s e (he e (List.mem_cons_self _ _))).eatenTrans
      (ih _ (fun e' h' => he e' (List.mem_cons_of_mem _ h')))

/-! ## The marks of a loaded maze -/

theorem charAt_inBounds (cfg : Config) (lines : List String) (r c : Int) (ch : Char)
    (h : charAt cfg lines r c = some ch) :
    0 ≤ r ∧ r < cfg.MAZE_HEIGHT ∧ 0 ≤ c ∧ c < cfg.MAZE_WIDTH := by
  unfold charAt at h
  split_ifs at h with hb
  exact hb

/-- A tile listed for the character `ch` holds `ch` in the text. -/
theorem positionsOf_mem (cfg : Config) (lines : List String) (ch : Char) (p : QPoint)
    (h : p ∈ positionsOf cfg lines ch) : charAt cfg lines p.y p.x = some ch := by
  unfold positionsOf at h
  rw [List.mem_flatMap] at h
  obtain ⟨⟨i, line⟩, hmem, hp⟩ := h
  rw [List.mk_mem_enum_iff_getElem?, List.getElem?_take] at hmem
  split_ifs at hmem with hi
  unfold rowPositions at hp
  rw [List.mem_filterMap] at hp
  obtain ⟨⟨j, c⟩, hj, hc⟩ := hp
  rw [List.mk_mem_enumFrom_iff_le_and_getElem?_sub, List.getElem?_take] at hj
  obtain ⟨_, hj⟩ := hj
  split_ifs at hj with hjw
  simp only [Nat.sub_zero] at hj hjw
  split_ifs at hc with hcc
  simp only [Option.some.injEq] at hc
  subst hc
  simp only at hcc ⊢
  subst hcc
  unfold charAt
  rw [if_pos ⟨Int.ofNat_nonneg i, by exact_mod_cast hi, Int.ofNat_nonneg j,
    by exact_mod_cast hjw⟩]
  simp only [Int.toNat_ofNat, List.get?_eq_getElem?, hmem, Option.some_bind, hj]

theorem construct_eq (cfg : Config) (u : GameWidget) (mapFile : Option (List String)) :
    ∃ v : GameWidget, construct cfg u mapFile = loadMaze cfg v mapFile ∧
      v.pacman_macrogrid_center = ⟨0, 0⟩ ∧ v.ghosts = [] ∧ v.startMacroRow = -1 ∧
      v.startMacroCol = -1 ∧ v.ghostSpawnPositions = [] ∧ v.mazeGrid = u.mazeGrid ∧
      v.originalMazeGrid = u.originalMazeGrid ∧ v.m_gameState = GameState.Menu :=
  ⟨_, rfl, rfl, rfl, rfl, rfl, rfl, rfl, rfl, rfl⟩

/-- The grids, the spawn list and the start marker after `loadMaze` on a readable file. -/
theorem loadMaze_closed (cfg : Config) (s : GameWidget) (lines : List String) :
    (∀ r c : Int, (loadMaze cfg s (some lines)).mazeGrid r c =
      match charAt cfg lines r c with
      | some ch => cellValue ch
      | none => s.mazeGrid r c) ∧
    (∀ r c : Int, (loadMaze cfg s (some lines)).originalMazeGrid r c =
      match charAt cfg lines r c with
      | some ch => cellValue ch
      | none => s.originalMazeGrid r c) ∧
    (loadMaze cfg s (some lines)).ghostSpawnPositions = positionsOf cfg lines 'g' ∧
    startOf (loadMaze cfg s (some lines)) =
      ((positionsOf cfg lines 'p').getLast?).getD ⟨-1, -1⟩ := by
  obtain ⟨p, i, l, e⟩ := precomputePaths_frame cfg (loadRows cfg 0
    { s with startMacroRow := -1, startMacroCol := -1, ghostSpawnPositions := [] }
    (lines.take cfg.MAZE_HEIGHT))
  obtain ⟨m1, m2, _⟩ := loadRows_marks cfg (lines.take cfg.MAZE_HEIGHT) 0
    { s with startMacroRow := -1, startMacroCol := -1, ghostSpawnPositions := [] }
  rw [loadMaze_eq, e]
  refine ⟨?_, ?_, ?_, ?_⟩
  · intro r c
    exact loadRows_cell cfg GameWidget.mazeGrid
      (fun row col s ch => (loadCell_spec row col s ch).1) _ lines r c
  · intro r c
    exact loadRows_cell cfg GameWidget.originalMazeGrid
      (fun row col s ch => (loadCell_spec row col s ch).2.1) _ lines r c
  · rw [positionsOf_eq]
    exact m1.trans (List.nil_append _)
  · rw [positionsOf_eq]
    exact m2

/-- After `loadMaze` every spawn tile is inside the fixed dimensions, and a start marker
that is present is inside them on a cell that holds a Pellet (0) in both grids. -/
theorem loadMaze_marks (cfg : Config) (s : GameWidget) (mapFile : Option (List String))
    (hs : s.ghostSpawnPositions = []) (hr : s.startMacroRow = -1) :
    (∀ p ∈ (loadMaze cfg s mapFile).ghostSpawnPositions, TileInBounds cfg p) ∧
      (ValidStart (loadMaze cfg s mapFile) →
        TileInBounds cfg (startOf (loadMaze cfg s mapFile)) ∧
        (loadMaze cfg s mapFile).originalMazeGrid (loadMaze cfg s mapFile).startMacroRow
          (loadMaze cfg s mapFile).startMacroCol = 0 ∧
        (loadMaze cfg s mapFile).mazeGrid (loadMaze cfg s mapFile).startMacroRow
          (loadMaze cfg s mapFile).startMacroCol = 0) := by
  cases mapFile with
  | none =>
    refine ⟨?_, ?_⟩
    · intro p hp
      rw [show (loadMaze cfg s none).ghostSpawnPositions = s.ghostSpawnPositions from rfl,
        hs] at hp
      exact absurd hp (List.not_mem_nil p)
    · intro hv
      exact absurd hr hv.2
  | some lines =>
    obtain ⟨h1, h2, h3, h4⟩ := loadMaze_closed cfg s lines
    refine ⟨?_, ?_⟩
    · intro p hp
      rw [h3] at hp
      obtain ⟨a, b, c, d⟩ := charAt_inBounds cfg lines _ _ _ (positionsOf_mem cfg lines _ p hp)
      exact ⟨c, d, a, b⟩
    · intro hv
      cases hl : (positionsOf cfg lines 'p').getLast? with
      | none =>
        rw [hl] at h4
        have e : (loadMaze cfg s (some lines)).startMacroRow = -1 :=
          congrArg QPoint.y h4
        exact absurd e hv.2
      | some q =>
        rw [hl] at h4
        have hq : charAt cfg lines q.y q.x = some 'p' :=
          positionsOf_mem cfg lines _ q (List.mem_of_getLast?_eq_some hl)
        have ex : (loadMaze cfg s (some lines)).startMacroCol = q.x := congrArg QPoint.x h4
        have ey : (loadMaze cfg s (some lines)).startMacroRow = q.y := congrArg QPoint.y h4
        obtain ⟨a, b, c, d⟩ := charAt_inBounds cfg lines _ _ _ hq
        refine ⟨?_, ?_, ?_⟩
        · rw [h4]
          exact ⟨c, d, a, b⟩
        · rw [ex, ey, h2, hq]
          rfl
        · rw [ex, ey, h1, hq]
          rfl

/-- The working grid after `startGame` with a start marker: inside the fixed dimensions it
is the original grid with the start tile cleared. -/
theorem startGame_cell (cfg : Config) (s : GameWidget) (h : ValidStart s) (r c : Int)
    (hr0 : 0 ≤ r) (hr : r < cfg.MAZE_HEIGHT) (hc0 : 0 ≤ c) (hc : c < cfg.MAZE_WIDTH) :
    (startGame cfg s).mazeGrid r c =
      if r = s.startMacroRow ∧ c = s.startMacroCol then 3 else s.originalMazeGrid r c := by
  obtain ⟨gs, n, e⟩ := startGame_valid cfg s h
  rw [e]
  show Grid.set _ _ _ _ r c = _
  by_cases hne : r = s.startMacroRow ∧ c = s.startMacroCol
  · rw [if_pos hne, hne.1, hne.2, Grid.set_same]
  · rw [if_neg hne, Grid.set_other _ _ _ _ _ _ hne, copy_fold, if_pos]
    rw [mem_cells]
    exact ⟨hr0, hr, hc0, hc⟩

theorem startGame_original (cfg : Config) (s : GameWidget) :
    (startGame cfg s).originalMazeGrid = s.originalMazeGrid :=
  (startGame_static cfg s).1

/-- A round started on a start tile that is not a wall in the original grid has the wall
cells of the original grid. -/
theorem startGame_sameWalls (cfg : Config) (s : GameWidget) (h : ValidStart s)
    (h0 : s.originalMazeGrid s.startMacroRow s.startMacroCol ≠ 1) :
    SameWalls cfg (startGame cfg s).mazeGrid (startGame cfg s).originalMazeGrid := by
  intro r c hr0 hr hc0 hc
  rw [startGame_cell cfg s h r c hr0 hr hc0 hc, startGame_original]
  by_cases hne : r = s.startMacroRow ∧ c = s.startMacroCol
  · rw [if_pos hne, hne.1, hne.2]
    constructor
    · intro h3
      exact absurd h3 (by decide)
    · intro h1
      exact absurd h1 h0
  · rw [if_neg hne]

theorem SameWalls.wallsTrans {cfg : Config} {g g' g'' : Grid} (h1 : SameWalls cfg g g')
    (h2 : SameWalls cfg g' g'') : SameWalls cfg g g'' :=
  fun r c a b x y => (h1 r c a b x y).trans (h2 r c a b x y)

theorem SameWalls.wallsSymm {cfg : Config} {g g' : Grid} (h1 : SameWalls cfg g g') :
    SameWalls cfg g' g :=
  fun r c a b x y => (h1 r c a b x y).symm

theorem construct_marks (cfg : Config) (u : GameWidget) (mapFile : Option (List String)) :
    (∀ p ∈ (construct cfg u mapFile).ghostSpawnPositions, TileInBounds cfg p) ∧
      (ValidStart (construct cfg u mapFile) →
        TileInBounds cfg (startOf (construct cfg u mapFile)) ∧
        (construct cfg u mapFile).originalMazeGrid (construct cfg u mapFile).startMacroRow
          (construct cfg u mapFile).startMacroCol = 0 ∧
        (construct cfg u mapFile).mazeGrid (construct cfg u mapFile).startMacroRow
          (construct cfg u mapFile).startMacroCol = 0) := by
  obtain ⟨v, e, _, _, h1, _, h2, _⟩ := construct_eq cfg u mapFile
  rw [e]
  exact loadMaze_marks cfg v mapFile h2 h1

/-! ## Tiles stay inside the grid -/

theorem qBound_inBounds (v : Int) (n : Nat) (h : 0 < n) :
    0 ≤ qBound 0 v ((n : Int) - 1) ∧ qBound 0 v ((n : Int) - 1) < n := by
  unfold qBound
  constructor
  · exact le_max_left _ _
  · rw [max_lt_iff]
    constructor
    · exact_mod_cast h
    · have := min_le_left ((n : Int) - 1) v
      omega

/-- The outcome of `canMove` depends on the working grid only through the cells listed
by `canMoveReads`. -/
theorem canMove_reads (cfg : Config) (s : GameWidget) (tx ty : Int) (g : Grid)
    (h : ∀ rc ∈ canMoveReads cfg s tx ty, g rc.1 rc.2 = s.mazeGrid rc.1 rc.2) :
    canMove cfg { s with mazeGrid := g } tx ty = canMove cfg s tx ty := by
  unfold canMoveReads at h
  unfold canMove
  simp only [] at h ⊢
  split_ifs at h ⊢ with hb
  · rfl
  · rw [h _ (List.mem_singleton.2 rfl)]

/-- The outcome of `canGhostMove` depends on the working grid only through the cells
listed by `canGhostMoveReads`. -/
theorem canGhostMove_reads (cfg : Config) (s : GameWidget) (ghost : Ghost) (dir : Direction)
    (g : Grid)
    (h : ∀ rc ∈ canGhostMoveReads cfg ghost dir, g rc.1 rc.2 = s.mazeGrid rc.1 rc.2) :
    canGhostMove cfg { s with mazeGrid := g } ghost dir = canGhostMove cfg s ghost dir := by
  unfold canGhostMoveReads at h
  unfold canGhostMove
  cases dir <;> simp only [dirDelta] at h ⊢ <;>
    (split_ifs at h ⊢ with hb
     · rfl
     · rw [h _ (List.mem_singleton.2 rfl)])

/-- The outcome of `isAtIntersection` depends on the working grid only through the cells
listed by `isAtIntersectionReads`. -/
theorem isAtIntersection_reads (cfg : Config) (s : GameWidget) (ghost : Ghost) (g : Grid)
    (h : ∀ rc ∈ isAtIntersectionReads cfg ghost, g rc.1 rc.2 = s.mazeGrid rc.1 rc.2) :
    isAtIntersection cfg { s with mazeGrid := g } ghost = isAtIntersection cfg s ghost := by
  unfold isAtIntersectionReads at h
  simp only [List.mem_append] at h
  have h1 : ghost.macrogrid_center.y > 0 →
      g (ghost.macrogrid_center.y - 1) ghost.macrogrid_center.x =
        s.mazeGrid (ghost.macrogrid_center.y - 1) ghost.macrogrid_center.x := by
    intro hy
    exact h (_, _) (Or.inl (Or.inl (Or.inl (by rw [if_pos hy]; exact List.mem_singleton.2 rfl))))
  have h2 : ghost.macrogrid_center.y < (cfg.MAZE_HEIGHT : Int) - 1 →
      g (ghost.macrogrid_center.y + 1) ghost.macrogrid_center.x =
        s.mazeGrid (ghost.macrogrid_center.y + 1) ghost.macrogrid_center.x := by
    intro hy
    exact h (_, _) (Or.inl (Or.inl (Or.inr (by rw [if_pos hy]; exact List.mem_singleton.2 rfl))))
  have h3 : ghost.macrogrid_center.x > 0 →
      g ghost.macrogrid_center.y (ghost.macrogrid_center.x - 1) =
        s.mazeGrid ghost.macrogrid_center.y (ghost.macrogrid_center.x - 1) := by
    intro hy
    exact h (_, _) (Or.inl (Or.inr (by rw [if_pos hy]; exact List.mem_singleton.2 rfl)))
  have h4 : ghost.macrogrid_center.x < (cfg.MAZE_WIDTH : Int) - 1 →
      g ghost.macrogrid_center.y (ghost.macrogrid_center.x + 1) =
        s.mazeGrid ghost.macrogrid_center.y (ghost.macrogrid_center.x + 1) := by
    intro hy
    exact h (_, _) (Or.inr (by rw [if_pos hy]; exact List.mem_singleton.2 rfl))
  unfold isAtIntersection
  simp only []
  have e1 : (ghost.macrogrid_center.y > 0 ∧
      g (ghost.macrogrid_center.y - 1) ghost.macrogrid_center.x ≠ 1) ↔
      (ghost.macrogrid_center.y > 0 ∧
        s.mazeGrid (ghost.macrogrid_center.y - 1) ghost.macrogrid_center.x ≠ 1) :=
    and_congr_right (fun hy => by rw [h1 hy])
  have e2 : (ghost.macrogrid_center.y < (cfg.MAZE_HEIGHT : Int) - 1 ∧
      g (ghost.macrogrid_center.y + 1) ghost.macrogrid_center.x ≠ 1) ↔
      (ghost.macrogrid_center.y < (cfg.MAZE_HEIGHT : Int) - 1 ∧
        s.mazeGrid (ghost.macrogrid_center.y + 1) ghost.macrogrid_center.x ≠ 1) :=
    and_congr_right (fun hy => by rw [h2 hy])
  have e3 : (ghost.macrogrid_center.x > 0 ∧
      g ghost.macrogrid_center.y (ghost.macrogrid_center.x - 1) ≠ 1) ↔
      (ghost.macrogrid_center.x > 0 ∧
        s.mazeGrid ghost.macrogrid_center.y (ghost.macrogrid_center.x - 1) ≠ 1) :=
    and_congr_right (fun hy => by rw [h3 hy])
  have e4 : (ghost.macrogrid_center.x < (cfg.MAZE_WIDTH : Int) - 1 ∧
      g ghost.macrogrid_center.y (ghost.macrogrid_center.x + 1) ≠ 1) ↔
      (ghost.macrogrid_center.x < (cfg.MAZE_WIDTH : Int) - 1 ∧
        s.mazeGrid ghost.macrogrid_center.y (ghost.macrogrid_center.x + 1) ≠ 1) :=
    and_congr_right (fun hy => by rw [h4 hy])
  simp only [e1, e2, e3, e4]

/-- The direction returned by `getAmbusherDirection` depends on the working grid only
through the cell listed by `getAmbusherDirectionReads`. -/
theorem getAmbusherDirection_reads (cfg : Config) (s : GameWidget) (ghost : Ghost) (g : Grid)
    (h : ∀ rc ∈ getAmbusherDirectionReads cfg s, g rc.1 rc.2 = s.mazeGrid rc.1 rc.2) :
    (getAmbusherDirection cfg { s with mazeGrid := g } ghost).1 =
      (getAmbusherDirection cfg s ghost).1 := by
  cases hd : s.m_pacmanDirection <;>
  · unfold getAmbusherDirectionReads at h
    unfold getAmbusherDirection
    simp only [hd] at h ⊢
    have h1 := h _ (List.mem_singleton.2 rfl)
    simp only [] at h1
    rw [h1]
    split_ifs <;> rfl

/-! ## The routing table reads only the walls -/

theorem assignIds_sameWalls (cfg : Config) (g g' : Grid) (h : SameWalls cfg g g') :
    assignIds cfg g = assignIds cfg g' := by
  unfold assignIds
  apply List.foldl_ext
  intro m p hp
  rw [mem_cells] at hp
  have e := h p.y p.x hp.1 hp.2.1 hp.2.2.1 hp.2.2.2
  unfold assignId
  simp only [ne_eq, e]

theorem visitNeighbor_sameWalls (cfg : Config) (g g' : Grid) (h : SameWalls cfg g g')
    (pointToId : QPoint → Option Nat) (startPoint : QPoint) (startId : Nat)
    (current : QPoint) (st : BfsState) (neighbor : QPoint) :
    visitNeighbor cfg g pointToId startPoint startId current st neighbor =
      visitNeighbor cfg g' pointToId startPoint startId current st neighbor := by
  unfold visitNeighbor
  simp only []
  by_cases hb : 0 ≤ neighbor.y ∧ neighbor.y < cfg.MAZE_HEIGHT ∧ 0 ≤ neighbor.x ∧
      neighbor.x < cfg.MAZE_WIDTH
  · have e := h neighbor.y neighbor.x hb.1 hb.2.1 hb.2.2.1 hb.2.2.2
    simp only [e]
  · have hd : neighbor.y < 0 ∨ neighbor.y ≥ cfg.MAZE_HEIGHT ∨ neighbor.x < 0 ∨
        neighbor.x ≥ cfg.MAZE_WIDTH := by omega
    rw [if_pos, if_pos]
    · rcases hd with h1 | h1 | h1 | h1
      · exact Or.inl h1
      · exact Or.inr (Or.inl h1)
      · exact Or.inr (Or.inr (Or.inl h1))
      · exact Or.inr (Or.inr (Or.inr (Or.inl h1)))
    · rcases hd with h1 | h1 | h1 | h1
      · exact Or.inl h1
      · exact Or.inr (Or.inl h1)
      · exact Or.inr (Or.inr (Or.inl h1))
      · exact Or.inr (Or.inr (Or.inr (Or.inl h1)))

theorem bfsLoop_sameWalls (cfg : Config) (g g' : Grid) (h : SameWalls cfg g g')
    (pointToId : QPoint → Option Nat) (startPoint : QPoint) (startId : Nat) (fuel : Nat) :
    ∀ st : BfsState,
      bfsLoop cfg g pointToId startPoint startId fuel st =
        bfsLoop cfg g' pointToId startPoint startId fuel st := by
  induction fuel with
  | zero => intro st; rfl
  | succ fuel ih =>
    intro st
    rw [bfsLoop, bfsLoop]
    cases st.queue with
    | nil => rfl
    | cons current rest =>
      simp only []
      rw [ih]
      congr 1
      apply List.foldl_ext
      intro a b _
      exact visitNeighbor_sameWalls cfg g g' h _ _ _ _ _ _

theorem bfsFrom_sameWalls (cfg : Config) (g g' : Grid) (h : SameWalls cfg g g')
    (pointToId : QPoint → Option Nat) (idToPoint : List QPoint) :
    bfsFrom cfg g pointToId idToPoint = bfsFrom cfg g' pointToId idToPoint := by
  funext lookup startId
  unfold bfsFrom
  simp only []
  rw [bfsLoop_sameWalls cfg g g' h]

/-- Two grids with the same wall cells give the same id maps and the same routing table. -/
theorem precomputePaths_congr (cfg : Config) (s1 s2 : GameWidget)
    (h : SameWalls cfg s1.mazeGrid s2.mazeGrid) :
    SameTables (precomputePaths cfg s1) (precomputePaths cfg s2) := by
  have e1 := assignIds_sameWalls cfg _ _ h
  have e2 := bfsFrom_sameWalls cfg _ _ h
  unfold SameTables precomputePaths
  simp only []
  rw [e1, e2]
  split_ifs <;> exact ⟨rfl, rfl, rfl⟩

theorem SameWalls.wallsRefl (cfg : Config) (g : Grid) : SameWalls cfg g g :=
  fun _ _ _ _ _ _ => Iff.rfl

theorem precomputePaths_grid (cfg : Config) (s : GameWidget) :
    (precomputePaths cfg s).mazeGrid = s.mazeGrid := by
  obtain ⟨p, i, l, e⟩ := precomputePaths_frame cfg s
  rw [e]

theorem SameTables.tablesTrans {s t u : GameWidget} (h1 : SameTables s t) (h2 : SameTables t u) :
    SameTables s u :=
  ⟨h2.1.trans h1.1, h2.2.1.trans h1.2.1, h2.2.2.trans h1.2.2⟩

theorem SameTables.tablesSymm {s t : GameWidget} (h1 : SameTables s t) : SameTables t s :=
  ⟨h1.1.symm, h1.2.1.symm, h1.2.2.symm⟩

/-- The wall cells of the working grid of a state `L` survive every event, round starts
included, when the original grid of `L` has the wall cells of its working grid and the
start tile, if there is one, is not a wall. -/
theorem applyEvent_walls (cfg : Config) (L : GameWidget)
    (hLo : SameWalls cfg L.mazeGrid L.originalMazeGrid)
    (hStart : ValidStart L → L.originalMazeGrid L.startMacroRow L.startMacroCol ≠ 1)
    (s : GameWidget) (e : Event) (hs : Static L s)
    (hw : SameWalls cfg L.mazeGrid s.mazeGrid) :
    SameWalls cfg L.mazeGrid (applyEvent cfg s e).mazeGrid := by
  cases he : e.inRound with
  | true => exact hw.wallsTrans ((applyEvent_grid cfg s e he).sameWalls cfg)
  | false =>
    cases e with
    | newRound round =>
      show SameWalls cfg L.mazeGrid (startGame cfg { s with m_round := round }).mazeGrid
      obtain ⟨h1, _, h3, h4, _, _⟩ := hs
      by_cases hv : ValidStart { s with m_round := round }
      · have hvL : ValidStart L := by
          unfold ValidStart at hv ⊢
          rw [← h3, ← h4]
          exact hv
        have h0 : ({ s with m_round := round } : GameWidget).originalMazeGrid
            ({ s with m_round := round } : GameWidget).startMacroRow
            ({ s with m_round := round } : GameWidget).startMacroCol ≠ 1 := by
          show s.originalMazeGrid s.startMacroRow s.startMacroCol ≠ 1
          rw [h1, h3, h4]
          exact hStart hvL
        have h5 := startGame_sameWalls cfg _ hv h0
        rw [startGame_original] at h5
        have h6 : SameWalls cfg L.mazeGrid
            ({ s with m_round := round } : GameWidget).originalMazeGrid := by
          show SameWalls cfg L.mazeGrid s.originalMazeGrid
          rw [h1]
          exact hLo
        exact h6.wallsTrans h5.wallsSymm
      · have e : startGame cfg { s with m_round := round } = { s with m_round := round } := by
          unfold startGame
          rw [if_pos]
          by_contra hc
          exact hv ⟨fun h1 => hc (Or.inl h1), fun h1 => hc (Or.inr h1)⟩
        rw [e]
        exact hw
    | tick => exact Bool.noConfusion he
    | command token => exact Bool.noConfusion he
    | key k => exact Bool.noConfusion he
    | respawn k => exact Bool.noConfusion he
    | panicTimeout => exact Bool.noConfusion he

theorem run_walls (cfg : Config) (L : GameWidget)
    (hLo : SameWalls cfg L.mazeGrid L.originalMazeGrid)
    (hStart : ValidStart L → L.originalMazeGrid L.startMacroRow L.startMacroCol ≠ 1)
    (events : List Event) (s : GameWidget) (hs : Static L s)
    (hw : SameWalls cfg L.mazeGrid s.mazeGrid) :
    SameWalls cfg L.mazeGrid (run cfg s events).mazeGrid := by
  induction events generalizing s with
  | nil => exact hw
  | cons e events ih =>
    exact ih _ (hs.staticTrans (applyEvent_static cfg s e))
      (applyEvent_walls cfg L hLo hStart s e hs hw)

/-- After a load the two grids have the same wall cells when the cells that the text does
not cover had the same wall cells before. -/
theorem construct_sameWalls (cfg : Config) (u : GameWidget) (lines : List String)
    (hcov : ∀ r c : Int, 0 ≤ r → r < cfg.MAZE_HEIGHT → 0 ≤ c → c < cfg.MAZE_WIDTH →
      charAt cfg lines r c = none → (u.mazeGrid r c = 1 ↔ u.originalMazeGrid r c = 1)) :
    SameWalls cfg (construct cfg u (some lines)).mazeGrid
      (construct cfg u (some lines)).originalMazeGrid := by
  obtain ⟨v, e, _, _, _, _, _, hg, ho, _⟩ := construct_eq cfg u (some lines)
  obtain ⟨h1, h2, _, _⟩ := loadMaze_closed cfg v lines
  intro r c a b x y
  rw [e, h1, h2]
  cases hc : charAt cfg lines r c with
  | some ch => exact Iff.rfl
  | none =>
    show v.mazeGrid r c = 1 ↔ v.originalMazeGrid r c = 1
    rw [hg, ho]
    exact hcov r c a b x y hc

/-- The tables in the state set up by the constructor are those `precomputePaths` builds
from the working grid of that state. -/
theorem construct_tables (cfg : Config) (u : GameWidget) (lines : List String) :
    SameTables (construct cfg u (some lines))
      (precomputePaths cfg (construct cfg u (some lines))) := by
  obtain ⟨v, e, _⟩ := construct_eq cfg u (some lines)
  rw [e, loadMaze_eq]
  apply precomputePaths_congr
  rw [precomputePaths_grid]
  exact SameWalls.wallsRefl cfg _

/-! ## Entries the search does not write -/

theorem kept_init (E : BfsEnv) (hE : E.Ok) (T : Nat → Nat → QPoint) :
    E.Kept T (bfsInit T E.startPoint E.startId) := by
  intro j hj
  have h1 := hj E.startPoint ((init_vis T E.startPoint E.startId _).2 rfl)
  rw [hE.2.1] at h1
  unfold bfsInit
  simp only []
  rw [if_neg (fun h => h1 h.2.symm)]

theorem kept_visit (E : BfsEnv) (T : Nat → Nat → QPoint) (cur : QPoint) (st : BfsState)
    (n : QPoint) (h : E.Kept T st) : E.Kept T (E.visit cur st n) := by
  by_cases hs : isOpen E.cfg E.grid n = false ∨ st.vis n
  · rw [visit_skip E cur st n hs]
    exact h
  · have ho : isOpen E.cfg E.grid n = true := by
      cases hc : isOpen E.cfg E.grid n with
      | true => rfl
      | false => exact absurd (Or.inl hc) hs
    have hv : ¬ st.vis n := fun hc => hs (Or.inr hc)
    intro j hj
    have h1 : (E.pointToId n).getD 0 ≠ j := hj n ((visit_vis E cur st n ho hv n).2 (Or.inl rfl))
    have h2 : ∀ v, st.vis v → (E.pointToId v).getD 0 ≠ j :=
      fun v hvv => hj v ((visit_vis E cur st n ho hv v).2 (Or.inr hvv))
    rw [visit_new E cur st n ho hv]
    simp only []
    rw [if_neg (fun hc => h1 hc.2.symm)]
    exact h j h2

theorem kept_fold (E : BfsEnv) (T : Nat → Nat → QPoint) (cur : QPoint) (l : List QPoint)
    (st : BfsState) (h : E.Kept T st) : E.Kept T (l.foldl (E.visit cur) st) := by
  induction l generalizing st with
  | nil => exact h
  | cons n l ih =>
    rw [List.foldl_cons]
    exact ih _ (kept_visit E T cur st n h)

theorem kept_loop (E : BfsEnv) (T : Nat → Nat → QPoint) (fuel : Nat) (st : BfsState)
    (h : E.Kept T st) : E.Kept T (E.loop fuel st) := by
  induction fuel generalizing st with
  | zero => exact h
  | succ fuel ih =>
    cases hq : st.queue with
    | nil => rw [loop_nil E _ st hq]; exact h
    | cons cur rest =>
      rw [loop_cons E fuel st cur rest hq]
      exact ih _ (kept_fold E T cur _ _ h)

/-- A search from the open tile `a`, stopped after any number of iterations of its `while`
loop, has not written the entry of a tile that cannot be reached from `a`. -/
theorem loop_unreachable (cfg : Config) (grid : Grid) (a b : QPoint)
    (ha : isOpen cfg grid a = true) (hb : isOpen cfg grid b = true)
    (hnr : ∀ k, reachIn cfg grid k a b = false) (T : Nat → Nat → QPoint) (fuel : Nat) :
    (bfsLoop cfg grid (assignIds cfg grid).pointToId a
      (((assignIds cfg grid).pointToId a).getD 0) fuel
      (bfsInit T a (((assignIds cfg grid).pointToId a).getD 0))).lookup
        (((assignIds cfg grid).pointToId a).getD 0)
        (((assignIds cfg grid).pointToId b).getD 0) =
      T (((assignIds cfg grid).pointToId a).getD 0)
        (((assignIds cfg grid).pointToId b).getD 0) := by
  obtain ⟨lev, hlev⟩ := exists_lev cfg grid a
  have hE := envOf_ok cfg grid a lev ha hlev
  have hO := outer_loop (envOf cfg grid a lev) hE fuel _ (outer_init (envOf cfg grid a lev) hE T)
  have hK := kept_loop (envOf cfg grid a lev) T fuel _ (kept_init (envOf cfg grid a lev) hE T)
  apply hK
  intro v hv hid
  obtain ⟨hov, k, hk⟩ := hO.core.vis_open v hv
  have e : v = b := assignIds_injective cfg grid v b hov hb hid
  rw [e] at hk
  have := hnr k
  rw [show reachIn cfg grid k a b = true from hk] at this
  exact Bool.noConfusion this

theorem idToPoint_of_open (cfg : Config) (grid : Grid) (a : QPoint)
    (ha : isOpen cfg grid a = true) :
    (assignIds cfg grid).idToPoint.getD (((assignIds cfg grid).pointToId a).getD 0) ⟨0, 0⟩ = a := by
  obtain ⟨h1, h2⟩ := assignIds_spec cfg grid
  obtain ⟨i, hi⟩ := h2 a ha
  rw [hi, List.getD_eq_getElem?_getD, Option.getD_some, h1 a i hi]
  rfl

/-- The search from any tile id, stopped after any number of iterations of its `while`
loop, has not written the entry for an open tile `a` and an open tile `b` that cannot be
reached from `a`. -/
theorem search_unreachable (cfg : Config) (grid : Grid) (a b : QPoint)
    (ha : isOpen cfg grid a = true) (hb : isOpen cfg grid b = true)
    (hnr : ∀ k, reachIn cfg grid k a b = false) (T : Nat → Nat → QPoint)
    (startId fuel : Nat) :
    (bfsLoop cfg grid (assignIds cfg grid).pointToId
      ((assignIds cfg grid).idToPoint.getD startId ⟨0, 0⟩) startId fuel
      (bfsInit T ((assignIds cfg grid).idToPoint.getD startId ⟨0, 0⟩) startId)).lookup
        (((assignIds cfg grid).pointToId a).getD 0)
        (((assignIds cfg grid).pointToId b).getD 0) =
      T (((assignIds cfg grid).pointToId a).getD 0)
        (((assignIds cfg grid).pointToId b).getD 0) := by
  by_cases hi : ((assignIds cfg grid).pointToId a).getD 0 = startId
  · rw [← hi, idToPoint_of_open cfg grid a ha]
    exact loop_unreachable cfg grid a b ha hb hnr T fuel
  · have := loop_lookup_other
      ⟨cfg, grid, (assignIds cfg grid).pointToId,
        (assignIds cfg grid).idToPoint.getD startId ⟨0, 0⟩, startId, fun _ => 0⟩
      fuel (bfsInit T ((assignIds cfg grid).idToPoint.getD startId ⟨0, 0⟩) startId)
      (((assignIds cfg grid).pointToId a).getD 0) (((assignIds cfg grid).pointToId b).getD 0) hi
    unfold BfsEnv.loop at this
    simp only at this
    rw [this]
    unfold bfsInit
    simp only
    rw [if_neg (fun h => hi h.1)]

/-- No sequence of searches writes the entry for an open tile `a` and an open tile `b` that
cannot be reached from `a`. -/
theorem fold_unreachable (cfg : Config) (grid : Grid) (a b : QPoint)
    (ha : isOpen cfg grid a = true) (hb : isOpen cfg grid b = true)
    (hnr : ∀ k, reachIn cfg grid k a b = false) (l : List Nat) :
    ∀ T : Nat → Nat → QPoint,
      (l.foldl (fun lookup i => bfsFrom cfg grid (assignIds cfg grid).pointToId
          (assignIds cfg grid).idToPoint lookup i) T)
        (((assignIds cfg grid).pointToId a).getD 0)
        (((assignIds cfg grid).pointToId b).getD 0) =
      T (((assignIds cfg grid).pointToId a).getD 0)
        (((assignIds cfg grid).pointToId b).getD 0) := by
  induction l with
  | nil => intro T; rfl
  | cons j l ih =>
    intro T
    rw [List.foldl_cons, ih]
    exact search_unreachable cfg grid a b ha hb hnr T j _

theorem splitGrid_unreachable (k : Nat) :
    reachIn scenarioCfg demoSplit.mazeGrid k ⟨0, 1⟩ ⟨2, 1⟩ = false := by
  cases k with
  | zero => decide
  | succ k =>
    cases h : reachIn scenarioCfg demoSplit.mazeGrid (k + 1) ⟨0, 1⟩ ⟨2, 1⟩ with
    | false => rfl
    | true =>
      obtain ⟨_, n, hn, hr⟩ := (reachIn_succ _ _ _ _ _).1 h
      have ho := reachIn_open_left _ _ _ _ _ hr
      have hc : ∀ n ∈ neighbors ⟨0, 1⟩, isOpen scenarioCfg demoSplit.mazeGrid n = false := by
        decide
      rw [hc n hn] at ho
      exact Bool.noConfusion ho

/-! ## The command channel -/

theorem dropWhile_append_of_all {α : Type} (p : α → Bool) (pre l : List α)
    (h : ∀ c ∈ pre, p c = true) : (pre ++ l).dropWhile p = l.dropWhile p := by
  induction pre with
  | nil => rfl
  | cons a pre ih =>
    rw [List.cons_append, List.dropWhile_cons, if_pos (h a (List.mem_cons_self _ _))]
    exact ih (fun c hc => h c (List.mem_cons_of_mem _ hc))

/-- Trimming removes the whitespace around a text that neither starts nor ends with
whitespace. -/
theorem trimmed_padded (pre post tok : List Char) (a b : Char) (mid : List Char)
    (hpre : ∀ c ∈ pre, isSpace c = true) (hpost : ∀ c ∈ post, isSpace c = true)
    (ha : tok = a :: mid) (hb : tok.reverse.head? = some b)
    (hna : isSpace a = false) (hnb : isSpace b = false) :
    trimmed (String.mk (pre ++ tok ++ post)) = String.mk tok := by
  unfold trimmed
  congr 1
  show (((pre ++ tok ++ post).dropWhile isSpace).reverse.dropWhile isSpace).reverse = tok
  rw [List.append_assoc, dropWhile_append_of_all isSpace pre _ hpre, ha, List.cons_append,
    List.dropWhile_cons, if_neg (by rw [hna]; decide), ← List.cons_append, ← ha,
    List.reverse_append,
    dropWhile_append_of_all isSpace post.reverse _
      (fun c hc => hpost c (List.mem_reverse.1 hc))]
  cases hr : tok.reverse with
  | nil => rw [hr] at hb; exact Option.noConfusion hb
  | cons x rest =>
    rw [hr] at hb
    simp only [List.head?_cons, Option.some.injEq] at hb
    rw [List.dropWhile_cons, if_neg (by rw [hb, hnb]; decide), ← hr, List.reverse_reverse]

theorem processMovementCommand_newline (cfg : Config) (s : GameWidget) (command : String)
    (h : command.toList.contains '\n' = true) : processMovementCommand cfg s command = s := by
  unfold processMovementCommand
  split_ifs with h0 h1 h2 h3 h4 h5 h6 h7 h8 h9 <;> first
    | rfl
    | (exfalso
       subst_vars
       revert h
       decide)

/-! ## Walkable directions -/

theorem canGhostMove_iff (cfg : Config) (s : GameWidget) (ghost : Ghost) (d : Direction) :
    canGhostMove cfg s ghost d = true ↔
      d ≠ Direction.Stop ∧ isOpen cfg s.mazeGrid (ahead ghost.macrogrid_center d) = true := by
  unfold canGhostMove
  cases d <;> simp only [dirDelta, ahead, isOpen_iff] <;>
    first
    | (constructor
       · intro h; exact absurd h (by decide)
       · intro h; exact absurd rfl h.1)
    | (split_ifs with hb
       · constructor
         · intro h; exact absurd h (by decide)
         · intro h; omega
       · simp only [bne_iff_ne, ne_eq]
         constructor
         · intro h
           refine ⟨by decide, by omega, by omega, by omega, by omega, ?_⟩
           simpa using h
         · intro h
           simpa using h.2.2.2.2.2)

theorem canGhostMove_grid (cfg : Config) (s t : GameWidget) (h : t.mazeGrid = s.mazeGrid)
    (ghost : Ghost) (d : Direction) : canGhostMove cfg t ghost d = canGhostMove cfg s ghost d := by
  unfold canGhostMove
  rw [h]

theorem validDirs_grid (cfg : Config) (s t : GameWidget) (h : t.mazeGrid = s.mazeGrid)
    (ghost : Ghost) : validDirs cfg t ghost = validDirs cfg s ghost := by
  unfold validDirs
  congr 1
  funext d
  exact canGhostMove_grid cfg s t h ghost d

theorem mem_validDirs (cfg : Config) (s : GameWidget) (ghost : Ghost) (d : Direction) :
    d ∈ validDirs cfg s ghost ↔ canGhostMove cfg s ghost d = true := by
  unfold validDirs
  rw [List.mem_filter]
  constructor
  · exact fun h => h.2
  · intro h
    refine ⟨?_, h⟩
    cases d
    · simp
    · simp
    · simp
    · simp
    · exact absurd h (by unfold canGhostMove; simp [dirDelta])

theorem randomPick_mem (v : List Direction) (r : Nat) (h : v ≠ []) : randomPick v r ∈ v := by
  unfold randomPick
  have hl : 0 < v.length := List.length_pos.2 h
  rw [List.getD_eq_getElem _ _ (Nat.mod_lt _ hl)]
  exact List.getElem_mem _

theorem randomPick_nil (r : Nat) : randomPick [] r = Direction.Stop := rfl

theorem stop_not_mem_validDirs (cfg : Config) (s : GameWidget) (ghost : Ghost) :
    Direction.Stop ∉ validDirs cfg s ghost := by
  rw [mem_validDirs]
  unfold canGhostMove
  simp [dirDelta]

theorem randomPick_eq_stop (cfg : Config) (s : GameWidget) (ghost : Ghost) (r : Nat) :
    randomPick (validDirs cfg s ghost) r = Direction.Stop ↔ validDirs cfg s ghost = [] := by
  constructor
  · intro h
    by_contra hne
    have := randomPick_mem _ r hne
    rw [h] at this
    exact stop_not_mem_validDirs cfg s ghost this
  · intro h
    rw [h]
    rfl

/-- The random choice among the walkable directions that ends four of the policies. -/
theorem pickValidDir_eq (cfg : Config) (s : GameWidget) (ghost : Ghost) :
    pickValidDir cfg s ghost =
      if validDirs cfg s ghost = [] then none
      else some (randomPick (validDirs cfg s ghost) (s.rng s.rngPos), { s with rngPos := s.rngPos + 1 }) := by
  unfold pickValidDir
  simp only []
  cases hv : validDirs cfg s ghost with
  | nil => rfl
  | cons a l => rfl

theorem pickValidDir_some (cfg : Config) (s : GameWidget) (ghost : Ghost)
    (r : Direction × GameWidget) (h : pickValidDir cfg s ghost = some r) :
    r.1 = randomPick (validDirs cfg s ghost) (s.rng s.rngPos) ∧
      validDirs cfg s ghost ≠ [] ∧ r.2 = { s with rngPos := s.rngPos + 1 } := by
  rw [pickValidDir_eq] at h
  split_ifs at h with hv
  injection h with h
  subst h
  exact ⟨rfl, hv, rfl⟩

theorem pickValidDir_none (cfg : Config) (s : GameWidget) (ghost : Ghost)
    (h : pickValidDir cfg s ghost = none) :
    validDirs cfg s ghost = [] ∧
      randomPick (validDirs cfg s ghost) (s.rng s.rngPos) = Direction.Stop := by
  rw [pickValidDir_eq] at h
  split_ifs at h with hv
  exact ⟨hv, by rw [hv]; rfl⟩

theorem bne_eq_decide (a b : Int) : (a != b) = decide (a ≠ b) := by
  by_cases h : a = b <;> simp [h]

theorem isAtIntersection_grid (cfg : Config) (s t : GameWidget) (h : t.mazeGrid = s.mazeGrid)
    (ghost : Ghost) : isAtIntersection cfg t ghost = isAtIntersection cfg s ghost := by
  unfold isAtIntersection
  rw [h]

/-- For a pursuer on a tile inside the grid, `isAtIntersection` tells whether at least
three directions are walkable. -/
theorem isAtIntersection_iff (cfg : Config) (s : GameWidget) (ghost : Ghost)
    (hb : TileInBounds cfg ghost.macrogrid_center) :
    isAtIntersection cfg s ghost = true ↔ 3 ≤ (validDirs cfg s ghost).length := by
  obtain ⟨hx0, hx, hy0, hy⟩ := hb
  have e1 : canGhostMove cfg s ghost Direction.Up =
      decide (ghost.macrogrid_center.y > 0 ∧
        s.mazeGrid (ghost.macrogrid_center.y - 1) ghost.macrogrid_center.x ≠ 1) := by
    unfold canGhostMove
    simp only [dirDelta]
    by_cases h : ghost.macrogrid_center.y > 0
    · rw [if_neg (by omega), bne_eq_decide]
      simp [h, sub_eq_add_neg]
    · rw [if_pos (by omega)]
      simp [h]
  have e2 : canGhostMove cfg s ghost Direction.Down =
      decide (ghost.macrogrid_center.y < (cfg.MAZE_HEIGHT : Int) - 1 ∧
        s.mazeGrid (ghost.macrogrid_center.y + 1) ghost.macrogrid_center.x ≠ 1) := by
    unfold canGhostMove
    simp only [dirDelta]
    by_cases h : ghost.macrogrid_center.y < (cfg.MAZE_HEIGHT : Int) - 1
    · rw [if_neg (by omega), bne_eq_decide]
      simp [h]
    · rw [if_pos (by omega)]
      simp [h]
  have e3 : canGhostMove cfg s ghost Direction.Left =
      decide (ghost.macrogrid_center.x > 0 ∧
        s.mazeGrid ghost.macrogrid_center.y (ghost.macrogrid_center.x - 1) ≠ 1) := by
    unfold canGhostMove
    simp only [dirDelta]
    by_cases h : ghost.macrogrid_center.x > 0
    · rw [if_neg (by omega), bne_eq_decide]
      simp [h, sub_eq_add_neg]
    · rw [if_pos (by omega)]
      simp [h]
  have e4 : canGhostMove cfg s ghost Direction.Right =
      decide (ghost.macrogrid_center.x < (cfg.MAZE_WIDTH : Int) - 1 ∧
        s.mazeGrid ghost.macrogrid_center.y (ghost.macrogrid_center.x + 1) ≠ 1) := by
    unfold canGhostMove
    simp only [dirDelta]
    by_cases h : ghost.macrogrid_center.x < (cfg.MAZE_WIDTH : Int) - 1
    · rw [if_neg (by omega), bne_eq_decide]
      simp [h]
    · rw [if_pos (by omega)]
      simp [h]
  unfold isAtIntersection validDirs
  simp only [List.filter, e1, e2, e3, e4]
  by_cases c1 : ghost.macrogrid_center.y > 0 ∧
      s.mazeGrid (ghost.macrogrid_center.y - 1) ghost.macrogrid_center.x ≠ 1 <;>
  by_cases c2 : ghost.macrogrid_center.y < (cfg.MAZE_HEIGHT : Int) - 1 ∧
      s.mazeGrid (ghost.macrogrid_center.y + 1) ghost.macrogrid_center.x ≠ 1 <;>
  by_cases c3 : ghost.macrogrid_center.x > 0 ∧
      s.mazeGrid ghost.macrogrid_center.y (ghost.macrogrid_center.x - 1) ≠ 1 <;>
  by_cases c4 : ghost.macrogrid_center.x < (cfg.MAZE_WIDTH : Int) - 1 ∧
      s.mazeGrid ghost.macrogrid_center.y (ghost.macrogrid_center.x + 1) ≠ 1 <;>
  simp [c1, c2, c3, c4]

/-! ## The random policies in closed form -/

theorem getRandomPatrolDirection_eq (cfg : Config) (s : GameWidget) (ghost : Ghost) :
    (getRandomPatrolDirection cfg s ghost).1 =
      if ghost.direction ≠ Direction.Stop ∧ s.rng s.rngPos % 100 < 70 ∧
          canGhostMove cfg s ghost ghost.direction = true then ghost.direction
      else randomPick (validDirs cfg s ghost)
        (s.rng (if ghost.direction = Direction.Stop then s.rngPos else s.rngPos + 1)) := by
  have hb : (bounded s 100).1 = s.rng s.rngPos % 100 := rfl
  have hg : (bounded s 100).2.mazeGrid = s.mazeGrid := rfl
  have hv := validDirs_grid cfg s _ hg ghost
  unfold getRandomPatrolDirection
  simp only []
  by_cases hd : ghost.direction = Direction.Stop
  · rw [if_neg (by simpa using hd), if_neg (fun h => h.1 hd), if_pos hd]
    split
    · next r hr => exact (pickValidDir_some cfg s ghost r hr).1
    · next hr => exact (pickValidDir_none cfg s ghost hr).2.symm
  · rw [if_pos hd, if_neg hd, hb]
    by_cases h70 : s.rng s.rngPos % 100 < 70
    · rw [if_pos h70, canGhostMove_grid cfg s _ hg]
      by_cases hc : canGhostMove cfg s ghost ghost.direction = true
      · rw [if_pos hc, if_pos ⟨hd, h70, hc⟩]
      · rw [if_neg hc, if_neg (fun h => hc h.2.2)]
        split
        · next r hr =>
          have := (pickValidDir_some cfg _ ghost r hr).1
          rw [hv] at this
          exact this
        · next hr =>
          have := (pickValidDir_none cfg _ ghost hr).2
          rw [hv] at this
          exact this.symm
    · rw [if_neg h70, if_neg (fun h => h70 h.2.1)]
      split
      · next r hr =>
        have := (pickValidDir_some cfg _ ghost r hr).1
        rw [hv] at this
        exact this
      · next hr =>
        have := (pickValidDir_none cfg _ ghost hr).2
        rw [hv] at this
        exact this.symm

theorem getIntersectionRandomDirection_eq (cfg : Config) (s : GameWidget) (ghost : Ghost) :
    (getIntersectionRandomDirection cfg s ghost).1 =
      if isAtIntersection cfg s ghost = false ∧ ghost.direction ≠ Direction.Stop ∧
          canGhostMove cfg s ghost ghost.direction = true then ghost.direction
      else randomPick (validDirs cfg s ghost) (s.rng s.rngPos) := by
  unfold getIntersectionRandomDirection
  by_cases hi : isAtIntersection cfg s ghost = true
  · rw [if_pos hi, if_neg (fun h => by rw [hi] at h; exact Bool.noConfusion h.1)]
    split
    · next r hr => exact (pickValidDir_some cfg s ghost r hr).1
    · next hr => exact (pickValidDir_none cfg s ghost hr).2.symm
  · rw [if_neg hi]
    have hi' : isAtIntersection cfg s ghost = false := by
      cases hc : isAtIntersection cfg s ghost
      · rfl
      · exact absurd hc hi
    by_cases hc : ghost.direction ≠ Direction.Stop ∧
        canGhostMove cfg s ghost ghost.direction = true
    · rw [if_pos hc, if_pos ⟨hi', hc.1, hc.2⟩]
    · rw [if_neg hc, if_neg (fun h => hc ⟨h.2.1, h.2.2⟩)]
      split
      · next r hr => exact (pickValidDir_some cfg s ghost r hr).1
      · next hr => exact (pickValidDir_none cfg s ghost hr).2.symm

/-- A direction that is not `Stop` and is either the current direction, found walkable, or
a random pick among the walkable directions, is walkable. -/
theorem walkable_of_pick (cfg : Config) (s : GameWidget) (ghost : Ghost) (c : Prop)
    [Decidable c] (r : Nat) (hc : c → canGhostMove cfg s ghost ghost.direction = true)
    (h : (if c then ghost.direction else randomPick (validDirs cfg s ghost) r)
      ≠ Direction.Stop) :
    canGhostMove cfg s ghost
      (if c then ghost.direction else randomPick (validDirs cfg s ghost) r) = true := by
  by_cases h1 : c
  · rw [if_pos h1]
    exact hc h1
  · rw [if_neg h1] at h ⊢
    rw [← mem_validDirs]
    apply randomPick_mem
    intro hv
    exact h ((randomPick_eq_stop cfg s ghost r).2 hv)

theorem pick_eq_stop_iff (cfg : Config) (s : GameWidget) (ghost : Ghost) (c : Prop)
    [Decidable c] (r : Nat)
    (hc : c → ghost.direction ≠ Direction.Stop ∧
      canGhostMove cfg s ghost ghost.direction = true) :
    (if c then ghost.direction else randomPick (validDirs cfg s ghost) r) = Direction.Stop ↔
      validDirs cfg s ghost = [] := by
  by_cases h1 : c
  · rw [if_pos h1]
    constructor
    · intro h
      exact absurd h (hc h1).1
    · intro hv
      have := (mem_validDirs cfg s ghost ghost.direction).2 (hc h1).2
      rw [hv] at this
      exact absurd this (List.not_mem_nil _)
  · rw [if_neg h1]
    exact randomPick_eq_stop cfg s ghost r

/-! ## Fleeing and the eighth evaluation -/

theorem away_ne_stop (g p : QPoint) (d : Direction) (h : away g p = some d) :
    d ≠ Direction.Stop := by
  unfold away at h
  split_ifs at h <;> (injection h with h; subst h; decide)

theorem away_farther (g p : QPoint) (d : Direction) (h : away g p = some d) :
    manhattan (ahead g d) p = manhattan g p + 1 := by
  unfold away at h
  unfold manhattan
  split_ifs at h with h1 h2 h3 h4 h5 <;> injection h with h <;> subst h <;>
    simp only [ahead]
  · rw [abs_of_pos (show 0 < g.x + 1 - p.x by omega), abs_of_pos h2]
    omega
  · rw [abs_of_neg h3, abs_of_neg (show g.x - 1 - p.x < 0 by omega)]
    omega
  · rw [abs_of_pos (show 0 < g.y + 1 - p.y by omega), abs_of_pos h4]
    omega
  · rw [abs_of_neg h5, abs_of_neg (show g.y - 1 - p.y < 0 by omega)]
    omega

theorem away_axis (g p : QPoint) (d : Direction) (h : away g p = some d) :
    (d = Direction.Left ∨ d = Direction.Right) ↔ |g.x - p.x| > |g.y - p.y| := by
  unfold away at h
  split_ifs at h with h1 h2 h3 h4 h5 <;> injection h with h <;> subst h <;> simp [h1]

/-- The steering part of the fright policy in terms of `away`. -/
theorem fleeDirection_eq (cfg : Config) (s : GameWidget) (ghost : Ghost) :
    fleeDirection cfg s ghost =
      match away ghost.macrogrid_center s.pacman_macrogrid_center with
      | some d => if canGhostMove cfg s ghost d = true then (d, s)
          else getRandomPatrolDirection cfg s ghost
      | none => getRandomPatrolDirection cfg s ghost := by
  unfold fleeDirection away
  simp only []
  by_cases h1 : |ghost.macrogrid_center.x - s.pacman_macrogrid_center.x| >
      |ghost.macrogrid_center.y - s.pacman_macrogrid_center.y|
  · rw [if_pos h1, if_pos h1]
    by_cases h2 : ghost.macrogrid_center.x - s.pacman_macrogrid_center.x > 0
    · rw [if_pos h2]
      by_cases c : canGhostMove cfg s ghost Direction.Right = true
      · rw [if_pos ⟨h2, c⟩]
        simp only [c, if_true]
      · rw [if_neg (fun h => c h.2), if_neg (fun h => by omega)]
        simp only [c]
        rfl
    · rw [if_neg h2, if_neg (fun h => h2 h.1)]
      by_cases h3 : ghost.macrogrid_center.x - s.pacman_macrogrid_center.x < 0
      · rw [if_pos h3]
        by_cases c : canGhostMove cfg s ghost Direction.Left = true
        · rw [if_pos ⟨h3, c⟩]
          simp only [c, if_true]
        · rw [if_neg (fun h => c h.2)]
          simp only [c]
          rfl
      · rw [if_neg h3, if_neg (fun h => h3 h.1)]
  · rw [if_neg h1, if_neg h1]
    by_cases h2 : ghost.macrogrid_center.y - s.pacman_macrogrid_center.y > 0
    · rw [if_pos h2]
      by_cases c : canGhostMove cfg s ghost Direction.Down = true
      · rw [if_pos ⟨h2, c⟩]
        simp only [c, if_true]
      · rw [if_neg (fun h => c h.2), if_neg (fun h => by omega)]
        simp only [c]
        rfl
    · rw [if_neg h2, if_neg (fun h => h2 h.1)]
      by_cases h3 : ghost.macrogrid_center.y - s.pacman_macrogrid_center.y < 0
      · rw [if_pos h3]
        by_cases c : canGhostMove cfg s ghost Direction.Up = true
        · rw [if_pos ⟨h3, c⟩]
          simp only [c, if_true]
        · rw [if_neg (fun h => c h.2)]
          simp only [c]
          rfl
      · rw [if_neg h3, if_neg (fun h => h3 h.1)]

theorem getGhostPanicDirection_cases (cfg : Config) (s : GameWidget) (ghost : Ghost) :
    (isAtIntersection cfg s ghost = false →
      getGhostPanicDirection cfg s ghost = fleeDirection cfg s ghost) ∧
    (isAtIntersection cfg s ghost = true → ¬ s.rng s.rngPos % 100 < 50 →
      getGhostPanicDirection cfg s ghost =
        fleeDirection cfg { s with rngPos := s.rngPos + 1 } ghost) ∧
    (isAtIntersection cfg s ghost = true → s.rng s.rngPos % 100 < 50 →
      validDirs cfg s ghost = [] →
      getGhostPanicDirection cfg s ghost =
        fleeDirection cfg { s with rngPos := s.rngPos + 1 } ghost) ∧
    (isAtIntersection cfg s ghost = true → s.rng s.rngPos % 100 < 50 →
      validDirs cfg s ghost ≠ [] →
      getGhostPanicDirection cfg s ghost =
        (randomPick (validDirs cfg s ghost) (s.rng (s.rngPos + 1)),
          { s with rngPos := s.rngPos + 1 + 1 })) := by
  have hb : (bounded s 100).1 = s.rng s.rngPos % 100 := rfl
  have hs : (bounded s 100).2 = { s with rngPos := s.rngPos + 1 } := rfl
  have hv : validDirs cfg { s with rngPos := s.rngPos + 1 } ghost = validDirs cfg s ghost :=
    validDirs_grid cfg s _ rfl ghost
  refine ⟨?_, ?_, ?_, ?_⟩
  · intro hi
    unfold getGhostPanicDirection
    rw [if_neg (by rw [hi]; decide)]
  · intro hi h50
    unfold getGhostPanicDirection
    simp only []
    rw [if_pos hi, hb, if_neg h50, hs]
  · intro hi h50 hnil
    unfold getGhostPanicDirection
    simp only []
    rw [if_pos hi, hb, if_pos h50, hs]
    split
    · next d hd =>
      have := (pickValidDir_some cfg _ ghost d hd).2.1
      rw [hv] at this
      exact absurd hnil this
    · rfl
  · intro hi h50 hne
    unfold getGhostPanicDirection
    simp only []
    rw [if_pos hi, hb, if_pos h50, hs]
    split
    · next d hd =>
      obtain ⟨h1, _, h3⟩ := pickValidDir_some cfg _ ghost d hd
      rw [hv] at h1
      exact Prod.ext h1 h3
    · next hd =>
      have := (pickValidDir_none cfg _ ghost hd).1
      rw [hv] at this
      exact absurd this hne

theorem getAggressiveChaserDirection_early (cfg : Config) (s : GameWidget) (ghost : Ghost)
    (h : ghost.failCounter + 1 < 8) :
    getAggressiveChaserDirection cfg s ghost =
      (getGhostChaseDirection s ghost,
        { ghost with failCounter := ghost.failCounter + 1 }, s) := by
  unfold getAggressiveChaserDirection
  simp only []
  rw [if_neg (by omega)]
  rfl

theorem getAggressiveChaserDirection_eighth (cfg : Config) (s : GameWidget) (ghost : Ghost)
    (h : ghost.failCounter + 1 ≥ 8) :
    getAggressiveChaserDirection cfg s ghost =
      if validDirs cfg s ghost = [] then
        (getGhostChaseDirection s ghost, { ghost with failCounter := 0 }, s)
      else
        (randomPick (validDirs cfg s ghost) (s.rng s.rngPos),
          { ghost with failCounter := 0 }, { s with rngPos := s.rngPos + 1 }) := by
  have hv : validDirs cfg s { ghost with failCounter := 0 } = validDirs cfg s ghost := rfl
  unfold getAggressiveChaserDirection
  simp only []
  rw [if_pos h]
  split
  · next r hr =>
    obtain ⟨h1, h2, h3⟩ := pickValidDir_some cfg s _ r hr
    rw [hv] at h1 h2
    rw [if_neg h2]
    exact Prod.ext h1 (Prod.ext rfl h3)
  · next hr =>
    have := (pickValidDir_none cfg s _ hr).1
    rw [hv] at this
    rw [if_pos this]
    rfl

theorem aggressiveRun_early (cfg : Config) (l : List (GameWidget × Ghost)) :
    ∀ fc : Int, fc + l.length < 8 →
      aggressiveRun cfg fc l =
        (l.map (fun p => getGhostChaseDirection p.1 p.2), fc + l.length) := by
  induction l with
  | nil => intro fc _; simp [aggressiveRun]
  | cons p l ih =>
    intro fc h
    simp only [List.length_cons, Nat.cast_add, Nat.cast_one] at h
    rw [aggressiveRun]
    simp only []
    rw [getAggressiveChaserDirection_early cfg p.1 _ (show fc + 1 < 8 by omega)]
    simp only []
    rw [ih (fc + 1) (by omega)]
    simp only [List.map_cons, List.length_cons, Nat.cast_add, Nat.cast_one]
    refine Prod.ext rfl ?_
    show fc + 1 + (l.length : Int) = fc + ((l.length : Int) + 1)
    omega

theorem aggressiveRun_append (cfg : Config) (l l' : List (GameWidget × Ghost)) :
    ∀ fc : Int,
      aggressiveRun cfg fc (l ++ l') =
        ((aggressiveRun cfg fc l).1 ++ (aggressiveRun cfg (aggressiveRun cfg fc l).2 l').1,
          (aggressiveRun cfg (aggressiveRun cfg fc l).2 l').2) := by
  induction l with
  | nil => intro fc; rfl
  | cons p l ih =>
    intro fc
    rw [List.cons_append, aggressiveRun, aggressiveRun]
    simp only []
    rw [ih]
    rfl

/-! ## The Ambusher -/

/-- Tables built from a grid with the walls of the working grid are the tables of the
working grid. -/
theorem tablesOf_self (cfg : Config) (s0 s : GameWidget) (ht : TablesOf cfg s0 s)
    (hw : SameWalls cfg s0.mazeGrid s.mazeGrid) : TablesOf cfg s s := by
  obtain ⟨h1, h2, h3⟩ := precomputePaths_congr cfg s0 s hw
  exact ⟨ht.1.trans h1.symm, ht.2.1.trans h2.symm, ht.2.2.trans h3.symm⟩

theorem tablesOf_open_iff (cfg : Config) (s : GameWidget) (ht : TablesOf cfg s s)
    (p : QPoint) : (s.m_pointToId p).isSome = true ↔ isOpen cfg s.mazeGrid p = true := by
  rw [ht.1, precomputePaths_pointToId]
  constructor
  · intro h
    obtain ⟨i, hi⟩ := Option.isSome_iff_exists.1 h
    exact assignIds_some_open cfg _ p i hi
  · intro h
    obtain ⟨i, hi⟩ := (assignIds_spec cfg s.mazeGrid).2 p h
    rw [hi]
    rfl

theorem tablesOf_self_entry (cfg : Config) (s : GameWidget) (ht : TablesOf cfg s s)
    (a : QPoint) (ha : isOpen cfg s.mazeGrid a = true) : nextMove s a a = a := by
  obtain ⟨lev, hlev⟩ := exists_lev cfg s.mazeGrid a
  have h := (nextMove_label cfg s a ha lev hlev).1
  unfold nextMove at h ⊢
  rw [ht.1, ht.2.2]
  exact h

theorem stepDirection_self (a : QPoint) : stepDirection a a = Direction.Stop := by
  simp [stepDirection]

theorem ambushAhead_inBounds (cfg : Config) (s : GameWidget) (hW : 0 < cfg.MAZE_WIDTH)
    (hH : 0 < cfg.MAZE_HEIGHT) : TileInBounds cfg (ambushAhead cfg s) :=
  ⟨(qBound_inBounds _ _ hW).1, (qBound_inBounds _ _ hW).2,
    (qBound_inBounds _ _ hH).1, (qBound_inBounds _ _ hH).2⟩

/-- The policy of the Ambusher in terms of `ambushAhead`. -/
theorem getAmbusherDirection_eq (cfg : Config) (s : GameWidget) (ghost : Ghost) :
    getAmbusherDirection cfg s ghost =
      if (s.m_pointToId ghost.macrogrid_center).isNone = true then (Direction.Stop, s)
      else if (s.m_pointToId
          (if s.mazeGrid (ambushAhead cfg s).y (ambushAhead cfg s).x = 1 ∨
              (s.m_pointToId (ambushAhead cfg s)).isNone = true then s.pacman_macrogrid_center
            else ambushAhead cfg s)).isNone = true then
        (stepDirection
          (s.m_nextMoveLookup ((s.m_pointToId ghost.macrogrid_center).getD 0) 0)
          ghost.macrogrid_center,
          { s with m_pointToId := fun q =>
              if q = (if s.mazeGrid (ambushAhead cfg s).y (ambushAhead cfg s).x = 1 ∨
                  (s.m_pointToId (ambushAhead cfg s)).isNone = true then
                    s.pacman_macrogrid_center
                  else ambushAhead cfg s) then some 0
              else s.m_pointToId q })
      else
        (stepDirection
          (nextMove s ghost.macrogrid_center
            (if s.mazeGrid (ambushAhead cfg s).y (ambushAhead cfg s).x = 1 ∨
                (s.m_pointToId (ambushAhead cfg s)).isNone = true then s.pacman_macrogrid_center
              else ambushAhead cfg s))
          ghost.macrogrid_center, s) := by
  unfold getAmbusherDirection ambushAhead nextMove
  cases hd : s.m_pacmanDirection <;>
  · simp only [shift4]
    split_ifs <;> simp_all

/-! ## The entries of a row of the routing table -/

theorem loop_row_entry (cfg : Config) (grid : Grid) (a : QPoint)
    (ha : isOpen cfg grid a = true) (T : Nat → Nat → QPoint)
    (hT : ∀ j, RowEntry cfg grid a (T (((assignIds cfg grid).pointToId a).getD 0) j))
    (fuel : Nat) (j : Nat) :
    RowEntry cfg grid a
      ((bfsLoop cfg grid (assignIds cfg grid).pointToId a
        (((assignIds cfg grid).pointToId a).getD 0) fuel
        (bfsInit T a (((assignIds cfg grid).pointToId a).getD 0))).lookup
          (((assignIds cfg grid).pointToId a).getD 0) j) := by
  classical
  obtain ⟨lev, hlev⟩ := exists_lev cfg grid a
  have hE := envOf_ok cfg grid a lev ha hlev
  have hO := outer_loop (envOf cfg grid a lev) hE fuel _ (outer_init (envOf cfg grid a lev) hE T)
  have hK := kept_loop (envOf cfg grid a lev) T fuel _ (kept_init (envOf cfg grid a lev) hE T)
  by_cases h : ∃ v, ((envOf cfg grid a lev).loop fuel
      (bfsInit T (envOf cfg grid a lev).startPoint (envOf cfg grid a lev).startId)).vis v ∧
      ((envOf cfg grid a lev).pointToId v).getD 0 = j
  · obtain ⟨v, hv, hid⟩ := h
    rw [← hid]
    by_cases hva : v = a
    · have := hO.core.start_tb
      rw [hva]
      exact Or.inr (Or.inl this)
    · have hl := hO.core.label v hv hva
      exact Or.inr (Or.inr ⟨hl.1, hl.2.1⟩)
  · have := hK j (fun v hv hid => h ⟨v, hv, hid⟩)
    have e : (bfsLoop cfg grid (assignIds cfg grid).pointToId a
        (((assignIds cfg grid).pointToId a).getD 0) fuel
        (bfsInit T a (((assignIds cfg grid).pointToId a).getD 0))).lookup
          (((assignIds cfg grid).pointToId a).getD 0) j =
        T (((assignIds cfg grid).pointToId a).getD 0) j := this
    rw [e]
    exact hT j

theorem fold_row_entry (cfg : Config) (grid : Grid) (a : QPoint)
    (ha : isOpen cfg grid a = true) (l : List Nat) :
    ∀ T : Nat → Nat → QPoint,
      (∀ j, RowEntry cfg grid a (T (((assignIds cfg grid).pointToId a).getD 0) j)) →
      ∀ j, RowEntry cfg grid a
        ((l.foldl (fun lookup i => bfsFrom cfg grid (assignIds cfg grid).pointToId
          (assignIds cfg grid).idToPoint lookup i) T)
          (((assignIds cfg grid).pointToId a).getD 0) j) := by
  induction l with
  | nil => intro T hT j; exact hT j
  | cons k l ih =>
    intro T hT j
    rw [List.foldl_cons]
    apply ih
    intro j'
    by_cases hk : ((assignIds cfg grid).pointToId a).getD 0 = k
    · unfold bfsFrom
      rw [← hk, idToPoint_of_open cfg grid a ha]
      exact loop_row_entry cfg grid a ha T hT _ j'
    · rw [bfsFrom_other cfg grid _ _ T k _ j' hk]
      exact hT j'

/-- Every entry of the row of an open tile in the table built by `precomputePaths` is the
default point, the tile itself or an open neighbour of the tile. -/
theorem table_row_entry (cfg : Config) (s : GameWidget) (a : QPoint)
    (ha : isOpen cfg s.mazeGrid a = true) (j : Nat) :
    RowEntry cfg s.mazeGrid a
      ((precomputePaths cfg s).m_nextMoveLookup
        (((assignIds cfg s.mazeGrid).pointToId a).getD 0) j) := by
  unfold precomputePaths
  simp only []
  split_ifs
  · exact Or.inl rfl
  · exact fold_row_entry cfg s.mazeGrid a ha _ _ (fun _ => Or.inl rfl) j

/-! ## Directions and tiles -/

theorem ahead_eq (p : QPoint) (d : Direction) : ahead p d = ⟨p.x + dirX d, p.y + dirY d⟩ := by
  cases d <;> simp [ahead, dirX, dirY, sub_eq_add_neg]

theorem stepDirection_neighbor (g e : QPoint) (h : e ∈ neighbors g) :
    stepDirection e g ≠ Direction.Stop ∧ ahead g (stepDirection e g) = e := by
  unfold neighbors at h
  simp only [List.mem_cons, List.mem_singleton, List.not_mem_nil, or_false] at h
  rcases h with h | h | h | h <;> subst h <;> simp [stepDirection, ahead]

theorem stepDirection_origin (cfg : Config) (g : QPoint) (hb : TileInBounds cfg g) :
    stepDirection ⟨0, 0⟩ g = Direction.Stop ∨
      TileInBounds cfg (ahead g (stepDirection ⟨0, 0⟩ g)) := by
  obtain ⟨hx0, hx, hy0, hy⟩ := hb
  unfold stepDirection
  simp only []
  split_ifs with h1 h2 h3 h4
  · omega
  · right
    exact ⟨by simp only [ahead]; omega, by simp only [ahead]; omega, hy0, hy⟩
  · omega
  · right
    exact ⟨hx0, hx, by simp only [ahead]; omega, by simp only [ahead]; omega⟩
  · left
    rfl

theorem isOpen_inBounds (cfg : Config) (grid : Grid) (p : QPoint)
    (h : isOpen cfg grid p = true) : TileInBounds cfg p := by
  obtain ⟨a, b, c, d, _⟩ := (isOpen_iff cfg grid p).1 h
  exact ⟨c, d, a, b⟩

theorem stepDirection_rowEntry (cfg : Config) (grid : Grid) (g e : QPoint)
    (hb : TileInBounds cfg g) (he : RowEntry cfg grid g e) :
    stepDirection e g = Direction.Stop ∨ TileInBounds cfg (ahead g (stepDirection e g)) := by
  rcases he with he | he | ⟨h1, h2⟩
  · rw [he]
    exact stepDirection_origin cfg g hb
  · rw [he]
    exact Or.inl (stepDirection_self g)
  · right
    rw [(stepDirection_neighbor g e h1).2]
    exact isOpen_inBounds cfg grid e h2

/-! ## Every policy returns Stop or a walkable direction, except the table lookups -/

theorem StopOrWalkable.of_grid {cfg : Config} {s t : GameWidget} {ghost : Ghost}
    {d : Direction} (h : t.mazeGrid = s.mazeGrid) (hd : StopOrWalkable cfg s ghost d) :
    StopOrWalkable cfg t ghost d := by
  rcases hd with hd | hd
  · exact Or.inl hd
  · exact Or.inr ((canGhostMove_grid cfg s t h ghost d).trans hd)

theorem randomPick_walkable (cfg : Config) (s : GameWidget) (ghost : Ghost) (r : Nat) :
    StopOrWalkable cfg s ghost (randomPick (validDirs cfg s ghost) r) := by
  by_cases hv : validDirs cfg s ghost = []
  · left
    rw [hv]
    rfl
  · right
    rw [← mem_validDirs]
    exact randomPick_mem _ _ hv

theorem getRandomPatrolDirection_walkable (cfg : Config) (s : GameWidget) (ghost : Ghost) :
    StopOrWalkable cfg s ghost (getRandomPatrolDirection cfg s ghost).1 := by
  rw [getRandomPatrolDirection_eq]
  by_cases h : ghost.direction ≠ Direction.Stop ∧ s.rng s.rngPos % 100 < 70 ∧
      canGhostMove cfg s ghost ghost.direction = true
  · rw [if_pos h]
    exact Or.inr h.2.2
  · rw [if_neg h]
    exact randomPick_walkable cfg s ghost _

theorem getIntersectionRandomDirection_walkable (cfg : Config) (s : GameWidget)
    (ghost : Ghost) :
    StopOrWalkable cfg s ghost (getIntersectionRandomDirection cfg s ghost).1 := by
  rw [getIntersectionRandomDirection_eq]
  split_ifs with h
  · exact Or.inr h.2.2
  · exact randomPick_walkable cfg s ghost _

theorem fleeDirection_walkable (cfg : Config) (s : GameWidget) (ghost : Ghost) :
    StopOrWalkable cfg s ghost (fleeDirection cfg s ghost).1 := by
  rw [fleeDirection_eq]
  cases ha : away ghost.macrogrid_center s.pacman_macrogrid_center with
  | none => exact getRandomPatrolDirection_walkable cfg s ghost
  | some d =>
    simp only []
    split_ifs with hc
    · exact Or.inr hc
    · exact getRandomPatrolDirection_walkable cfg s ghost

theorem getGhostPanicDirection_walkable (cfg : Config) (s : GameWidget) (ghost : Ghost) :
    StopOrWalkable cfg s ghost (getGhostPanicDirection cfg s ghost).1 := by
  obtain ⟨c1, c2, c3, c4⟩ := getGhostPanicDirection_cases cfg s ghost
  have hf : StopOrWalkable cfg s ghost
      (fleeDirection cfg { s with rngPos := s.rngPos + 1 } ghost).1 :=
    StopOrWalkable.of_grid (s := { s with rngPos := s.rngPos + 1 }) rfl
      (fleeDirection_walkable cfg _ ghost)
  cases hi : isAtIntersection cfg s ghost with
  | false =>
    rw [c1 hi]
    exact fleeDirection_walkable cfg s ghost
  | true =>
    by_cases h50 : s.rng s.rngPos % 100 < 50
    · by_cases hv : validDirs cfg s ghost = []
      · rw [c3 hi h50 hv]
        exact hf
      · rw [c4 hi h50 hv]
        exact randomPick_walkable cfg s ghost _
    · rw [c2 hi h50]
      exact hf

theorem StopOrWalkable.inBounds {cfg : Config} {s : GameWidget} {ghost : Ghost}
    {d : Direction} (h : StopOrWalkable cfg s ghost d) :
    d = Direction.Stop ∨ TileInBounds cfg (ahead ghost.macrogrid_center d) := by
  rcases h with h | h
  · exact Or.inl h
  · exact Or.inr (isOpen_inBounds cfg s.mazeGrid _ ((canGhostMove_iff cfg s ghost d).1 h).2)

/-! ## The table lookups stay inside the grid -/

theorem tablesOf_row (cfg : Config) (s0 s : GameWidget) (ht : TablesOf cfg s0 s) (g : QPoint)
    (hid : ¬ (s.m_pointToId g).isNone = true) :
    isOpen cfg s0.mazeGrid g = true ∧
      ∀ j, RowEntry cfg s0.mazeGrid g (s.m_nextMoveLookup ((s.m_pointToId g).getD 0) j) := by
  cases hc : s.m_pointToId g with
  | none => rw [hc] at hid; exact absurd rfl hid
  | some i =>
    have hi : (assignIds cfg s0.mazeGrid).pointToId g = some i := by
      rw [← precomputePaths_pointToId, ← ht.1]
      exact hc
    have ho := assignIds_some_open cfg s0.mazeGrid g i hi
    refine ⟨ho, ?_⟩
    intro j
    have := table_row_entry cfg s0 g ho j
    rw [hi] at this
    rw [ht.2.2]
    exact this

theorem getGhostChaseDirection_inBounds (cfg : Config) (s0 s : GameWidget) (ghost : Ghost)
    (ht : TablesOf cfg s0 s) (hb : TileInBounds cfg ghost.macrogrid_center) :
    getGhostChaseDirection s ghost = Direction.Stop ∨
      TileInBounds cfg (ahead ghost.macrogrid_center (getGhostChaseDirection s ghost)) := by
  unfold getGhostChaseDirection
  simp only []
  split_ifs with h
  · exact Or.inl rfl
  · exact stepDirection_rowEntry cfg s0.mazeGrid _ _ hb
      ((tablesOf_row cfg s0 s ht _ (fun hc => h (Or.inl hc))).2 _)

theorem getAmbusherDirection_inBounds (cfg : Config) (s0 s : GameWidget) (ghost : Ghost)
    (ht : TablesOf cfg s0 s) (hb : TileInBounds cfg ghost.macrogrid_center) :
    (getAmbusherDirection cfg s ghost).1 = Direction.Stop ∨
      TileInBounds cfg
        (ahead ghost.macrogrid_center (getAmbusherDirection cfg s ghost).1) := by
  rw [getAmbusherDirection_eq]
  by_cases h1 : (s.m_pointToId ghost.macrogrid_center).isNone = true
  · rw [if_pos h1]
    exact Or.inl rfl
  · rw [if_neg h1]
    have hrow := (tablesOf_row cfg s0 s ht _ h1).2
    split_ifs
    all_goals exact stepDirection_rowEntry cfg s0.mazeGrid _ _ hb (hrow _)

theorem getAggressiveChaserDirection_cases (cfg : Config) (s : GameWidget) (ghost : Ghost) :
    ((getAggressiveChaserDirection cfg s ghost).1 = getGhostChaseDirection s ghost ∨
      StopOrWalkable cfg s ghost (getAggressiveChaserDirection cfg s ghost).1) ∧
    (getAggressiveChaserDirection cfg s ghost).2.1 =
      { ghost with failCounter := (getAggressiveChaserDirection cfg s ghost).2.1.failCounter } := by
  by_cases h : ghost.failCounter + 1 < 8
  · rw [getAggressiveChaserDirection_early cfg s ghost h]
    exact ⟨Or.inl rfl, rfl⟩
  · rw [getAggressiveChaserDirection_eighth cfg s ghost (by omega)]
    split_ifs
    · exact ⟨Or.inl rfl, rfl⟩
    · exact ⟨Or.inr (randomPick_walkable cfg s ghost _), rfl⟩

/-- The policies change at most the `failCounter` of the pursuer. -/
theorem getGhostDirection_ghost (cfg : Config) (s : GameWidget) (ghost : Ghost) :
    (getGhostDirection cfg s ghost).2.1 =
      { ghost with failCounter := (getGhostDirection cfg s ghost).2.1.failCounter } := by
  cases ghost with
  | mk gc mc ty ac mo di mv ms cs sx sy pa pi re fc sp md dc pid col =>
    unfold getGhostDirection
    split_ifs
    · rfl
    · cases ty <;> first
        | rfl
        | exact (getAggressiveChaserDirection_cases cfg s _).2

/-- In a state whose tables were built by `precomputePaths`, the direction selected for a
pursuer on a tile inside the grid is Stop or leads to a tile inside the grid. -/
theorem getGhostDirection_inBounds (cfg : Config) (s0 s : GameWidget) (ghost : Ghost)
    (ht : TablesOf cfg s0 s) (hb : TileInBounds cfg ghost.macrogrid_center) :
    (getGhostDirection cfg s ghost).1 = Direction.Stop ∨
      TileInBounds cfg (ahead ghost.macrogrid_center (getGhostDirection cfg s ghost).1) := by
  unfold getGhostDirection
  split_ifs
  · exact (getGhostPanicDirection_walkable cfg s ghost).inBounds
  · cases ghost.type
    · exact getGhostChaseDirection_inBounds cfg s0 s ghost ht hb
    · rcases (getAggressiveChaserDirection_cases cfg s ghost).1 with h | h
      · simp only [h]
        exact getGhostChaseDirection_inBounds cfg s0 s ghost ht hb
      · exact h.inBounds
    · exact getAmbusherDirection_inBounds cfg s0 s ghost ht hb
    · exact (getRandomPatrolDirection_walkable cfg s ghost).inBounds
    · exact (getIntersectionRandomDirection_walkable cfg s ghost).inBounds

/-- The pursuer after `moveGhost`, when it is active and idle. -/
theorem moveGhost_start (cfg : Config) (s : GameWidget) (ghost : Ghost)
    (ha : ghost.active = true) (hi : ghost.moving = false) :
    (moveGhost cfg s ghost).1 =
      if (getGhostDirection cfg s ghost).1 = Direction.Stop then
        { ghost with
          failCounter := (getGhostDirection cfg s ghost).2.1.failCounter
          direction := Direction.Stop, path := [], pathIndex := 0 }
      else
        { ghost with
          failCounter := (getGhostDirection cfg s ghost).2.1.failCounter
          direction := (getGhostDirection cfg s ghost).1
          moving := true, currentStep := 0, moveSteps := MOVESTEPS
          stepDeltaX := dirX (getGhostDirection cfg s ghost).1 * Int.tdiv cfg.TILE_SIZE MOVESTEPS
          stepDeltaY :=
            dirY (getGhostDirection cfg s ghost).1 * Int.tdiv cfg.TILE_SIZE MOVESTEPS } := by
  have hg := getGhostDirection_ghost cfg s ghost
  unfold moveGhost
  rw [if_neg (by simp [ha, hi])]
  simp only []
  cases hd : (getGhostDirection cfg s ghost).1 <;> rw [hg] <;> simp [dirX, dirY]

/-! ## The six motion advances of a pursuer -/

theorem advanceGhost_mid (cfg : Config) (t : QPoint) (d : Direction) (k : Int) (g : Ghost)
    (h : InFlight cfg t d k g) (hk : k + 1 < 6) :
    InFlight cfg t d (k + 1) (advanceGhost cfg g) := by
  obtain ⟨h1, h2, h3, h4, h5, h6, h7, h8⟩ := h
  unfold advanceGhost
  simp only []
  rw [if_neg (by rw [h4, h5]; unfold MOVESTEPS; omega)]
  refine ⟨h1, h2, h3, h4, by simp only [h5], h6, h7, ?_⟩
  simp only [h8, h6, h7]
  congr 1 <;> ring

theorem advanceGhost_land (cfg : Config) (h32 : cfg.TILE_SIZE = 32) (t : QPoint)
    (d : Direction) (g : Ghost) (h : InFlight cfg t d 5 g) (hd : d ≠ Direction.Stop)
    (ht : TileInBounds cfg t) (ha : TileInBounds cfg (ahead t d)) :
    (advanceGhost cfg g).moving = false ∧ (advanceGhost cfg g).direction = d ∧
      (advanceGhost cfg g).macrogrid_center = ahead t d ∧
      (advanceGhost cfg g).grid_center =
        macroGridToGridCenter cfg (ahead t d).x (ahead t d).y := by
  obtain ⟨h1, h2, h3, h4, h5, h6, h7, h8⟩ := h
  obtain ⟨tx0, tx, ty0, ty⟩ := ht
  obtain ⟨ax0, ax, ay0, ay⟩ := ha
  have e6 : Int.tdiv 32 MOVESTEPS = 5 := by decide
  have e2 : Int.tdiv 32 2 = 16 := by decide
  have hland : gridToMacroGrid cfg (g.grid_center.x + g.stepDeltaX)
      (g.grid_center.y + g.stepDeltaY) = ahead t d := by
    rw [h8, h6, h7]
    simp only [macroGridToGridCenter, h32, e6, e2]
    cases d
    · simp only [ahead, dirX, dirY] at ax0 ax ay0 ay ⊢
      exact gridToMacroGrid_cell cfg h32 _ _ _ _ ax0 ax ay0 ay (by omega) (by omega)
        (by omega) (by omega)
    · simp only [ahead, dirX, dirY] at ax0 ax ay0 ay ⊢
      exact gridToMacroGrid_cell cfg h32 _ _ _ _ ax0 ax ay0 ay (by omega) (by omega)
        (by omega) (by omega)
    · simp only [ahead, dirX, dirY] at ax0 ax ay0 ay ⊢
      exact gridToMacroGrid_cell cfg h32 _ _ _ _ ax0 ax ay0 ay (by omega) (by omega)
        (by omega) (by omega)
    · simp only [ahead, dirX, dirY] at ax0 ax ay0 ay ⊢
      exact gridToMacroGrid_cell cfg h32 _ _ _ _ ax0 ax ay0 ay (by omega) (by omega)
        (by omega) (by omega)
    · exact absurd rfl hd
  unfold advanceGhost
  simp only []
  rw [if_pos (by rw [h4, h5]; unfold MOVESTEPS; omega)]
  refine ⟨rfl, h2, hland, ?_⟩
  show macroGridToGridCenter cfg
      (gridToMacroGrid cfg (g.grid_center.x + g.stepDeltaX)
        (g.grid_center.y + g.stepDeltaY)).x
      (gridToMacroGrid cfg (g.grid_center.x + g.stepDeltaX)
        (g.grid_center.y + g.stepDeltaY)).y = _
  rw [hland]

theorem throttle_full_speed (ghost : Ghost) (h : 1 ≤ ghost.speedMultiplier) :
    throttle ghost = (false, ghost) := by
  unfold throttle
  rw [if_neg (not_lt.2 h)]

/-- The iteration of the pursuer loop on a moving pursuer at full speed is one motion
advance. -/
theorem ghostStepAt_advance (cfg : Config) (s : GameWidget) (i : Nat) (g : Ghost)
    (hg : s.ghosts.get? i = some g) (ha : g.active = true) (hr : g.respawning = false)
    (hm : 1 ≤ g.speedMultiplier) (hv : g.moving = true) :
    ghostStepAt cfg s i = { s with ghosts := s.ghosts.set i (advanceGhost cfg g) } := by
  rw [ghostStepAt_eq, hg]
  simp only [throttle_full_speed g hm]
  rw [if_neg (by simp [ha, hr]), if_neg (by decide), if_neg (by simp [hv])]

/-- The iteration of the pursuer loop on an idle pursuer at full speed is the reproduction
test followed by `moveGhost`. -/
theorem ghostStepAt_idle (cfg : Config) (s : GameWidget) (i : Nat) (g : Ghost)
    (hg : s.ghosts.get? i = some g) (ha : g.active = true) (hr : g.respawning = false)
    (hm : 1 ≤ g.speedMultiplier) (hv : g.moving = false) :
    ghostStepAt cfg s i =
      { (moveGhost cfg (reproduce cfg s g) g).2 with
        ghosts := (moveGhost cfg (reproduce cfg s g) g).2.ghosts.set i
          (moveGhost cfg (reproduce cfg s g) g).1
        dangling := (moveGhost cfg (reproduce cfg s g) g).2.dangling ||
          decide (s.ghosts.length < (reproduce cfg s g).ghosts.length) } := by
  rw [ghostStepAt_eq, hg]
  simp only [throttle_full_speed g hm]
  rw [if_neg (by simp [ha, hr]), if_neg (by decide), if_pos (by simp [hv])]

theorem advanceGhost_fields (cfg : Config) (g : Ghost) :
    (advanceGhost cfg g).active = g.active ∧ (advanceGhost cfg g).respawning = g.respawning ∧
      (advanceGhost cfg g).speedMultiplier = g.speedMultiplier ∧
      (advanceGhost cfg g).type = g.type ∧ (advanceGhost cfg g).mode = g.mode := by
  unfold advanceGhost
  simp only []
  split_ifs <;> exact ⟨rfl, rfl, rfl, rfl, rfl⟩

theorem iterate_advance_fields (cfg : Config) (g : Ghost) (k : Nat) :
    ((advanceGhost cfg)^[k] g).active = g.active ∧
      ((advanceGhost cfg)^[k] g).respawning = g.respawning ∧
      ((advanceGhost cfg)^[k] g).speedMultiplier = g.speedMultiplier := by
  induction k with
  | zero => exact ⟨rfl, rfl, rfl⟩
  | succ k ih =>
    rw [Function.iterate_succ_apply']
    obtain ⟨a, b, c, _, _⟩ := advanceGhost_fields cfg ((advanceGhost cfg)^[k] g)
    exact ⟨a.trans ih.1, b.trans ih.2.1, c.trans ih.2.2⟩

theorem iterate_advance_inFlight (cfg : Config) (t : QPoint) (d : Direction) (g : Ghost)
    (h : InFlight cfg t d 0 g) (k : Nat) (hk : k ≤ 5) :
    InFlight cfg t d k ((advanceGhost cfg)^[k] g) := by
  induction k with
  | zero => exact h
  | succ k ih =>
    rw [Function.iterate_succ_apply']
    have := advanceGhost_mid cfg t d k _ (ih (by omega)) (by omega)
    simpa using this

/-! ## The tile on which a move ends -/

theorem tdiv_tile (T c r : Int) (h : 0 < T) (hc : 0 ≤ c) (h0 : 0 ≤ r) (h1 : r < T) :
    Int.tdiv (c * T + r) T = c := by
  have hnn : 0 ≤ c * T := Int.mul_nonneg hc (by omega)
  rw [Int.tdiv_eq_ediv (by omega) (by omega), Int.add_comm,
    Int.add_mul_ediv_right _ _ (by omega), Int.ediv_eq_zero_of_lt h0 h1]
  omega

/-- One coordinate of the tile on which a move of six steps of `TILE_SIZE / 6` pixels ends:
the coordinate `c` of the tile it started from, or the coordinate `c + δ` of the tile
ahead. -/
theorem land_coord (T c δ : Int) (W : Nat) (hT : 0 < T) (hc : 0 ≤ c) (hcW : c < W)
    (hδ : δ = -1 ∨ δ = 0 ∨ δ = 1) (h0 : 0 ≤ c + δ) (hW : c + δ < W) (x : Int)
    (hx : x = c * T + Int.tdiv T 2 + 6 * (δ * Int.tdiv T MOVESTEPS)) :
    qBound 0 (Int.tdiv x T) ((W : Int) - 1) = c ∨
      qBound 0 (Int.tdiv x T) ((W : Int) - 1) = c + δ := by
  have e2 : Int.tdiv T 2 = T / 2 := Int.tdiv_eq_ediv (by omega) (by omega)
  have e6 : Int.tdiv T MOVESTEPS = T / 6 := Int.tdiv_eq_ediv (by omega) (by decide)
  rw [e2, e6] at hx
  have key : Int.tdiv x T = c ∨ Int.tdiv x T = c + δ := by
    rcases hδ with h | h | h
    · subst h
      by_cases hr : 0 ≤ T / 2 - 6 * (T / 6)
      · left
        have : x = c * T + (T / 2 - 6 * (T / 6)) := by rw [hx]; ring
        rw [this]
        exact tdiv_tile T c _ hT hc hr (by omega)
      · right
        have : x = (c + -1) * T + (T + (T / 2 - 6 * (T / 6))) := by rw [hx]; ring
        rw [this]
        exact tdiv_tile T _ _ hT h0 (by omega) (by omega)
    · subst h
      left
      have : x = c * T + T / 2 := by rw [hx]; ring
      rw [this]
      exact tdiv_tile T c _ hT hc (by omega) (by omega)
    · subst h
      by_cases hr : T / 2 + 6 * (T / 6) < T
      · left
        have : x = c * T + (T / 2 + 6 * (T / 6)) := by rw [hx]; ring
        rw [this]
        exact tdiv_tile T c _ hT hc (by omega) hr
      · right
        have : x = (c + 1) * T + (T / 2 + 6 * (T / 6) - T) := by rw [hx]; ring
        rw [this]
        exact tdiv_tile T _ _ hT h0 (by omega) (by omega)
  rcases key with h | h
  · left
    rw [h]
    unfold qBound
    omega
  · right
    rw [h]
    unfold qBound
    omega

theorem dirX_cases (d : Direction) : dirX d = -1 ∨ dirX d = 0 ∨ dirX d = 1 := by
  cases d <;> simp [dirX]

theorem dirY_cases (d : Direction) : dirY d = -1 ∨ dirY d = 0 ∨ dirY d = 1 := by
  cases d <;> simp [dirY]

/-- The tile on which a move from tile `t` in direction `d` ends, both tiles being inside the
grid: `t` or the tile ahead. -/
theorem landing_tile (cfg : Config) (hT : 0 < cfg.TILE_SIZE) (t : QPoint) (d : Direction)
    (ht : TileInBounds cfg t) (ha : TileInBounds cfg (ahead t d)) (x y : Int)
    (hx : x = (macroGridToGridCenter cfg t.x t.y).x +
      6 * (dirX d * Int.tdiv cfg.TILE_SIZE MOVESTEPS))
    (hy : y = (macroGridToGridCenter cfg t.x t.y).y +
      6 * (dirY d * Int.tdiv cfg.TILE_SIZE MOVESTEPS)) :
    gridToMacroGrid cfg x y = t ∨ gridToMacroGrid cfg x y = ahead t d := by
  rw [ahead_eq] at ha ⊢
  obtain ⟨tx0, tx1, ty0, ty1⟩ := ht
  obtain ⟨ax0, ax1, ay0, ay1⟩ := ha
  simp only [] at ax0 ax1 ay0 ay1
  have hX := land_coord cfg.TILE_SIZE t.x (dirX d) cfg.MAZE_WIDTH hT tx0 tx1 (dirX_cases d)
    ax0 ax1 x hx
  have hY := land_coord cfg.TILE_SIZE t.y (dirY d) cfg.MAZE_HEIGHT hT ty0 ty1 (dirY_cases d)
    ay0 ay1 y hy
  unfold gridToMacroGrid
  simp only []
  cases d <;> simp only [dirX, dirY, add_zero] at hX hY ⊢ <;>
    rcases hX with hX | hX <;> rcases hY with hY | hY <;> rw [hX, hY] <;> simp

/-! ## Table lookups in a connected maze -/

theorem isOpen_sameWalls {cfg : Config} {g g' : Grid} (h : SameWalls cfg g g') (p : QPoint) :
    isOpen cfg g p = isOpen cfg g' p := by
  rw [Bool.eq_iff_iff, isOpen_iff, isOpen_iff]
  constructor
  · rintro ⟨a, b, c, d, e⟩
    exact ⟨a, b, c, d, fun hc => e ((h p.y p.x a b c d).2 hc)⟩
  · rintro ⟨a, b, c, d, e⟩
    exact ⟨a, b, c, d, fun hc => e ((h p.y p.x a b c d).1 hc)⟩

/-- In a connected maze the table entry for two open tiles is the first tile itself or an
open neighbour of it. -/
theorem nextMove_open (cfg : Config) (s0 s : GameWidget) (ht : TablesOf cfg s0 s)
    (hc : Connected cfg s0.mazeGrid) (a b : QPoint)
    (ha : isOpen cfg s0.mazeGrid a = true) (hb : isOpen cfg s0.mazeGrid b = true) :
    nextMove s a b = a ∨
      (nextMove s a b ∈ neighbors a ∧ isOpen cfg s0.mazeGrid (nextMove s a b) = true) := by
  obtain ⟨lev, hlev⟩ := exists_lev cfg s0.mazeGrid a
  have h := nextMove_label cfg s0 a ha lev hlev
  have e : nextMove s a b = nextMove (precomputePaths cfg s0) a b := by
    unfold nextMove
    rw [ht.1, ht.2.2]
  rw [e]
  by_cases hab : b = a
  · left
    rw [hab]
    exact h.1
  · right
    obtain ⟨h1, h2, _, _⟩ := h.2 b (hc a b ha hb) hab
    exact ⟨h1, h2⟩

theorem tablesOf_open (cfg : Config) (s0 s : GameWidget) (ht : TablesOf cfg s0 s)
    (p : QPoint) : (s.m_pointToId p).isSome = true ↔ isOpen cfg s0.mazeGrid p = true := by
  rw [ht.1, precomputePaths_pointToId]
  constructor
  · intro h
    obtain ⟨i, hi⟩ := Option.isSome_iff_exists.1 h
    exact assignIds_some_open cfg _ p i hi
  · intro h
    obtain ⟨i, hi⟩ := (assignIds_spec cfg s0.mazeGrid).2 p h
    rw [hi]
    rfl

theorem isNone_iff_not_open (cfg : Config) (s0 s : GameWidget) (ht : TablesOf cfg s0 s)
    (p : QPoint) : (s.m_pointToId p).isNone = true ↔ ¬ isOpen cfg s0.mazeGrid p = true := by
  rw [← tablesOf_open cfg s0 s ht p]
  cases s.m_pointToId p <;> simp

/-- In a connected maze the direction from an open tile `a` to the table entry for `a` and
an open tile `b` is Stop or leads to an open tile. -/
theorem lookup_walkable (cfg : Config) (s0 s : GameWidget) (ghost : Ghost)
    (ht : TablesOf cfg s0 s) (hw : SameWalls cfg s0.mazeGrid s.mazeGrid)
    (hc : Connected cfg s0.mazeGrid) (b : QPoint)
    (ha : isOpen cfg s0.mazeGrid ghost.macrogrid_center = true)
    (hb : isOpen cfg s0.mazeGrid b = true) :
    StopOrWalkable cfg s ghost
      (stepDirection (nextMove s ghost.macrogrid_center b) ghost.macrogrid_center) := by
  rcases nextMove_open cfg s0 s ht hc _ b ha hb with h | ⟨h1, h2⟩
  · left
    rw [h]
    exact stepDirection_self _
  · right
    obtain ⟨h3, h4⟩ := stepDirection_neighbor _ _ h1
    rw [canGhostMove_iff]
    refine ⟨h3, ?_⟩
    rw [h4, ← isOpen_sameWalls hw]
    exact h2

theorem getGhostChaseDirection_walkable (cfg : Config) (s0 s : GameWidget) (ghost : Ghost)
    (ht : TablesOf cfg s0 s) (hw : SameWalls cfg s0.mazeGrid s.mazeGrid)
    (hc : Connected cfg s0.mazeGrid) :
    StopOrWalkable cfg s ghost (getGhostChaseDirection s ghost) := by
  unfold getGhostChaseDirection
  simp only []
  split_ifs with h
  · exact Or.inl rfl
  · have h1 : isOpen cfg s0.mazeGrid ghost.macrogrid_center = true := by
      by_contra hn
      exact h (Or.inl ((isNone_iff_not_open cfg s0 s ht _).2 hn))
    have h2 : isOpen cfg s0.mazeGrid s.pacman_macrogrid_center = true := by
      by_contra hn
      exact h (Or.inr ((isNone_iff_not_open cfg s0 s ht _).2 hn))
    exact lookup_walkable cfg s0 s ghost ht hw hc _ h1 h2

/-- With the player on an open tile, `getAmbusherDirection` leaves the state unchanged and
its direction is Stop or walkable. -/
theorem getAmbusherDirection_walkable (cfg : Config) (s0 s : GameWidget) (ghost : Ghost)
    (ht : TablesOf cfg s0 s) (hw : SameWalls cfg s0.mazeGrid s.mazeGrid)
    (hc : Connected cfg s0.mazeGrid)
    (hP : isOpen cfg s0.mazeGrid s.pacman_macrogrid_center = true) :
    StopOrWalkable cfg s ghost (getAmbusherDirection cfg s ghost).1 ∧
      (getAmbusherDirection cfg s ghost).2 = s := by
  rw [getAmbusherDirection_eq]
  by_cases h1 : (s.m_pointToId ghost.macrogrid_center).isNone = true
  · rw [if_pos h1]
    exact ⟨Or.inl rfl, rfl⟩
  · rw [if_neg h1]
    have hG : isOpen cfg s0.mazeGrid ghost.macrogrid_center = true := by
      by_contra hn
      exact h1 ((isNone_iff_not_open cfg s0 s ht _).2 hn)
    have hT : isOpen cfg s0.mazeGrid
        (if s.mazeGrid (ambushAhead cfg s).y (ambushAhead cfg s).x = 1 ∨
          (s.m_pointToId (ambushAhead cfg s)).isNone = true then s.pacman_macrogrid_center
        else ambushAhead cfg s) = true := by
      split_ifs with h
      · exact hP
      · by_contra hn
        exact h (Or.inr ((isNone_iff_not_open cfg s0 s ht _).2 hn))
    rw [if_neg (fun hn => (isNone_iff_not_open cfg s0 s ht _).1 hn hT)]
    exact ⟨lookup_walkable cfg s0 s ghost ht hw hc _ hG hT, rfl⟩

/-! ## The policies in a connected maze -/

theorem RngFrame.rngRefl (s : GameWidget) : RngFrame s s := ⟨_, rfl⟩

theorem RngFrame.rngTrans {s t u : GameWidget} (h1 : RngFrame s t) (h2 : RngFrame t u) :
    RngFrame s u := by
  obtain ⟨p, rfl⟩ := h1
  obtain ⟨q, rfl⟩ := h2
  exact ⟨q, rfl⟩

theorem bounded_rng (s : GameWidget) (n : Nat) : RngFrame s (bounded s n).2 := ⟨_, rfl⟩

theorem pickValidDir_rng (cfg : Config) (s : GameWidget) (ghost : Ghost)
    (r : Direction × GameWidget) (h : pickValidDir cfg s ghost = some r) :
    RngFrame s r.2 := by
  unfold pickValidDir at h
  simp only [] at h
  split_ifs at h
  injection h with h
  subst h
  exact ⟨_, rfl⟩

theorem patrolFallback_rng (cfg : Config) (s : GameWidget) (ghost : Ghost) :
    RngFrame s
      (match pickValidDir cfg s ghost with
        | some r => r
        | none => (Direction.Stop, s)).2 := by
  split
  · next r hr => exact pickValidDir_rng cfg s _ r hr
  · exact ⟨_, rfl⟩

theorem getRandomPatrolDirection_rng (cfg : Config) (s : GameWidget) (ghost : Ghost) :
    RngFrame s (getRandomPatrolDirection cfg s ghost).2 := by
  unfold getRandomPatrolDirection
  simp only []
  split_ifs
  · exact ⟨_, rfl⟩
  · exact (bounded_rng s 100).rngTrans (patrolFallback_rng cfg _ ghost)
  · exact (bounded_rng s 100).rngTrans (patrolFallback_rng cfg _ ghost)
  · exact patrolFallback_rng cfg s ghost

theorem getIntersectionRandomDirection_rng (cfg : Config) (s : GameWidget)
    (ghost : Ghost) : RngFrame s (getIntersectionRandomDirection cfg s ghost).2 := by
  unfold getIntersectionRandomDirection
  split_ifs
  · exact patrolFallback_rng cfg s ghost
  · exact ⟨_, rfl⟩
  · exact patrolFallback_rng cfg s ghost

theorem fleeDirection_rng (cfg : Config) (s : GameWidget) (ghost : Ghost) :
    RngFrame s (fleeDirection cfg s ghost).2 := by
  unfold fleeDirection
  simp only []
  split_ifs <;> first | exact ⟨_, rfl⟩ | exact getRandomPatrolDirection_rng cfg s ghost

theorem getGhostPanicDirection_rng (cfg : Config) (s : GameWidget) (ghost : Ghost) :
    RngFrame s (getGhostPanicDirection cfg s ghost).2 := by
  unfold getGhostPanicDirection
  simp only []
  split_ifs
  · split
    · next d hd => exact (bounded_rng s 100).rngTrans (pickValidDir_rng cfg _ _ d hd)
    · exact (bounded_rng s 100).rngTrans (fleeDirection_rng cfg _ ghost)
  · exact (bounded_rng s 100).rngTrans (fleeDirection_rng cfg _ ghost)
  · exact fleeDirection_rng cfg s ghost

theorem getAggressiveChaserDirection_rng (cfg : Config) (s : GameWidget) (ghost : Ghost) :
    RngFrame s (getAggressiveChaserDirection cfg s ghost).2.2 := by
  unfold getAggressiveChaserDirection
  simp only []
  split_ifs
  · split
    · next r hr => exact pickValidDir_rng cfg s _ r hr
    · exact ⟨_, rfl⟩
  · exact ⟨_, rfl⟩

/-- In a connected maze, with the tables of the maze and the player on an open tile, the
direction `getGhostDirection` returns is Stop or walkable, and the call changes the state
at most in the position of the random generator. -/
theorem getGhostDirection_sound (cfg : Config) (s0 s : GameWidget) (ghost : Ghost)
    (ht : TablesOf cfg s0 s) (hw : SameWalls cfg s0.mazeGrid s.mazeGrid)
    (hc : Connected cfg s0.mazeGrid)
    (hP : isOpen cfg s0.mazeGrid s.pacman_macrogrid_center = true) :
    StopOrWalkable cfg s ghost (getGhostDirection cfg s ghost).1 ∧
      RngFrame s (getGhostDirection cfg s ghost).2.2 := by
  unfold getGhostDirection
  split_ifs
  · exact ⟨getGhostPanicDirection_walkable cfg s ghost, getGhostPanicDirection_rng cfg s ghost⟩
  · split
    · exact ⟨getGhostChaseDirection_walkable cfg s0 s ghost ht hw hc, ⟨_, rfl⟩⟩
    · refine ⟨?_, getAggressiveChaserDirection_rng cfg s ghost⟩
      rcases (getAggressiveChaserDirection_cases cfg s ghost).1 with h | h
      · rw [h]
        exact getGhostChaseDirection_walkable cfg s0 s ghost ht hw hc
      · exact h
    · obtain ⟨h1, h2⟩ := getAmbusherDirection_walkable cfg s0 s ghost ht hw hc hP
      refine ⟨h1, ?_⟩
      show RngFrame s (getAmbusherDirection cfg s ghost).2
      rw [h2]
      exact ⟨_, rfl⟩
    · exact ⟨getRandomPatrolDirection_walkable cfg s ghost,
        getRandomPatrolDirection_rng cfg s ghost⟩
    · exact ⟨getIntersectionRandomDirection_walkable cfg s ghost,
        getIntersectionRandomDirection_rng cfg s ghost⟩

/-! ## The position of a pursuer stays sound -/

theorem GhostOk.of_motion {cfg : Config} {grid : Grid} {g g' : Ghost}
    (h : g'.motion = g.motion) (hg : GhostOk cfg grid g) : GhostOk cfg grid g' := by
  simp only [Ghost.motion, Prod.mk.injEq] at h
  obtain ⟨h1, h2, h3, h4, h5, h6, h7, h8⟩ := h
  unfold GhostOk InFlight at *
  rw [h1, h2, h3, h4, h5, h6, h7, h8]
  exact hg

theorem GhostOk.of_walls {cfg : Config} {grid grid' : Grid} {g : Ghost}
    (hw : SameWalls cfg grid grid') (hg : GhostOk cfg grid g) : GhostOk cfg grid' g := by
  unfold GhostOk at *
  rw [← isOpen_sameWalls hw]
  refine ⟨hg.1, hg.2.1, ?_⟩
  intro hm
  obtain ⟨d, k, a, b, c, e, f⟩ := hg.2.2 hm
  exact ⟨d, k, a, b, c, e, by rw [← isOpen_sameWalls hw]; exact f⟩

theorem throttle_motion (ghost : Ghost) : (throttle ghost).2.motion = ghost.motion := by
  unfold throttle
  simp only []
  split_ifs <;> rfl

/-- An idle pursuer at the centre of an open tile. -/
theorem GhostOk.idle {cfg : Config} {grid : Grid} {g : Ghost}
    (ho : isOpen cfg grid g.macrogrid_center = true) (hm : g.moving = false)
    (hc : g.grid_center =
      macroGridToGridCenter cfg g.macrogrid_center.x g.macrogrid_center.y) :
    GhostOk cfg grid g :=
  ⟨ho, fun _ => hc, fun h => by rw [hm] at h; exact Bool.noConfusion h⟩

theorem moveGhost_ok (cfg : Config) (s : GameWidget) (ghost : Ghost)
    (hg : GhostOk cfg s.mazeGrid ghost)
    (hd : StopOrWalkable cfg s ghost (getGhostDirection cfg s ghost).1) :
    GhostOk cfg s.mazeGrid (moveGhost cfg s ghost).1 := by
  by_cases hc : ghost.active = true ∧ ghost.moving = false
  · rw [moveGhost_start cfg s ghost hc.1 hc.2]
    split_ifs with h
    · exact GhostOk.idle hg.1 hc.2 (hg.2.1 hc.2)
    · rcases hd with hd | hd
      · exact absurd hd h
      · rw [canGhostMove_iff] at hd
        refine ⟨hg.1, fun hm => Bool.noConfusion hm, fun _ => ?_⟩
        refine ⟨_, 0, h, le_refl _, by decide, ?_, hd.2⟩
        refine ⟨rfl, rfl, rfl, rfl, rfl, rfl, rfl, ?_⟩
        show ghost.grid_center = _
        rw [hg.2.1 hc.2]
        simp
  · have e : (moveGhost cfg s ghost).1 = ghost := by
      unfold moveGhost
      rw [if_pos]
      by_contra hn
      apply hc
      constructor
      · by_contra ha
        exact hn (Or.inl (by simp [ha]))
      · by_contra hm
        exact hn (Or.inr (by simpa using hm))
    rw [e]
    exact hg

/-- The last motion advance of a move, for any positive tile size: the pursuer is Idle at
the centre of the tile it left or of the tile ahead. -/
theorem advanceGhost_land_any (cfg : Config) (hT : 0 < cfg.TILE_SIZE) (t : QPoint)
    (d : Direction) (g : Ghost) (h : InFlight cfg t d 5 g)
    (ht : TileInBounds cfg t) (ha : TileInBounds cfg (ahead t d)) :
    (advanceGhost cfg g).moving = false ∧
      ((advanceGhost cfg g).macrogrid_center = t ∨
        (advanceGhost cfg g).macrogrid_center = ahead t d) ∧
      (advanceGhost cfg g).grid_center =
        macroGridToGridCenter cfg (advanceGhost cfg g).macrogrid_center.x
          (advanceGhost cfg g).macrogrid_center.y := by
  obtain ⟨h1, h2, h3, h4, h5, h6, h7, h8⟩ := h
  have hland := landing_tile cfg hT t d ht ha (g.grid_center.x + g.stepDeltaX)
    (g.grid_center.y + g.stepDeltaY) (by rw [h8, h6]; simp only []; ring)
    (by rw [h8, h7]; simp only []; ring)
  unfold advanceGhost
  simp only []
  rw [if_pos (by rw [h4, h5]; unfold MOVESTEPS; omega)]
  exact ⟨rfl, hland, rfl⟩

theorem advanceGhost_ok (cfg : Config) (hT : 0 < cfg.TILE_SIZE) (grid : Grid) (g : Ghost)
    (hg : GhostOk cfg grid g) (hm : g.moving = true) :
    GhostOk cfg grid (advanceGhost cfg g) := by
  obtain ⟨d, k, hd, k0, k6, hf, ho⟩ := hg.2.2 hm
  unfold MOVESTEPS at k6
  by_cases hk : k + 1 < 6
  · have h := advanceGhost_mid cfg _ d k g hf hk
    have ht : (advanceGhost cfg g).macrogrid_center = g.macrogrid_center := h.2.2.1
    refine ⟨by rw [ht]; exact hg.1, fun hi => ?_, fun _ => ?_⟩
    · rw [h.1] at hi
      exact Bool.noConfusion hi
    · refine ⟨d, k + 1, hd, by omega, by unfold MOVESTEPS; omega, ?_, ?_⟩
      · rw [ht]; exact h
      · rw [ht]; exact ho
  · have e : k = 5 := by omega
    subst e
    obtain ⟨l1, l2, l3⟩ := advanceGhost_land_any cfg hT _ d g hf
      (isOpen_inBounds cfg grid _ hg.1) (isOpen_inBounds cfg grid _ ho)
    refine GhostOk.idle ?_ l1 l3
    rcases l2 with l2 | l2 <;> rw [l2]
    · exact hg.1
    · exact ho

/-! ## One iteration of the pursuer loop keeps the state sound -/

theorem ghostsOk_set (cfg : Config) (grid : Grid) (gs : List Ghost) (i : Nat) (g : Ghost)
    (h : GhostsOk cfg grid gs) (hg : GhostOk cfg grid g) : GhostsOk cfg grid (gs.set i g) := by
  intro x hx
  rcases List.mem_or_eq_of_mem_set hx with h1 | h1
  · exact h x h1
  · rw [h1]
    exact hg

theorem ghostsOk_of_map (cfg : Config) (grid : Grid) (gs gs' : List Ghost)
    (e : gs'.map Ghost.motion = gs.map Ghost.motion) (h : GhostsOk cfg grid gs) :
    GhostsOk cfg grid gs' := by
  intro x hx
  have h1 : x.motion ∈ gs'.map Ghost.motion := List.mem_map_of_mem _ hx
  rw [e, List.mem_map] at h1
  obtain ⟨y, hy, e1⟩ := h1
  exact GhostOk.of_motion e1.symm (h y hy)

theorem SpawnFrame.spawnRefl (s : GameWidget) : SpawnFrame s s := ⟨_, _, _, _, rfl⟩

theorem SpawnFrame.spawnTrans {s t u : GameWidget} (h1 : SpawnFrame s t)
    (h2 : SpawnFrame t u) : SpawnFrame s u := by
  obtain ⟨gs, n, p, d, rfl⟩ := h1
  obtain ⟨gs', n', p', d', rfl⟩ := h2
  exact ⟨gs', n', p', d', rfl⟩

theorem RngFrame.spawn {s t : GameWidget} (h : RngFrame s t) : SpawnFrame s t := by
  obtain ⟨p, rfl⟩ := h
  exact ⟨_, _, p, _, rfl⟩

theorem Sound.of_frame {cfg : Config} {s0 s t : GameWidget} (h : SpawnFrame s t)
    (hs : Sound cfg s0 s) (hg : GhostsOk cfg s.mazeGrid t.ghosts) : Sound cfg s0 t := by
  obtain ⟨gs, n, p, d, rfl⟩ := h
  exact ⟨hs.tables, hs.walls, hs.spawns, hs.player, hg⟩

theorem spawnChildGhost_spawn (s : GameWidget) (parent : Ghost) :
    SpawnFrame s (spawnChildGhost s parent) := by
  unfold spawnChildGhost
  split_ifs <;> exact ⟨_, _, _, _, rfl⟩

theorem reproduce_spawn (cfg : Config) (s : GameWidget) (ghost : Ghost) :
    SpawnFrame s (reproduce cfg s ghost) := by
  unfold reproduce
  simp only []
  split_ifs
  · exact (bounded_rng s 100).spawn.spawnTrans (spawnChildGhost_spawn _ ghost)
  · exact (bounded_rng s 100).spawn
  · exact SpawnFrame.spawnRefl s

theorem spawnChildGhost_ok (cfg : Config) (grid : Grid) (s : GameWidget) (parent : Ghost)
    (h : GhostsOk cfg grid s.ghosts) (hp : GhostOk cfg grid parent)
    (hm : parent.moving = false) : GhostsOk cfg grid (spawnChildGhost s parent).ghosts := by
  unfold spawnChildGhost
  split_ifs
  · exact h
  · intro g hg
    rcases List.mem_append.1 hg with h1 | h1
    · exact h g h1
    · rw [List.mem_singleton.1 h1]
      exact GhostOk.idle hp.1 rfl (hp.2.1 hm)

theorem reproduce_ok (cfg : Config) (grid : Grid) (s : GameWidget) (ghost : Ghost)
    (h : GhostsOk cfg grid s.ghosts) (hp : GhostOk cfg grid ghost)
    (hm : ghost.moving = false) : GhostsOk cfg grid (reproduce cfg s ghost).ghosts := by
  unfold reproduce
  simp only []
  split_ifs
  · exact spawnChildGhost_ok cfg grid _ ghost h hp hm
  · exact h
  · exact h

/-- In a sound state of a connected maze, `moveGhost` changes the state at most in the
position of the random generator, and the direction it takes is Stop or walkable. -/
theorem moveGhost_sound (cfg : Config) (s0 s : GameWidget) (ghost : Ghost)
    (hc : Connected cfg s0.mazeGrid) (hs : Sound cfg s0 s)
    (hg : GhostOk cfg s.mazeGrid ghost) :
    RngFrame s (moveGhost cfg s ghost).2 ∧ GhostOk cfg s.mazeGrid (moveGhost cfg s ghost).1 := by
  have hP : isOpen cfg s0.mazeGrid s.pacman_macrogrid_center = true := by
    rw [isOpen_sameWalls hs.walls]
    exact hs.player.2.1
  obtain ⟨h1, h2⟩ := getGhostDirection_sound cfg s0 s ghost hs.tables hs.walls hc hP
  refine ⟨?_, moveGhost_ok cfg s ghost hg h1⟩
  unfold moveGhost
  simp only []
  split_ifs
  · exact ⟨_, rfl⟩
  · exact h2
  · split <;> exact h2

theorem ghostStepAt_sound (cfg : Config) (hT : 0 < cfg.TILE_SIZE) (s0 s : GameWidget)
    (hc : Connected cfg s0.mazeGrid) (i : Nat) (hs : Sound cfg s0 s) :
    Sound cfg s0 (ghostStepAt cfg s i) := by
  rw [ghostStepAt_eq]
  split
  · exact hs
  · next ghost hg =>
    have hm : GhostOk cfg s.mazeGrid ghost := hs.ghosts ghost (List.get?_mem hg)
    have ht : GhostOk cfg s.mazeGrid (throttle ghost).2 :=
      GhostOk.of_motion (throttle_motion ghost) hm
    split_ifs with h1 h2 h3
    · exact hs
    · exact Sound.of_frame ⟨_, _, _, _, rfl⟩ hs (ghostsOk_set cfg _ _ _ _ hs.ghosts ht)
    · have hi : (throttle ghost).2.moving = false := by simpa using h3
      have hr := reproduce_spawn cfg s (throttle ghost).2
      have hs1 : Sound cfg s0 (reproduce cfg s (throttle ghost).2) :=
        Sound.of_frame hr hs (reproduce_ok cfg _ s _ hs.ghosts ht hi)
      have hg1 : (reproduce cfg s (throttle ghost).2).mazeGrid = s.mazeGrid := by
        obtain ⟨gs, n, p, d, e⟩ := hr
        rw [e]
      obtain ⟨m1, m2⟩ := moveGhost_sound cfg s0 _ (throttle ghost).2 hc hs1
        (by rw [hg1]; exact ht)
      have hs2 : Sound cfg s0
          (moveGhost cfg (reproduce cfg s (throttle ghost).2) (throttle ghost).2).2 := by
        apply Sound.of_frame m1.spawn hs1
        obtain ⟨p, e⟩ := m1
        rw [e]
        exact hs1.ghosts
      have hg2 : (moveGhost cfg (reproduce cfg s (throttle ghost).2)
          (throttle ghost).2).2.mazeGrid = (reproduce cfg s (throttle ghost).2).mazeGrid := by
        obtain ⟨p, e⟩ := m1
        rw [e]
      apply Sound.of_frame ⟨_, _, _, _, rfl⟩ hs2
      apply ghostsOk_set cfg _ _ _ _ hs2.ghosts
      rw [hg2]
      exact m2
    · have hv : (throttle ghost).2.moving = true := by simpa using h3
      exact Sound.of_frame ⟨_, _, _, _, rfl⟩ hs
        (ghostsOk_set cfg _ _ _ _ hs.ghosts (advanceGhost_ok cfg hT _ _ ht hv))

theorem ghostLoop_sound (cfg : Config) (hT : 0 < cfg.TILE_SIZE) (s0 : GameWidget)
    (hc : Connected cfg s0.mazeGrid) (fuel : Nat) :
    ∀ (i : Nat) (s : GameWidget), Sound cfg s0 s → Sound cfg s0 (ghostLoop cfg fuel i s) := by
  induction fuel with
  | zero => intro i s h; exact h
  | succ fuel ih =>
    intro i s h
    rw [ghostLoop]
    split_ifs
    · exact ih _ _ (ghostStepAt_sound cfg hT s0 s hc i h)
    · exact h

theorem ghostAnimationStep_sound (cfg : Config) (hT : 0 < cfg.TILE_SIZE) (s0 s : GameWidget)
    (hc : Connected cfg s0.mazeGrid) (hs : Sound cfg s0 s) :
    Sound cfg s0 (ghostAnimationStep cfg s) := by
  unfold ghostAnimationStep
  split_ifs
  · exact hs
  · exact ghostLoop_sound cfg hT s0 hc _ _ _ hs

/-! ## The position of the player stays sound -/

theorem PlayerOk.of_playerMotion {cfg : Config} {s t : GameWidget}
    (h : playerMotion t = playerMotion s) (hw : SameWalls cfg s.mazeGrid t.mazeGrid)
    (hp : PlayerOk cfg s) : PlayerOk cfg t := by
  simp only [playerMotion, Prod.mk.injEq] at h
  obtain ⟨h1, h2, h3, h4, h5, h6, h7⟩ := h
  unfold PlayerOk at *
  rw [h1, h2, h3, h4, h5, h6, h7, ← isOpen_sameWalls hw]
  refine ⟨hp.1, hp.2.1, hp.2.2.1, ?_⟩
  intro hm
  obtain ⟨d, k, a, b, c, e, f, g, i, j⟩ := hp.2.2.2 hm
  exact ⟨d, k, a, b, c, e, f, g, i, by rw [← isOpen_sameWalls hw]; exact j⟩

/-- A state that keeps the id map, the members written at load and the walls, and whose
pursuers have the motion members they had, is sound when the player's position is. -/
theorem Sound.transfer {cfg : Config} {s0 s t : GameWidget} (hs : Sound cfg s0 s)
    (hid : t.m_pointToId = s.m_pointToId) (hst : Static s t)
    (hw : SameWalls cfg s.mazeGrid t.mazeGrid)
    (hg : t.ghosts.map Ghost.motion = s.ghosts.map Ghost.motion)
    (hp : PlayerOk cfg t) : Sound cfg s0 t := by
  obtain ⟨_, h2, _, _, h5, h6⟩ := hst
  refine ⟨⟨hid.trans hs.tables.1, h5.trans hs.tables.2.1, h6.trans hs.tables.2.2⟩,
    hs.walls.wallsTrans hw, ?_, hp, ?_⟩
  · intro p hp'
    rw [h2] at hp'
    rw [← isOpen_sameWalls hw]
    exact hs.spawns p hp'
  · intro g hg'
    exact GhostOk.of_walls hw (ghostsOk_of_map cfg _ _ _ hg hs.ghosts g hg')

theorem activatePanicMode_motion (s : GameWidget) :
    (activatePanicMode s).ghosts.map Ghost.motion = s.ghosts.map Ghost.motion := by
  unfold activatePanicMode
  simp only [List.map_map]
  apply List.map_congr_left
  intro g _
  simp only [Function.comp]
  split_ifs <;> rfl

theorem panicModeTimeout_motion (s : GameWidget) :
    (panicModeTimeout s).ghosts.map Ghost.motion = s.ghosts.map Ghost.motion := by
  unfold panicModeTimeout
  simp only [List.map_map]
  apply List.map_congr_left
  intro g _
  simp only [Function.comp]
  split_ifs <;> rfl

theorem collectPellet_quiet (cfg : Config) (s : GameWidget) :
    (collectPellet cfg s).m_pointToId = s.m_pointToId ∧
      playerMotion (collectPellet cfg s) = playerMotion s ∧
      (collectPellet cfg s).ghosts.map Ghost.motion = s.ghosts.map Ghost.motion := by
  rw [collectPellet_eq]
  unfold afterEating
  simp only []
  split_ifs <;> refine ⟨rfl, rfl, ?_⟩ <;> first
    | rfl
    | exact activatePanicMode_motion _

theorem collectPellet_sound (cfg : Config) (s0 s : GameWidget) (hs : Sound cfg s0 s) :
    Sound cfg s0 (collectPellet cfg s) := by
  obtain ⟨h1, h2, h3⟩ := collectPellet_quiet cfg s
  obtain ⟨g1, g2⟩ := collectPellet_grid cfg s
  exact hs.transfer h1 g2 (g1.sameWalls cfg) h3 (hs.player.of_playerMotion h2 (g1.sameWalls cfg))

theorem stepped_ok (cfg : Config) (s : GameWidget) (hp : PlayerOk cfg s)
    (hm : s.isMoving = true) (hk : ¬ s.currentStep + 1 ≥ s.moveSteps) :
    PlayerOk cfg (stepped s) := by
  obtain ⟨d, k, hd, k0, k6, e1, e2, e3, e4, ho⟩ := hp.2.2.2 hm
  rw [hp.1, e1] at hk
  unfold MOVESTEPS at hk k6
  refine ⟨hp.1, hp.2.1, fun hi => ?_, fun _ => ?_⟩
  · have : s.isMoving = false := hi
    rw [hm] at this
    exact Bool.noConfusion this
  · refine ⟨d, k + 1, hd, by omega, by unfold MOVESTEPS; omega, ?_, e2, e3, ?_, ho⟩
    · show s.currentStep + 1 = k + 1
      rw [e1]
    · show (⟨s.pacman_grid_center.x + s.stepDeltaX, s.pacman_grid_center.y + s.stepDeltaY⟩
        : QPoint) = _
      have ht : (stepped s).pacman_macrogrid_center = s.pacman_macrogrid_center := rfl
      rw [ht, e4, e2, e3]
      simp only []
      congr 1 <;> ring

theorem arrived_ok (cfg : Config) (hT : 0 < cfg.TILE_SIZE) (s : GameWidget)
    (hp : PlayerOk cfg s) (hm : s.isMoving = true) (hk : s.currentStep + 1 ≥ s.moveSteps) :
    PlayerOk cfg (arrived cfg s) := by
  obtain ⟨d, k, hd, k0, k6, e1, e2, e3, e4, ho⟩ := hp.2.2.2 hm
  rw [hp.1, e1] at hk
  unfold MOVESTEPS at hk k6
  have e : k = 5 := by omega
  subst e
  have hland := landing_tile cfg hT s.pacman_macrogrid_center d
    (isOpen_inBounds cfg _ _ hp.2.1) (isOpen_inBounds cfg _ _ ho)
    (s.pacman_grid_center.x + s.stepDeltaX) (s.pacman_grid_center.y + s.stepDeltaY)
    (by rw [e4, e2]; simp only []; ring) (by rw [e4, e3]; simp only []; ring)
  refine ⟨hp.1, ?_, fun _ => rfl, fun hi => ?_⟩
  · show isOpen cfg s.mazeGrid (gridToMacroGrid cfg (s.pacman_grid_center.x + s.stepDeltaX)
      (s.pacman_grid_center.y + s.stepDeltaY)) = true
    rcases hland with h | h <;> rw [h]
    · exact hp.2.1
    · exact ho
  · have : false = true := hi
    exact Bool.noConfusion this

theorem animationStep_sound (cfg : Config) (hT : 0 < cfg.TILE_SIZE) (s0 s : GameWidget)
    (hs : Sound cfg s0 s) : Sound cfg s0 (animationStep cfg s) := by
  rw [animationStep_eq]
  split_ifs with hm hk
  · apply collectPellet_sound
    exact hs.transfer rfl (Static.staticRefl _) (SameWalls.wallsRefl cfg _) rfl
      (arrived_ok cfg hT s hs.player hm hk)
  · exact hs.transfer rfl (Static.staticRefl _) (SameWalls.wallsRefl cfg _) rfl
      (stepped_ok cfg s hs.player hm hk)
  · exact hs

theorem animateMouth_sound (cfg : Config) (s0 s : GameWidget) (hs : Sound cfg s0 s) :
    Sound cfg s0 (animateMouth s) := by
  rw [animateMouth_eq]
  exact hs.transfer rfl (Static.staticRefl _) (SameWalls.wallsRefl cfg _) rfl hs.player

theorem checkGhostCollisions_sound (cfg : Config) (s0 s : GameWidget) (hs : Sound cfg s0 s) :
    Sound cfg s0 (checkGhostCollisions cfg s) := by
  have hmap : (checkGhostCollisions cfg s).ghosts.map Ghost.motion =
      s.ghosts.map Ghost.motion := by
    unfold checkGhostCollisions
    rw [collideLoop_map Ghost.motion (fun _ => rfl)]
    rfl
  obtain ⟨gs, ph, bg, sfx, sc, pr, e⟩ := collideLoop_frame cfg s.ghosts s []
  unfold checkGhostCollisions at hmap ⊢
  rw [e] at hmap ⊢
  exact hs.transfer rfl ⟨rfl, rfl, rfl, rfl, rfl, rfl⟩ (SameWalls.wallsRefl cfg _) hmap
    hs.player

theorem updateGame_sound (cfg : Config) (hT : 0 < cfg.TILE_SIZE) (s0 s : GameWidget)
    (hc : Connected cfg s0.mazeGrid) (hs : Sound cfg s0 s) :
    Sound cfg s0 (updateGame cfg s) := by
  unfold updateGame
  simp only []
  apply checkGhostCollisions_sound
  apply ghostAnimationStep_sound cfg hT s0 _ hc
  split_ifs
  · exact animateMouth_sound cfg s0 _ (animationStep_sound cfg hT s0 s hs)
  · exact hs

theorem timerEvent_sound (cfg : Config) (hT : 0 < cfg.TILE_SIZE) (s0 s : GameWidget)
    (hc : Connected cfg s0.mazeGrid) (hs : Sound cfg s0 s) :
    Sound cfg s0 (timerEvent cfg s) := by
  unfold timerEvent
  split
  · exact updateGame_sound cfg hT s0 s hc hs
  · exact hs

/-! ## Commands, keys and timers keep the state sound -/

theorem startAnimatedMove_ok (cfg : Config) (s : GameWidget) (f d : Direction) (tx ty : Int)
    (hp : PlayerOk cfg s) (hi : s.isMoving = false) (hd : d ≠ Direction.Stop)
    (hx : (if tx ≠ 0 then Int.tdiv tx MOVESTEPS else 0) =
      dirX d * Int.tdiv cfg.TILE_SIZE MOVESTEPS)
    (hy : (if ty ≠ 0 then Int.tdiv ty MOVESTEPS else 0) =
      dirY d * Int.tdiv cfg.TILE_SIZE MOVESTEPS)
    (ho : isOpen cfg s.mazeGrid (ahead s.pacman_macrogrid_center d) = true) :
    PlayerOk cfg (startAnimatedMove { s with m_pacmanDirection := f } tx ty) := by
  rw [startAnimatedMove_of_idle { s with m_pacmanDirection := f } tx ty hi]
  refine ⟨hp.1, hp.2.1, fun h => Bool.noConfusion h, fun _ => ?_⟩
  refine ⟨d, 0, hd, le_refl _, by decide, rfl, ?_, ?_, ?_, ho⟩
  · show (if tx ≠ 0 then Int.tdiv tx s.moveSteps else 0) = _
    rw [hp.1]
    exact hx
  · show (if ty ≠ 0 then Int.tdiv ty s.moveSteps else 0) = _
    rw [hp.1]
    exact hy
  · show s.pacman_grid_center = _
    rw [hp.2.2.1 hi]
    simp

theorem stepDelta_zero (m t : Int) :
    (if (0 : Int) ≠ 0 then Int.tdiv 0 m else 0) = 0 * t := by
  simp

theorem canMove_ahead (cfg : Config) (s : GameWidget) (d : Direction) (tx ty : Int)
    (hd : dirDelta d = some (tx, ty)) (h : canMove cfg s tx ty = true) :
    isOpen cfg s.mazeGrid (ahead s.pacman_macrogrid_center d) = true := by
  rw [canMove_eq_isOpen] at h
  cases d <;> simp only [dirDelta, Option.some.injEq, Prod.mk.injEq] at hd
  all_goals first
    | (obtain ⟨rfl, rfl⟩ := hd
       simpa [ahead, sub_eq_add_neg] using h)
    | exact absurd hd (by simp)

theorem processMovementCommand_ok (cfg : Config) (s : GameWidget) (command : String)
    (hp : PlayerOk cfg s) : PlayerOk cfg (processMovementCommand cfg s command) := by
  by_cases hguard : s.m_gameState ≠ GameState.Playing ∨ s.isMoving = true
  · unfold processMovementCommand
    rw [if_pos hguard]
    exact hp
  · have hi : s.isMoving = false := by
      by_contra hc
      exact hguard (Or.inr (by simpa using hc))
    unfold processMovementCommand
    rw [if_neg hguard]
    split_ifs with h1 h2 h3 h4 h5 h6 h7 h8 h9
    · exact hp
    · exact startAnimatedMove_ok cfg s _ Direction.Up _ _ hp hi (by decide)
        (stepDelta_zero _ _) (stepDelta_neg _ _) (canMove_ahead cfg s _ _ _ rfl h3)
    · exact hp
    · exact startAnimatedMove_ok cfg s _ Direction.Down _ _ hp hi (by decide)
        (stepDelta_zero _ _) (stepDelta_pos _ _) (canMove_ahead cfg s _ _ _ rfl h5)
    · exact hp
    · exact startAnimatedMove_ok cfg s _ Direction.Left _ _ hp hi (by decide)
        (stepDelta_neg _ _) (stepDelta_zero _ _) (canMove_ahead cfg s _ _ _ rfl h7)
    · exact hp
    · exact startAnimatedMove_ok cfg s _ Direction.Right _ _ hp hi (by decide)
        (stepDelta_pos _ _) (stepDelta_zero _ _) (canMove_ahead cfg s _ _ _ rfl h9)
    · exact hp
    · exact hp

theorem keyPressEvent_ok (cfg : Config) (s : GameWidget) (key : Key)
    (hp : PlayerOk cfg s) : PlayerOk cfg (keyPressEvent cfg s key) := by
  by_cases hguard : s.m_gameState ≠ GameState.Playing ∨ s.isMoving = true
  · unfold keyPressEvent
    rw [if_pos hguard]
    exact hp
  · have hi : s.isMoving = false := by
      by_contra hc
      exact hguard (Or.inr (by simpa using hc))
    unfold keyPressEvent
    rw [if_neg hguard]
    cases key with
    | Key_Up =>
      simp only []
      split_ifs with h
      · exact startAnimatedMove_ok cfg s _ Direction.Up _ _ hp hi (by decide)
          (stepDelta_zero _ _) (stepDelta_neg _ _) (canMove_ahead cfg s _ _ _ rfl h)
      · exact hp
    | Key_Down =>
      simp only []
      split_ifs with h
      · exact startAnimatedMove_ok cfg s _ Direction.Down _ _ hp hi (by decide)
          (stepDelta_zero _ _) (stepDelta_pos _ _) (canMove_ahead cfg s _ _ _ rfl h)
      · exact hp
    | Key_Left =>
      simp only []
      split_ifs with h
      · exact startAnimatedMove_ok cfg s _ Direction.Left _ _ hp hi (by decide)
          (stepDelta_neg _ _) (stepDelta_zero _ _) (canMove_ahead cfg s _ _ _ rfl h)
      · exact hp
    | Key_Right =>
      simp only []
      split_ifs with h
      · exact startAnimatedMove_ok cfg s _ Direction.Right _ _ hp hi (by decide)
          (stepDelta_pos _ _) (stepDelta_zero _ _) (canMove_ahead cfg s _ _ _ rfl h)
      · exact hp
    | other _ => exact hp

theorem startAnimatedMove_ids (s : GameWidget) (tx ty : Int) :
    (startAnimatedMove s tx ty).m_pointToId = s.m_pointToId := by
  unfold startAnimatedMove
  split_ifs <;> rfl

theorem processMovementCommand_ids (cfg : Config) (s : GameWidget) (command : String) :
    (processMovementCommand cfg s command).m_pointToId = s.m_pointToId := by
  unfold processMovementCommand
  split_ifs <;> first
    | rfl
    | exact startAnimatedMove_ids _ _ _

theorem keyPressEvent_ids (cfg : Config) (s : GameWidget) (key : Key) :
    (keyPressEvent cfg s key).m_pointToId = s.m_pointToId := by
  unfold keyPressEvent
  split_ifs
  all_goals
    cases key <;> first
      | rfl
      | exact startAnimatedMove_ids _ _ _

theorem processMovementCommand_sound (cfg : Config) (s0 s : GameWidget) (command : String)
    (hs : Sound cfg s0 s) : Sound cfg s0 (processMovementCommand cfg s command) := by
  obtain ⟨h1, h2, _, h4⟩ := processMovementCommand_static cfg s command
  apply hs.transfer (processMovementCommand_ids cfg s command) h1
  · rw [h2]; exact SameWalls.wallsRefl cfg _
  · rw [h4]
  · exact processMovementCommand_ok cfg s command hs.player

theorem keyPressEvent_sound (cfg : Config) (s0 s : GameWidget) (key : Key)
    (hs : Sound cfg s0 s) : Sound cfg s0 (keyPressEvent cfg s key) := by
  obtain ⟨h1, h2, _, h4⟩ := keyPressEvent_static cfg s key
  apply hs.transfer (keyPressEvent_ids cfg s key) h1
  · rw [h2]; exact SameWalls.wallsRefl cfg _
  · rw [h4]
  · exact keyPressEvent_ok cfg s key hs.player

theorem respawnGhost_ok (cfg : Config) (s : GameWidget) (ghost : Ghost)
    (hs : ∀ p ∈ s.ghostSpawnPositions, isOpen cfg s.mazeGrid p = true)
    (h : GhostOk cfg s.mazeGrid ghost) :
    GhostOk cfg s.mazeGrid (respawnGhost cfg s ghost) := by
  unfold respawnGhost
  split_ifs with he
  · exact GhostOk.of_motion rfl h
  · cases hl : s.ghostSpawnPositions with
    | nil => rw [hl] at he; exact absurd rfl he
    | cons p l =>
      refine GhostOk.idle ?_ rfl rfl
      apply hs
      rw [hl]
      exact List.mem_cons_self _ _

theorem respawnLoop_ok (cfg : Config) (s : GameWidget) (ghostId : Int)
    (hs : ∀ p ∈ s.ghostSpawnPositions, isOpen cfg s.mazeGrid p = true) (l : List Ghost)
    (h : GhostsOk cfg s.mazeGrid l) : GhostsOk cfg s.mazeGrid (respawnLoop cfg s ghostId l) := by
  induction l with
  | nil => exact h
  | cons g rest ih =>
    have hg : GhostOk cfg s.mazeGrid g := h g (List.mem_cons_self _ _)
    have hr : GhostsOk cfg s.mazeGrid rest := fun x hx => h x (List.mem_cons_of_mem _ hx)
    rw [respawnLoop]
    split_ifs
    · intro x hx
      rcases List.mem_cons.1 hx with h1 | h1
      · rw [h1]
        exact respawnGhost_ok cfg s g hs hg
      · exact hr x h1
    · intro x hx
      rcases List.mem_cons.1 hx with h1 | h1
      · rw [h1]
        exact hg
      · exact ih hr x h1

theorem fireRespawn_sound (cfg : Config) (s0 s : GameWidget) (k : Nat)
    (hs : Sound cfg s0 s) : Sound cfg s0 (fireRespawn cfg s k) := by
  unfold fireRespawn
  split
  · exact hs
  · exact ⟨hs.tables, hs.walls, hs.spawns, hs.player,
      respawnLoop_ok cfg s _ hs.spawns s.ghosts hs.ghosts⟩

theorem panicModeTimeout_sound (cfg : Config) (s0 s : GameWidget) (hs : Sound cfg s0 s) :
    Sound cfg s0 (panicModeTimeout s) :=
  hs.transfer rfl ⟨rfl, rfl, rfl, rfl, rfl, rfl⟩ (SameWalls.wallsRefl cfg _)
    (panicModeTimeout_motion s) hs.player

/-- Every event that starts no round keeps a sound state of a connected maze sound. -/
theorem applyEvent_sound (cfg : Config) (hT : 0 < cfg.TILE_SIZE) (s0 s : GameWidget)
    (hc : Connected cfg s0.mazeGrid) (e : Event) (he : e.inRound = true)
    (hs : Sound cfg s0 s) : Sound cfg s0 (applyEvent cfg s e) := by
  cases e with
  | tick => exact timerEvent_sound cfg hT s0 s hc hs
  | command token => exact processMovementCommand_sound cfg s0 s token hs
  | key k => exact keyPressEvent_sound cfg s0 s k hs
  | respawn k => exact fireRespawn_sound cfg s0 s k hs
  | panicTimeout => exact panicModeTimeout_sound cfg s0 s hs
  | newRound round => exact Bool.noConfusion he

theorem run_sound (cfg : Config) (hT : 0 < cfg.TILE_SIZE) (s0 : GameWidget)
    (hc : Connected cfg s0.mazeGrid) (events : List Event)
    (he : ∀ e ∈ events, e.inRound = true) (s : GameWidget) (hs : Sound cfg s0 s) :
    Sound cfg s0 (run cfg s events) := by
  induction events generalizing s with
  | nil => exact hs
  | cons e events ih =>
    exact ih (fun e' h' => he e' (List.mem_cons_of_mem _ h')) _
      (applyEvent_sound cfg hT s0 s hc e (he e (List.mem_cons_self _ _)) hs)

/-! ## Starting a round gives a sound state -/

/-- A round started while the player is Idle puts the player at the centre of the start
tile, which is open. -/
theorem startGame_player_ok (cfg : Config) (s : GameWidget) (hv : ValidStart s)
    (hb : TileInBounds cfg (startOf s)) (hms : s.moveSteps = MOVESTEPS)
    (hi : s.isMoving = false) : PlayerOk cfg (startGame cfg s) := by
  obtain ⟨gs, n, e⟩ := startGame_valid cfg s hv
  rw [e]
  refine ⟨hms, ?_, fun _ => rfl, fun h => ?_⟩
  · rw [isOpen_iff]
    obtain ⟨a, b, c, d⟩ := hb
    refine ⟨c, d, a, b, ?_⟩
    show Grid.set _ s.startMacroRow s.startMacroCol 3 s.startMacroRow s.startMacroCol ≠ 1
    rw [Grid.set_same]
    decide
  · have : s.isMoving = true := h
    rw [hi] at this
    exact Bool.noConfusion this

theorem loadMaze_motion (cfg : Config) (s : GameWidget) (mapFile : Option (List String)) :
    (loadMaze cfg s mapFile).isMoving = s.isMoving ∧
      (loadMaze cfg s mapFile).moveSteps = s.moveSteps := by
  cases mapFile with
  | none => exact ⟨rfl, rfl⟩
  | some lines =>
    obtain ⟨p, i, l, e⟩ := precomputePaths_frame cfg (loadRows cfg 0
      { s with startMacroRow := -1, startMacroCol := -1, ghostSpawnPositions := [] }
      (lines.take cfg.MAZE_HEIGHT))
    obtain ⟨g, o, sp, sc, sr, e2⟩ := (loadRows_marks cfg (lines.take cfg.MAZE_HEIGHT) 0
      { s with startMacroRow := -1, startMacroCol := -1, ghostSpawnPositions := [] }).2.2
    rw [loadMaze_eq, e, e2]
    exact ⟨rfl, rfl⟩

theorem construct_motion (cfg : Config) (u : GameWidget) (mapFile : Option (List String)) :
    (construct cfg u mapFile).isMoving = false ∧
      (construct cfg u mapFile).moveSteps = MOVESTEPS := by
  unfold construct
  exact loadMaze_motion cfg _ mapFile

theorem animationStep_ok (cfg : Config) (hT : 0 < cfg.TILE_SIZE) (s : GameWidget)
    (hp : PlayerOk cfg s) : PlayerOk cfg (animationStep cfg s) := by
  rw [animationStep_eq]
  split_ifs with hm hk
  · exact (arrived_ok cfg hT s hp hm hk).of_playerMotion (collectPellet_quiet cfg _).2.1
      ((collectPellet_grid cfg _).1.sameWalls cfg)
  · exact stepped_ok cfg s hp hm hk
  · exact hp

theorem PlayerOk.of_ghostFrame {cfg : Config} {s t : GameWidget} (h : GhostFrame s t)
    (hp : PlayerOk cfg s) : PlayerOk cfg t := by
  obtain ⟨gs, n, p, f, d, rfl⟩ := h
  exact hp

theorem updateGame_ok (cfg : Config) (hT : 0 < cfg.TILE_SIZE) (s : GameWidget)
    (hp : PlayerOk cfg s) : PlayerOk cfg (updateGame cfg s) := by
  unfold updateGame
  simp only []
  obtain ⟨gs, ph, bg, sfx, sc, pr, e⟩ := collideLoop_frame cfg
    (ghostAnimationStep cfg
      (if s.isMoving = true then animateMouth (animationStep cfg s) else s)).ghosts
    (ghostAnimationStep cfg
      (if s.isMoving = true then animateMouth (animationStep cfg s) else s)) []
  unfold checkGhostCollisions
  rw [e]
  have h1 : PlayerOk cfg (if s.isMoving = true then animateMouth (animationStep cfg s)
      else s) := by
    split_ifs
    · rw [animateMouth_eq]
      exact animationStep_ok cfg hT s hp
    · exact hp
  have h2 : PlayerOk cfg (ghostAnimationStep cfg
      (if s.isMoving = true then animateMouth (animationStep cfg s) else s)) :=
    PlayerOk.of_ghostFrame (ghostAnimationStep_frame cfg _) h1
  exact h2

theorem applyEvent_ok (cfg : Config) (hT : 0 < cfg.TILE_SIZE) (s : GameWidget) (e : Event)
    (he : e.inRound = true) (hp : PlayerOk cfg s) : PlayerOk cfg (applyEvent cfg s e) := by
  cases e with
  | tick =>
    show PlayerOk cfg (timerEvent cfg s)
    unfold timerEvent
    split
    · exact updateGame_ok cfg hT s hp
    · exact hp
  | command token => exact processMovementCommand_ok cfg s token hp
  | key k => exact keyPressEvent_ok cfg s k hp
  | respawn k =>
    show PlayerOk cfg (fireRespawn cfg s k)
    unfold fireRespawn
    split <;> exact hp
  | panicTimeout => exact hp
  | newRound round => exact Bool.noConfusion he

theorem static_start {s0 s : GameWidget} (hst : Static s0 s) (round : Int)
    (hv : ValidStart s0) :
    ValidStart { s with m_round := round } ∧
      startOf { s with m_round := round } = startOf s0 := by
  obtain ⟨_, _, h3, h4, _, _⟩ := hst
  refine ⟨?_, ?_⟩
  · unfold ValidStart at hv ⊢
    show s.startMacroCol ≠ -1 ∧ s.startMacroRow ≠ -1
    rw [h3, h4]
    exact hv
  · unfold startOf
    show (⟨s.startMacroCol, s.startMacroRow⟩ : QPoint) = _
    rw [h3, h4]

/-- In a run from a state with a sound player position, in which every round starts while
the player is Idle, the player's position stays sound. -/
theorem run_calm_ok (cfg : Config) (hT : 0 < cfg.TILE_SIZE) (s0 : GameWidget)
    (hv : ValidStart s0) (hb : TileInBounds cfg (startOf s0)) (events : List Event) :
    ∀ s : GameWidget, Static s0 s → PlayerOk cfg s → calmRun cfg s events = true →
      PlayerOk cfg (run cfg s events) := by
  induction events with
  | nil => intro s _ hp _; exact hp
  | cons e events ih =>
    intro s hst hp hcalm
    rw [calmRun, Bool.and_eq_true] at hcalm
    refine ih _ (hst.staticTrans (applyEvent_static cfg s e)) ?_ hcalm.2
    cases hr : e.inRound with
    | true => exact applyEvent_ok cfg hT s e hr hp
    | false =>
      have hi : s.isMoving = false := by
        have := hcalm.1
        rw [hr] at this
        simpa using this
      cases e with
      | newRound round =>
        obtain ⟨v1, v2⟩ := static_start hst round hv
        exact startGame_player_ok cfg _ v1 (by rw [v2]; exact hb) hp.1 hi
      | tick => exact Bool.noConfusion hr
      | command _ => exact Bool.noConfusion hr
      | key _ => exact Bool.noConfusion hr
      | respawn _ => exact Bool.noConfusion hr
      | panicTimeout => exact Bool.noConfusion hr

theorem calmRun_of_inRound (cfg : Config) (events : List Event)
    (he : ∀ e ∈ events, e.inRound = true) : ∀ s : GameWidget, calmRun cfg s events = true := by
  induction events with
  | nil => intro s; rfl
  | cons e events ih =>
    intro s
    rw [calmRun, Bool.and_eq_true]
    refine ⟨?_, ih (fun e' h' => he e' (List.mem_cons_of_mem _ h')) _⟩
    rw [he e (List.mem_cons_self _ _)]
    rfl

theorem startGame_isMoving (cfg : Config) (s : GameWidget) :
    (startGame cfg s).isMoving = s.isMoving ∧ (startGame cfg s).currentStep = s.currentStep ∧
      (startGame cfg s).stepDeltaX = s.stepDeltaX ∧
      (startGame cfg s).stepDeltaY = s.stepDeltaY := by
  by_cases h : ValidStart s
  · obtain ⟨gs, n, e⟩ := startGame_valid cfg s h
    rw [e]
    exact ⟨rfl, rfl, rfl, rfl⟩
  · have hs : startGame cfg s = s := by
      unfold startGame
      rw [if_pos]
      by_contra hc
      exact h ⟨fun h1 => hc (Or.inl h1), fun h1 => hc (Or.inr h1)⟩
    rw [hs]
    exact ⟨rfl, rfl, rfl, rfl⟩

theorem loadMaze_mark (cfg : Config) (s : GameWidget) (mapFile : Option (List String)) :
    (loadMaze cfg s mapFile).dangling = s.dangling := by
  cases mapFile with
  | none => rfl
  | some lines =>
    obtain ⟨p, i, l, e⟩ := precomputePaths_frame cfg (loadRows cfg 0
      { s with startMacroRow := -1, startMacroCol := -1, ghostSpawnPositions := [] }
      (lines.take cfg.MAZE_HEIGHT))
    obtain ⟨g, o, sp, sc, sr, e2⟩ := (loadRows_marks cfg (lines.take cfg.MAZE_HEIGHT) 0
      { s with startMacroRow := -1, startMacroCol := -1, ghostSpawnPositions := [] }).2.2
    rw [loadMaze_eq, e, e2]

/-- The state set up by the constructor has no mark. -/
theorem construct_mark (cfg : Config) (u : GameWidget) (mapFile : Option (List String)) :
    (construct cfg u mapFile).dangling = false := by
  unfold construct
  exact loadMaze_mark cfg _ mapFile

/-! ## Walks through a hub tile -/

/-- C4 as stated fails on the frame: in `demoState` (Playing, player idle on tile `(0, 1)`,
pellet tile to the right) the command "Right" is accepted, yet the resulting state is not
the old state with only the facing direction, `isMoving`, `currentStep` and the step
deltas replaced: `startAnimatedMove` also stores the move target, so `targetX` goes from
0 to `TILE_SIZE` = 32. -/
theorem processMovementCommand_frame_counterexample :
    Accepted scenarioCfg demoState "Right" Direction.Right 1 0 ∧
    processMovementCommand scenarioCfg demoState "Right" ≠
      { demoState with
        m_pacmanDirection := Direction.Right
        isMoving := true
        currentStep := 0
        stepDeltaX := Int.tdiv scenarioCfg.TILE_SIZE demoState.moveSteps
        stepDeltaY := 0 } ∧
    demoState.targetX = 0 ∧
    (processMovementCommand scenarioCfg demoState "Right").targetX = 32 := by
  have ht : (processMovementCommand scenarioCfg demoState "Right").targetX = 32 := by decide
  refine ⟨⟨rfl, rfl, rfl, rfl, by decide⟩, ?_, rfl, ht⟩
  intro h
  have h2 := congrArg GameWidget.targetX h
  rw [ht] at h2
  exact absurd h2 (by decide)

/-- C4 (amended). For every state `s` and command string `command`,
`processMovementCommand` changes the state if and only if the command is accepted: the
phase is Playing, the player is not moving, the command is exactly one of "Up", "Down",
"Left", "Right", and the tile adjacent to the player's tile in that direction is in
bounds and not a wall of the working grid. When it is accepted in direction `d` with tile
offset `(tx, ty)`, the new state is the old one with the facing direction `d`,
`isMoving = true`, `currentStep = 0`, the per-step deltas `TILE_SIZE / moveSteps` along
`d`, and the move target `targetX`, `targetY` set to `TILE_SIZE` along `d`; nothing else
changes. In every other case (unrecognised tokens, "Center", tokens containing `:`,
wrong phase, player moving, blocked tile) the whole state is unchanged. -/
theorem processMovementCommand_spec (cfg : Config) (s : GameWidget) (command : String) :
    (processMovementCommand cfg s command ≠ s ↔
      ∃ d tx ty, Accepted cfg s command d tx ty) ∧
    (∀ d tx ty, Accepted cfg s command d tx ty →
      processMovementCommand cfg s command = movedState cfg s d tx ty) ∧
    ((¬ ∃ d tx ty, Accepted cfg s command d tx ty) →
      processMovementCommand cfg s command = s) := by
  refine ⟨?_, fun d tx ty h => processMovementCommand_accepted cfg s command d tx ty h,
    processMovementCommand_rejected cfg s command⟩
  constructor
  · intro hne
    by_contra hno
    exact hne (processMovementCommand_rejected cfg s command hno)
  · rintro ⟨d, tx, ty, h⟩
    rw [processMovementCommand_accepted cfg s command d tx ty h]
    exact movedState_ne cfg s d tx ty h.2.1

/-- C4 (amended) at `demoState`: "Right" is accepted and yields the moved state, while the
unrecognised token "Center" leaves the state unchanged. -/
theorem processMovementCommand_spec_witness :
    Accepted scenarioCfg demoState "Right" Direction.Right 1 0 ∧
    processMovementCommand scenarioCfg demoState "Right" =
      movedState scenarioCfg demoState Direction.Right 1 0 ∧
    processMovementCommand scenarioCfg demoState "Center" = demoState :=
  ⟨⟨rfl, rfl, rfl, rfl, by decide⟩,
    (processMovementCommand_spec scenarioCfg demoState "Right").2.1 Direction.Right 1 0
      ⟨rfl, rfl, rfl, rfl, by decide⟩,
    (processMovementCommand_spec scenarioCfg demoState "Center").2.2 (by
      rintro ⟨d, tx, ty, _, _, ht, _⟩
      have hn : tokenDirection "Center" = none := by decide
      rw [hn] at ht
      exact Option.noConfusion ht)⟩

/-- C5. For every state in which the player is mid-move (`isMoving = true`), every
command token of the network channel and every key press leave the player's facing
direction, `isMoving`, `currentStep`, step deltas, tile position and render position
unchanged. -/
theorem command_while_moving_dropped (cfg : Config) (s : GameWidget) (command : String)
    (key : Key) (h : s.isMoving = true) :
    SameMotion s (processMovementCommand cfg s command) ∧
      SameMotion s (keyPressEvent cfg s key) := by
  rw [processMovementCommand_moving cfg s command h, keyPressEvent_moving cfg s key h]
  exact ⟨⟨rfl, rfl, rfl, rfl, rfl, rfl, rfl⟩, ⟨rfl, rfl, rfl, rfl, rfl, rfl, rfl⟩⟩

/-- C5 at `demoMoving`, whose player is two steps into a move to the right: the token
"Left" and the left arrow key change nothing of the motion state. -/
theorem command_while_moving_dropped_witness :
    demoMoving.isMoving = true ∧
    SameMotion demoMoving (processMovementCommand scenarioCfg demoMoving "Left") ∧
    SameMotion demoMoving (keyPressEvent scenarioCfg demoMoving Key.Key_Left) :=
  ⟨rfl, command_while_moving_dropped scenarioCfg demoMoving "Left" Key.Key_Left rfl⟩

/-! ## Pellet collection -/

/-- C6. For every state in which the player's tile (in bounds) holds a Pellet (cell value
0), `collectPellet` increases the score by exactly 1, sets that cell to EmptyPath (3) and
changes no other grid cell; calling `collectPellet` again right afterwards leaves the score
and the whole grid unchanged. -/
theorem collectPellet_pellet (cfg : Config) (s : GameWidget) (hb : PlayerInBounds cfg s)
    (hcell : playerCell s = 0) :
    (collectPellet cfg s).m_score = s.m_score + 1 ∧
    (collectPellet cfg s).mazeGrid s.pacman_macrogrid_center.y s.pacman_macrogrid_center.x = 3 ∧
    (∀ r c, ¬ (r = s.pacman_macrogrid_center.y ∧ c = s.pacman_macrogrid_center.x) →
      (collectPellet cfg s).mazeGrid r c = s.mazeGrid r c) ∧
    (collectPellet cfg (collectPellet cfg s)).m_score = (collectPellet cfg s).m_score ∧
    (collectPellet cfg (collectPellet cfg s)).mazeGrid = (collectPellet cfg s).mazeGrid := by
  have ha := afterEating_pellet s hcell
  obtain ⟨f1, f2, _, f4⟩ := collectPellet_fields cfg s hb
  rw [ha] at f1 f2 f4
  simp only at f1 f2 f4
  have hb2 : PlayerInBounds cfg (collectPellet cfg s) := by
    unfold PlayerInBounds; rw [f4]; exact hb
  have hcell2 : (collectPellet cfg s).mazeGrid (collectPellet cfg s).pacman_macrogrid_center.y
      (collectPellet cfg s).pacman_macrogrid_center.x = 3 := by
    rw [f2, f4, Grid.set_same]
  have ha2 : afterEating (collectPellet cfg s) = collectPellet cfg s := by
    unfold afterEating
    simp only [hcell2]
    simp
  obtain ⟨g1, g2, _, _⟩ := collectPellet_fields cfg (collectPellet cfg s) hb2
  rw [ha2] at g1 g2
  refine ⟨f1, ?_, ?_, g1, g2⟩
  · rw [f4] at hcell2; exact hcell2
  · intro r c hne
    rw [f2, Grid.set_other _ _ _ _ _ _ hne]

/-- C6 at `demoOnPellet`: the player stands on the pellet tile `(1, 1)`; the score goes
from 0 to 1 and the cell becomes 3. -/
theorem collectPellet_pellet_witness :
    PlayerInBounds scenarioCfg demoOnPellet ∧ playerCell demoOnPellet = 0 ∧
    (collectPellet scenarioCfg demoOnPellet).m_score = 0 + 1 ∧
    (collectPellet scenarioCfg demoOnPellet).mazeGrid 1 1 = 3 :=
  ⟨by unfold PlayerInBounds; decide, rfl,
    (collectPellet_pellet scenarioCfg demoOnPellet (by unfold PlayerInBounds; decide) rfl).1,
    (collectPellet_pellet scenarioCfg demoOnPellet (by unfold PlayerInBounds; decide) rfl).2.1⟩

/-- C7. For every state in which the player's tile (in bounds) holds a PowerPellet (cell
value 4), `collectPellet` increases the score by exactly 5, sets that cell to EmptyPath
(3), and afterwards every pursuer that was active has mode Panic while every inactive
pursuer keeps its mode. -/
theorem collectPellet_powerPellet (cfg : Config) (s : GameWidget)
    (hb : PlayerInBounds cfg s) (hcell : playerCell s = 4) :
    (collectPellet cfg s).m_score = s.m_score + 5 ∧
    (collectPellet cfg s).mazeGrid s.pacman_macrogrid_center.y s.pacman_macrogrid_center.x = 3 ∧
    Frightened s.ghosts (collectPellet cfg s).ghosts := by
  have ha := afterEating_powerPellet s hcell
  obtain ⟨f1, f2, f3, _⟩ := collectPellet_fields cfg s hb
  rw [ha] at f1 f2 f3
  refine ⟨f1, ?_, ?_⟩
  · rw [f2]
    exact Grid.set_same _ _ _ _
  · rw [f3]
    exact activatePanicMode_frightened
      { s with
        m_score := s.m_score + 5
        mazeGrid := s.mazeGrid.set s.pacman_macrogrid_center.y s.pacman_macrogrid_center.x 3 }

/-- C7 at `demoOnPowerPellet`: the player stands on the power-pellet tile `(2, 1)` with one
active and one inactive pursuer around. -/
theorem collectPellet_powerPellet_witness :
    PlayerInBounds scenarioCfg demoOnPowerPellet ∧ playerCell demoOnPowerPellet = 4 ∧
    (collectPellet scenarioCfg demoOnPowerPellet).m_score = 0 + 5 ∧
    Frightened demoOnPowerPellet.ghosts (collectPellet scenarioCfg demoOnPowerPellet).ghosts :=
  ⟨by unfold PlayerInBounds; decide, rfl,
    (collectPellet_powerPellet scenarioCfg demoOnPowerPellet
      (by unfold PlayerInBounds; decide) rfl).1,
    (collectPellet_powerPellet scenarioCfg demoOnPowerPellet
      (by unfold PlayerInBounds; decide) rfl).2.2⟩

/-- C8. For every state, when the fright timer expires (`panicModeTimeout` runs) every
pursuer that is active at that moment has mode Chase afterwards, whatever its mode was
before, and no pursuer's tile position, render position, type, active flag or identifier
changes. -/
theorem panicModeTimeout_calmed (s : GameWidget) :
    Calmed s.ghosts (panicModeTimeout s).ghosts := by
  unfold Calmed panicModeTimeout
  refine ⟨by simp, ?_⟩
  intro i g hg
  simp only [List.getElem?_map, hg, Option.map_some']
  refine ⟨_, rfl, ?_⟩
  by_cases ha : g.active = true
  · simp [ha]
  · simp [ha]

/-- C9. For every working grid, `checkAllPelletsCollected` returns true if and only if no
cell of the grid has value 0 (Pellet) or 4 (PowerPellet); it returns false if and only if
some cell has such a value. -/
theorem checkAllPelletsCollected_iff (cfg : Config) (s : GameWidget) :
    (checkAllPelletsCollected cfg s = true ↔
      ∀ r c : Int, 0 ≤ r → r < cfg.MAZE_HEIGHT → 0 ≤ c → c < cfg.MAZE_WIDTH →
        s.mazeGrid r c ≠ 0 ∧ s.mazeGrid r c ≠ 4) ∧
    (checkAllPelletsCollected cfg s = false ↔
      ∃ r c : Int, 0 ≤ r ∧ r < cfg.MAZE_HEIGHT ∧ 0 ≤ c ∧ c < cfg.MAZE_WIDTH ∧
        (s.mazeGrid r c = 0 ∨ s.mazeGrid r c = 4)) := by
  have key : checkAllPelletsCollected cfg s = true ↔
      ∀ r c : Int, 0 ≤ r → r < cfg.MAZE_HEIGHT → 0 ≤ c → c < cfg.MAZE_WIDTH →
        s.mazeGrid r c ≠ 0 ∧ s.mazeGrid r c ≠ 4 := by
    unfold checkAllPelletsCollected
    simp only [List.all_eq_true, List.mem_range, Bool.not_eq_true', Bool.or_eq_false_iff,
      beq_eq_false_iff_ne, ne_eq]
    constructor
    · intro h r c hr0 hr hc0 hc
      have := h r.toNat (by omega) c.toNat (by omega)
      rw [Int.toNat_of_nonneg hr0, Int.toNat_of_nonneg hc0] at this
      exact this
    · intro h r hr c hc
      exact h r c (by omega) (by omega) (by omega) (by omega)
  refine ⟨key, ?_⟩
  rw [← Bool.not_eq_true, key]
  push_neg
  constructor
  · rintro ⟨r, c, h1, h2, h3, h4, h5⟩
    refine ⟨r, c, h1, h2, h3, h4, ?_⟩
    by_cases h0 : s.mazeGrid r c = 0
    · exact Or.inl h0
    · exact Or.inr (h5 h0)
  · rintro ⟨r, c, h1, h2, h3, h4, h5⟩
    refine ⟨r, c, h1, h2, h3, h4, ?_⟩
    intro h0
    rcases h5 with h5 | h5
    · exact absurd h5 h0
    · exact h5

/-! ## The two-move scenario -/

/-- C10. On the 3-column, 2-row maze with rows "111" and "p04" (no ghost spawn markers),
with 32-pixel tiles: after the constructor loaded the maze and a round was started from
the menu, the command "Right" followed by six ticks completes a move onto the pellet
(score 1, still Playing), and a second command "Right" followed by six ticks completes a
move onto the power pellet: the score is 6, the phase is Win, and both collectible cells
hold EmptyPath (3). This holds whatever the uninitialised members `u` were. -/
theorem scenario_two_moves_right (u : GameWidget) :
    (scenarioMid u).isMoving = false ∧ (scenarioMid u).m_score = 1 ∧
    (scenarioMid u).m_gameState = GameState.Playing ∧
    (scenarioEnd u).isMoving = false ∧ (scenarioEnd u).m_score = 6 ∧
    (scenarioEnd u).m_gameState = GameState.Win ∧
    (scenarioEnd u).mazeGrid 1 1 = 3 ∧ (scenarioEnd u).mazeGrid 1 2 = 3 := by
  obtain ⟨s1, e1, hS, hsc, hgrid⟩ := scenario_first_move u
  obtain ⟨s2, e2, h6, hw, hm, _, _, _, _, _, h11, h12⟩ :=
    scenario_second_move s1 hS hsc hgrid
  have e3 : scenarioEnd u = s2 := by
    unfold scenarioEnd
    rw [e1, e2]
  rw [e1, e3]
  exact ⟨hS.2.1, hsc, hS.1, hm, h6, hw, h11, h12⟩

/-! ## The routing table -/

/-- C1. For every maze grid and every pair of non-wall tiles `A`, `B` such that `B` is
reachable from `A` through 4-connected, in-bounds, non-wall tiles, with shortest-path
length `k`: starting at `A` and replacing the current tile `k` times by the routing-table
entry for it and `B` (the table built by `precomputePaths`) ends at `B`, no earlier tile of
the walk is `B`, and every step goes to an in-bounds non-wall tile 4-adjacent to the
current one. (That `B` is a non-wall tile follows from its being reachable.) -/
theorem follow_reaches_target (cfg : Config) (s : GameWidget) (A B : QPoint) (k : Nat)
    (hA : isOpen cfg s.mazeGrid A = true) (hd : IsDist cfg s.mazeGrid A B k) :
    follow (precomputePaths cfg s) B k A = B ∧
    ∀ i, i < k →
      follow (precomputePaths cfg s) B i A ≠ B ∧
      follow (precomputePaths cfg s) B (i + 1) A ∈
        neighbors (follow (precomputePaths cfg s) B i A) ∧
      isOpen cfg s.mazeGrid (follow (precomputePaths cfg s) B (i + 1) A) = true := by
  have hinv : ∀ i, i ≤ k →
      isOpen cfg s.mazeGrid (follow (precomputePaths cfg s) B i A) = true ∧
      IsDist cfg s.mazeGrid (follow (precomputePaths cfg s) B i A) B (k - i) := by
    intro i
    induction i with
    | zero => intro _; exact ⟨hA, hd⟩
    | succ i ih =>
      intro hi
      obtain ⟨ho, hdi⟩ := ih (by omega)
      have e : k - i = (k - (i + 1)) + 1 := by omega
      rw [e] at hdi
      obtain ⟨_, h2, h3, _⟩ := nextMove_step cfg s _ B _ ho hdi
      exact ⟨h2, h3⟩
  refine ⟨?_, ?_⟩
  · have := (hinv k (Nat.le_refl k)).2.1
    rw [Nat.sub_self, reachIn_zero] at this
    exact this.1
  · intro i hi
    obtain ⟨ho, hdi⟩ := hinv i (by omega)
    have e : k - i = (k - (i + 1)) + 1 := by omega
    rw [e] at hdi
    obtain ⟨h1, h2, _, _⟩ := nextMove_step cfg s _ B _ ho hdi
    refine ⟨?_, h1, h2⟩
    intro hc
    have h0 := hdi.2 0 (by omega)
    rw [(reachIn_zero cfg s.mazeGrid _ B).2 ⟨hc, ho⟩] at h0
    exact absurd h0 (by decide)

/-- C1 on the grid of `demoState`: from tile `(0, 1)` the tile `(2, 1)` is at distance 2,
and two routing-table steps reach it. -/
theorem follow_reaches_target_witness :
    isOpen scenarioCfg demoState.mazeGrid ⟨0, 1⟩ = true ∧
    IsDist scenarioCfg demoState.mazeGrid ⟨0, 1⟩ ⟨2, 1⟩ 2 ∧
    follow (precomputePaths scenarioCfg demoState) ⟨2, 1⟩ 2 ⟨0, 1⟩ = ⟨2, 1⟩ :=
  ⟨by decide, by decide,
    (follow_reaches_target scenarioCfg demoState ⟨0, 1⟩ ⟨2, 1⟩ 2 (by decide) (by decide)).1⟩

/-- C2. For every maze grid and every pair of distinct non-wall tiles `A`, `B` with `B`
reachable from `A` at shortest-path length `k`, the table entry for `A` and `B` built by
`precomputePaths` is the first tile, in the fixed order up, down, left, right of the
neighbours of `A`, that is in bounds, not a wall, and strictly closer to `B` (its
shortest-path length to `B` is `k - 1`). (That `B` is a non-wall tile follows from its
being reachable.) -/
theorem nextMove_first_closer (cfg : Config) (s : GameWidget) (A B : QPoint) (k : Nat)
    (hA : isOpen cfg s.mazeGrid A = true) (hne : A ≠ B) (hd : IsDist cfg s.mazeGrid A B k) :
    (neighbors A).find?
        (fun n => isOpen cfg s.mazeGrid n && decide (IsDist cfg s.mazeGrid n B (k - 1))) =
      some (nextMove (precomputePaths cfg s) A B) := by
  obtain ⟨j, rfl⟩ : ∃ j, k = j + 1 := by
    cases k with
    | zero => exact absurd ((reachIn_zero cfg s.mazeGrid A B).1 hd.1).1 hne
    | succ j => exact ⟨j, rfl⟩
  obtain ⟨h1, h2, h3, h4⟩ := nextMove_step cfg s A B j hA hd
  rw [find_neighbors_iff]
  refine ⟨?_, h1, ?_⟩
  · simp only [Nat.add_sub_cancel, Bool.and_eq_true, decide_eq_true_eq]
    exact ⟨h2, h3⟩
  · intro y hy hp
    simp only [Nat.add_sub_cancel, Bool.and_eq_true, decide_eq_true_eq] at hp
    exact h4 y hy hp.2.1

/-- C2 on the grid of `demoState`: the entry from tile `(0, 1)` toward tile `(2, 1)` is the
first neighbour of `(0, 1)` that is open and at distance 1 from `(2, 1)`. -/
theorem nextMove_first_closer_witness :
    isOpen scenarioCfg demoState.mazeGrid ⟨0, 1⟩ = true ∧
    (⟨0, 1⟩ : QPoint) ≠ ⟨2, 1⟩ ∧
    IsDist scenarioCfg demoState.mazeGrid ⟨0, 1⟩ ⟨2, 1⟩ 2 ∧
    (neighbors ⟨0, 1⟩).find?
        (fun n => isOpen scenarioCfg demoState.mazeGrid n &&
          decide (IsDist scenarioCfg demoState.mazeGrid n ⟨2, 1⟩ (2 - 1))) =
      some (nextMove (precomputePaths scenarioCfg demoState) ⟨0, 1⟩ ⟨2, 1⟩) :=
  ⟨by decide, by decide, by decide,
    nextMove_first_closer scenarioCfg demoState ⟨0, 1⟩ ⟨2, 1⟩ 2 (by decide) (by decide)
      (by decide)⟩

/-- C3. For every maze grid and every non-wall tile `A` (in bounds), after
`precomputePaths` the table entry for `A` and `A` is `A`. -/
theorem nextMove_self (cfg : Config) (s : GameWidget) (A : QPoint)
    (hA : isOpen cfg s.mazeGrid A = true) :
    nextMove (precomputePaths cfg s) A A = A := by
  obtain ⟨lev, hlev⟩ := exists_lev cfg s.mazeGrid A
  exact (nextMove_label cfg s A hA lev hlev).1

/-- C3 on the grid of `demoState`, at the open tile `(1, 1)`. -/
theorem nextMove_self_witness :
    isOpen scenarioCfg demoState.mazeGrid ⟨1, 1⟩ = true ∧
    nextMove (precomputePaths scenarioCfg demoState) ⟨1, 1⟩ ⟨1, 1⟩ = ⟨1, 1⟩ :=
  ⟨by decide, nextMove_self scenarioCfg demoState ⟨1, 1⟩ (by decide)⟩

/-! ## The animation of a move -/

/-- C11. With `TILE_SIZE = 32` and `moveSteps = 6`: for an idle player on tile `(c, r)`
whose render position is the centre of that tile, and an accepted move in direction `d`
with tile offset `(tx, ty)`, the step delta is 5 pixels along `d`; after `i ≤ 5` calls of
`animationStep` the player is still moving, its tile position is still `(c, r)` and its
render position has advanced by `5 * i` pixels along `d`; after the sixth call the player
is idle, its tile position is the adjacent tile `(c, r) + d` (the tile that holds the
render position advanced by `6 * 5` pixels), and its render position is the centre of
that tile. -/
theorem animation_of_accepted_move (cfg : Config) (h32 : cfg.TILE_SIZE = 32) (s : GameWidget)
    (c r : Int) (command : String) (d : Direction) (tx ty : Int)
    (hms : s.moveSteps = 6) (hpos : s.pacman_macrogrid_center = ⟨c, r⟩)
    (hpix : s.pacman_grid_center = macroGridToGridCenter cfg c r)
    (hacc : Accepted cfg s command d tx ty) :
    (∀ i : Nat, i ≤ 5 →
      (animationSteps cfg i (processMovementCommand cfg s command)).isMoving = true ∧
      (animationSteps cfg i (processMovementCommand cfg s command)).stepDeltaX = 5 * tx ∧
      (animationSteps cfg i (processMovementCommand cfg s command)).stepDeltaY = 5 * ty ∧
      (animationSteps cfg i (processMovementCommand cfg s command)).pacman_macrogrid_center
        = ⟨c, r⟩ ∧
      (animationSteps cfg i (processMovementCommand cfg s command)).pacman_grid_center
        = ⟨c * 32 + 16 + i * (5 * tx), r * 32 + 16 + i * (5 * ty)⟩) ∧
    (animationSteps cfg 6 (processMovementCommand cfg s command)).isMoving = false ∧
    (animationSteps cfg 6 (processMovementCommand cfg s command)).pacman_macrogrid_center
      = ⟨c + tx, r + ty⟩ ∧
    gridToMacroGrid cfg (c * 32 + 16 + 6 * (5 * tx)) (r * 32 + 16 + 6 * (5 * ty))
      = ⟨c + tx, r + ty⟩ ∧
    (animationSteps cfg 6 (processMovementCommand cfg s command)).pacman_grid_center
      = macroGridToGridCenter cfg (c + tx) (r + ty) := by
  rw [processMovementCommand_accepted cfg s command d tx ty hacc]
  obtain ⟨_, _, _, hd, ho⟩ := hacc
  have hd5 : Int.tdiv (32 : Int) 6 = 5 := by decide
  have hh : Int.tdiv (32 : Int) 2 = 16 := by decide
  rw [hpos] at ho
  unfold isOpen at ho
  simp only [decide_eq_true_eq] at ho
  obtain ⟨hr0, hr, hc0, hc, _⟩ := ho
  have hdir : (tx = 0 ∧ (ty = -1 ∨ ty = 1)) ∨ (ty = 0 ∧ (tx = -1 ∨ tx = 1)) := by
    cases d <;> simp [dirDelta] at hd <;> omega
  have htile : gridToMacroGrid cfg (c * 32 + 16 + 6 * (5 * tx)) (r * 32 + 16 + 6 * (5 * ty))
      = ⟨c + tx, r + ty⟩ :=
    gridToMacroGrid_cell cfg h32 _ _ _ _ hc0 hc hr0 hr (by omega) (by omega) (by omega)
      (by omega)
  have hmid : ∀ i : Nat, i ≤ 5 →
      animationSteps cfg i (movedState cfg s d tx ty) = midMove (movedState cfg s d tx ty) i := by
    intro i hi
    exact animationSteps_mid cfg i _ rfl (by
      show (0 : Int) + (i : Int) < s.moveSteps
      rw [hms]; omega)
  refine ⟨?_, ?_⟩
  · intro i hi
    rw [hmid i hi]
    refine ⟨rfl, ?_, ?_, hpos, ?_⟩
    · show tx * Int.tdiv cfg.TILE_SIZE s.moveSteps = 5 * tx
      rw [h32, hms, hd5]; ring
    · show ty * Int.tdiv cfg.TILE_SIZE s.moveSteps = 5 * ty
      rw [h32, hms, hd5]; ring
    · simp only [midMove, movedState, hpix, macroGridToGridCenter, h32, hms, hd5, hh]
      congr 1 <;> ring
  · rw [animationSteps_last cfg 5 _ rfl (by
      show (0 : Int) + ((5 : Nat) : Int) < s.moveSteps
      rw [hms]; omega) (by
      show (0 : Int) + ((5 : Nat) : Int) + 1 ≥ s.moveSteps
      rw [hms]; omega)]
    obtain ⟨e1, e2, e3⟩ :=
      collectPellet_player cfg (arrived cfg (midMove (movedState cfg s d tx ty) 5))
    rw [e1, e2, e3]
    have ht : gridToMacroGrid cfg
        (stepped (midMove (movedState cfg s d tx ty) 5)).pacman_grid_center.x
        (stepped (midMove (movedState cfg s d tx ty) 5)).pacman_grid_center.y
          = ⟨c + tx, r + ty⟩ := by
      rw [← htile]
      simp only [stepped, midMove, movedState, hpix, macroGridToGridCenter, h32, hms, hd5, hh]
      congr 1 <;> push_cast <;> ring
    refine ⟨rfl, ht, htile, ?_⟩
    show macroGridToGridCenter cfg _ _ = _
    rw [ht]

theorem animation_of_accepted_move_witness :
    scenarioCfg.TILE_SIZE = 32 ∧ demoState.moveSteps = 6 ∧
    demoState.pacman_macrogrid_center = ⟨0, 1⟩ ∧
    demoState.pacman_grid_center = macroGridToGridCenter scenarioCfg 0 1 ∧
    Accepted scenarioCfg demoState "Right" Direction.Right 1 0 ∧
    (animationSteps scenarioCfg 3
      (processMovementCommand scenarioCfg demoState "Right")).pacman_grid_center
      = ⟨0 * 32 + 16 + (3 : Nat) * (5 * 1), 1 * 32 + 16 + (3 : Nat) * (5 * 0)⟩ ∧
    (animationSteps scenarioCfg 6 (processMovementCommand scenarioCfg demoState "Right")).isMoving
      = false ∧
    (animationSteps scenarioCfg 6
      (processMovementCommand scenarioCfg demoState "Right")).pacman_macrogrid_center
      = ⟨0 + 1, 1 + 0⟩ :=
  ⟨rfl, rfl, rfl, rfl, ⟨rfl, rfl, rfl, rfl, by decide⟩,
    ((animation_of_accepted_move scenarioCfg rfl demoState 0 1 "Right" Direction.Right 1 0 rfl
      rfl rfl ⟨rfl, rfl, rfl, rfl, by decide⟩).1 3 (by decide)).2.2.2.2,
    (animation_of_accepted_move scenarioCfg rfl demoState 0 1 "Right" Direction.Right 1 0 rfl
      rfl rfl ⟨rfl, rfl, rfl, rfl, by decide⟩).2.1,
    (animation_of_accepted_move scenarioCfg rfl demoState 0 1 "Right" Direction.Right 1 0 rfl
      rfl rfl ⟨rfl, rfl, rfl, rfl, by decide⟩).2.2.1⟩

/-! ## Collision checks -/

/-- C12. For every Playing state, `checkGhostCollisions` sets the phase to GameOver if and
only if some pursuer that is active, not respawning and in Chase mode has its render
position within Manhattan pixel distance `d` of the player's render position with
`3 * d < 2 * TILE_SIZE`; if there is no such pursuer the phase is left unchanged. -/
theorem checkGhostCollisions_gameOver_iff (cfg : Config) (s : GameWidget)
    (hp : s.m_gameState = GameState.Playing) :
    ((checkGhostCollisions cfg s).m_gameState = GameState.GameOver ↔
      ∃ g ∈ s.ghosts, Colliding cfg s g ∧ g.mode = GhostMode.Chase) ∧
    ((¬ ∃ g ∈ s.ghosts, Colliding cfg s g ∧ g.mode = GhostMode.Chase) →
      (checkGhostCollisions cfg s).m_gameState = s.m_gameState) := by
  unfold checkGhostCollisions
  rw [collideLoop_phase]
  by_cases h : ∃ g ∈ s.ghosts, Colliding cfg s g ∧ g.mode = GhostMode.Chase
  · rw [if_pos h]
    exact ⟨⟨fun _ => h, fun _ => rfl⟩, fun hn => absurd h hn⟩
  · rw [if_neg h, hp]
    exact ⟨⟨fun hc => absurd hc (by decide), fun hc => absurd hc h⟩, fun _ => rfl⟩

theorem checkGhostCollisions_gameOver_iff_witness :
    demoNear.m_gameState = GameState.Playing ∧
    (((checkGhostCollisions scenarioCfg demoNear).m_gameState = GameState.GameOver ↔
      ∃ g ∈ demoNear.ghosts, Colliding scenarioCfg demoNear g ∧ g.mode = GhostMode.Chase) ∧
    ((¬ ∃ g ∈ demoNear.ghosts, Colliding scenarioCfg demoNear g ∧ g.mode = GhostMode.Chase) →
      (checkGhostCollisions scenarioCfg demoNear).m_gameState = demoNear.m_gameState)) :=
  ⟨rfl, checkGhostCollisions_gameOver_iff scenarioCfg demoNear rfl⟩

/-- C13 (counterexample). The collision check is not decided by tile positions: in
`demoNear` the pursuer is on tile `(1, 1)` and the player on tile `(0, 1)`, yet the check
ends the game, and in `demoSameTile` the pursuer and the player are both on tile `(0, 1)`,
yet the check leaves the state as it is. -/
theorem checkGhostCollisions_tile_counterexample :
    (demoNear.m_gameState = GameState.Playing ∧
      demoNear.ghosts = [demoGhostAt ⟨1, 1⟩ ⟨28, 48⟩ GhostMode.Chase 0] ∧
      (demoGhostAt ⟨1, 1⟩ ⟨28, 48⟩ GhostMode.Chase 0).macrogrid_center ≠
        demoNear.pacman_macrogrid_center ∧
      (checkGhostCollisions scenarioCfg demoNear).m_gameState = GameState.GameOver) ∧
    (demoSameTile.ghosts = [demoGhostAt ⟨0, 1⟩ ⟨16, 48⟩ GhostMode.Chase 0] ∧
      (demoGhostAt ⟨0, 1⟩ ⟨16, 48⟩ GhostMode.Chase 0).macrogrid_center =
        demoSameTile.pacman_macrogrid_center ∧
      checkGhostCollisions scenarioCfg demoSameTile = demoSameTile) :=
  ⟨⟨rfl, rfl, by decide, by decide⟩, rfl, rfl, rfl⟩

/-- C13 (amended). Collision detection is decided by render positions: for every state,
`checkGhostCollisions` reacts (ends the game or catches a pursuer, so that the state
changes) if and only if some active, non-respawning pursuer has its render position within
Manhattan pixel distance `d` of the player's render position with `3 * d < 2 * TILE_SIZE`;
tile positions are not consulted. -/
theorem checkGhostCollisions_reacts_iff (cfg : Config) (s : GameWidget) :
    checkGhostCollisions cfg s ≠ s ↔ ∃ g ∈ s.ghosts, Colliding cfg s g := by
  unfold checkGhostCollisions
  constructor
  · intro hne
    by_contra hno
    apply hne
    have hno' : ∀ g ∈ s.ghosts, ¬ Colliding cfg s g := fun g hg hc => hno ⟨g, hg, hc⟩
    rw [collideLoop_panic cfg s.ghosts s [] (fun g hg hc => absurd hc (hno' g hg))]
    have e1 : s.ghosts.filter (fun g => decide (Colliding cfg s g)) = [] := by
      rw [List.filter_eq_nil_iff]
      intro g hg
      simpa using hno' g hg
    have e2 : s.ghosts.map (fun g => if Colliding cfg s g then caught g else g) = s.ghosts := by
      conv_rhs => rw [← List.map_id s.ghosts]
      apply List.map_congr_left
      intro g hg
      rw [if_neg (hno' g hg)]
      rfl
    rw [e1, e2]
    simp
  · intro h he
    have := (collideLoop_logs cfg s.ghosts s []).2 h
    rw [he] at this
    omega

/-- C14. For every Playing state in which no active, non-respawning Chase pursuer is within
collision range, `checkGhostCollisions` deactivates each active, non-respawning pursuer
within range, which is then in Panic mode (`active = false`, `respawning = true`), leaves
every other pursuer unchanged, increases the score by exactly 50 per caught pursuer,
schedules one respawn per caught pursuer, and leaves the phase Playing. -/
theorem checkGhostCollisions_panic (cfg : Config) (s : GameWidget)
    (hp : s.m_gameState = GameState.Playing)
    (hno : ∀ g ∈ s.ghosts, Colliding cfg s g → g.mode ≠ GhostMode.Chase) :
    (checkGhostCollisions cfg s).ghosts =
        s.ghosts.map (fun g => if Colliding cfg s g then caught g else g) ∧
      (checkGhostCollisions cfg s).m_score =
        s.m_score + 50 * ((s.ghosts.filter (fun g => decide (Colliding cfg s g))).length : Int) ∧
      (checkGhostCollisions cfg s).pendingRespawns =
        s.pendingRespawns ++ (s.ghosts.filter (fun g => decide (Colliding cfg s g))).map
          (fun g => ((2000 : Nat), g.parentId)) ∧
      (checkGhostCollisions cfg s).m_gameState = GameState.Playing ∧
      ∀ g ∈ s.ghosts, Colliding cfg s g → g.mode = GhostMode.Panic := by
  unfold checkGhostCollisions
  rw [collideLoop_panic cfg s.ghosts s [] hno]
  refine ⟨by simp, rfl, rfl, hp, ?_⟩
  intro g hg hc
  have := hno g hg hc
  cases hm : g.mode
  · exact absurd hm this
  · rfl

theorem checkGhostCollisions_panic_witness :
    demoFright.m_gameState = GameState.Playing ∧
    (∀ g ∈ demoFright.ghosts, Colliding scenarioCfg demoFright g → g.mode ≠ GhostMode.Chase) ∧
    (checkGhostCollisions scenarioCfg demoFright).ghosts =
      demoFright.ghosts.map (fun g => if Colliding scenarioCfg demoFright g then caught g else g) ∧
    (checkGhostCollisions scenarioCfg demoFright).m_score =
      demoFright.m_score + 50 *
        ((demoFright.ghosts.filter
          (fun g => decide (Colliding scenarioCfg demoFright g))).length : Int) ∧
    (checkGhostCollisions scenarioCfg demoFright).m_gameState = GameState.Playing :=
  ⟨rfl, by decide,
    (checkGhostCollisions_panic scenarioCfg demoFright rfl (by decide)).1,
    (checkGhostCollisions_panic scenarioCfg demoFright rfl (by decide)).2.1,
    (checkGhostCollisions_panic scenarioCfg demoFright rfl (by decide)).2.2.2.1⟩

/-! ## Round starts -/

/-- C18. For every state with a valid player start tile, `startGame` ends in phase Playing,
and the score afterwards is 0 if the phase before was Menu or GameOver and is equal to the
score before otherwise (in particular when continuing from Win). -/
theorem startGame_phase_score (cfg : Config) (s : GameWidget) (h : ValidStart s) :
    (startGame cfg s).m_gameState = GameState.Playing ∧
      (s.m_gameState = GameState.Menu ∨ s.m_gameState = GameState.GameOver →
        (startGame cfg s).m_score = 0) ∧
      (¬ (s.m_gameState = GameState.Menu ∨ s.m_gameState = GameState.GameOver) →
        (startGame cfg s).m_score = s.m_score) := by
  obtain ⟨gs, n, e⟩ := startGame_valid cfg s h
  rw [e]
  refine ⟨rfl, ?_, ?_⟩
  · intro hp
    show (if s.m_gameState = GameState.Menu ∨ s.m_gameState = GameState.GameOver then 0
      else s.m_score) = 0
    rw [if_pos hp]
  · intro hp
    show (if s.m_gameState = GameState.Menu ∨ s.m_gameState = GameState.GameOver then 0
      else s.m_score) = s.m_score
    rw [if_neg hp]

theorem startGame_phase_score_witness :
    ValidStart demoWon ∧ demoWon.m_gameState = GameState.Win ∧
    (startGame scenarioCfg demoWon).m_gameState = GameState.Playing ∧
    (startGame scenarioCfg demoWon).m_score = 7 ∧
    ValidStart demoTwoSpawn ∧ demoTwoSpawn.m_gameState = GameState.Menu ∧
    (startGame scenarioCfg demoTwoSpawn).m_score = 0 :=
  ⟨⟨by decide, by decide⟩, rfl,
    (startGame_phase_score scenarioCfg demoWon ⟨by decide, by decide⟩).1,
    (startGame_phase_score scenarioCfg demoWon ⟨by decide, by decide⟩).2.2 (by decide),
    ⟨by decide, by decide⟩, rfl,
    (startGame_phase_score scenarioCfg demoTwoSpawn ⟨by decide, by decide⟩).2.1 (Or.inl rfl)⟩

/-- C19. If no player start marker was loaded (`startMacroCol = -1` or
`startMacroRow = -1`), `startGame` leaves the entire state unchanged, so no round begins. -/
theorem startGame_without_start (cfg : Config) (s : GameWidget)
    (h : s.startMacroCol = -1 ∨ s.startMacroRow = -1) : startGame cfg s = s := by
  unfold startGame
  rw [if_pos h]

theorem startGame_without_start_witness :
    ((construct scenarioCfg demoState (some noStartMaze)).startMacroCol = -1 ∨
      (construct scenarioCfg demoState (some noStartMaze)).startMacroRow = -1) ∧
    startGame scenarioCfg (construct scenarioCfg demoState (some noStartMaze)) =
      construct scenarioCfg demoState (some noStartMaze) :=
  ⟨Or.inl rfl,
    startGame_without_start scenarioCfg (construct scenarioCfg demoState (some noStartMaze))
      (Or.inl rfl)⟩

/-- C20 (counterexample). After the constructor loaded the scenario maze and `startGame`
ran, the working grid holds 3 on the start tile `(0, 1)` while the original grid holds 0
there. -/
theorem startGame_start_tile_counterexample :
    ValidStart (construct scenarioCfg demoState (some scenarioMaze)) ∧
    (startGame scenarioCfg (construct scenarioCfg demoState (some scenarioMaze))).mazeGrid 1 0
      = 3 ∧
    (startGame scenarioCfg
      (construct scenarioCfg demoState (some scenarioMaze))).originalMazeGrid 1 0 = 0 :=
  ⟨⟨by decide, by decide⟩, (scenarioStart_grid demoState).2.2.2.1,
    scenarioStart_original demoState⟩

/-- C20 (amended). At the start of every round the working grid is reset from the
original, except for the start tile: for every state with a valid start tile, immediately
after `startGame` every cell of `mazeGrid` other than the player's start tile equals the
corresponding cell of `originalMazeGrid`, the start tile holds 3 (eaten), and
`originalMazeGrid` itself is unchanged. -/
theorem startGame_grids (cfg : Config) (s : GameWidget) (h : ValidStart s) :
    (∀ r c : Int, 0 ≤ r → r < cfg.MAZE_HEIGHT → 0 ≤ c → c < cfg.MAZE_WIDTH →
      ¬ (r = s.startMacroRow ∧ c = s.startMacroCol) →
      (startGame cfg s).mazeGrid r c = (startGame cfg s).originalMazeGrid r c) ∧
    (startGame cfg s).mazeGrid s.startMacroRow s.startMacroCol = 3 ∧
    (startGame cfg s).originalMazeGrid = s.originalMazeGrid := by
  obtain ⟨gs, n, e⟩ := startGame_valid cfg s h
  rw [e]
  refine ⟨?_, ?_, rfl⟩
  · intro r c hr0 hr hc0 hc hne
    show Grid.set _ _ _ _ r c = s.originalMazeGrid r c
    rw [Grid.set_other _ _ _ _ _ _ hne, copy_fold, if_pos]
    rw [mem_cells]
    exact ⟨hr0, hr, hc0, hc⟩
  · show Grid.set _ _ _ _ _ _ = 3
    rw [Grid.set_same]

theorem startGame_grids_witness :
    ValidStart (construct scenarioCfg demoState (some scenarioMaze)) ∧
    (startGame scenarioCfg (construct scenarioCfg demoState (some scenarioMaze))).mazeGrid 1 2
      = (startGame scenarioCfg
          (construct scenarioCfg demoState (some scenarioMaze))).originalMazeGrid 1 2 ∧
    (startGame scenarioCfg (construct scenarioCfg demoState (some scenarioMaze))).mazeGrid
      (construct scenarioCfg demoState (some scenarioMaze)).startMacroRow
      (construct scenarioCfg demoState (some scenarioMaze)).startMacroCol = 3 :=
  ⟨⟨by decide, by decide⟩,
    (startGame_grids scenarioCfg (construct scenarioCfg demoState (some scenarioMaze))
      ⟨by decide, by decide⟩).1 1 2 (by decide) (by decide) (by decide) (by decide) (by decide),
    (startGame_grids scenarioCfg (construct scenarioCfg demoState (some scenarioMaze))
      ⟨by decide, by decide⟩).2.1⟩

/-! ## Respawns and identifiers -/

/-- C15 (counterexample). Round 3 is started on a maze with the spawn tiles `(2, 1)` and
`(1, 1)`, so that the pursuer with identifier 1 is created on `(1, 1)`, the spawn tile with
index `1 mod 2`. It is caught in fright mode, and when its deferred respawn fires it is
active again on tile `(2, 1)`, not on the tile it was created on. -/
theorem respawn_tile_counterexample :
    (startGame scenarioCfg demoTwoSpawn).ghostSpawnPositions = [⟨2, 1⟩, ⟨1, 1⟩] ∧
    (startGame scenarioCfg demoTwoSpawn).ghosts.map
        (fun g => (g.parentId, g.active, g.macrogrid_center)) =
      [(0, true, ⟨2, 1⟩), (1, true, ⟨1, 1⟩)] ∧
    (checkGhostCollisions scenarioCfg demoTwoSpawnFright).ghosts.map
        (fun g => (g.parentId, g.active, g.macrogrid_center)) =
      [(0, true, ⟨2, 1⟩), (1, false, ⟨1, 1⟩)] ∧
    (checkGhostCollisions scenarioCfg demoTwoSpawnFright).pendingRespawns = [(2000, 1)] ∧
    (fireRespawn scenarioCfg (checkGhostCollisions scenarioCfg demoTwoSpawnFright) 0).ghosts.map
        (fun g => (g.parentId, g.active, g.macrogrid_center)) =
      [(0, true, ⟨2, 1⟩), (1, true, ⟨2, 1⟩)] := by
  refine ⟨rfl, ?_, ?_, ?_, ?_⟩ <;> decide

/-- C15 (amended). When the deferred respawn of a caught pursuer fires and the spawn list
is not empty, the callback applies `respawnGhost` to the first pursuer that carries the
identifier, which makes that pursuer active again, idle, in Chase mode, not respawning, and
located on the first spawn tile `ghostSpawnPositions[0]`, whatever spawn tile it was
created on, with its render position at that tile's centre. -/
theorem respawnCallback_first_spawn_tile (cfg : Config) (s : GameWidget) (id : Int) (i : Nat)
    (g : Ghost) (spawn : QPoint) (rest : List QPoint)
    (hsp : s.ghostSpawnPositions = spawn :: rest)
    (hg : s.ghosts.get? i = some g) (hid : g.parentId = id)
    (hfirst : ∀ (j : Nat) (g' : Ghost), j < i → s.ghosts.get? j = some g' → g'.parentId ≠ id) :
    (respawnCallback cfg s id).ghosts = s.ghosts.set i (respawnGhost cfg s g) ∧
      (respawnGhost cfg s g).active = true ∧ (respawnGhost cfg s g).moving = false ∧
      (respawnGhost cfg s g).mode = GhostMode.Chase ∧
      (respawnGhost cfg s g).respawning = false ∧
      (respawnGhost cfg s g).macrogrid_center = spawn ∧
      (respawnGhost cfg s g).grid_center = macroGridToGridCenter cfg spawn.x spawn.y ∧
      (respawnGhost cfg s g).parentId = id := by
  refine ⟨respawnLoop_first cfg s id s.ghosts i g hg hid hfirst, ?_⟩
  have e : respawnGhost cfg s g =
      { g with
        grid_center := macroGridToGridCenter cfg spawn.x spawn.y
        macrogrid_center := spawn
        active := true
        respawning := false
        mode := GhostMode.Chase
        direction := Direction.Stop
        path := []
        pathIndex := 0
        moving := false
        currentStep := 0 } := by
    unfold respawnGhost
    rw [hsp]
    rfl
  rw [e]
  exact ⟨rfl, rfl, rfl, rfl, rfl, rfl, hid⟩


theorem respawnCallback_first_spawn_tile_witness :
    (checkGhostCollisions scenarioCfg demoFright).ghostSpawnPositions = ⟨2, 1⟩ :: [] ∧
    (checkGhostCollisions scenarioCfg demoFright).ghosts.get? 0 =
      some (caught (demoGhostAt ⟨1, 1⟩ ⟨28, 48⟩ GhostMode.Panic 0)) ∧
    (caught (demoGhostAt ⟨1, 1⟩ ⟨28, 48⟩ GhostMode.Panic 0)).parentId = 0 ∧
    (respawnCallback scenarioCfg (checkGhostCollisions scenarioCfg demoFright) 0).ghosts =
      (checkGhostCollisions scenarioCfg demoFright).ghosts.set 0
        (respawnGhost scenarioCfg (checkGhostCollisions scenarioCfg demoFright)
          (caught (demoGhostAt ⟨1, 1⟩ ⟨28, 48⟩ GhostMode.Panic 0))) ∧
    (respawnGhost scenarioCfg (checkGhostCollisions scenarioCfg demoFright)
      (caught (demoGhostAt ⟨1, 1⟩ ⟨28, 48⟩ GhostMode.Panic 0))).macrogrid_center = ⟨2, 1⟩ :=
  ⟨rfl, by decide, rfl,
    (respawnCallback_first_spawn_tile scenarioCfg (checkGhostCollisions scenarioCfg demoFright)
      0 0 (caught (demoGhostAt ⟨1, 1⟩ ⟨28, 48⟩ GhostMode.Panic 0)) ⟨2, 1⟩ [] rfl (by decide) rfl
      (fun j _ hj => absurd hj (Nat.not_lt_zero j))).1,
    (respawnCallback_first_spawn_tile scenarioCfg (checkGhostCollisions scenarioCfg demoFright)
      0 0 (caught (demoGhostAt ⟨1, 1⟩ ⟨28, 48⟩ GhostMode.Panic 0)) ⟨2, 1⟩ [] rfl (by decide) rfl
      (fun j _ hj => absurd hj (Nat.not_lt_zero j))).2.2.2.2.2.1⟩

/-- C16 (divergence). The pursuer with identifier 1 is caught in round 3, which schedules
its respawn; a round is started from the round buttons before the respawn fires, and the
new pursuer with identifier 1 stands on its spawn tile `(1, 1)`. When the stale respawn
fires, the callback finds this new pursuer and moves it to tile `(2, 1)`: the pursuer list
of the new round changes. -/
theorem stale_respawn_changes_new_round :
    (checkGhostCollisions scenarioCfg demoTwoSpawnFright).pendingRespawns = [(2000, 1)] ∧
    (applyEvent scenarioCfg (checkGhostCollisions scenarioCfg demoTwoSpawnFright)
        (Event.newRound 3)).pendingRespawns = [(2000, 1)] ∧
    (applyEvent scenarioCfg (checkGhostCollisions scenarioCfg demoTwoSpawnFright)
        (Event.newRound 3)).ghosts.map (fun g => (g.parentId, g.active, g.macrogrid_center)) =
      [(0, true, ⟨2, 1⟩), (1, true, ⟨1, 1⟩)] ∧
    (respawnCallback scenarioCfg
        (applyEvent scenarioCfg (checkGhostCollisions scenarioCfg demoTwoSpawnFright)
          (Event.newRound 3)) 1).ghosts.map
        (fun g => (g.parentId, g.active, g.macrogrid_center)) =
      [(0, true, ⟨2, 1⟩), (1, true, ⟨2, 1⟩)] ∧
    (respawnCallback scenarioCfg
        (applyEvent scenarioCfg (checkGhostCollisions scenarioCfg demoTwoSpawnFright)
          (Event.newRound 3)) 1).ghosts ≠
      (applyEvent scenarioCfg (checkGhostCollisions scenarioCfg demoTwoSpawnFright)
        (Event.newRound 3)).ghosts := by
  refine ⟨?_, ?_, ?_, ?_, ?_⟩ <;> decide

/-- C25. For every state and each of the four directions, `keyPressEvent` with the arrow
key of that direction yields exactly the same state as `processMovementCommand` with the
matching token "Up", "Down", "Left" or "Right". -/
theorem keyPressEvent_eq_processMovementCommand (cfg : Config) (s : GameWidget) :
    keyPressEvent cfg s Key.Key_Up = processMovementCommand cfg s "Up" ∧
    keyPressEvent cfg s Key.Key_Down = processMovementCommand cfg s "Down" ∧
    keyPressEvent cfg s Key.Key_Left = processMovementCommand cfg s "Left" ∧
    keyPressEvent cfg s Key.Key_Right = processMovementCommand cfg s "Right" := by
  by_cases hguard : s.m_gameState ≠ GameState.Playing ∨ s.isMoving = true
  · unfold keyPressEvent processMovementCommand
    simp only [if_pos hguard]
    exact ⟨trivial, trivial, trivial, trivial⟩
  · have hk : ∀ key, keyPressEvent cfg s key =
        match key with
        | Key.Key_Up =>
          if canMove cfg s 0 (-1) then
            startAnimatedMove { s with m_pacmanDirection := Direction.Up } 0 (-cfg.TILE_SIZE)
          else s
        | Key.Key_Down =>
          if canMove cfg s 0 1 then
            startAnimatedMove { s with m_pacmanDirection := Direction.Down } 0 cfg.TILE_SIZE
          else s
        | Key.Key_Left =>
          if canMove cfg s (-1) 0 then
            startAnimatedMove { s with m_pacmanDirection := Direction.Left } (-cfg.TILE_SIZE) 0
          else s
        | Key.Key_Right =>
          if canMove cfg s 1 0 then
            startAnimatedMove { s with m_pacmanDirection := Direction.Right } cfg.TILE_SIZE 0
          else s
        | Key.other _ => s := by
      intro key
      unfold keyPressEvent
      rw [if_neg hguard]
    rw [hk, hk, hk, hk]
    unfold processMovementCommand
    refine ⟨?_, ?_, ?_, ?_⟩
    · rw [if_neg hguard,
        if_neg (show ¬ ("Up" = "Center" ∨ "Up".toList.contains ':' = true) by decide),
        if_pos (show "Up" = "Up" from rfl)]
    · rw [if_neg hguard,
        if_neg (show ¬ ("Down" = "Center" ∨ "Down".toList.contains ':' = true) by decide),
        if_neg (show ¬ ("Down" = "Up") by decide),
        if_pos (show "Down" = "Down" from rfl)]
    · rw [if_neg hguard,
        if_neg (show ¬ ("Left" = "Center" ∨ "Left".toList.contains ':' = true) by decide),
        if_neg (show ¬ ("Left" = "Up") by decide),
        if_neg (show ¬ ("Left" = "Down") by decide),
        if_pos (show "Left" = "Left" from rfl)]
    · rw [if_neg hguard,
        if_neg (show ¬ ("Right" = "Center" ∨ "Right".toList.contains ':' = true) by decide),
        if_neg (show ¬ ("Right" = "Up") by decide),
        if_neg (show ¬ ("Right" = "Down") by decide),
        if_neg (show ¬ ("Right" = "Left") by decide),
        if_pos (show "Right" = "Right" from rfl)]

/-- C27. If the pursuer spawn list is empty, then for every round number
`initializeGhosts` leaves the pursuer list empty, and `startGame` with a valid start tile
still enters phase Playing, with no pursuers. -/
theorem initializeGhosts_no_spawn (cfg : Config) (s : GameWidget) (round : Int)
    (h : s.ghostSpawnPositions = []) :
    (initializeGhosts cfg { s with m_round := round }).ghosts = [] ∧
      (ValidStart s →
        (startGame cfg { s with m_round := round }).m_gameState = GameState.Playing ∧
        (startGame cfg { s with m_round := round }).ghosts = []) := by
  have hi : ∀ t : GameWidget, t.ghostSpawnPositions = [] →
      (initializeGhosts cfg t).ghosts = [] := by
    intro t ht
    unfold initializeGhosts
    simp only [ht, List.isEmpty_nil, if_true]
  refine ⟨hi _ h, ?_⟩
  intro hv
  have hg : ¬ (s.startMacroCol = -1 ∨ s.startMacroRow = -1) := by
    rintro (h1 | h1)
    · exact hv.1 h1
    · exact hv.2 h1
  unfold startGame
  simp only []
  rw [if_neg hg]
  refine ⟨rfl, ?_⟩
  split_ifs <;> exact hi _ h

theorem initializeGhosts_no_spawn_witness :
    demoNoSpawn.ghostSpawnPositions = [] ∧ ValidStart demoNoSpawn ∧
    (initializeGhosts scenarioCfg { demoNoSpawn with m_round := 5 }).ghosts = [] ∧
    (startGame scenarioCfg { demoNoSpawn with m_round := 5 }).m_gameState = GameState.Playing :=
  ⟨rfl, ⟨by decide, by decide⟩, (initializeGhosts_no_spawn scenarioCfg demoNoSpawn 5 rfl).1,
    ((initializeGhosts_no_spawn scenarioCfg demoNoSpawn 5 rfl).2 ⟨by decide, by decide⟩).1⟩

/-- C23. In a state whose routing table is the one `precomputePaths` built, for every idle
pursuer of type Original in Chase mode whose tile equals the player's tile, the selected
direction is Stop, and `moveGhost` leaves the pursuer idle (`moving = false`) with its tile
position and its render position unchanged; the state is unchanged as well. The tile need
not be assumed open: a tile without an id also gives Stop. -/
theorem moveGhost_on_player_tile (cfg : Config) (s0 s : GameWidget) (ghost : Ghost)
    (ht : TablesOf cfg s0 s) (hm : ghost.moving = false)
    (hty : ghost.type = GhostType.Original) (hmode : ghost.mode = GhostMode.Chase)
    (hg : ghost.macrogrid_center = s.pacman_macrogrid_center) :
    (getGhostDirection cfg s ghost).1 = Direction.Stop ∧
      (ghost.active = true → (moveGhost cfg s ghost).1.direction = Direction.Stop) ∧
      (moveGhost cfg s ghost).1.moving = false ∧
      (moveGhost cfg s ghost).1.macrogrid_center = ghost.macrogrid_center ∧
      (moveGhost cfg s ghost).1.grid_center = ghost.grid_center ∧
      (moveGhost cfg s ghost).2 = s := by
  have hc := getGhostChaseDirection_same_tile cfg s0 s ghost ht hg
  have hd : getGhostDirection cfg s ghost = (Direction.Stop, ghost, s) := by
    unfold getGhostDirection
    rw [if_neg (by rw [hmode]; decide), hty]
    simp only [hc]
  cases ha : ghost.active
  · have hmv : moveGhost cfg s ghost = (ghost, s) := by
      unfold moveGhost
      rw [if_pos (by simp [ha])]
    rw [hmv, hd]
    exact ⟨rfl, fun h => absurd h (by decide), hm, rfl, rfl, rfl⟩
  · have hmv : moveGhost cfg s ghost =
        ({ ghost with direction := Direction.Stop, path := [], pathIndex := 0 }, s) := by
      unfold moveGhost
      rw [if_neg (by simp [ha, hm]), hd]
      simp
    rw [hmv, hd]
    exact ⟨rfl, fun _ => rfl, hm, rfl, rfl, rfl⟩

theorem moveGhost_on_player_tile_witness :
    TablesOf scenarioCfg demoState demoRouted ∧
    (demoGhost true GhostMode.Chase 0).moving = false ∧
    (demoGhost true GhostMode.Chase 0).type = GhostType.Original ∧
    (demoGhost true GhostMode.Chase 0).mode = GhostMode.Chase ∧
    (demoGhost true GhostMode.Chase 0).macrogrid_center = demoRouted.pacman_macrogrid_center ∧
    (moveGhost scenarioCfg demoRouted (demoGhost true GhostMode.Chase 0)).1.moving = false ∧
    (moveGhost scenarioCfg demoRouted (demoGhost true GhostMode.Chase 0)).1.direction =
      Direction.Stop :=
  ⟨⟨rfl, rfl, rfl⟩, rfl, rfl, rfl, rfl,
    (moveGhost_on_player_tile scenarioCfg demoState demoRouted (demoGhost true GhostMode.Chase 0)
      ⟨rfl, rfl, rfl⟩ rfl rfl rfl rfl).2.2.1,
    (moveGhost_on_player_tile scenarioCfg demoState demoRouted (demoGhost true GhostMode.Chase 0)
      ⟨rfl, rfl, rfl⟩ rfl rfl rfl rfl).2.1 rfl⟩

/-- C24 (divergence). For every pursuer whose speed multiplier `m` satisfies
`1/3 < m < 1`, in particular 0.5, 0.7 and 0.9, and whose delay counter is not negative,
the throttle of `ghostAnimationStep` does not skip the tick: the required delay
`(1 / m) - 1` truncates to at most 1, the incremented counter is not below it, and the
counter is reset to 0. Such a pursuer is processed on every tick. -/
theorem throttle_never_skips (ghost : Ghost) (h3 : 1 / 3 < ghost.speedMultiplier)
    (h1 : ghost.speedMultiplier < 1) (hd : 0 ≤ ghost.delayCounter) :
    throttle ghost = (false, { ghost with delayCounter := 0 }) := by
  have hpos : (0 : Rat) < ghost.speedMultiplier := lt_trans (by norm_num) h3
  have hq0 : (0 : Rat) ≤ 1 / ghost.speedMultiplier - 1 := by
    rw [sub_nonneg, le_div_iff₀ hpos]
    linarith
  have hq2 : 1 / ghost.speedMultiplier - 1 < 2 := by
    rw [sub_lt_iff_lt_add, div_lt_iff₀ hpos]
    linarith
  have hr := truncToInt_le_one _ hq0 hq2
  unfold throttle
  rw [if_pos h1]
  simp only []
  rw [if_neg (by omega)]

theorem throttle_never_skips_witness :
    (1 : Rat) / 3 < demoSlowGhost.speedMultiplier ∧ demoSlowGhost.speedMultiplier < 1 ∧
    0 ≤ demoSlowGhost.delayCounter ∧
    throttle demoSlowGhost = (false, { demoSlowGhost with delayCounter := 0 }) :=
  ⟨by norm_num [demoSlowGhost], by norm_num [demoSlowGhost], by decide,
    throttle_never_skips demoSlowGhost (by norm_num [demoSlowGhost])
      (by norm_num [demoSlowGhost]) (by decide)⟩

/-! ## The tick that clears the level -/

/-- C22 (counterexample). On the corridor maze "11111" / "p033g" round 2 is started, the
player waits for thirteen ticks while the pursuer approaches, and then moves right; after
five more ticks the state is `corridorBefore`: the phase is Playing, the pursuer is not in
collision range, and the player is one animation step away from the only pellet left. In
the next tick the arrival eats that pellet and `animationStep` sets the phase to Win; the
pursuer does not move in that tick (`ghostAnimationStep` returns at once in phase Win) and
is 17 pixels from the arrival position, and `checkGhostCollisions` at the end of the same
tick sets the phase to GameOver. -/
theorem updateGame_last_pellet_counterexample :
    corridorBefore.m_gameState = GameState.Playing ∧
    (∀ g ∈ corridorBefore.ghosts, ¬ Colliding corridorCfg corridorBefore g) ∧
    playerCell (arrived corridorCfg corridorBefore) = 0 ∧
    checkAllPelletsCollected corridorCfg (afterEating (arrived corridorCfg corridorBefore))
      = true ∧
    (animationStep corridorCfg corridorBefore).m_gameState = GameState.Win ∧
    (timerEvent corridorCfg corridorBefore).m_gameState = GameState.GameOver := by
  refine ⟨?_, ?_, ?_, ?_, ?_, ?_⟩ <;> decide!

/-- C22 (the phase after the clearing tick). For every Playing state in which the player is
on the last step of a move, if
after the player's arrival no Pellet or PowerPellet remains in the working grid (in
particular if the arrival consumes the last one), then the phase at the end of that tick
is Win unless an active, non-respawning pursuer in Chase mode is within collision range of
the arrival position, in which case it is GameOver; when the arrival consumes a
PowerPellet, the phase is Win. -/
theorem updateGame_last_pellet (cfg : Config) (s : GameWidget)
    (hp : s.m_gameState = GameState.Playing) (hm : s.isMoving = true)
    (hl : s.currentStep + 1 ≥ s.moveSteps) (hb : PlayerInBounds cfg (arrived cfg s))
    (hall : checkAllPelletsCollected cfg (afterEating (arrived cfg s)) = true) :
    (timerEvent cfg s).m_gameState =
        (if ∃ g ∈ (afterEating (arrived cfg s)).ghosts,
            Colliding cfg (arrived cfg s) g ∧ g.mode = GhostMode.Chase then GameState.GameOver
        else GameState.Win) ∧
      (playerCell (arrived cfg s) = 4 → (timerEvent cfg s).m_gameState = GameState.Win) := by
  have ht : timerEvent cfg s = updateGame cfg s := by
    unfold timerEvent
    rw [hp]
  rw [ht, updateGame_cleared cfg s hm hl hb hall]
  refine ⟨rfl, ?_⟩
  intro h4
  rw [if_neg]
  rintro ⟨g, hg, hc, hmode⟩
  rw [afterEating_powerPellet _ h4] at hg
  have := activatePanicMode_no_chase _ g hg hc.1
  rw [this] at hmode
  exact absurd hmode (by decide)

theorem updateGame_last_pellet_witness :
    demoLastPellet.m_gameState = GameState.Playing ∧ demoLastPellet.isMoving = true ∧
    demoLastPellet.currentStep + 1 ≥ demoLastPellet.moveSteps ∧
    PlayerInBounds scenarioCfg (arrived scenarioCfg demoLastPellet) ∧
    checkAllPelletsCollected scenarioCfg (afterEating (arrived scenarioCfg demoLastPellet))
      = true ∧
    (timerEvent scenarioCfg demoLastPellet).m_gameState =
      (if ∃ g ∈ (afterEating (arrived scenarioCfg demoLastPellet)).ghosts,
          Colliding scenarioCfg (arrived scenarioCfg demoLastPellet) g ∧
            g.mode = GhostMode.Chase then GameState.GameOver
      else GameState.Win) :=
  ⟨rfl, rfl, by decide, by unfold PlayerInBounds; decide, by decide,
    (updateGame_last_pellet scenarioCfg demoLastPellet rfl rfl (by decide)
      (by unfold PlayerInBounds; decide) (by decide)).1⟩

/-! ## The maze text -/

/-- C26. For every maze text, `loadMaze` writes to both the working and the original grid,
at every row `r < MAZE_HEIGHT` and column `c < MAZE_WIDTH` at which the text has a
character, the value of that character: '1' gives 1, '3' and 'g' give 3, '4' gives 4, '2'
gives 2, every other character gives 0; cells the text does not cover keep their previous
value, and characters and rows beyond the fixed dimensions are ignored. The spawn list is
the list of the tiles `(c, r)` of the characters 'g' in row-major order, and the player
start is the tile of 'p', the last one in row-major order if there are several, and
`(-1, -1)` if there is none. -/
theorem loadMaze_spec (cfg : Config) (s : GameWidget) (lines : List String) :
    (∀ r c : Int, (loadMaze cfg s (some lines)).mazeGrid r c =
      match charAt cfg lines r c with
      | some ch => cellValue ch
      | none => s.mazeGrid r c) ∧
    (∀ r c : Int, (loadMaze cfg s (some lines)).originalMazeGrid r c =
      match charAt cfg lines r c with
      | some ch => cellValue ch
      | none => s.originalMazeGrid r c) ∧
    (loadMaze cfg s (some lines)).ghostSpawnPositions = positionsOf cfg lines 'g' ∧
    startOf (loadMaze cfg s (some lines)) =
      ((positionsOf cfg lines 'p').getLast?).getD ⟨-1, -1⟩ ∧
    (cellValue '1' = 1 ∧ cellValue '3' = 3 ∧ cellValue 'g' = 3 ∧ cellValue '4' = 4 ∧
      cellValue '2' = 2 ∧ cellValue 'p' = 0 ∧
      ∀ ch : Char, ch ≠ '1' → ch ≠ '3' → ch ≠ 'g' → ch ≠ '4' → ch ≠ '2' → cellValue ch = 0) := by
  obtain ⟨p, i, l, e⟩ := precomputePaths_frame cfg (loadRows cfg 0
    { s with startMacroRow := -1, startMacroCol := -1, ghostSpawnPositions := [] }
    (lines.take cfg.MAZE_HEIGHT))
  obtain ⟨m1, m2, _⟩ := loadRows_marks cfg (lines.take cfg.MAZE_HEIGHT) 0
    { s with startMacroRow := -1, startMacroCol := -1, ghostSpawnPositions := [] }
  rw [loadMaze_eq, e]
  refine ⟨?_, ?_, ?_, ?_, ?_⟩
  · intro r c
    exact loadRows_cell cfg GameWidget.mazeGrid
      (fun row col s ch => (loadCell_spec row col s ch).1) _ lines r c
  · intro r c
    exact loadRows_cell cfg GameWidget.originalMazeGrid
      (fun row col s ch => (loadCell_spec row col s ch).2.1) _ lines r c
  · rw [positionsOf_eq]
    exact m1.trans (List.nil_append _)
  · rw [positionsOf_eq]
    exact m2
  · refine ⟨by decide, by decide, by decide, by decide, by decide, by decide, ?_⟩
    intro ch h1 h3 hg h4 h2
    unfold cellValue
    rw [if_neg h1, if_neg (by rintro (h | h) <;> contradiction), if_neg h4, if_neg h2]

/-! ## The working grid during a round -/

/-- C21. Along any sequence of events that starts no round (ticks, directional commands,
key presses, respawn callbacks and the panic timeout) every cell of the working grid keeps
its value or goes from Pellet (0) or PowerPellet (4) to EmptyPath (3), and the original
grid is not written; hence the working grid keeps its wall cells, and when it has the wall
cells of the original grid before the events it has them after. This is the case for a
round started by `startGame` on the state set up by the constructor, whenever the maze has
a start marker. -/
theorem round_grid_monotone (cfg : Config) (s : GameWidget) (events : List Event)
    (he : ∀ e ∈ events, e.inRound = true) :
    Eaten s.mazeGrid (run cfg s events).mazeGrid ∧
    (run cfg s events).originalMazeGrid = s.originalMazeGrid ∧
    SameWalls cfg s.mazeGrid (run cfg s events).mazeGrid ∧
    (SameWalls cfg s.mazeGrid s.originalMazeGrid →
      SameWalls cfg (run cfg s events).mazeGrid (run cfg s events).originalMazeGrid) ∧
    (∀ (u : GameWidget) (mapFile : Option (List String)),
      ValidStart (construct cfg u mapFile) →
      s = startGame cfg (construct cfg u mapFile) →
      SameWalls cfg (run cfg s events).mazeGrid (run cfg s events).originalMazeGrid) := by
  have h1 := run_grid cfg events s he
  have h2 : (run cfg s events).originalMazeGrid = s.originalMazeGrid :=
    (run_static cfg events s).1
  have h3 : SameWalls cfg s.mazeGrid s.originalMazeGrid →
      SameWalls cfg (run cfg s events).mazeGrid (run cfg s events).originalMazeGrid := by
    intro hw
    rw [h2]
    exact (h1.sameWalls cfg).wallsSymm.wallsTrans hw
  refine ⟨h1, h2, h1.sameWalls cfg, h3, ?_⟩
  intro u mapFile hv hs
  apply h3
  rw [hs]
  apply startGame_sameWalls cfg _ hv
  rw [(construct_marks cfg u mapFile).2 hv |>.2.1]
  decide

theorem round_grid_monotone_witness :
    (∀ e ∈ [Event.command "Right", Event.tick, Event.tick, Event.tick, Event.tick,
        Event.tick, Event.tick, Event.key Key.Key_Right, Event.tick],
      e.inRound = true) ∧
    Eaten (scenarioStart demoState).mazeGrid
      (run scenarioCfg (scenarioStart demoState)
        [Event.command "Right", Event.tick, Event.tick, Event.tick, Event.tick,
          Event.tick, Event.tick, Event.key Key.Key_Right, Event.tick]).mazeGrid ∧
    (run scenarioCfg (scenarioStart demoState)
        [Event.command "Right", Event.tick, Event.tick, Event.tick, Event.tick,
          Event.tick, Event.tick, Event.key Key.Key_Right, Event.tick]).mazeGrid 1 1 = 3 ∧
    (scenarioStart demoState).mazeGrid 1 1 = 0 :=
  ⟨by decide,
    (round_grid_monotone scenarioCfg (scenarioStart demoState) _ (by decide)).1,
    by decide, by decide⟩

/-! ## Grid accesses stay inside the arrays -/

/-- C29. Two states whose working grids have the same wall cells inside the fixed
dimensions get the same id maps and the same routing table from `precomputePaths`; hence
rebuilding the tables after any sequence of events that starts no round gives the tables
built before it. For the state set up by the constructor from a maze text, the tables
built at load are those `precomputePaths` would rebuild in any state reached by any
sequence of events, round starts included, provided that the cells the text does not
cover (if any) held the same walls in the two uninitialised grids. -/
theorem precomputePaths_walls_only (cfg : Config) (s1 s2 : GameWidget)
    (h : SameWalls cfg s1.mazeGrid s2.mazeGrid) :
    SameTables (precomputePaths cfg s1) (precomputePaths cfg s2) ∧
    (∀ events : List Event, (∀ e ∈ events, e.inRound = true) →
      SameTables (precomputePaths cfg s1) (precomputePaths cfg (run cfg s2 events))) ∧
    (∀ (u : GameWidget) (lines : List String) (events : List Event),
      (∀ r c : Int, 0 ≤ r → r < cfg.MAZE_HEIGHT → 0 ≤ c → c < cfg.MAZE_WIDTH →
        charAt cfg lines r c = none → (u.mazeGrid r c = 1 ↔ u.originalMazeGrid r c = 1)) →
      SameTables (construct cfg u (some lines))
        (precomputePaths cfg (run cfg (construct cfg u (some lines)) events))) := by
  refine ⟨precomputePaths_congr cfg s1 s2 h, ?_, ?_⟩
  · intro events he
    exact precomputePaths_congr cfg s1 _
      (h.wallsTrans ((run_grid cfg events s2 he).sameWalls cfg))
  · intro u lines events hcov
    apply (construct_tables cfg u lines).tablesTrans
    apply precomputePaths_congr
    apply run_walls cfg _ (construct_sameWalls cfg u lines hcov) _ events _ (Static.staticRefl _)
      (SameWalls.wallsRefl cfg _)
    intro hv
    rw [((construct_marks cfg u (some lines)).2 hv).2.1]
    decide

theorem precomputePaths_walls_only_witness :
    SameWalls scenarioCfg demoState.mazeGrid demoEaten.mazeGrid ∧
    demoState.mazeGrid 1 2 ≠ demoEaten.mazeGrid 1 2 ∧
    SameTables (precomputePaths scenarioCfg demoState) (precomputePaths scenarioCfg demoEaten) :=
  ⟨fun r c _ _ _ _ => by
      simp only [demoState, demoEaten, demoGrid, lastPelletGrid]
      split_ifs <;> simp,
    by decide,
    (precomputePaths_walls_only scenarioCfg demoState demoEaten
      (fun r c _ _ _ _ => by
        simp only [demoState, demoEaten, demoGrid, lastPelletGrid]
        split_ifs <;> simp)).1⟩

/-! ## Unreachable pairs -/

/-- C28. For every working grid and every pair of tiles `A`, `B` that are in bounds and not
walls and such that no walk through open tiles leads from `A` to `B`, the entry
`m_nextMoveLookup[id(A)][id(B)]` is never written by `precomputePaths`: whatever table `T`
a search starts from, whichever tile id it starts at and after however many iterations of
its `while` loop it is stopped, the entry is the one of `T`, and so it is after any
sequence of complete searches. In the table that `precomputePaths` stores, which starts
from the default points `(0, 0)`, the entry is `(0, 0)`. -/
theorem precomputePaths_unreachable (cfg : Config) (s : GameWidget) (A B : QPoint)
    (hA : isOpen cfg s.mazeGrid A = true) (hB : isOpen cfg s.mazeGrid B = true)
    (hnr : ∀ k, reachIn cfg s.mazeGrid k A B = false) :
    nextMove (precomputePaths cfg s) A B = ⟨0, 0⟩ ∧
    (∀ (T : Nat → Nat → QPoint) (startId fuel : Nat),
      (bfsLoop cfg s.mazeGrid (assignIds cfg s.mazeGrid).pointToId
        ((assignIds cfg s.mazeGrid).idToPoint.getD startId ⟨0, 0⟩) startId fuel
        (bfsInit T ((assignIds cfg s.mazeGrid).idToPoint.getD startId ⟨0, 0⟩) startId)).lookup
          (((assignIds cfg s.mazeGrid).pointToId A).getD 0)
          (((assignIds cfg s.mazeGrid).pointToId B).getD 0) =
        T (((assignIds cfg s.mazeGrid).pointToId A).getD 0)
          (((assignIds cfg s.mazeGrid).pointToId B).getD 0)) ∧
    (∀ (T : Nat → Nat → QPoint) (l : List Nat),
      (l.foldl (fun lookup i => bfsFrom cfg s.mazeGrid (assignIds cfg s.mazeGrid).pointToId
          (assignIds cfg s.mazeGrid).idToPoint lookup i) T)
        (((assignIds cfg s.mazeGrid).pointToId A).getD 0)
        (((assignIds cfg s.mazeGrid).pointToId B).getD 0) =
      T (((assignIds cfg s.mazeGrid).pointToId A).getD 0)
        (((assignIds cfg s.mazeGrid).pointToId B).getD 0)) := by
  refine ⟨?_, search_unreachable cfg s.mazeGrid A B hA hB hnr,
    fun T l => fold_unreachable cfg s.mazeGrid A B hA hB hnr l T⟩
  unfold nextMove precomputePaths
  simp only []
  split_ifs
  · rfl
  · exact fold_unreachable cfg s.mazeGrid A B hA hB hnr _ _

theorem precomputePaths_unreachable_witness :
    isOpen scenarioCfg demoSplit.mazeGrid ⟨0, 1⟩ = true ∧
    isOpen scenarioCfg demoSplit.mazeGrid ⟨2, 1⟩ = true ∧
    (∀ k, reachIn scenarioCfg demoSplit.mazeGrid k ⟨0, 1⟩ ⟨2, 1⟩ = false) ∧
    nextMove (precomputePaths scenarioCfg demoSplit) ⟨0, 1⟩ ⟨2, 1⟩ = ⟨0, 0⟩ :=
  ⟨by decide, by decide, splitGrid_unreachable,
    (precomputePaths_unreachable scenarioCfg demoSplit ⟨0, 1⟩ ⟨2, 1⟩ (by decide) (by decide)
      splitGrid_unreachable).1⟩

/-! ## One read of the command channel -/

/-- C37 (counterexample). In `demoState` (Playing, player idle on tile `(0, 1)`, a wall
above and a pellet tile to the right) the payload "Up\nRight\n" is trimmed to the single
text "Up\nRight", which is no token: `onReadyRead` leaves the player idle, whereas
`processMovementCommand` on "Up" and then on "Right" starts a move to the right. -/
theorem onReadyRead_tokens_counterexample :
    trimmed "Up\nRight\n" = "Up\nRight" ∧
    (onReadyRead scenarioCfg demoState true "Up\nRight\n").isMoving = false ∧
    (onReadyRead scenarioCfg demoState true "Up\nRight\n").m_pacmanDirection
      = Direction.Left ∧
    (processTokens scenarioCfg demoState ["Up", "Right"]).isMoving = true ∧
    (processTokens scenarioCfg demoState ["Up", "Right"]).m_pacmanDirection
      = Direction.Right := by
  refine ⟨?_, ?_, ?_, ?_, ?_⟩ <;> decide

/-- C37 (amended). `onReadyRead` handles one command per read: with a client socket it has
the effect of `processMovementCommand` on the whole payload with the whitespace at its
start and at its end removed, and without one it does nothing. For a payload that holds a
single text without whitespace at its ends, surrounded by any whitespace (a trailing
newline for example), that is the effect of `processMovementCommand` on that text; a
payload that still contains a newline after trimming (several newline-terminated tokens)
is no token and leaves the state unchanged. -/
theorem onReadyRead_spec (cfg : Config) (s : GameWidget) (data : String) :
    onReadyRead cfg s true data = processMovementCommand cfg s (trimmed data) ∧
    onReadyRead cfg s false data = s ∧
    (∀ (pre post tok : List Char) (a b : Char) (mid : List Char),
      (∀ c ∈ pre, isSpace c = true) → (∀ c ∈ post, isSpace c = true) →
      tok = a :: mid → tok.reverse.head? = some b → isSpace a = false → isSpace b = false →
      onReadyRead cfg s true (String.mk (pre ++ tok ++ post)) =
        processMovementCommand cfg s (String.mk tok)) ∧
    ((trimmed data).toList.contains '\n' = true → onReadyRead cfg s true data = s) := by
  refine ⟨rfl, rfl, ?_, ?_⟩
  · intro pre post tok a b mid hpre hpost ha hb hna hnb
    show processMovementCommand cfg s (trimmed (String.mk (pre ++ tok ++ post))) = _
    rw [trimmed_padded pre post tok a b mid hpre hpost ha hb hna hnb]
  · intro h
    exact processMovementCommand_newline cfg s _ h

/-! ## The random policies -/

/-- C33. With the draws of the random generator read as inputs, `r1 = rng(pos) mod 100` and
the index `r2 = rng(pos') mod n` among the `n` walkable directions (listed in the order up,
down, left, right; `pos'` is the next position when `r1` was drawn):
`getRandomPatrolDirection` returns the pursuer's current direction when that direction is
not Stop, `r1 < 70` and the tile ahead is walkable; otherwise it returns the `r2`-th
walkable direction, Stop when there is none. It returns Stop if and only if no direction
is walkable, and any other result is a direction whose adjacent tile is in bounds and not a
wall. -/
theorem getRandomPatrolDirection_spec (cfg : Config) (s : GameWidget) (ghost : Ghost) :
    (ghost.direction ≠ Direction.Stop → s.rng s.rngPos % 100 < 70 →
      canGhostMove cfg s ghost ghost.direction = true →
      getRandomPatrolDirection cfg s ghost =
        (ghost.direction, { s with rngPos := s.rngPos + 1 })) ∧
    (ghost.direction ≠ Direction.Stop →
      ¬ (s.rng s.rngPos % 100 < 70 ∧ canGhostMove cfg s ghost ghost.direction = true) →
      (getRandomPatrolDirection cfg s ghost).1 =
        randomPick (validDirs cfg s ghost) (s.rng (s.rngPos + 1))) ∧
    (ghost.direction = Direction.Stop →
      (getRandomPatrolDirection cfg s ghost).1 =
        randomPick (validDirs cfg s ghost) (s.rng s.rngPos)) ∧
    ((getRandomPatrolDirection cfg s ghost).1 = Direction.Stop ↔
      validDirs cfg s ghost = []) ∧
    ((getRandomPatrolDirection cfg s ghost).1 ≠ Direction.Stop →
      isOpen cfg s.mazeGrid
        (ahead ghost.macrogrid_center (getRandomPatrolDirection cfg s ghost).1) = true) ∧
    (∀ d, d ∈ validDirs cfg s ghost ↔
      d ≠ Direction.Stop ∧ isOpen cfg s.mazeGrid (ahead ghost.macrogrid_center d) = true) := by
  have he := getRandomPatrolDirection_eq cfg s ghost
  refine ⟨?_, ?_, ?_, ?_, ?_, ?_⟩
  · intro hd h70 hc
    unfold getRandomPatrolDirection
    simp only []
    rw [if_pos hd, if_pos (show (bounded s 100).1 < 70 from h70),
      if_pos (show canGhostMove cfg (bounded s 100).2 ghost ghost.direction = true from
        (canGhostMove_grid cfg s _ rfl ghost _).trans hc)]
    rfl
  · intro hd hn
    rw [he, if_neg (fun h => hn ⟨h.2.1, h.2.2⟩), if_neg hd]
  · intro hd
    rw [he, if_neg (fun h => h.1 hd), if_pos hd]
  · rw [he]
    exact pick_eq_stop_iff cfg s ghost _ _ (fun h => ⟨h.1, h.2.2⟩)
  · intro hne
    rw [he] at hne ⊢
    exact ((canGhostMove_iff cfg s ghost _).1
      (walkable_of_pick cfg s ghost _ _ (fun h => h.2.2) hne)).2
  · intro d
    rw [mem_validDirs, canGhostMove_iff]

/-- C34. For every pursuer (of type IntersectionRandom in Chase mode, for which
`getGhostDirection` calls this policy): if `isAtIntersection` is false, its current
direction is not Stop and the tile ahead is walkable, `getIntersectionRandomDirection`
returns the current direction and draws no random number; if `isAtIntersection` is true,
the result is the walkable direction selected by the random index (Stop when there is
none); the result is Stop if and only if no direction is walkable, and any other result is
walkable. For a pursuer on a tile inside the grid `isAtIntersection` holds exactly when at
least three directions are walkable. -/
theorem getIntersectionRandomDirection_spec (cfg : Config) (s : GameWidget) (ghost : Ghost) :
    (isAtIntersection cfg s ghost = false → ghost.direction ≠ Direction.Stop →
      canGhostMove cfg s ghost ghost.direction = true →
      getIntersectionRandomDirection cfg s ghost = (ghost.direction, s)) ∧
    (isAtIntersection cfg s ghost = true →
      (getIntersectionRandomDirection cfg s ghost).1 =
        randomPick (validDirs cfg s ghost) (s.rng s.rngPos)) ∧
    (isAtIntersection cfg s ghost = true → validDirs cfg s ghost ≠ [] →
      (getIntersectionRandomDirection cfg s ghost).1 ∈ validDirs cfg s ghost) ∧
    ((getIntersectionRandomDirection cfg s ghost).1 = Direction.Stop ↔
      validDirs cfg s ghost = []) ∧
    ((getIntersectionRandomDirection cfg s ghost).1 ≠ Direction.Stop →
      canGhostMove cfg s ghost (getIntersectionRandomDirection cfg s ghost).1 = true) ∧
    (TileInBounds cfg ghost.macrogrid_center →
      (isAtIntersection cfg s ghost = true ↔ 3 ≤ (validDirs cfg s ghost).length)) ∧
    (ghost.type = GhostType.IntersectionRandom → ghost.mode ≠ GhostMode.Panic →
      getGhostDirection cfg s ghost =
        ((getIntersectionRandomDirection cfg s ghost).1, ghost,
          (getIntersectionRandomDirection cfg s ghost).2)) := by
  have he := getIntersectionRandomDirection_eq cfg s ghost
  refine ⟨?_, ?_, ?_, ?_, ?_, isAtIntersection_iff cfg s ghost, ?_⟩
  · intro hi hd hc
    unfold getIntersectionRandomDirection
    rw [if_neg (by rw [hi]; decide), if_pos ⟨hd, hc⟩]
  · intro hi
    rw [he, if_neg (fun h => by rw [hi] at h; exact Bool.noConfusion h.1)]
  · intro hi hv
    rw [he, if_neg (fun h => by rw [hi] at h; exact Bool.noConfusion h.1)]
    exact randomPick_mem _ _ hv
  · rw [he]
    exact pick_eq_stop_iff cfg s ghost _ _ (fun h => ⟨h.2.1, h.2.2⟩)
  · intro hne
    rw [he] at hne ⊢
    exact walkable_of_pick cfg s ghost _ _ (fun h => h.2.2) hne
  · intro ht hm
    unfold getGhostDirection
    rw [if_neg hm, ht]

/-! ## The fright policy and the AggressiveChaser policy -/

/-- C35. For every pursuer in Panic mode, whatever its type, `getGhostDirection` is
`getGhostPanicDirection`. The intersection-random branch is taken exactly when
`isAtIntersection` holds, the draw `rng(pos) mod 100` is below 50 and some direction is
walkable; in every other case the result is that of the steering part `fleeDirection` (on
the state after the draw, when one was made). The steering part looks at `away`, the
direction away from the player on the axis with the larger absolute tile delta (horizontal
if and only if `|dx| > |dy|`): when that direction exists and is walkable it is returned
and the state is unchanged, otherwise the result is that of `getRandomPatrolDirection`. A
direction given by `away` is not Stop, and the tile ahead in it has Manhattan distance to
the player's tile exactly one greater than the pursuer's tile has. -/
theorem getGhostPanicDirection_spec (cfg : Config) (s : GameWidget) (ghost : Ghost) :
    (ghost.mode = GhostMode.Panic →
      getGhostDirection cfg s ghost =
        ((getGhostPanicDirection cfg s ghost).1, ghost,
          (getGhostPanicDirection cfg s ghost).2)) ∧
    (isAtIntersection cfg s ghost = false →
      getGhostPanicDirection cfg s ghost = fleeDirection cfg s ghost) ∧
    (isAtIntersection cfg s ghost = true → ¬ s.rng s.rngPos % 100 < 50 →
      getGhostPanicDirection cfg s ghost =
        fleeDirection cfg { s with rngPos := s.rngPos + 1 } ghost) ∧
    (isAtIntersection cfg s ghost = true → s.rng s.rngPos % 100 < 50 →
      validDirs cfg s ghost = [] →
      getGhostPanicDirection cfg s ghost =
        fleeDirection cfg { s with rngPos := s.rngPos + 1 } ghost) ∧
    (isAtIntersection cfg s ghost = true → s.rng s.rngPos % 100 < 50 →
      validDirs cfg s ghost ≠ [] →
      getGhostPanicDirection cfg s ghost =
        (randomPick (validDirs cfg s ghost) (s.rng (s.rngPos + 1)),
          { s with rngPos := s.rngPos + 1 + 1 })) ∧
    (∀ t : GameWidget,
      (∀ d, away ghost.macrogrid_center t.pacman_macrogrid_center = some d →
        canGhostMove cfg t ghost d = true → fleeDirection cfg t ghost = (d, t)) ∧
      ((∀ d, away ghost.macrogrid_center t.pacman_macrogrid_center = some d →
          canGhostMove cfg t ghost d ≠ true) →
        fleeDirection cfg t ghost = getRandomPatrolDirection cfg t ghost)) ∧
    (∀ (p : QPoint) (d : Direction), away ghost.macrogrid_center p = some d →
      d ≠ Direction.Stop ∧
      manhattan (ahead ghost.macrogrid_center d) p = manhattan ghost.macrogrid_center p + 1 ∧
      ((d = Direction.Left ∨ d = Direction.Right) ↔
        |ghost.macrogrid_center.x - p.x| > |ghost.macrogrid_center.y - p.y|)) := by
  obtain ⟨c1, c2, c3, c4⟩ := getGhostPanicDirection_cases cfg s ghost
  refine ⟨?_, c1, c2, c3, c4, ?_, ?_⟩
  · intro hm
    unfold getGhostDirection
    rw [if_pos hm]
  · intro t
    constructor
    · intro d hd hc
      rw [fleeDirection_eq]
      simp only [hd, hc, if_true]
    · intro h
      rw [fleeDirection_eq]
      cases ha : away ghost.macrogrid_center t.pacman_macrogrid_center with
      | none => rfl
      | some d =>
        simp only []
        rw [if_neg (h d ha)]
  · intro p d hd
    exact ⟨away_ne_stop _ _ d hd, away_farther _ _ d hd, away_axis _ _ d hd⟩

/-- C32. An evaluation of the AggressiveChaser policy on a pursuer whose counter is below 7
returns the Chaser direction, adds one to the counter and leaves the state alone. An
evaluation that brings the counter to 8 resets it to 0; it returns the walkable direction
selected by the random index among the walkable directions (in the order up, down, left,
right) when there is one, and the Chaser direction, without a draw, when there is none.
Hence in any run of eight consecutive evaluations that starts with the counter 0, in
whatever states and on whatever tiles, the first seven results are the Chaser directions
and the eighth is as described, with the counter 0 at the end. For a pursuer of type
AggressiveChaser that is not in Panic mode `getGhostDirection` is this policy. -/
theorem getAggressiveChaserDirection_spec (cfg : Config) :
    (∀ (s : GameWidget) (ghost : Ghost), ghost.failCounter + 1 < 8 →
      getAggressiveChaserDirection cfg s ghost =
        (getGhostChaseDirection s ghost,
          { ghost with failCounter := ghost.failCounter + 1 }, s)) ∧
    (∀ (s : GameWidget) (ghost : Ghost), ghost.failCounter + 1 ≥ 8 →
      (getAggressiveChaserDirection cfg s ghost).2.1 = { ghost with failCounter := 0 } ∧
      (validDirs cfg s ghost = [] →
        (getAggressiveChaserDirection cfg s ghost).1 = getGhostChaseDirection s ghost ∧
        (getAggressiveChaserDirection cfg s ghost).2.2 = s) ∧
      (validDirs cfg s ghost ≠ [] →
        (getAggressiveChaserDirection cfg s ghost).1 =
          randomPick (validDirs cfg s ghost) (s.rng s.rngPos) ∧
        canGhostMove cfg s ghost (getAggressiveChaserDirection cfg s ghost).1 = true)) ∧
    (∀ (l : List (GameWidget × Ghost)) (p : GameWidget × Ghost), l.length = 7 →
      aggressiveRun cfg 0 (l ++ [p]) =
        (l.map (fun q => getGhostChaseDirection q.1 q.2) ++
          [if validDirs cfg p.1 p.2 = [] then getGhostChaseDirection p.1 p.2
            else randomPick (validDirs cfg p.1 p.2) (p.1.rng p.1.rngPos)], 0)) ∧
    (∀ (s : GameWidget) (ghost : Ghost), ghost.type = GhostType.AggressiveChaser →
      ghost.mode ≠ GhostMode.Panic →
      getGhostDirection cfg s ghost = getAggressiveChaserDirection cfg s ghost) := by
  refine ⟨getAggressiveChaserDirection_early cfg, ?_, ?_, ?_⟩
  · intro s ghost h
    rw [getAggressiveChaserDirection_eighth cfg s ghost h]
    by_cases hv : validDirs cfg s ghost = []
    · rw [if_pos hv]
      exact ⟨rfl, fun _ => ⟨rfl, rfl⟩, fun hne => absurd hv hne⟩
    · rw [if_neg hv]
      refine ⟨rfl, fun h0 => absurd h0 hv, fun _ => ⟨rfl, ?_⟩⟩
      rw [← mem_validDirs]
      exact randomPick_mem _ _ hv
  · intro l p hl
    rw [aggressiveRun_append, aggressiveRun_early cfg l 0 (by rw [hl]; decide)]
    simp only [hl]
    rw [aggressiveRun, aggressiveRun]
    simp only []
    rw [getAggressiveChaserDirection_eighth cfg p.1 _ (by show (0 : Int) + (7 : Nat) + 1 ≥ 8; decide)]
    have hv : validDirs cfg p.1 { p.2 with failCounter := (0 : Int) + (7 : Nat) } =
        validDirs cfg p.1 p.2 := rfl
    rw [hv]
    by_cases hn : validDirs cfg p.1 p.2 = []
    · rw [if_pos hn, if_pos hn]
      rfl
    · rw [if_neg hn, if_neg hn]
  · intro s ghost ht hm
    unfold getGhostDirection
    rw [if_neg hm, ht]

/-! ## The target of the Ambusher -/

/-- C31. In a state whose id maps and routing table are those `precomputePaths` builds from
a grid with the walls of the working grid, for every pursuer on an open tile `G` with the
player on an open tile `P`: let `T` be `P` shifted four tiles along the player's facing
direction and clamped componentwise to the grid, replaced by `P` if that tile is a wall
(`ambushTarget`). Then `getAmbusherDirection` returns the direction from `G` to the table
entry `m_nextMoveLookup[id(G)][id(T)]` and leaves the state unchanged, and the result is
Stop if `G = T`. For a pursuer of type Ambusher that is not in Panic mode,
`getGhostDirection` returns that direction. -/
theorem getAmbusherDirection_spec (cfg : Config) (s0 s : GameWidget) (ghost : Ghost)
    (ht : TablesOf cfg s0 s) (hw : SameWalls cfg s0.mazeGrid s.mazeGrid)
    (hG : isOpen cfg s.mazeGrid ghost.macrogrid_center = true)
    (hP : isOpen cfg s.mazeGrid s.pacman_macrogrid_center = true) :
    getAmbusherDirection cfg s ghost =
      (stepDirection (nextMove s ghost.macrogrid_center (ambushTarget cfg s))
        ghost.macrogrid_center, s) ∧
    (ghost.macrogrid_center = ambushTarget cfg s →
      (getAmbusherDirection cfg s ghost).1 = Direction.Stop) ∧
    isOpen cfg s.mazeGrid (ambushTarget cfg s) = true ∧
    (ghost.type = GhostType.Ambusher → ghost.mode ≠ GhostMode.Panic →
      getGhostDirection cfg s ghost =
        (stepDirection (nextMove s ghost.macrogrid_center (ambushTarget cfg s))
          ghost.macrogrid_center, ghost, s)) := by
  have hs := tablesOf_self cfg s0 s ht hw
  have hopen := tablesOf_open_iff cfg s hs
  obtain ⟨gy0, gy, gx0, gx, _⟩ := (isOpen_iff cfg s.mazeGrid _).1 hG
  have hW : 0 < cfg.MAZE_WIDTH := by omega
  have hH : 0 < cfg.MAZE_HEIGHT := by omega
  obtain ⟨ax0, ax, ay0, ay⟩ := ambushAhead_inBounds cfg s hW hH
  have hcond : (s.mazeGrid (ambushAhead cfg s).y (ambushAhead cfg s).x = 1 ∨
      (s.m_pointToId (ambushAhead cfg s)).isNone = true) ↔
      s.mazeGrid (ambushAhead cfg s).y (ambushAhead cfg s).x = 1 := by
    constructor
    · rintro (h | h)
      · exact h
      · by_contra hne
        have ho : isOpen cfg s.mazeGrid (ambushAhead cfg s) = true :=
          (isOpen_iff cfg s.mazeGrid _).2 ⟨ay0, ay, ax0, ax, hne⟩
        have := (hopen _).2 ho
        rw [Option.isNone_iff_eq_none] at h
        rw [h] at this
        exact Bool.noConfusion this
    · exact Or.inl
  have htarget : (if s.mazeGrid (ambushAhead cfg s).y (ambushAhead cfg s).x = 1 ∨
      (s.m_pointToId (ambushAhead cfg s)).isNone = true then s.pacman_macrogrid_center
      else ambushAhead cfg s) = ambushTarget cfg s := by
    unfold ambushTarget
    by_cases h : s.mazeGrid (ambushAhead cfg s).y (ambushAhead cfg s).x = 1
    · rw [if_pos (hcond.2 h), if_pos h]
    · rw [if_neg (fun hc => h (hcond.1 hc)), if_neg h]
  have hT : isOpen cfg s.mazeGrid (ambushTarget cfg s) = true := by
    unfold ambushTarget
    by_cases h : s.mazeGrid (ambushAhead cfg s).y (ambushAhead cfg s).x = 1
    · rw [if_pos h]
      exact hP
    · rw [if_neg h]
      exact (isOpen_iff cfg s.mazeGrid _).2 ⟨ay0, ay, ax0, ax, h⟩
  have some_not_none : ∀ p, isOpen cfg s.mazeGrid p = true →
      ¬ (s.m_pointToId p).isNone = true := by
    intro p hp hn
    have := (hopen p).2 hp
    rw [Option.isNone_iff_eq_none] at hn
    rw [hn] at this
    exact Bool.noConfusion this
  have he : getAmbusherDirection cfg s ghost =
      (stepDirection (nextMove s ghost.macrogrid_center (ambushTarget cfg s))
        ghost.macrogrid_center, s) := by
    rw [getAmbusherDirection_eq, htarget, if_neg (some_not_none _ hG),
      if_neg (some_not_none _ hT)]
  refine ⟨he, ?_, hT, ?_⟩
  · intro hgt
    rw [he, ← hgt, tablesOf_self_entry cfg s hs _ hG]
    exact stepDirection_self _
  · intro hty hm
    unfold getGhostDirection
    rw [if_neg hm, hty]
    simp only [he]

theorem getAmbusherDirection_spec_witness :
    TablesOf scenarioCfg demoState demoRouted ∧
    isOpen scenarioCfg demoRouted.mazeGrid
      (demoGhostAt ⟨1, 1⟩ ⟨48, 48⟩ GhostMode.Chase 0).macrogrid_center = true ∧
    isOpen scenarioCfg demoRouted.mazeGrid demoRouted.pacman_macrogrid_center = true ∧
    ambushTarget scenarioCfg demoRouted = ⟨0, 1⟩ ∧
    getAmbusherDirection scenarioCfg demoRouted
        (demoGhostAt ⟨1, 1⟩ ⟨48, 48⟩ GhostMode.Chase 0) =
      (stepDirection
        (nextMove demoRouted (demoGhostAt ⟨1, 1⟩ ⟨48, 48⟩ GhostMode.Chase 0).macrogrid_center
          (ambushTarget scenarioCfg demoRouted))
        (demoGhostAt ⟨1, 1⟩ ⟨48, 48⟩ GhostMode.Chase 0).macrogrid_center, demoRouted) ∧
    stepDirection (nextMove demoRouted ⟨1, 1⟩ ⟨0, 1⟩) ⟨1, 1⟩ = Direction.Left :=
  ⟨⟨rfl, rfl, rfl⟩, by decide, by decide, by decide,
    (getAmbusherDirection_spec scenarioCfg demoState demoRouted
      (demoGhostAt ⟨1, 1⟩ ⟨48, 48⟩ GhostMode.Chase 0) ⟨rfl, rfl, rfl⟩
      (SameWalls.wallsRefl scenarioCfg _) (by decide) (by decide)).1,
    by decide⟩

/-! ## A move of a pursuer -/

/-- C36. With `TILE_SIZE = 32` (and `MOVESTEPS = 6`), in a state whose tables were built by
`precomputePaths`, for every active idle pursuer with speed multiplier at least 1 on a tile
`t` inside the grid, with its render position at the centre of `t`: if the direction `d`
that `moveGhost` selects is not Stop, then after `moveGhost` the pursuer is Moving with
direction `d`; after `k = 0, ..., 5` motion advances it is still Moving with direction `d`
and tile position `t`, its render position being the centre of `t` plus `5 k` pixels along
`d`; and after the sixth motion advance it is Idle with direction `d`, tile position `t + d`
and render position exactly the centre of `t + d`. A motion advance is what one iteration
of the loop of `ghostAnimationStep` does to it in each of these six ticks, as long as the
pursuer is not caught. -/
theorem moveGhost_six_advances (cfg : Config) (h32 : cfg.TILE_SIZE = 32) (s0 s : GameWidget)
    (ghost : Ghost) (ht : TablesOf cfg s0 s) (ha : ghost.active = true)
    (hi : ghost.moving = false) (hm : 1 ≤ ghost.speedMultiplier)
    (hb : TileInBounds cfg ghost.macrogrid_center)
    (hc : ghost.grid_center =
      macroGridToGridCenter cfg ghost.macrogrid_center.x ghost.macrogrid_center.y)
    (hd : (moveGhost cfg s ghost).1.direction ≠ Direction.Stop) :
    (moveGhost cfg s ghost).1.direction = (getGhostDirection cfg s ghost).1 ∧
    (∀ k : Nat, k ≤ 5 →
      InFlight cfg ghost.macrogrid_center (moveGhost cfg s ghost).1.direction k
        ((advanceGhost cfg)^[k] (moveGhost cfg s ghost).1)) ∧
    ((advanceGhost cfg)^[6] (moveGhost cfg s ghost).1).moving = false ∧
    ((advanceGhost cfg)^[6] (moveGhost cfg s ghost).1).direction =
      (moveGhost cfg s ghost).1.direction ∧
    ((advanceGhost cfg)^[6] (moveGhost cfg s ghost).1).macrogrid_center =
      ahead ghost.macrogrid_center (moveGhost cfg s ghost).1.direction ∧
    ((advanceGhost cfg)^[6] (moveGhost cfg s ghost).1).grid_center =
      macroGridToGridCenter cfg
        (ahead ghost.macrogrid_center (moveGhost cfg s ghost).1.direction).x
        (ahead ghost.macrogrid_center (moveGhost cfg s ghost).1.direction).y ∧
    (∀ (k : Nat) (s' : GameWidget) (i : Nat), k ≤ 5 →
      s'.ghosts.get? i = some ((advanceGhost cfg)^[k] (moveGhost cfg s ghost).1) →
      ghost.respawning = false →
      ghostStepAt cfg s' i = { s' with
        ghosts := s'.ghosts.set i ((advanceGhost cfg)^[k + 1] (moveGhost cfg s ghost).1) }) := by
  have hs := moveGhost_start cfg s ghost ha hi
  have hdir : (moveGhost cfg s ghost).1.direction = (getGhostDirection cfg s ghost).1 := by
    rw [hs]
    split_ifs with h
    · exact h.symm
    · rfl
  have hne : (getGhostDirection cfg s ghost).1 ≠ Direction.Stop := by
    rw [← hdir]
    exact hd
  rw [if_neg hne] at hs
  have h0 : InFlight cfg ghost.macrogrid_center (moveGhost cfg s ghost).1.direction 0
      (moveGhost cfg s ghost).1 := by
    rw [hs]
    refine ⟨rfl, rfl, rfl, rfl, rfl, rfl, rfl, ?_⟩
    show ghost.grid_center = _
    rw [hc]
    simp
  have hin := iterate_advance_inFlight cfg _ _ _ h0
  have hax : TileInBounds cfg
      (ahead ghost.macrogrid_center (moveGhost cfg s ghost).1.direction) := by
    rw [hdir]
    rcases getGhostDirection_inBounds cfg s0 s ghost ht hb with h | h
    · exact absurd h hne
    · exact h
  obtain ⟨l1, l2, l3, l4⟩ := advanceGhost_land cfg h32 _ _ _ (hin 5 (le_refl _)) hd hb hax
  have e6 : (advanceGhost cfg)^[6] (moveGhost cfg s ghost).1 =
      advanceGhost cfg ((advanceGhost cfg)^[5] (moveGhost cfg s ghost).1) :=
    Function.iterate_succ_apply' _ _ _
  refine ⟨hdir, hin, ?_, ?_, ?_, ?_, ?_⟩
  · rw [e6]; exact l1
  · rw [e6]; exact l2
  · rw [e6]; exact l3
  · rw [e6]; exact l4
  · intro k s' i hk hg hr
    have hf := iterate_advance_fields cfg (moveGhost cfg s ghost).1 k
    have hact : (moveGhost cfg s ghost).1.active = true := by rw [hs]; exact ha
    have hresp : (moveGhost cfg s ghost).1.respawning = false := by rw [hs]; exact hr
    have hsp : (moveGhost cfg s ghost).1.speedMultiplier = ghost.speedMultiplier := by rw [hs]
    rw [Function.iterate_succ_apply']
    exact ghostStepAt_advance cfg s' i _ hg (hf.1.trans hact) (hf.2.1.trans hresp)
      (by rw [hf.2.2, hsp]; exact hm) (hin k hk).1

theorem moveGhost_six_advances_witness :
    (1 : Rat) ≤ (demoGhostAt ⟨1, 1⟩ ⟨48, 48⟩ GhostMode.Chase 0).speedMultiplier ∧
    (moveGhost scenarioCfg demoRouted
      (demoGhostAt ⟨1, 1⟩ ⟨48, 48⟩ GhostMode.Chase 0)).1.direction = Direction.Right ∧
    ((advanceGhost scenarioCfg)^[6] (moveGhost scenarioCfg demoRouted
      (demoGhostAt ⟨1, 1⟩ ⟨48, 48⟩ GhostMode.Chase 0)).1).moving = false ∧
    ((advanceGhost scenarioCfg)^[6] (moveGhost scenarioCfg demoRouted
      (demoGhostAt ⟨1, 1⟩ ⟨48, 48⟩ GhostMode.Chase 0)).1).macrogrid_center =
      ahead (demoGhostAt ⟨1, 1⟩ ⟨48, 48⟩ GhostMode.Chase 0).macrogrid_center
        (moveGhost scenarioCfg demoRouted
          (demoGhostAt ⟨1, 1⟩ ⟨48, 48⟩ GhostMode.Chase 0)).1.direction :=
  ⟨by norm_num [demoGhostAt, demoGhost], by decide,
    (moveGhost_six_advances scenarioCfg rfl demoState demoRouted
      (demoGhostAt ⟨1, 1⟩ ⟨48, 48⟩ GhostMode.Chase 0) ⟨rfl, rfl, rfl⟩ rfl rfl
      (by norm_num [demoGhostAt, demoGhost])
      ⟨by decide, by decide, by decide, by decide⟩ (by decide) (by decide)).2.2.1,
    (moveGhost_six_advances scenarioCfg rfl demoState demoRouted
      (demoGhostAt ⟨1, 1⟩ ⟨48, 48⟩ GhostMode.Chase 0) ⟨rfl, rfl, rfl⟩ rfl rfl
      (by norm_num [demoGhostAt, demoGhost])
      ⟨by decide, by decide, by decide, by decide⟩ (by decide) (by decide)).2.2.2.2.1⟩

/-! ## The tile of the player -/

/-- C38 (a round started in the middle of a move). On the pocket maze, round 1 is started,
the player goes down one tile and starts a move to the right; after one tick of that move
round 1 is started again. `startGame` puts the player on the start tile `(0, 0)` but leaves
it Moving, one step into the move to the right, although `canMove` rejects a move to the
right from the start tile. Five ticks later the player's tile is `(1, 0)`, a wall of the
working grid. -/
theorem startGame_mid_move_counterexample :
    pocketRestart.m_gameState = GameState.Playing ∧
    pocketRestart.pacman_macrogrid_center = ⟨0, 0⟩ ∧
    pocketRestart.isMoving = true ∧
    pocketRestart.currentStep = 1 ∧
    canMove pocketCfg pocketRestart 1 0 = false ∧
    (run pocketCfg pocketRestart (List.replicate 5 Event.tick)).pacman_macrogrid_center
      = ⟨1, 0⟩ ∧
    (run pocketCfg pocketRestart (List.replicate 5 Event.tick)).mazeGrid 0 1 = 1 ∧
    isOpen pocketCfg (run pocketCfg pocketRestart (List.replicate 5 Event.tick)).mazeGrid
      (run pocketCfg pocketRestart (List.replicate 5 Event.tick)).pacman_macrogrid_center
      = false := by
  refine ⟨?_, ?_, ?_, ?_, ?_, ?_, ?_, ?_⟩ <;> decide!

/-- C38 (rounds started while the player is Idle). For a positive tile size and a maze text
with a start marker: `startGame` on the state set up by the constructor leaves the player
Idle on the start tile, and in every state reached from there by ticks, directional
commands, key presses, respawn callbacks, panic timeouts and round starts, provided that
every round start happens while the player is Idle (in particular when no further round is
started), the position of the player is sound: the player's tile is inside the grid and
not a wall of the working grid, an Idle player is rendered at the centre of its tile, and a
Moving player is less than `MOVESTEPS` steps into a move toward a tile that is inside the
grid and not a wall. In any state whatever, `startGame` leaves `isMoving`, `currentStep`
and the two step deltas as they are. -/
theorem startGame_player_tile_open (cfg : Config) (hT : 0 < cfg.TILE_SIZE) (u : GameWidget)
    (lines : List String) (hv : ValidStart (construct cfg u (some lines))) (round : Int) :
    (startGame cfg { construct cfg u (some lines) with m_round := round }).isMoving = false ∧
    (startGame cfg
      { construct cfg u (some lines) with m_round := round }).pacman_macrogrid_center =
      startOf (construct cfg u (some lines)) ∧
    (∀ events : List Event,
      calmRun cfg (startGame cfg { construct cfg u (some lines) with m_round := round })
        events = true →
      PlayerOk cfg
        (run cfg (startGame cfg { construct cfg u (some lines) with m_round := round })
          events)) ∧
    (∀ events : List Event, (∀ e ∈ events, e.inRound = true) →
      isOpen cfg
        (run cfg (startGame cfg { construct cfg u (some lines) with m_round := round })
          events).mazeGrid
        (run cfg (startGame cfg { construct cfg u (some lines) with m_round := round })
          events).pacman_macrogrid_center = true) ∧
    (∀ s : GameWidget,
      (startGame cfg s).isMoving = s.isMoving ∧ (startGame cfg s).currentStep = s.currentStep ∧
      (startGame cfg s).stepDeltaX = s.stepDeltaX ∧
      (startGame cfg s).stepDeltaY = s.stepDeltaY) := by
  obtain ⟨m1, m2⟩ := construct_motion cfg u (some lines)
  obtain ⟨b1, _⟩ := (construct_marks cfg u (some lines)).2 hv
  obtain ⟨v1, v2⟩ := static_start (Static.staticRefl (construct cfg u (some lines))) round hv
  have hp : PlayerOk cfg (startGame cfg { construct cfg u (some lines) with m_round := round }) :=
    startGame_player_ok cfg _ v1 (by rw [v2]; exact b1) m2 m1
  have hst : Static (construct cfg u (some lines))
      (startGame cfg { construct cfg u (some lines) with m_round := round }) :=
    startGame_static cfg { construct cfg u (some lines) with m_round := round }
  have key : ∀ events : List Event,
      calmRun cfg (startGame cfg { construct cfg u (some lines) with m_round := round })
        events = true →
      PlayerOk cfg
        (run cfg (startGame cfg { construct cfg u (some lines) with m_round := round })
          events) :=
    fun events hcalm => run_calm_ok cfg hT _ hv b1 events _ hst hp hcalm
  refine ⟨?_, ?_, key, ?_, startGame_isMoving cfg⟩
  · rw [(startGame_isMoving cfg _).1]
    exact m1
  · obtain ⟨gs, n, e⟩ := startGame_valid cfg _ v1
    rw [e]
    rfl
  · intro events he
    exact (key events (calmRun_of_inRound cfg events he _)).2.1

theorem startGame_player_tile_open_witness :
    ValidStart (construct pocketCfg demoState (some pocketMaze)) ∧
    calmRun pocketCfg
      (startGame pocketCfg { construct pocketCfg demoState (some pocketMaze) with m_round := 1 })
      [Event.command "Down", Event.tick, Event.tick, Event.tick, Event.tick, Event.tick,
        Event.tick, Event.newRound 1, Event.command "Down", Event.tick] = true ∧
    PlayerOk pocketCfg
      (run pocketCfg
        (startGame pocketCfg
          { construct pocketCfg demoState (some pocketMaze) with m_round := 1 })
        [Event.command "Down", Event.tick, Event.tick, Event.tick, Event.tick, Event.tick,
          Event.tick, Event.newRound 1, Event.command "Down", Event.tick]) :=
  ⟨⟨by decide, by decide⟩, by decide,
    (startGame_player_tile_open pocketCfg (by decide) demoState pocketMaze
      ⟨by decide, by decide⟩ 1).2.2.1 _ (by decide)⟩

/-! ## The tiles of the pursuers -/

end Pacman
